import Mathlib

/-! MPD protocol front-end (`src/mpd.c`): tokenizer, idle notifier, dispatcher,
parameter and filter parsers, and the handlers of the queue, output, list, sticker and
artwork commands.

A shallow embedding of the protocol engine of `mpd.c`.  C strings are lists of
characters; the terminating NUL is the end of the list, and a NUL met inside a
list is treated as the terminator too, as the C code would.  An `evbuffer` the
code only appends to is modelled by the bytes each function appends.  Calls into
the queue, the player and the library are recorded with their arguments, and their
return values are parameters.
-/

namespace Mpd

/-! ## Argument tokenizer -/

/-- The NUL byte that ends a C string. -/
def NUL : Char := Char.ofNat 0

/-- The ASCII space that separates arguments. -/
def SPACE : Char := Char.ofNat 32

/-- The double quote that frames a quoted argument. -/
def DQUOTE : Char := Char.ofNat 34

/-- The backslash that escapes the next byte inside a quoted argument. -/
def BACKSLASH : Char := Char.ofNat 92

/-- The size of the argv array in `mpd_read_cb`. -/
def COMMAND_ARGV_MAX : Nat := 37

/-- Embedding of `mpd_pars_unquoted`: the argument runs up to the next space (which is
overwritten by NUL and skipped) or up to the end of the string.  Returns the
argument and the new value of `*input`. -/
def mpd_pars_unquoted : List Char → List Char × List Char
  | [] => ([], [])
  | c :: rest =>
    if c = NUL then ([], c :: rest)
    else if c = SPACE then ([], rest)
    else ((c :: (mpd_pars_unquoted rest).1), (mpd_pars_unquoted rest).2)

/-- The `while ((ch = *src) != DQUOTE)` loop of `mpd_pars_quoted`, started at `src`.
A backslash is dropped and the byte after it is copied whatever it is; reaching
NUL (directly or right after a backslash) is the missing-quote error (`none`).
On success the result is the unescaped argument and the input after the closing
quote. -/
def mpd_pars_quoted_loop : List Char → Option (List Char × List Char)
  | [] => none
  | c :: rest =>
    if c = DQUOTE then some ([], rest)
    else if c = BACKSLASH then
      match rest with
      | [] => none
      | d :: rest2 =>
        if d = NUL then none
        else
          match mpd_pars_quoted_loop rest2 with
          | none => none
          | some (arg, input) => some (d :: arg, input)
    else if c = NUL then none
    else
      match mpd_pars_quoted_loop rest with
      | none => none
      | some (arg, input) => some (c :: arg, input)

/-- Embedding of `mpd_pars_quoted`: skips the opening double quote and runs the loop. -/
def mpd_pars_quoted (input : List Char) : Option (List Char × List Char) :=
  mpd_pars_quoted_loop input.tail

/-- The `while (*input != 0 && *argc < argvsz)` loop of `mpd_parse_args`.  Each
iteration consumes at least one byte, so `fuel` larger than the length of the
input is never exhausted.  `none` is the return value -1; `some argv` is the
return value 0 with `argc = argv.length`. -/
def mpd_parse_args_loop (argvsz : Nat) : Nat → List Char → List (List Char) → Option (List (List Char))
  | 0, _, _ => none
  | fuel + 1, input, argv =>
    match input with
    | [] => some argv
    | c :: rest =>
      if c = NUL then some argv
      else if argvsz ≤ argv.length then some argv
      else if c = SPACE then mpd_parse_args_loop argvsz fuel rest argv
      else if c = DQUOTE then
        match mpd_pars_quoted (c :: rest) with
        | none => none
        | some (arg, input2) => mpd_parse_args_loop argvsz fuel input2 (argv ++ [arg])
      else
        mpd_parse_args_loop argvsz fuel (mpd_pars_unquoted (c :: rest)).2
          (argv ++ [(mpd_pars_unquoted (c :: rest)).1])

/-- Embedding of `mpd_parse_args`: `none` for -1, `some argv` for 0. -/
def mpd_parse_args (args : List Char) (argvsz : Nat) : Option (List (List Char)) :=
  mpd_parse_args_loop argvsz (args.length + 1) args []

/-- A string written as a quoted token body: every backslash and every double quote
is preceded by a backslash. -/
def escape_quoted : List Char → List Char
  | [] => []
  | c :: rest =>
    if c = BACKSLASH ∨ c = DQUOTE then BACKSLASH :: c :: escape_quoted rest
    else c :: escape_quoted rest

/-- A string written as a quoted token: opening quote, escaped body, closing quote. -/
def quote_token (s : List Char) : List Char :=
  DQUOTE :: (escape_quoted s ++ [DQUOTE])

/-- The quoted tokens of the strings, joined by single spaces. -/
def quoted_line : List (List Char) → List Char
  | [] => []
  | [s] => quote_token s
  | s :: t :: rest => quote_token s ++ SPACE :: quoted_line (t :: rest)


/-! ## Client context and idle notifier -/

/-- Model of `struct mpd_client_ctx` without the link to the next client and without
the output `evbuffer`, which is modelled by the bytes each function appends. -/
structure mpd_client_ctx where
  authenticated : Bool
  events : Nat
  is_idle : Bool
  idle_events : Nat
  binarylimit : Nat
deriving DecidableEq, Repr

/-- The event-class bit masks of `enum listener_event_type`.  `listener.h` is not among
the sources, so the nine masks used by `mpd.c` are a parameter of the model. -/
structure listener_event_type where
  LISTENER_PLAYER : Nat
  LISTENER_QUEUE : Nat
  LISTENER_VOLUME : Nat
  LISTENER_SPEAKER : Nat
  LISTENER_OPTIONS : Nat
  LISTENER_DATABASE : Nat
  LISTENER_STORED_PLAYLIST : Nat
  LISTENER_UPDATE : Nat
  LISTENER_RATING : Nat
deriving DecidableEq, Repr

/-- Modelled from the spec: the values of `listener.h`, which is not among the
sources.  The spec only says that the nine event classes are the members of a
bitmask universe, each mapped one-to-one to a subsystem name; this is one
assignment of nine distinct single bits, used for concrete evaluations. -/
def listener_h : listener_event_type where
  LISTENER_PLAYER := 1
  LISTENER_QUEUE := 2
  LISTENER_VOLUME := 4
  LISTENER_SPEAKER := 8
  LISTENER_OPTIONS := 16
  LISTENER_DATABASE := 32
  LISTENER_STORED_PLAYLIST := 64
  LISTENER_UPDATE := 128
  LISTENER_RATING := 2048

/-- The macro `MPD_ALL_IDLE_LISTENER_EVENTS`. -/
def MPD_ALL_IDLE_LISTENER_EVENTS (L : listener_event_type) : Nat :=
  L.LISTENER_PLAYER ||| L.LISTENER_QUEUE ||| L.LISTENER_VOLUME ||| L.LISTENER_SPEAKER
    ||| L.LISTENER_OPTIONS ||| L.LISTENER_DATABASE ||| L.LISTENER_UPDATE
    ||| L.LISTENER_STORED_PLAYLIST ||| L.LISTENER_RATING

def MPD_BINARY_SIZE : Nat := 8192

def MPD_BINARY_SIZE_MIN : Nat := 64

def ACK_ERROR_NOT_LIST : Int := 1
def ACK_ERROR_ARG : Int := 2
def ACK_ERROR_PASSWORD : Int := 3
def ACK_ERROR_PERMISSION : Int := 4
def ACK_ERROR_UNKNOWN : Int := 5

/-- What a function leaves behind: its return value, the error message it stored in
`*errmsg` (`none` when it stored nothing), the bytes it appended to the client's
output buffer, and the client context. -/
structure handler_result where
  ret : Int
  errmsg : Option (List Char)
  out : List Char
  ctx : mpd_client_ctx
deriving DecidableEq, Repr

/-- One `if (events & LISTENER_X) evbuffer_add(...)` statement of the notifier. -/
def changed_line (events mask : Nat) (text : String) : List Char :=
  if events &&& mask ≠ 0 then text.toList else []

/-- The nine conditional `changed:` lines of `mpd_notify_idle_client`, in source order. -/
def changed_lines (L : listener_event_type) (events : Nat) : List Char :=
  changed_line events L.LISTENER_DATABASE "changed: database\n"
    ++ changed_line events L.LISTENER_UPDATE "changed: update\n"
    ++ changed_line events L.LISTENER_QUEUE "changed: playlist\n"
    ++ changed_line events L.LISTENER_PLAYER "changed: player\n"
    ++ changed_line events L.LISTENER_VOLUME "changed: mixer\n"
    ++ changed_line events L.LISTENER_SPEAKER "changed: output\n"
    ++ changed_line events L.LISTENER_OPTIONS "changed: options\n"
    ++ changed_line events L.LISTENER_STORED_PLAYLIST "changed: stored_playlist\n"
    ++ changed_line events L.LISTENER_RATING "changed: sticker\n"

/-- Embedding of `mpd_notify_idle_client`. -/
def mpd_notify_idle_client (L : listener_event_type) (client_ctx : mpd_client_ctx) (events : Nat) :
    handler_result :=
  if client_ctx.is_idle = false then
    { ret := 1, errmsg := none, out := [],
      ctx := { client_ctx with events := client_ctx.events ||| events } }
  else if client_ctx.idle_events &&& events = 0 then
    { ret := 1, errmsg := none, out := [], ctx := client_ctx }
  else
    { ret := 0, errmsg := none,
      out := changed_lines L events ++ "OK\n".toList,
      ctx := { client_ctx with is_idle := false, idle_events := 0, events := 0 } }

/-- The body of the `for` loop of `mpd_command_idle` for one argument: the `strcmp`
chain that adds the class named by the argument to `idle_events`. -/
def mpd_command_idle_arg (L : listener_event_type) (idle_events : Nat) (arg : List Char) : Nat :=
  if arg = "database".toList then idle_events ||| L.LISTENER_DATABASE
  else if arg = "update".toList then idle_events ||| L.LISTENER_UPDATE
  else if arg = "player".toList then idle_events ||| L.LISTENER_PLAYER
  else if arg = "playlist".toList then idle_events ||| L.LISTENER_QUEUE
  else if arg = "mixer".toList then idle_events ||| L.LISTENER_VOLUME
  else if arg = "output".toList then idle_events ||| L.LISTENER_SPEAKER
  else if arg = "options".toList then idle_events ||| L.LISTENER_OPTIONS
  else if arg = "stored_playlist".toList then idle_events ||| L.LISTENER_STORED_PLAYLIST
  else if arg = "sticker".toList then idle_events ||| L.LISTENER_RATING
  else idle_events

/-- Embedding of `mpd_command_idle`. -/
def mpd_command_idle (L : listener_event_type) (argv : List (List Char)) (ctx : mpd_client_ctx) :
    handler_result :=
  let ctx1 : mpd_client_ctx := { ctx with idle_events := 0, is_idle := true }
  let ctx2 : mpd_client_ctx :=
    if argv.length > 1 then
      { ctx1 with idle_events := (argv.drop 1).foldl (mpd_command_idle_arg L) ctx1.idle_events }
    else
      { ctx1 with idle_events := MPD_ALL_IDLE_LISTENER_EVENTS L }
  if ctx2.events &&& ctx2.idle_events ≠ 0 then
    { ret := 0, errmsg := none,
      out := (mpd_notify_idle_client L ctx2 ctx2.events).out,
      ctx := (mpd_notify_idle_client L ctx2 ctx2.events).ctx }
  else
    { ret := 0, errmsg := none, out := [], ctx := ctx2 }

/-- Embedding of `mpd_command_noidle`. -/
def mpd_command_noidle (L : listener_event_type) (_argv : List (List Char)) (ctx : mpd_client_ctx) :
    handler_result :=
  if ctx.events ≠ 0 then
    { ret := 0, errmsg := none,
      out := (mpd_notify_idle_client L ctx ctx.events).out,
      ctx := { (mpd_notify_idle_client L ctx ctx.events).ctx with is_idle := false } }
  else
    { ret := 0, errmsg := none, out := "OK\n".toList, ctx := { ctx with is_idle := false } }

/-! ## Handlers that need no collaborator -/

/-- Embedding of `mpd_command_ignore`. -/
def mpd_command_ignore (_argv : List (List Char)) (ctx : mpd_client_ctx) : handler_result :=
  { ret := 0, errmsg := none, out := [], ctx := ctx }

/-- Embedding of `mpd_command_password`.  `required_password` is the value of the
`library.password` setting (`none` for a NULL pointer). -/
def mpd_command_password (required_password : Option (List Char)) (argv : List (List Char))
    (ctx : mpd_client_ctx) : handler_result :=
  let supplied_password : List Char := if argv.length > 1 then argv.getD 1 [] else []
  let unrequired : Bool :=
    match required_password with
    | none => true
    | some p => decide (p.headD NUL = NUL)
  if unrequired = true ∨ some supplied_password = required_password then
    { ret := 0, errmsg := none, out := [], ctx := ctx }
  else
    { ret := ACK_ERROR_PASSWORD, errmsg := some "Wrong password. Authentication failed.".toList,
      out := [], ctx := ctx }

/-- Embedding of `mpd_command_binarylimit`.  `safe_atou32` (misc.c) is a parameter:
`none` is its negative return value, `some size` the value it stores. -/
def mpd_command_binarylimit (safe_atou32 : List Char → Option Nat) (argv : List (List Char))
    (ctx : mpd_client_ctx) : handler_result :=
  match safe_atou32 (argv.getD 1 []) with
  | none => { ret := ACK_ERROR_ARG, errmsg := none, out := [], ctx := ctx }
  | some size =>
    if size < MPD_BINARY_SIZE_MIN then
      { ret := ACK_ERROR_ARG, errmsg := some "Value too small".toList, out := [], ctx := ctx }
    else
      { ret := 0, errmsg := none, out := [], ctx := { ctx with binarylimit := size } }

/-! ## Command registry and dispatcher -/

/-- What a handler that works on the library, player, queue or artwork collaborators
leaves behind.  None of these handlers writes a field of the client context. -/
structure external_result where
  ret : Int
  errmsg : Option (List Char)
  out : List Char
deriving DecidableEq, Repr

/-- The surroundings of the protocol engine that are not in `mpd.c`: the listener
masks, the configured password, `safe_atou32`, and the behaviour of every handler
that calls into the collaborators, by the name of its C function, over a state
`W` of those collaborators. -/
structure mpd_env (W : Type) where
  listener : listener_event_type
  password : Option (List Char)
  safe_atou32 : List Char → Option Nat
  external : String → List (List Char) → mpd_client_ctx → W → external_result × W

/-- A handler of the table run through the interface of `struct mpd_command`. -/
abbrev handler_fn (W : Type) : Type :=
  List (List Char) → mpd_client_ctx → W → handler_result × W

/-- A collaborator-backed handler seen through the handler interface. -/
def mpd_command_external {W : Type} (env : mpd_env W) (name : String) : handler_fn W :=
  fun argv ctx w =>
    ({ ret := (env.external name argv ctx w).1.ret,
       errmsg := (env.external name argv ctx w).1.errmsg,
       out := (env.external name argv ctx w).1.out,
       ctx := ctx },
     (env.external name argv ctx w).2)

/-- Model of `struct mpd_command`. -/
structure mpd_command (W : Type) where
  mpdcommand : List Char
  handler : handler_fn W
  min_argc : Int

/-- The handlers of the table that need no collaborator, seen through the handler
interface. -/
def local_ignore {W : Type} (_env : mpd_env W) : handler_fn W :=
  fun argv ctx w => (mpd_command_ignore argv ctx, w)

def local_idle {W : Type} (env : mpd_env W) : handler_fn W :=
  fun argv ctx w => (mpd_command_idle env.listener argv ctx, w)

def local_noidle {W : Type} (env : mpd_env W) : handler_fn W :=
  fun argv ctx w => (mpd_command_noidle env.listener argv ctx, w)

def local_password {W : Type} (env : mpd_env W) : handler_fn W :=
  fun argv ctx w => (mpd_command_password env.password argv ctx, w)

def local_binarylimit {W : Type} (env : mpd_env W) : handler_fn W :=
  fun argv ctx w => (mpd_command_binarylimit env.safe_atou32 argv ctx, w)

/-- The table `mpd_handlers`, without its NULL terminator and in source order. -/
def mpd_handlers {W : Type} (env : mpd_env W) : List (mpd_command W) :=
  [
    mpd_command.mk "clearerror".toList (local_ignore env) (-1),
    mpd_command.mk "currentsong".toList (mpd_command_external env "mpd_command_currentsong") (-1),
    mpd_command.mk "idle".toList (local_idle env) (-1),
    mpd_command.mk "noidle".toList (local_noidle env) (-1),
    mpd_command.mk "status".toList (mpd_command_external env "mpd_command_status") (-1),
    mpd_command.mk "stats".toList (mpd_command_external env "mpd_command_stats") (-1),
    mpd_command.mk "consume".toList (mpd_command_external env "mpd_command_consume") 2,
    mpd_command.mk "crossfade".toList (local_ignore env) (-1),
    mpd_command.mk "mixrampdb".toList (local_ignore env) (-1),
    mpd_command.mk "mixrampdelay".toList (local_ignore env) (-1),
    mpd_command.mk "random".toList (mpd_command_external env "mpd_command_random") 2,
    mpd_command.mk "repeat".toList (mpd_command_external env "mpd_command_repeat") 2,
    mpd_command.mk "setvol".toList (mpd_command_external env "mpd_command_setvol") 2,
    mpd_command.mk "single".toList (mpd_command_external env "mpd_command_single") 2,
    mpd_command.mk "replay_gain_mode".toList (local_ignore env) (-1),
    mpd_command.mk "replay_gain_status".toList (mpd_command_external env "mpd_command_replay_gain_status") (-1),
    mpd_command.mk "volume".toList (mpd_command_external env "mpd_command_volume") 2,
    mpd_command.mk "next".toList (mpd_command_external env "mpd_command_next") (-1),
    mpd_command.mk "pause".toList (mpd_command_external env "mpd_command_pause") (-1),
    mpd_command.mk "play".toList (mpd_command_external env "mpd_command_play") (-1),
    mpd_command.mk "playid".toList (mpd_command_external env "mpd_command_playid") (-1),
    mpd_command.mk "previous".toList (mpd_command_external env "mpd_command_previous") (-1),
    mpd_command.mk "seek".toList (mpd_command_external env "mpd_command_seek") 3,
    mpd_command.mk "seekid".toList (mpd_command_external env "mpd_command_seekid") 3,
    mpd_command.mk "seekcur".toList (mpd_command_external env "mpd_command_seekcur") 2,
    mpd_command.mk "stop".toList (mpd_command_external env "mpd_command_stop") (-1),
    mpd_command.mk "add".toList (mpd_command_external env "mpd_command_add") (-1),
    mpd_command.mk "addid".toList (mpd_command_external env "mpd_command_addid") 2,
    mpd_command.mk "clear".toList (mpd_command_external env "mpd_command_clear") (-1),
    mpd_command.mk "delete".toList (mpd_command_external env "mpd_command_delete") (-1),
    mpd_command.mk "deleteid".toList (mpd_command_external env "mpd_command_deleteid") 2,
    mpd_command.mk "move".toList (mpd_command_external env "mpd_command_move") 3,
    mpd_command.mk "moveid".toList (mpd_command_external env "mpd_command_moveid") 3,
    mpd_command.mk "playlist".toList (mpd_command_external env "mpd_command_playlistinfo") (-1),
    mpd_command.mk "playlistfind".toList (mpd_command_external env "mpd_command_playlistfind") (-1),
    mpd_command.mk "playlistid".toList (mpd_command_external env "mpd_command_playlistid") (-1),
    mpd_command.mk "playlistinfo".toList (mpd_command_external env "mpd_command_playlistinfo") (-1),
    mpd_command.mk "playlistsearch".toList (mpd_command_external env "mpd_command_playlistsearch") (-1),
    mpd_command.mk "plchanges".toList (mpd_command_external env "mpd_command_plchanges") 2,
    mpd_command.mk "plchangesposid".toList (mpd_command_external env "mpd_command_plchangesposid") 2,
    mpd_command.mk "listplaylist".toList (mpd_command_external env "mpd_command_listplaylist") (-1),
    mpd_command.mk "listplaylistinfo".toList (mpd_command_external env "mpd_command_listplaylistinfo") (-1),
    mpd_command.mk "listplaylists".toList (mpd_command_external env "mpd_command_listplaylists") (-1),
    mpd_command.mk "load".toList (mpd_command_external env "mpd_command_load") (-1),
    mpd_command.mk "playlistadd".toList (mpd_command_external env "mpd_command_playlistadd") (-1),
    mpd_command.mk "rm".toList (mpd_command_external env "mpd_command_rm") 2,
    mpd_command.mk "save".toList (mpd_command_external env "mpd_command_save") (-1),
    mpd_command.mk "albumart".toList (mpd_command_external env "mpd_command_albumart") 2,
    mpd_command.mk "count".toList (mpd_command_external env "mpd_command_count") (-1),
    mpd_command.mk "find".toList (mpd_command_external env "mpd_command_find") (-1),
    mpd_command.mk "findadd".toList (mpd_command_external env "mpd_command_findadd") (-1),
    mpd_command.mk "list".toList (mpd_command_external env "mpd_command_list") (-1),
    mpd_command.mk "listall".toList (mpd_command_external env "mpd_command_listall") (-1),
    mpd_command.mk "listallinfo".toList (mpd_command_external env "mpd_command_listallinfo") (-1),
    mpd_command.mk "listfiles".toList (mpd_command_external env "mpd_command_listfiles") (-1),
    mpd_command.mk "lsinfo".toList (mpd_command_external env "mpd_command_lsinfo") (-1),
    mpd_command.mk "readpicture".toList (mpd_command_external env "mpd_command_albumart") 2,
    mpd_command.mk "search".toList (mpd_command_external env "mpd_command_search") (-1),
    mpd_command.mk "searchadd".toList (mpd_command_external env "mpd_command_searchadd") (-1),
    mpd_command.mk "update".toList (mpd_command_external env "mpd_command_update") (-1),
    mpd_command.mk "sticker".toList (mpd_command_external env "mpd_command_sticker") 4,
    mpd_command.mk "close".toList (local_ignore env) (-1),
    mpd_command.mk "password".toList (local_password env) (-1),
    mpd_command.mk "ping".toList (local_ignore env) (-1),
    mpd_command.mk "binarylimit".toList (local_binarylimit env) 2,
    mpd_command.mk "disableoutput".toList (mpd_command_external env "mpd_command_disableoutput") 2,
    mpd_command.mk "enableoutput".toList (mpd_command_external env "mpd_command_enableoutput") 2,
    mpd_command.mk "toggleoutput".toList (mpd_command_external env "mpd_command_toggleoutput") 2,
    mpd_command.mk "outputs".toList (mpd_command_external env "mpd_command_outputs") (-1),
    mpd_command.mk "commands".toList (mpd_command_external env "mpd_command_commands") (-1),
    mpd_command.mk "notcommands".toList (local_ignore env) (-1),
    mpd_command.mk "tagtypes".toList (mpd_command_external env "mpd_command_tagtypes") (-1),
    mpd_command.mk "urlhandlers".toList (mpd_command_external env "mpd_command_urlhandlers") (-1),
    mpd_command.mk "decoders".toList (mpd_command_external env "mpd_command_decoders") (-1),
    mpd_command.mk "subscribe".toList (local_ignore env) (-1),
    mpd_command.mk "unsubscribe".toList (local_ignore env) (-1),
    mpd_command.mk "channels".toList (mpd_command_external env "mpd_command_channels") (-1),
    mpd_command.mk "readmessages".toList (local_ignore env) (-1),
    mpd_command.mk "sendmessage".toList (mpd_command_external env "mpd_command_sendmessage") (-1),
    mpd_command.mk "outputvolume".toList (mpd_command_external env "mpd_command_outputvolume") 3
  ]

/-- Embedding of `mpd_find_command`: the first entry with the given name. -/
def mpd_find_command {W : Type} (env : mpd_env W) (name : List Char) : Option (mpd_command W) :=
  (mpd_handlers env).find? (fun c => decide (name = c.mpdcommand))

inductive command_list_type where
  | COMMAND_LIST
  | COMMAND_LIST_OK
  | COMMAND_LIST_END
  | COMMAND_LIST_NONE
deriving DecidableEq, Repr

/-- The line `ACK [%d@%d] {%s} %s\n` that `mpd_read_cb` formats. -/
def ack_line (ret : Int) (ncmd : Nat) (name : List Char) (errmsg : List Char) : List Char :=
  "ACK [".toList ++ (toString ret).toList ++ "@".toList ++ (toString ncmd).toList
    ++ "] \x7b".toList ++ name ++ "\x7d ".toList ++ errmsg ++ "\n".toList

/-- Result of the dispatch step of `mpd_read_cb`; `invoked` records whether
`command->handler` was called. -/
structure dispatch_result (W : Type) where
  ret : Int
  errmsg : Option (List Char)
  out : List Char
  ctx : mpd_client_ctx
  world : W
  invoked : Bool

/-- The dispatch step of the loop body of `mpd_read_cb`: `mpd_find_command` and the
`if`/`else if` chain that ends in the handler call. -/
def mpd_read_cb_dispatch {W : Type} (env : mpd_env W) (argv : List (List Char))
    (client_ctx : mpd_client_ctx) (w : W) : dispatch_result W :=
  match mpd_find_command env (argv.headD []) with
  | none =>
    { ret := ACK_ERROR_UNKNOWN,
      errmsg := some ("Unsupported command \x27".toList ++ argv.headD [] ++ "\x27".toList),
      out := [], ctx := client_ctx, world := w, invoked := false }
  | some command =>
    if command.min_argc > (argv.length : Int) then
      { ret := ACK_ERROR_ARG,
        errmsg := some ("Missing argument(s) for command \x27".toList ++ argv.headD []
          ++ "\x27, expected ".toList ++ (toString command.min_argc).toList
          ++ ", given ".toList ++ (toString argv.length).toList),
        out := [], ctx := client_ctx, world := w, invoked := false }
    else if command.mpdcommand = "password".toList then
      { ret := (command.handler argv client_ctx w).1.ret,
        errmsg := (command.handler argv client_ctx w).1.errmsg,
        out := (command.handler argv client_ctx w).1.out,
        ctx := { (command.handler argv client_ctx w).1.ctx with
                 authenticated := decide ((command.handler argv client_ctx w).1.ret = 0) },
        world := (command.handler argv client_ctx w).2, invoked := true }
    else if client_ctx.authenticated = false then
      { ret := ACK_ERROR_PERMISSION, errmsg := some "Not authenticated".toList,
        out := [], ctx := client_ctx, world := w, invoked := false }
    else
      { ret := (command.handler argv client_ctx w).1.ret,
        errmsg := (command.handler argv client_ctx w).1.errmsg,
        out := (command.handler argv client_ctx w).1.out,
        ctx := (command.handler argv client_ctx w).1.ctx,
        world := (command.handler argv client_ctx w).2, invoked := true }

/-- The local variables of `mpd_read_cb` together with what it acts on: the bytes
appended to the output buffer, the client context and the collaborators.
`errmsg_unset` records that an ACK line was formatted from an `errmsg` no handler
had stored (the C code then reads an uninitialised pointer; the model prints an
empty message).  `handled` lists, in order, the argv of every handler call. -/
structure read_cb_vars (W : Type) where
  output : List Char
  client_ctx : mpd_client_ctx
  world : W
  ret : Int
  ncmd : Nat
  listtype : command_list_type
  idle_cmd : Bool
  close_cmd : Bool
  errmsg_unset : Bool
  handled : List (List (List Char))

/-- The `while ((line = evbuffer_readln(input, ...)))` loop of `mpd_read_cb`.  The
input buffer is the list of its complete lines; the result is the lines left in
the buffer when the loop ends and the variables at that point. -/
def mpd_read_cb_loop {W : Type} (env : mpd_env W) :
    List (List Char) → read_cb_vars W → List (List Char) × read_cb_vars W
  | [], v => ([], v)
  | line :: input, v =>
    match mpd_parse_args line COMMAND_ARGV_MAX with
    | none =>
      (input, { v with ret := ACK_ERROR_ARG,
                       output := v.output ++ ack_line ACK_ERROR_ARG v.ncmd "unkown".toList
                         "Error parsing arguments".toList })
    | some [] =>
      (input, { v with ret := ACK_ERROR_ARG,
                       output := v.output ++ ack_line ACK_ERROR_ARG v.ncmd "unkown".toList
                         "Error parsing arguments".toList })
    | some (argv0 :: args) =>
      if argv0 = "command_list_ok_begin".toList then
        mpd_read_cb_loop env input { v with ret := 0, listtype := command_list_type.COMMAND_LIST_OK }
      else if argv0 = "command_list_begin".toList then
        mpd_read_cb_loop env input { v with ret := 0, listtype := command_list_type.COMMAND_LIST }
      else if argv0 = "command_list_end".toList then
        (input, { v with ret := 0, listtype := command_list_type.COMMAND_LIST_END })
      else
        let idle_cmd : Bool :=
          if argv0 = "idle".toList then true
          else if argv0 = "noidle".toList then true
          else v.idle_cmd
        let close_cmd : Bool :=
          if argv0 = "idle".toList then v.close_cmd
          else if argv0 = "noidle".toList then v.close_cmd
          else if argv0 = "close".toList then true
          else v.close_cmd
        let r := mpd_read_cb_dispatch env (argv0 :: args) v.client_ctx v.world
        let handled := if r.invoked then v.handled ++ [argv0 :: args] else v.handled
        if r.ret ≠ 0 then
          (input, { v with ret := r.ret, idle_cmd := idle_cmd, close_cmd := close_cmd,
                           client_ctx := r.ctx, world := r.world, handled := handled,
                           errmsg_unset := v.errmsg_unset || r.errmsg.isNone,
                           output := v.output ++ r.out
                             ++ ack_line r.ret v.ncmd argv0 (r.errmsg.getD []) })
        else
          mpd_read_cb_loop env input
            { v with ret := r.ret, idle_cmd := idle_cmd, close_cmd := close_cmd,
                     client_ctx := r.ctx, world := r.world, handled := handled,
                     ncmd := v.ncmd + 1,
                     output := v.output ++ r.out ++
                       (if v.listtype = command_list_type.COMMAND_LIST_OK then "list_OK\n".toList
                        else if v.listtype = command_list_type.COMMAND_LIST_NONE
                                ∧ idle_cmd = false ∧ close_cmd = false then "OK\n".toList
                        else []) }

/-- What one invocation of `mpd_read_cb` leaves behind: the lines still in the input
buffer, the bytes appended to the output buffer, the client context, the
collaborators, whether the bufferevent was freed (connection closed), whether an
unset `errmsg` was printed, and the argv of every handler call. -/
structure read_cb_result (W : Type) where
  input : List (List Char)
  output : List Char
  client_ctx : mpd_client_ctx
  world : W
  freed : Bool
  errmsg_unset : Bool
  handled : List (List (List Char))

/-- The variables of `mpd_read_cb` at loop entry. -/
def mpd_read_cb_init {W : Type} (client_ctx : mpd_client_ctx) (w : W) : read_cb_vars W :=
  { output := [], client_ctx := client_ctx, world := w, ret := -1, ncmd := 0,
    listtype := command_list_type.COMMAND_LIST_NONE, idle_cmd := false, close_cmd := false,
    errmsg_unset := false, handled := [] }

/-- The statements of `mpd_read_cb` after the loop: the closing `OK` of a command
list and the `bufferevent_free` of `close`. -/
def mpd_read_cb_finish {W : Type} (r : List (List Char) × read_cb_vars W) : read_cb_result W :=
  { input := r.1,
    output :=
      if r.2.ret = 0 ∧ r.2.close_cmd = false ∧ r.2.listtype = command_list_type.COMMAND_LIST_END
      then r.2.output ++ "OK\n".toList else r.2.output,
    client_ctx := r.2.client_ctx, world := r.2.world, freed := r.2.close_cmd,
    errmsg_unset := r.2.errmsg_unset, handled := r.2.handled }

/-- Embedding of `mpd_read_cb`: one invocation on the lines in the input buffer. -/
def mpd_read_cb {W : Type} (env : mpd_env W) (input : List (List Char))
    (client_ctx : mpd_client_ctx) (w : W) : read_cb_result W :=
  mpd_read_cb_finish (mpd_read_cb_loop env input (mpd_read_cb_init client_ctx w))

/-- Modelled from the spec: `safe_atou32` of misc.c, which is not among the sources.
The handlers use it to read an unsigned decimal argument and treat a negative
return value as "not a number".  The model accepts the non-empty runs of
decimal digits whose value fits 32 bits; the evaluations below rely only on its
rejecting a string that holds no digit. -/
def safe_atou32 (str : List Char) : Option Nat :=
  if str ≠ [] ∧ str.all Char.isDigit = true then
    (if str.foldl (fun n c => 10 * n + (c.toNat - 48)) 0 < 4294967296
     then some (str.foldl (fun n c => 10 * n + (c.toNat - 48)) 0) else none)
  else none

/-- A concrete surrounding for evaluations: no password configured, the listener
masks of `listener_h`, and collaborators without state whose handlers succeed
without output. -/
def env0 : mpd_env Unit where
  listener := listener_h
  password := none
  safe_atou32 := safe_atou32
  external := fun _ _ _ w => ({ ret := 0, errmsg := none, out := [] }, w)

/-- A freshly accepted client (`calloc` plus the assignments of `mpd_accept_conn_cb`)
with the given value of `authenticated`. -/
def new_client (authenticated : Bool) : mpd_client_ctx :=
  { authenticated := authenticated, events := 0, is_idle := false, idle_events := 0,
    binarylimit := MPD_BINARY_SIZE }

/-! ## The claims in the words of the specification -/

/-- The nine event classes with the subsystem name of each, in the canonical order of
a drain: database, update, playlist, player, mixer, output, options,
stored_playlist, sticker. -/
def idle_classes (L : listener_event_type) : List (Nat × String) :=
  [ (L.LISTENER_DATABASE, "database"), (L.LISTENER_UPDATE, "update"),
    (L.LISTENER_QUEUE, "playlist"), (L.LISTENER_PLAYER, "player"),
    (L.LISTENER_VOLUME, "mixer"), (L.LISTENER_SPEAKER, "output"),
    (L.LISTENER_OPTIONS, "options"), (L.LISTENER_STORED_PLAYLIST, "stored_playlist"),
    (L.LISTENER_RATING, "sticker") ]

/-- Whether the class with the given mask is set in an event mask. -/
def class_in (events mask : Nat) : Bool := decide (events &&& mask ≠ 0)

/-- One `changed: <name>` line for each listed class that `sel` selects, in list order. -/
def changed_text : List (Nat × String) → (Nat → Bool) → List Char
  | [], _ => []
  | c :: cs, sel =>
    (if sel c.1 = true then "changed: ".toList ++ c.2.toList ++ "\n".toList else [])
      ++ changed_text cs sel

/-- A drain in the words of the spec: one `changed:` line per selected class, in
canonical order, then `OK`. -/
def drain_response (L : listener_event_type) (sel : Nat → Bool) : List Char :=
  changed_text (idle_classes L) sel ++ "OK\n".toList

/-- The mask of the class a subsystem name stands for; 0 for any other word. -/
def class_mask (L : listener_event_type) (name : List Char) : Nat :=
  match (idle_classes L).find? (fun c => decide (name = c.2.toList)) with
  | some c => c.1
  | none => 0

/-- The idle mask in the words of the spec: the union of the named classes, all nine
classes when the command has no argument. -/
def idle_mask (L : listener_event_type) (argv : List (List Char)) : Nat :=
  if argv.length ≤ 1 then (idle_classes L).foldl (fun m c => m ||| c.1) 0
  else (argv.drop 1).foldl (fun m a => m ||| class_mask L a) 0

/-- The words `mpd_read_cb` does not dispatch. -/
def list_control_words : List (List Char) :=
  ["command_list_ok_begin".toList, "command_list_begin".toList, "command_list_end".toList]

/-- The commands of a block run one after the other through the dispatch step, each on
the client and collaborators the previous one left, up to and including the
first one that fails. -/
def run_commands {W : Type} (env : mpd_env W) :
    List (List (List Char)) → mpd_client_ctx → W → List (dispatch_result W)
  | [], _, _ => []
  | argv :: rest, ctx, w =>
    if (mpd_read_cb_dispatch env argv ctx w).ret = 0 then
      mpd_read_cb_dispatch env argv ctx w ::
        run_commands env rest (mpd_read_cb_dispatch env argv ctx w).ctx
          (mpd_read_cb_dispatch env argv ctx w).world
    else [mpd_read_cb_dispatch env argv ctx w]

/-- A client that received a mixer event while not idle and then sent `idle player`:
it is parked on the player class with the mixer event pending. -/
def parked_with_pending : mpd_client_ctx :=
  (mpd_command_idle listener_h ["idle".toList, "player".toList]
    (mpd_notify_idle_client listener_h (new_client true) listener_h.LISTENER_VOLUME).ctx).ctx

/-- A fresh client right after `idle player`: parked on the player class, nothing
pending. -/
def parked_on_player : mpd_client_ctx :=
  (mpd_command_idle listener_h ["idle".toList, "player".toList] (new_client true)).ctx

/-- The ACK code an unauthenticated client gets for a command other than `password`:
UNKNOWN for a name that is not in the table, ARG for too few arguments,
PERMISSION otherwise. -/
def unauthenticated_code {W : Type} (env : mpd_env W) (argv : List (List Char)) : Int :=
  match mpd_find_command env (argv.headD []) with
  | none => ACK_ERROR_UNKNOWN
  | some command =>
    if command.min_argc > (argv.length : Int) then ACK_ERROR_ARG else ACK_ERROR_PERMISSION

/-! ## Tokenizer: the claims in the words of the specification -/

/-- The maximal non-empty runs of non-space bytes of a line, in order; `cur` is the run
being read. -/
def space_runs_from (cur : List Char) : List Char → List (List Char)
  | [] => if cur = [] then [] else [cur]
  | c :: rest =>
    if c = SPACE then
      (if cur = [] then space_runs_from [] rest else cur :: space_runs_from [] rest)
    else space_runs_from (cur ++ [c]) rest

/-- The maximal non-empty runs of non-space bytes of a line, in order. -/
def space_runs (line : List Char) : List (List Char) :=
  space_runs_from [] line

/-- Whether the body of a quoted token (the bytes after its opening quote) holds an
unescaped closing quote before the end of the line: a backslash escapes the byte
after it. -/
def has_closing_quote : List Char → Bool
  | [] => false
  | c :: rest =>
    if c = NUL then false
    else if c = DQUOTE then true
    else if c = BACKSLASH then
      match rest with
      | [] => false
      | d :: rest2 => if d = NUL then false else has_closing_quote rest2
    else has_closing_quote rest

/-- A complete token as it stands on a line: an unquoted word, ended by a space, or a
quoted string with its closing quote. -/
inductive arg_token where
  | unquoted (w : List Char)
  | quoted (s : List Char)
deriving DecidableEq, Repr

/-- The argument a complete token stands for. -/
def arg_token.value : arg_token → List Char
  | arg_token.unquoted w => w
  | arg_token.quoted s => s

/-- The bytes of a complete token on the line: an unquoted word with the space that
ends it, a quoted string in its quotes with backslash and quote escaped. -/
def arg_token.text : arg_token → List Char
  | arg_token.unquoted w => w ++ [SPACE]
  | arg_token.quoted s => quote_token s

/-- Well-formed tokens: an unquoted word is not empty, does not start with a double
quote and holds neither space nor NUL; a quoted string holds no NUL. -/
def arg_token.wf : arg_token → Bool
  | arg_token.unquoted w =>
    decide (w ≠ [] ∧ w.head? ≠ some DQUOTE ∧ SPACE ∉ w ∧ NUL ∉ w)
  | arg_token.quoted s => decide (NUL ∉ s)

/-- The start of a line made of complete tokens, each preceded by the given number of
spaces. -/
def line_start : List (Nat × arg_token) → List Char
  | [] => []
  | (k, t) :: rest => List.replicate k SPACE ++ t.text ++ line_start rest

/-- A line of 37 complete tokens, `ping` and 36 times `a`, followed by a quoted token
that is never closed. -/
def line_beyond_cap : List Char :=
  line_start ((0, arg_token.unquoted "ping".toList)
    :: List.replicate 36 (0, arg_token.unquoted "a".toList)) ++ DQUOTE :: "b".toList

/-! ## Binary response writer -/

/-- The bytes of the blob that one response carries: after `evbuffer_drain(data,
offset)`, the first `MIN(len - offset, ctx->binarylimit)` bytes. -/
def mpd_binary_chunk (ctx : mpd_client_ctx) (data : List Char) (offset : Nat) : List Char :=
  (data.drop offset).take (min (data.length - offset) ctx.binarylimit)

/-- Embedding of `mpd_write_binary_response`: `none` is the return value false, with
nothing written; `some out` is the return value true with the bytes appended to
the output buffer. -/
def mpd_write_binary_response (ctx : mpd_client_ctx) (data : List Char) (offset : Nat) :
    Option (List Char) :=
  if data.length = 0 ∨ data.length < offset then none
  else
    some ("size: ".toList ++ (toString data.length).toList ++ "\n".toList
      ++ "binary: ".toList
      ++ (toString (min (data.length - offset) ctx.binarylimit)).toList ++ "\n".toList
      ++ mpd_binary_chunk ctx data offset ++ "\n".toList)

/-- The newline that ends a line of a response. -/
def NEWLINE : Char := Char.ofNat 10

/-- The value of a run of decimal digits. -/
def digits_value (s : List Char) : Nat :=
  s.foldl (fun n c => 10 * n + (c.toNat - 48)) 0

/-- A client reading the fixed text `t` off the front of a response: the response
left, or `none` when the response does not start with `t`. -/
def read_text (t s : List Char) : Option (List Char) :=
  if s.take t.length = t then some (s.drop t.length) else none

/-- A client reading a line that holds one decimal number: the run of digits up to
the newline, which must not be empty, gives the value; the result is the value
and the response left after the newline. -/
def read_decimal_line (s : List Char) : Option (Nat × List Char) :=
  if s.takeWhile Char.isDigit = [] then none
  else if (s.dropWhile Char.isDigit).head? = some NEWLINE then
    some (digits_value (s.takeWhile Char.isDigit), (s.dropWhile Char.isDigit).tail)
  else none

/-- A client reading one binary response off the wire: the line `size: L`, the line
`binary: c`, then `c` bytes and one newline, with nothing after it.  The result
is the size announced and the `c` bytes received, `none` when the response has
another form. -/
def read_binary_response (out : List Char) : Option (Nat × List Char) :=
  match read_text "size: ".toList out with
  | none => none
  | some s1 =>
    match read_decimal_line s1 with
    | none => none
    | some (size, s2) =>
      match read_text "binary: ".toList s2 with
      | none => none
      | some s3 =>
        match read_decimal_line s3 with
        | none => none
        | some (c, s4) =>
          if s4.length = c + 1 ∧ s4.drop c = [NEWLINE] then some (size, s4.take c) else none

/-- A client that reads a blob through the binary writer: it asks for the offset it has
reached, reads the announced size and the chunk out of the bytes the writer
appended, advances the offset by the length of that chunk and stops when the
offset is the announced size.  The result is the list of chunks received, or
`none` when a request fails, a response cannot be read or `fuel` requests do not
reach the end. -/
def binary_fetch (ctx : mpd_client_ctx) (data : List Char) : Nat → Nat → Option (List (List Char))
  | 0, _ => none
  | fuel + 1, offset =>
    match mpd_write_binary_response ctx data offset with
    | none => none
    | some out =>
      match read_binary_response out with
      | none => none
      | some (size, chunk) =>
        if offset + chunk.length = size then some [chunk]
        else
          match binary_fetch ctx data fuel (offset + chunk.length) with
          | none => none
          | some chunks => some (chunk :: chunks)

/-! ## Tag registry -/

def SQUOTE : Char := Char.ofNat 39
def PERCENT : Char := Char.ofNat 37
def LPAREN : Char := Char.ofNat 40
def RPAREN : Char := Char.ofNat 41
def BANG : Char := Char.ofNat 33
def COLON : Char := Char.ofNat 58
def MINUS : Char := Char.ofNat 45
def PLUS : Char := Char.ofNat 43

/-- The enum `mpd_type`. -/
inductive mpd_type
  | MPD_TYPE_INT
  | MPD_TYPE_STRING
  | MPD_TYPE_SPECIAL
  deriving DecidableEq, Repr

open mpd_type

/-- The struct `mpd_tagtype` without `mfi_offset` (an offset into a struct of db.h that
no parser reads).  A NULL pointer is `none`. -/
structure mpd_tagtype where
  tag : List Char
  field : Option (List Char)
  sort_field : Option (List Char)
  group_field : Option (List Char)
  type : mpd_type
  group_in_listcommand : Bool
  deriving DecidableEq, Repr

/-- One row of `tagtypes` with the three db columns present. -/
def tag_row (tag field sort_field group_field : String) (type : mpd_type)
    (group_in_listcommand : Bool) : mpd_tagtype :=
  { tag := tag.toList, field := some field.toList, sort_field := some sort_field.toList,
    group_field := some group_field.toList, type := type,
    group_in_listcommand := group_in_listcommand }

/-- One pseudo tag of `tagtypes`: the three db columns are NULL. -/
def special_row (tag : String) : mpd_tagtype :=
  { tag := tag.toList, field := none, sort_field := none, group_field := none,
    type := MPD_TYPE_SPECIAL, group_in_listcommand := true }

/-- The table `tagtypes`, in source order. -/
def tagtypes : List mpd_tagtype :=
  [
    tag_row "Artist" "f.album_artist" "f.album_artist_sort, f.album_artist" "f.songartistid" MPD_TYPE_STRING false,
    tag_row "ArtistSort" "f.album_artist_sort" "f.album_artist_sort, f.album_artist" "f.songartistid" MPD_TYPE_STRING false,
    tag_row "Album" "f.album" "f.album_sort, f.album" "f.songalbumid" MPD_TYPE_STRING false,
    tag_row "AlbumSort" "f.album_sort" "f.album_sort, f.album" "f.songalbumid" MPD_TYPE_STRING false,
    tag_row "AlbumArtist" "f.album_artist" "f.album_artist_sort, f.album_artist" "f.songartistid" MPD_TYPE_STRING false,
    tag_row "AlbumArtistSort" "f.album_artist_sort" "f.album_artist_sort, f.album_artist" "f.songartistid" MPD_TYPE_STRING false,
    tag_row "Title" "f.title" "f.title" "f.title_sort" MPD_TYPE_STRING true,
    tag_row "TitleSort" "f.title_sort" "f.title" "f.title_sort" MPD_TYPE_STRING true,
    tag_row "Track" "f.track" "f.track" "f.track" MPD_TYPE_INT true,
    tag_row "Name" "f.title" "f.title_sort" "f.title" MPD_TYPE_STRING true,
    tag_row "Genre" "f.genre" "f.genre" "f.genre" MPD_TYPE_STRING true,
    tag_row "Date" "f.year" "f.year" "f.year" MPD_TYPE_INT true,
    tag_row "OriginalDate" "f.date_released" "f.date_released" "f.date_released" MPD_TYPE_INT true,
    tag_row "Composer" "f.composer" "f.composer_sort" "f.composer" MPD_TYPE_STRING true,
    tag_row "ComposerSort" "f.composer_sort" "f.composer_sort" "f.composer_sort" MPD_TYPE_STRING true,
    tag_row "Conductor" "f.conductor" "f.conductor" "f.conductor" MPD_TYPE_STRING true,
    tag_row "Grouping" "f.grouping" "f.grouping" "f.grouping" MPD_TYPE_STRING true,
    tag_row "Comment" "f.comment" "f.comment" "f.comment" MPD_TYPE_STRING true,
    tag_row "Disc" "f.disc" "f.disc" "f.disc" MPD_TYPE_INT true,
    special_row "file",
    special_row "base",
    special_row "any",
    special_row "modified-since"
  ]

/-- The C string that starts at the head of a piece of memory: the bytes before the
first NUL. -/
def cstr (mem : List Char) : List Char :=
  mem.takeWhile (fun c => c ≠ NUL)

/-- The test `strcasecmp(a, b) == 0` of libc in the C locale: the two strings are
equal once A..Z are mapped to a..z. -/
def strcasecmp_eq (a b : List Char) : Bool :=
  a.map Char.toLower == b.map Char.toLower

/-- Embedding of `find_tagtype` for a non-NULL `tag`: the first row whose name equals
`tag` without regard to case. -/
def find_tagtype (tag : List Char) : Option mpd_tagtype :=
  tagtypes.find? (fun t => strcasecmp_eq tag t.tag)

/-! ## SQL text -/

/-- Modelled from the spec: the two conversions of `db_mprintf` (db.c, a wrapper of
sqlite3_vmprintf) applied to a NULL string, and the other helpers the parameter
parsers call that are not among the sources.  `safe_atou32` and `safe_atoi32`
(misc.c) return `none` for their negative return value; `sscanf_range` is
`sscanf(range, "%d:%d", start_pos, end_pos)` of libc with the values it stores;
`player_stopped` is `status.status == PLAY_STOPPED` after `player_get_status`, and
`queue_item` the id and pos of the item `db_queue_fetch_byitemid(status.item_id)`
returns, `none` for NULL. -/
structure param_env where
  safe_atou32 : List Char → Option Nat
  safe_atoi32 : List Char → Option Int
  sscanf_range : List Char → Int × Option Int × Option Int
  player_stopped : Bool
  queue_item : Option (Nat × Nat)
  null_s : List Char
  null_q : List Char

/-- An argument of a `db_mprintf` call: a string pointer (`none` is NULL) or an
unsigned integer. -/
inductive printf_arg
  | str (s : Option (List Char))
  | uint (n : Nat)
  deriving DecidableEq, Repr

/-- Modelled from the spec: the conversion `%q` of `db_mprintf`, "VALUE escaped by
the DB helper": every single quote is doubled. -/
def sql_escape : List Char → List Char
  | [] => []
  | c :: s => if c = SQUOTE then SQUOTE :: SQUOTE :: sql_escape s else c :: sql_escape s

/-- Modelled from the spec: `db_mprintf` (db.c) on a format that uses `%s` (a string),
`%q` (a string with its single quotes doubled), `%u` (an unsigned decimal) and `%%`.
The flag says that the byte before was the `%` of a conversion.  The result is `none`
where the call has no defined result: a conversion that meets an argument of the
other kind or no argument, or a format that ends inside a conversion. -/
def db_mprintf_loop (E : param_env) : Bool → List Char → List printf_arg → Option (List Char)
  | false, [], _ => some []
  | true, [], _ => none
  | false, c :: fmt, args =>
    if c = PERCENT then db_mprintf_loop E true fmt args
    else (db_mprintf_loop E false fmt args).map (fun s => c :: s)
  | true, c :: fmt, args =>
    if c = PERCENT then (db_mprintf_loop E false fmt args).map (fun s => PERCENT :: s)
    else if c = 's' then
      match args with
      | printf_arg.str s :: args2 =>
        (db_mprintf_loop E false fmt args2).map (fun r => s.getD E.null_s ++ r)
      | _ => none
    else if c = 'q' then
      match args with
      | printf_arg.str s :: args2 =>
        (db_mprintf_loop E false fmt args2).map
          (fun r => (match s with | some x => sql_escape x | none => E.null_q) ++ r)
      | _ => none
    else if c = 'u' then
      match args with
      | printf_arg.uint n :: args2 =>
        (db_mprintf_loop E false fmt args2).map (fun r => (toString n).toList ++ r)
      | _ => none
    else none

/-- Modelled from the spec: `db_mprintf(fmt, args...)`; a NULL format has no defined
result. -/
def db_mprintf (E : param_env) (fmt : Option (List Char)) (args : List printf_arg) :
    Option (List Char) :=
  match fmt with
  | none => none
  | some f => db_mprintf_loop E false f args

/-- Embedding of `append_string` for a non-NULL `b`: its two `db_mprintf` calls are
the concatenations `"%s%s%s"` and `"%s"`. -/
def append_string (a : Option (List Char)) (b : List Char) (separator : Option (List Char)) :
    Option (List Char) :=
  match a with
  | some x => some (x ++ separator.getD [] ++ b)
  | none => some b

/-! ## Command parameters -/

/-- Modelled from the spec: the values of `enum index_type` (db.h) that the parameter
parsers and their callers store. -/
inductive index_type
  | I_NONE
  | I_SUB
  deriving DecidableEq, Repr

/-- Modelled from the spec: the fields of `struct query_params` (db.h) that the
parameter parsers write.  `limit` and `offset` are `none` while they hold an
indeterminate value. -/
structure query_params where
  filter : Option (List Char)
  group : Option (List Char)
  idx_type : index_type
  limit : Option Int
  offset : Option Int
  deriving DecidableEq, Repr

/-- The struct `mpd_cmd_params`.  `groups` is `none` for NULL and otherwise the
`groupslen` entries stored so far in the allocated array. -/
structure mpd_cmd_params where
  params_allow : Nat
  params_set : Nat
  qp : query_params
  groups : Option (List mpd_tagtype)
  groupssize : Int
  addgroupfilter : Bool
  exactmatch : Bool
  pos : Int
  deriving DecidableEq, Repr

def CMD_UNSET : Nat := 0
def CMD_WINDOW : Nat := 1
def CMD_GROUP : Nat := 2
def CMD_POSITION : Nat := 4
def CMD_SORT : Nat := 8
def CMD_FILTER : Nat := 16

/-- The enum `position_type`. -/
inductive position_type
  | POSITION_ABSOLUTE
  | POSITION_RELATIVE_BEFORE
  | POSITION_RELATIVE_AFTER
  deriving DecidableEq, Repr

/-- The value of an `int` as `uint32_t`. -/
def uint32_of_int (i : Int) : Nat := (i % 4294967296).toNat

/-- The value of a `uint32_t` stored into an `int`. -/
def int_of_uint32 (u : Nat) : Int :=
  if u % 4294967296 < 2147483648 then (u % 4294967296 : Nat) else (u % 4294967296 : Nat) - 4294967296

/-- Embedding of `mpd_get_relative_queue_pos`.  `curpos` is a `uint32_t`, so the two
sums are computed modulo 2^32 and stored back into the `int`. -/
def mpd_get_relative_queue_pos (E : param_env) (ptype : position_type) (position : Int) : Int :=
  match ptype with
  | position_type.POSITION_ABSOLUTE => position
  | position_type.POSITION_RELATIVE_AFTER =>
    int_of_uint32
      ((if E.player_stopped then 0 else
          match E.queue_item with
          | some (id, pos) => if 0 < id then pos else 0
          | none => 0) + uint32_of_int position + 1)
  | position_type.POSITION_RELATIVE_BEFORE =>
    int_of_uint32
      ((if E.player_stopped then 0 else
          match E.queue_item with
          | some (id, pos) => if 0 < id then pos else 0
          | none => 0) + 4294967296 - uint32_of_int position)

/-- Embedding of `mpd_pars_range_arg`: the return value and the contents of
`*start_pos` and `*end_pos`, `none` where nothing was stored. -/
def mpd_pars_range_arg (E : param_env) (range : List Char) : Int × Option Int × Option Int :=
  if COLON ∈ range then
    if (E.sscanf_range range).1 < 0 then (-1, (E.sscanf_range range).2)
    else (0, (E.sscanf_range range).2)
  else
    match E.safe_atoi32 range with
    | none => (-1, none, none)
    | some start_pos => (0, some start_pos, some (start_pos + 1))

/-- Embedding of `mpd_parse_cmd_window`: the return value and the parameters. -/
def mpd_parse_cmd_window (E : param_env) (arg : List Char) (param : mpd_cmd_params) :
    Int × mpd_cmd_params :=
  if (mpd_pars_range_arg E arg).1 = 0 then
    (0, { param with
          qp := { param.qp with
                  idx_type := index_type.I_SUB,
                  limit := match (mpd_pars_range_arg E arg).2.1, (mpd_pars_range_arg E arg).2.2 with
                    | some start_pos, some end_pos => some (end_pos - start_pos)
                    | _, _ => none,
                  offset := (mpd_pars_range_arg E arg).2.1 },
          params_set := param.params_set ||| CMD_WINDOW })
  else (1, param)

/-- Embedding of `mpd_parse_cmd_group`. -/
def mpd_parse_cmd_group (arg : List Char) (param : mpd_cmd_params) : Int × mpd_cmd_params :=
  match find_tagtype arg with
  | none => (0, param)
  | some tagtype =>
    if tagtype.type ≠ MPD_TYPE_SPECIAL then
      (0, { param with
            qp := if param.addgroupfilter then
                    { param.qp with
                      group := append_string param.qp.group (tagtype.group_field.getD []) (some ", ".toList) }
                  else param.qp,
            groups := if ((param.groups.getD []).length : Int) < param.groupssize then
                        some (param.groups.getD [] ++ [tagtype])
                      else param.groups,
            params_set := param.params_set ||| CMD_GROUP })
    else (0, param)

/-- Embedding of `mpd_parse_cmd_position`. -/
def mpd_parse_cmd_position (E : param_env) (arg : List Char) (param : mpd_cmd_params) :
    Int × mpd_cmd_params :=
  match E.safe_atoi32
      (if arg.head? = some MINUS ∨ arg.head? = some PLUS then arg.tail else arg) with
  | none => (1, param)
  | some to_pos =>
    (0, { param with
          pos := mpd_get_relative_queue_pos E
            (if arg.head? = some MINUS then position_type.POSITION_RELATIVE_BEFORE
             else if arg.head? = some PLUS then position_type.POSITION_RELATIVE_AFTER
             else position_type.POSITION_ABSOLUTE) to_pos,
          params_set := param.params_set ||| CMD_POSITION })

/-! ## Filter expressions -/

/-- The enum `parsestate` of `mpd_parse_cmd_filter`. -/
inductive parsestate
  | STATE_INIT
  | STATE_EXPR
  | STATE_FINI
  | STATE_OP
  | STATE_VAL
  deriving DecidableEq, Repr

open parsestate

def OP_NONE : Nat := 0
def OP_EQUALS : Nat := 1
def OP_EQUALS_CI : Nat := 2
def OP_EQUALS_CS : Nat := 3
def OP_NEQUALS : Nat := 4
def OP_NEQUALS_CI : Nat := 5
def OP_NEQUALS_CS : Nat := 6
def OP_CONTAINS : Nat := 7
def OP_CONTAINS_CI : Nat := 8
def OP_CONTAINS_CS : Nat := 9
def OP_NCONTAINS : Nat := 10
def OP_NCONTAINS_CI : Nat := 11
def OP_NCONTAINS_CS : Nat := 12
def OP_STARTSWITH : Nat := 13
def OP_STARTSWITH_CI : Nat := 14
def OP_STARTSWITH_CS : Nat := 15
def OP_NSTARTSWITH : Nat := 16
def OP_NSTARTSWITH_CI : Nat := 17
def OP_NSTARTSWITH_CS : Nat := 18
def OP_REGEX : Nat := 19
def OP_NREGEX : Nat := 20
def OP_GREQ : Nat := 21

/-- The `strcmp` chain of STATE_OP: the operator a word stands for, `none` for the
final else branch. -/
def operator_of (p : List Char) : Option Nat :=
  if p = ">=".toList then some OP_GREQ
  else if p = "==".toList then some OP_EQUALS
  else if p = "!=".toList then some OP_NEQUALS
  else if p = "eq_cs".toList then some OP_EQUALS_CS
  else if p = "!eq_cs".toList then some OP_NEQUALS_CS
  else if p = "eq_ci".toList then some OP_EQUALS_CI
  else if p = "!eq_ci".toList then some OP_NEQUALS_CI
  else if p = "=~".toList then some OP_REGEX
  else if p = "!~".toList then some OP_NREGEX
  else if p = "contains".toList then some OP_CONTAINS
  else if p = "!contains".toList then some OP_NCONTAINS
  else if p = "contains_cs".toList then some OP_CONTAINS_CS
  else if p = "!contains_cs".toList then some OP_NCONTAINS_CS
  else if p = "contains_ci".toList then some OP_CONTAINS_CI
  else if p = "!contains_ci".toList then some OP_NCONTAINS_CI
  else if p = "startswith".toList then some OP_STARTSWITH
  else if p = "!startswith".toList then some OP_NSTARTSWITH
  else if p = "startswith_cs".toList then some OP_STARTSWITH_CS
  else if p = "!startswith_cs".toList then some OP_NSTARTSWITH_CS
  else if p = "startswith_ci".toList then some OP_STARTSWITH_CI
  else if p = "!startswith_ci".toList then some OP_NSTARTSWITH_CI
  else none

/-- The promotion switch of STATE_OP: `==` and `!=` are left alone on an INT tag and
otherwise fall through, after `op += 6` without exact match, into the case of the
unqualified `contains` and `startswith` operators, which adds 2 (case-sensitive)
or 1 (case-insensitive). -/
def promote_op (exact_match : Bool) (type : mpd_type) (op : Nat) : Nat :=
  if op = OP_EQUALS ∨ op = OP_NEQUALS then
    if type = MPD_TYPE_INT then op
    else (if exact_match then op else op + 6) + (if exact_match then 2 else 1)
  else if op = OP_CONTAINS ∨ op = OP_NCONTAINS ∨ op = OP_STARTSWITH ∨ op = OP_NSTARTSWITH then
    op + (if exact_match then 2 else 1)
  else op

/-- The switch under `if (negate)` of STATE_OP. -/
def negate_op (op : Nat) : Nat :=
  if op = OP_EQUALS ∨ op = OP_EQUALS_CI ∨ op = OP_EQUALS_CS ∨ op = OP_CONTAINS_CI ∨
      op = OP_CONTAINS_CS ∨ op = OP_STARTSWITH_CI ∨ op = OP_STARTSWITH_CS then op + 3
  else if op = OP_NEQUALS ∨ op = OP_NEQUALS_CI ∨ op = OP_NEQUALS_CS ∨ op = OP_NCONTAINS ∨
      op = OP_NCONTAINS_CI ∨ op = OP_NCONTAINS_CS ∨ op = OP_NSTARTSWITH ∨
      op = OP_NSTARTSWITH_CI ∨ op = OP_NSTARTSWITH_CS then op - 3
  else op

/-- The switch of STATE_FINI that selects the format `sqlopstr`; `none` is NULL. -/
def sqlopstr (op : Nat) (negate : Bool) : Option (List Char) :=
  if op = OP_GREQ then (if negate then some "(%s < %u)".toList else some "(%s >= %u)".toList)
  else if op = OP_EQUALS then some "(%s = %u)".toList
  else if op = OP_NEQUALS then some "(%s != %u)".toList
  else if op = OP_EQUALS_CI then some "(%s LIKE \x27%q\x27)".toList
  else if op = OP_NEQUALS_CI then some "(%s NOT LIKE \x27%q\x27)".toList
  else if op = OP_EQUALS_CS then some "(%s = \x27%q\x27)".toList
  else if op = OP_NEQUALS_CS then some "(%s != \x27%q\x27)".toList
  else if op = OP_CONTAINS_CI then some "(%s LIKE \x27%%%q%%\x27)".toList
  else if op = OP_NCONTAINS_CI then some "(%s NOT LIKE \x27%%%q%%\x27)".toList
  else if op = OP_CONTAINS_CS then some "(%s GLOB \x27*%q*\x27)".toList
  else if op = OP_NCONTAINS_CS then some "(%s NOT GLOB \x27*%q*\x27)".toList
  else if op = OP_STARTSWITH_CI then some "(%s LIKE \x27%q%%\x27)".toList
  else if op = OP_NSTARTSWITH_CI then some "(%s NOT LIKE \x27%q%%\x27)".toList
  else if op = OP_STARTSWITH_CS then some "(%s GLOB \x27%q*\x27)".toList
  else if op = OP_NSTARTSWITH_CS then some "(%s NOT GLOB \x27%q*\x27)".toList
  else if op = OP_REGEX then some "(%s REGEX \x27%q\x27)".toList
  else if op = OP_NREGEX then some "(NOT %s REGEX \x27%q\x27)".toList
  else none

/-- The format of the modified-since condition, in both branches of
`mpd_parse_cmd_filter`. -/
def modified_since_fmt : List Char :=
  "(f.time_modified > strftime(\x27%%s\x27, datetime(\x27%q\x27, \x27%s\x27)))".toList

/-- The choice of `datefmt`: `unixepoch` for a value without `-`, else `utc`. -/
def datefmt (val : List Char) : List Char :=
  if MINUS ∈ val then "utc".toList else "unixepoch".toList

/-- The part of STATE_FINI that builds `condition` from tag, operator and value.  The
outer `none` says that the code has no defined result here (a `db_mprintf` call with
a NULL format or with an argument that does not fit its conversion); the inner
`none` is a NULL `condition`. -/
def fini_condition (E : param_env) (tagtype : mpd_tagtype) (op : Nat) (negate : Bool)
    (val : List Char) : Option (Option (List Char)) :=
  match tagtype.type with
  | MPD_TYPE_STRING =>
    (db_mprintf E (sqlopstr op negate)
      [printf_arg.str tagtype.field, printf_arg.str (some val)]).map some
  | MPD_TYPE_INT =>
    match E.safe_atou32 val with
    | none => some none
    | some num =>
      (db_mprintf E (sqlopstr op negate)
        [printf_arg.str tagtype.field, printf_arg.uint num]).map some
  | MPD_TYPE_SPECIAL =>
    if tagtype.tag = "any".toList then
      match db_mprintf E (sqlopstr op negate)
              [printf_arg.str (some "f.artist".toList), printf_arg.str (some val)],
            db_mprintf E (sqlopstr op negate)
              [printf_arg.str (some "f.album".toList), printf_arg.str (some val)],
            db_mprintf E (sqlopstr op negate)
              [printf_arg.str (some "f.title".toList), printf_arg.str (some val)] with
      | some a, some b, some c =>
        some (append_string
          (append_string
            (append_string (append_string (some "(".toList) a none) b (some " OR ".toList))
            c (some " OR ".toList))
          ")".toList none)
      | _, _, _ => none
    else if tagtype.tag = "file".toList ∨ tagtype.tag = "base".toList then
      (db_mprintf E (sqlopstr op negate)
        [printf_arg.str tagtype.field, printf_arg.str (some val)]).map some
    else if tagtype.tag = "modified-since".toList then
      (db_mprintf E (some modified_since_fmt)
        [printf_arg.str (some val), printf_arg.str (some (datefmt val))]).map some
    else some none

/-- The local variables of the modern branch of `mpd_parse_cmd_filter`.  `mem` is the
argument from `p` to its terminating NUL (exclusive) in its current, partly
overwritten state, and `n` is `argend - p`.  `undefined` is a ghost flag: some
earlier step had no defined result. -/
structure filter_vars where
  mem : List Char
  n : Int
  state : parsestate
  first : Bool
  negate : Bool
  tagtype : Option mpd_tagtype
  op : Nat
  val : Option (List Char)
  param : mpd_cmd_params
  undefined : Bool
  deriving DecidableEq, Repr

/-- The loops `for (q = p; *q != stop && q < argend; q++)`: the number of bytes that
`q` moves, given the memory at `p` and `argend - p`.  Bytes behind the terminating
NUL of the argument read as NUL. -/
def hunt (stop : Char) : List Char → Nat → Nat
  | _, 0 => 0
  | [], m + 1 => m + 1
  | c :: mem, m + 1 => if c = stop then 0 else hunt stop mem m + 1

/-- The copy loop of a quoted value, `for (q = ++p; q < argend; q++)`, given
`argend - q` and the memory at `q`: the bytes it writes from `quote + 1` on and the
number of bytes that `q` moves.  The second component of the state says that the
byte before was a backslash, whose `*p++ = *++q` copies the byte at hand even at
`argend`. -/
def unquote (quote : Char) : Bool → Nat → List Char → List Char × Nat
  | false, 0, _ => ([], 0)
  | true, 0, mem => ([mem.headD NUL], 1)
  | true, m + 1, mem =>
    (mem.headD NUL :: (unquote quote false m mem.tail).1, (unquote quote false m mem.tail).2 + 1)
  | false, m + 1, mem =>
    if mem.headD NUL = quote then ([], 0)
    else if mem.headD NUL = BACKSLASH then
      ((unquote quote true m mem.tail).1, (unquote quote true m mem.tail).2 + 1)
    else
      (mem.headD NUL :: (unquote quote false m mem.tail).1,
       (unquote quote false m mem.tail).2 + 1)

/-- The case STATE_INIT of the loop body. -/
def step_init (v : filter_vars) : filter_vars :=
  if v.mem.headD NUL = BANG then
    { v with tagtype := none, op := OP_NONE, negate := true }
  else if v.mem.headD NUL = LPAREN then
    { v with tagtype := none, op := OP_NONE, state := STATE_EXPR }
  else if v.first then
    { v with tagtype := none, op := OP_NONE, mem := LPAREN :: v.mem, n := v.n + 2,
             state := STATE_EXPR }
  else
    { v with tagtype := none, op := OP_NONE, negate := false }

/-- The case STATE_EXPR of the loop body. -/
def step_expr (v : filter_vars) : filter_vars :=
  if (hunt SPACE v.mem v.n.toNat : Int) = v.n then
    { v with state := STATE_INIT }
  else
    match find_tagtype (cstr (v.mem.set (hunt SPACE v.mem v.n.toNat) NUL)) with
    | none =>
      { v with tagtype := none, state := STATE_INIT,
               mem := (v.mem.set (hunt SPACE v.mem v.n.toNat) NUL).drop (hunt SPACE v.mem v.n.toNat),
               n := v.n - hunt SPACE v.mem v.n.toNat }
    | some tagtype =>
      if tagtype.tag = "base".toList ∨ tagtype.tag = "modified-since".toList then
        { v with tagtype := some tagtype, op := OP_NONE, state := STATE_VAL,
                 mem := (v.mem.set (hunt SPACE v.mem v.n.toNat) NUL).drop (hunt SPACE v.mem v.n.toNat),
                 n := v.n - hunt SPACE v.mem v.n.toNat }
      else
        { v with tagtype := some tagtype, state := STATE_OP,
                 mem := (v.mem.set (hunt SPACE v.mem v.n.toNat) NUL).drop (hunt SPACE v.mem v.n.toNat),
                 n := v.n - hunt SPACE v.mem v.n.toNat }

/-- The case STATE_OP of the loop body.  A NULL `tagtype` cannot occur in this state;
the embedding marks it as undefined. -/
def step_op (exact_match : Bool) (v : filter_vars) : filter_vars :=
  if (hunt SPACE v.mem v.n.toNat : Int) = v.n then
    { v with state := STATE_INIT }
  else
    match operator_of (cstr (v.mem.set (hunt SPACE v.mem v.n.toNat) NUL)) with
    | none =>
      { v with state := STATE_INIT, mem := v.mem.set (hunt SPACE v.mem v.n.toNat) NUL }
    | some op =>
      match v.tagtype with
      | none => { v with state := STATE_INIT, undefined := true }
      | some tagtype =>
        { v with op := if v.negate then negate_op (promote_op exact_match tagtype.type op)
                       else promote_op exact_match tagtype.type op,
                 state := STATE_VAL,
                 mem := (v.mem.set (hunt SPACE v.mem v.n.toNat) NUL).drop (hunt SPACE v.mem v.n.toNat),
                 n := v.n - hunt SPACE v.mem v.n.toNat }

/-- The case STATE_VAL of the loop body. -/
def step_val (v : filter_vars) : filter_vars :=
  if (v.mem.headD NUL).isDigit then
    if (hunt RPAREN v.mem v.n.toNat : Int) = v.n then
      { v with state := STATE_INIT }
    else
      { v with mem := v.mem.set (hunt RPAREN v.mem v.n.toNat) NUL,
               val := some (cstr (v.mem.set (hunt RPAREN v.mem v.n.toNat) NUL)),
               state := STATE_FINI }
  else if v.mem.headD NUL = DQUOTE ∨ v.mem.headD NUL = SQUOTE then
    if ((unquote (v.mem.headD NUL) false (v.n.toNat - 1) v.mem.tail).2 : Int) + 1 = v.n then
      { v with state := STATE_INIT,
               mem := v.mem.drop (1 + (unquote (v.mem.headD NUL) false (v.n.toNat - 1) v.mem.tail).1.length),
               n := v.n - (1 + (unquote (v.mem.headD NUL) false (v.n.toNat - 1) v.mem.tail).1.length) }
    else
      { v with val := some (cstr (unquote (v.mem.headD NUL) false (v.n.toNat - 1) v.mem.tail).1),
               state := STATE_FINI,
               mem :=
                 if (unquote (v.mem.headD NUL) false (v.n.toNat - 1) v.mem.tail).1.length
                     = (unquote (v.mem.headD NUL) false (v.n.toNat - 1) v.mem.tail).2 then
                   (v.mem.drop (1 + (unquote (v.mem.headD NUL) false (v.n.toNat - 1) v.mem.tail).2)).set 0 NUL
                 else
                   v.mem.drop (1 + (unquote (v.mem.headD NUL) false (v.n.toNat - 1) v.mem.tail).2),
               n := v.n - (1 + (unquote (v.mem.headD NUL) false (v.n.toNat - 1) v.mem.tail).2) }
  else
    { v with state := STATE_INIT }

/-- The statements `if (condition != NULL) ...` of `mpd_parse_cmd_filter`, in
STATE_FINI and behind the other two branches: a non-NULL `condition` is appended to
the filter with ` AND `, and CMD_FILTER is set. -/
def filter_append (param : mpd_cmd_params) (condition : Option (List Char)) : mpd_cmd_params :=
  match condition with
  | some c =>
    { param with
      qp := { param.qp with filter := append_string param.qp.filter c (some " AND ".toList) },
      params_set := param.params_set ||| CMD_FILTER }
  | none => param

/-- The condition that STATE_FINI builds from the variables; a NULL `tagtype` or `val`
cannot occur in this state and is marked as undefined. -/
def fini_vars_condition (E : param_env) (v : filter_vars) : Option (Option (List Char)) :=
  match v.tagtype, v.val with
  | some tagtype, some val => fini_condition E tagtype v.op v.negate val
  | _, _ => none

/-- The statements of STATE_FINI behind the condition: `if (*p == ')') p++;
while (*p == ' ') p++; if (strcasecmp(p, "AND") == 0) p += 3;`, as the number of
bytes that `p` moves. -/
def fini_skip (mem : List Char) : Nat :=
  (if mem.headD NUL = RPAREN then 1 else 0)
  + ((mem.drop (if mem.headD NUL = RPAREN then 1 else 0)).takeWhile (fun c => c = SPACE)).length
  + (if strcasecmp_eq
        (cstr ((mem.drop (if mem.headD NUL = RPAREN then 1 else 0)).dropWhile (fun c => c = SPACE)))
        "AND".toList then 3 else 0)

/-- The case STATE_FINI of the loop body. -/
def step_fini (E : param_env) (v : filter_vars) : filter_vars :=
  { v with
    param := filter_append v.param ((fini_vars_condition E v).getD none),
    undefined := v.undefined || (fini_vars_condition E v).isNone,
    mem := v.mem.drop (fini_skip v.mem),
    n := v.n - fini_skip v.mem,
    negate := false,
    state := STATE_INIT }

/-- The switch on `state` in the loop body. -/
def step_state (E : param_env) (exact_match : Bool) (v : filter_vars) : filter_vars :=
  match v.state with
  | STATE_INIT => step_init v
  | STATE_EXPR => step_expr v
  | STATE_OP => step_op exact_match v
  | STATE_VAL => step_val v
  | STATE_FINI => step_fini E v

/-- One pass through the body of the loop `for (p = &arg[1]; p < argend; p++)`,
its `first = false` and its `p++` included. -/
def filter_step (E : param_env) (exact_match : Bool) (v : filter_vars) : filter_vars :=
  { step_state E exact_match v with
    first := false,
    mem := (step_state E exact_match v).mem.tail,
    n := (step_state E exact_match v).n - 1 }

/-- The loop of the modern branch; `none` when the passes allowed by `fuel` do not
reach `p >= argend`. -/
def filter_loop (E : param_env) (exact_match : Bool) : Nat → filter_vars → Option filter_vars
  | 0, v => if 0 < v.n then none else some v
  | fuel + 1, v =>
    if 0 < v.n then filter_loop E exact_match fuel (filter_step E exact_match v) else some v

/-- What `mpd_parse_cmd_filter` leaves behind: its return value, the parameters,
whether it truncated `narg` to the empty string, and the ghost flag of a step
without defined result. -/
structure filter_result where
  ret : Int
  param : mpd_cmd_params
  narg_used : Bool
  undefined : Bool
  deriving DecidableEq, Repr

/-- The branch `else if (narg != NULL)` of `mpd_parse_cmd_filter` up to its
`condition`, for a tag type that was found: `none` for the `return 1` of an
unknown special tag, else the condition (`none` for NULL) or no defined result. -/
def legacy_condition (E : param_env) (exact_match : Bool) (tagtype : mpd_tagtype)
    (narg : List Char) : Option (Option (Option (List Char))) :=
  match tagtype.type with
  | MPD_TYPE_STRING =>
    some ((db_mprintf E
      (some (if exact_match then "(%s = \x27%q\x27)".toList else "(%s LIKE \x27%%%q%%\x27)".toList))
      [printf_arg.str tagtype.field, printf_arg.str (some narg)]).map some)
  | MPD_TYPE_INT =>
    match E.safe_atou32 narg with
    | none => some (some none)
    | some num =>
      some ((db_mprintf E (some "(%s = %u)".toList)
        [printf_arg.str tagtype.field, printf_arg.uint num]).map some)
  | MPD_TYPE_SPECIAL =>
    if strcasecmp_eq tagtype.tag "any".toList then
      some ((db_mprintf E
        (some ("(f.artist LIKE \x27%%%q%%\x27 OR ".toList ++ " f.album  LIKE \x27%%%q%%\x27 OR ".toList
          ++ " f.title  LIKE \x27%%%q%%\x27)".toList))
        [printf_arg.str (some narg), printf_arg.str (some narg), printf_arg.str (some narg)]).map some)
    else if strcasecmp_eq tagtype.tag "file".toList then
      some ((db_mprintf E
        (some (if exact_match then "(f.virtual_path = \x27/%q\x27)".toList
               else "(f.virtual_path LIKE \x27%%%q%%\x27)".toList))
        [printf_arg.str (some narg)]).map some)
    else if strcasecmp_eq tagtype.tag "base".toList then
      some ((db_mprintf E (some "(f.virtual_path LIKE \x27/%q%%\x27)".toList)
        [printf_arg.str (some narg)]).map some)
    else if strcasecmp_eq tagtype.tag "modified-since".toList then
      some ((db_mprintf E (some modified_since_fmt)
        [printf_arg.str (some narg), printf_arg.str (some (datefmt narg))]).map some)
    else none

/-- Embedding of `mpd_parse_cmd_filter`.  `arg` and `narg` are C strings, `narg` is
`none` for NULL.  The result is `none` only if the loop of the modern branch does
not end within `strlen(arg) + 2` passes. -/
def mpd_parse_cmd_filter (E : param_env) (arg : List Char) (narg : Option (List Char))
    (param : mpd_cmd_params) : Option filter_result :=
  if arg.head? = some LPAREN ∧ 2 < arg.length ∧ arg.getLast? = some RPAREN then
    (filter_loop E param.exactmatch (arg.length + 2)
      { mem := arg.tail, n := (arg.length : Int) - 2, state := STATE_INIT, first := true,
        negate := false, tagtype := none, op := OP_NONE, val := none, param := param,
        undefined := false }).map
      (fun v => { ret := 0, param := v.param, narg_used := false, undefined := v.undefined })
  else
    match narg with
    | some value =>
      match find_tagtype arg with
      | none => some { ret := 1, param := param, narg_used := false, undefined := false }
      | some tagtype =>
        match legacy_condition E param.exactmatch tagtype value with
        | none => some { ret := 1, param := param, narg_used := false, undefined := false }
        | some none => some { ret := 0, param := param, narg_used := true, undefined := true }
        | some (some condition) =>
          some { ret := 0, param := filter_append param condition, narg_used := true,
                 undefined := false }
    | none =>
      match db_mprintf E (some "(f.album_artist = \x27%q\x27)".toList) [printf_arg.str none] with
      | none => some { ret := 0, param := param, narg_used := false, undefined := true }
      | some condition =>
        some { ret := 0, param := filter_append param (some condition), narg_used := false,
               undefined := false }

/-- What `mpd_parse_cmd_params` leaves behind: its return value, the parameters, and
the ghost flag of a step without defined result. -/
structure params_result where
  ret : Nat
  param : mpd_cmd_params
  undefined : Bool
  deriving DecidableEq, Repr

/-- The value of `cmd` for the argument at hand. -/
def param_cmd (dofilters : Bool) (arg : List Char) : Nat :=
  if strcasecmp_eq arg "window".toList then CMD_WINDOW
  else if strcasecmp_eq arg "group".toList then CMD_GROUP
  else if strcasecmp_eq arg "position".toList then CMD_POSITION
  else if strcasecmp_eq arg "sort".toList then CMD_SORT
  else if dofilters then CMD_FILTER
  else CMD_UNSET

/-- The loop `for (i = 0; i < argc; i += 2)` of `mpd_parse_cmd_params`.  The list is
`argv + i`; the flag `skip` says that of the increment `i += 2` one step is still
to be taken, so that the `i--` of the filter case is a pass that leaves it unset. -/
def mpd_parse_cmd_params_loop (E : param_env) :
    List (List Char) → Bool → Bool → params_result → Option params_result
  | [], _, _, r => some r
  | _ :: rest, true, dofilters, r => mpd_parse_cmd_params_loop E rest false dofilters r
  | arg :: rest, false, dofilters, r =>
    if r.param.params_allow &&& param_cmd dofilters arg = CMD_UNSET then
      mpd_parse_cmd_params_loop E rest true
        (dofilters && decide (param_cmd dofilters arg = CMD_FILTER)) r
    else if param_cmd dofilters arg ≠ CMD_FILTER ∧ rest = [] then
      some { r with ret := 1 }
    else if param_cmd dofilters arg = CMD_WINDOW then
      mpd_parse_cmd_params_loop E rest true false
        { r with ret := r.ret ||| (mpd_parse_cmd_window E (rest.headD []) r.param).1.toNat,
                 param := (mpd_parse_cmd_window E (rest.headD []) r.param).2 }
    else if param_cmd dofilters arg = CMD_GROUP then
      mpd_parse_cmd_params_loop E rest true false
        { r with
          ret := r.ret ||| (mpd_parse_cmd_group (rest.headD [])
            (if r.param.groups = none then
               { r.param with groupssize := ((rest.length + 1 : Nat) : Int) / 2, groups := some [] }
             else r.param)).1.toNat,
          param := (mpd_parse_cmd_group (rest.headD [])
            (if r.param.groups = none then
               { r.param with groupssize := ((rest.length + 1 : Nat) : Int) / 2, groups := some [] }
             else r.param)).2 }
    else if param_cmd dofilters arg = CMD_POSITION then
      mpd_parse_cmd_params_loop E rest true false
        { r with ret := r.ret ||| (mpd_parse_cmd_position E (rest.headD []) r.param).1.toNat,
                 param := (mpd_parse_cmd_position E (rest.headD []) r.param).2 }
    else if param_cmd dofilters arg = CMD_FILTER then
      match mpd_parse_cmd_filter E arg rest.head? r.param with
      | none => none
      | some f =>
        mpd_parse_cmd_params_loop E rest (f.narg_used || rest.head? == some []) dofilters
          { ret := r.ret ||| f.ret.toNat, param := f.param,
            undefined := r.undefined || f.undefined }
    else
      mpd_parse_cmd_params_loop E rest true false r

/-- Embedding of `mpd_parse_cmd_params` for a non-NULL `param`; `argv` holds the
`argc` arguments.  The result is `none` only if a call of `mpd_parse_cmd_filter`
has none. -/
def mpd_parse_cmd_params (E : param_env) (argv : List (List Char)) (param : mpd_cmd_params) :
    Option params_result :=
  mpd_parse_cmd_params_loop E argv false (decide (param.params_allow &&& CMD_FILTER ≠ 0))
    { ret := 0, param := param, undefined := false }

/-- The parameters `mpd_command_find` and `mpd_command_search` set up before they
call `mpd_parse_cmd_params`: all zero, then `exactmatch` (true in find) and
`params_allow = CMD_FILTER | CMD_SORT | CMD_WINDOW`. -/
def query_cmd_params (exactmatch : Bool) : mpd_cmd_params :=
  { params_allow := CMD_FILTER ||| CMD_SORT ||| CMD_WINDOW, params_set := 0,
    qp := { filter := none, group := none, idx_type := index_type.I_NONE,
            limit := some 0, offset := some 0 },
    groups := none, groupssize := 0, addgroupfilter := false, exactmatch := exactmatch, pos := 0 }

/-- Modelled from the spec: `safe_atoi32` of misc.c, a signed decimal that fits 32
bits. -/
def safe_atoi32 (str : List Char) : Option Int :=
  match str with
  | c :: rest =>
    if c = MINUS then
      (match safe_atou32 rest with
       | some n => if n ≤ 2147483648 then some (-(n : Int)) else none
       | none => none)
    else
      (match safe_atou32 str with
       | some n => if n < 2147483648 then some (n : Int) else none
       | none => none)
  | [] => none

/-- A concrete surrounding of the parameter parsers for evaluations: the converters
above, sqlite3_vmprintf for a NULL string (`%s` prints nothing, `%q` prints
`(NULL)`), a stopped player, and an `sscanf` that converts nothing. -/
def penv0 : param_env where
  safe_atou32 := safe_atou32
  safe_atoi32 := safe_atoi32
  sscanf_range := fun _ => (0, none, none)
  player_stopped := true
  queue_item := none
  null_s := []
  null_q := "(NULL)".toList

/-! ## Filters: the claims in the words of the specification -/

/-- The filter that joins predicates with ` AND `, in order; no filter when there is
no predicate. -/
def join_and : List (List Char) → Option (List Char)
  | [] => none
  | p :: ps => some (p ++ (ps.map (fun x => " AND ".toList ++ x)).flatten)

/-- The db field of the registry row that a tag name selects. -/
def tag_field (tag : List Char) : List Char :=
  match find_tagtype tag with
  | some t => t.field.getD []
  | none => []

/-- The predicate of a legacy pair on a STRING tag with db field `F` and escaped value
`e`: `(F = 'e')` with exact match and `(F LIKE '%e%')` without. -/
def legacy_predicate (exact_match : Bool) (F e : List Char) : List Char :=
  if exact_match then "(".toList ++ F ++ " = \x27".toList ++ e ++ "\x27)".toList
  else "(".toList ++ F ++ " LIKE \x27%".toList ++ e ++ "%\x27)".toList

/-- The argument list TAG_1 VALUE_1 TAG_2 VALUE_2 ... of a sequence of pairs. -/
def legacy_argv : List (List Char × List Char) → List (List Char)
  | [] => []
  | p :: ps => p.1 :: p.2 :: legacy_argv ps

/-! ## Runs of the filter loop -/

/-- The loop started in `v` with enough fuel behaves like the loop started in `w`
with enough fuel: `w` is a later state of the same run. -/
def reaches (E : param_env) (exact_match : Bool) (v w : filter_vars) : Prop :=
  ∀ fuel, v.mem.length < fuel →
    ∃ fuel2, w.mem.length < fuel2 ∧
      filter_loop E exact_match fuel v = filter_loop E exact_match fuel2 w

/-- The loop started in `v` with enough fuel ends, with the given parameters and
ghost flag. -/
def finishes (E : param_env) (exact_match : Bool) (v : filter_vars) (param : mpd_cmd_params)
    (undefined : Bool) : Prop :=
  ∀ fuel, v.mem.length < fuel →
    ∃ w, filter_loop E exact_match fuel v = some w ∧ w.param = param ∧ w.undefined = undefined

/-- The text a client writes between the quotes of a filter value: a backslash in
front of every occurrence of the quote character and of the backslash. -/
def escape_for (quote : Char) : List Char → List Char
  | [] => []
  | c :: s =>
    if c = quote ∨ c = BACKSLASH then BACKSLASH :: c :: escape_for quote s
    else c :: escape_for quote s

/-- The words that the `strcmp` chain of STATE_OP knows, in source order. -/
def operator_words : List (List Char) :=
  [">=".toList, "==".toList, "!=".toList, "eq_cs".toList, "!eq_cs".toList, "eq_ci".toList,
   "!eq_ci".toList, "=~".toList, "!~".toList, "contains".toList, "!contains".toList,
   "contains_cs".toList, "!contains_cs".toList, "contains_ci".toList, "!contains_ci".toList,
   "startswith".toList, "!startswith".toList, "startswith_cs".toList, "!startswith_cs".toList,
   "startswith_ci".toList, "!startswith_ci".toList]

/-- A filter value as the client writes it: an integer (its decimal digits) or a
string between two quote characters. -/
inductive filter_value
  | number (digits : List Char)
  | quoted (quote : Char) (s : List Char)
  deriving DecidableEq, Repr

/-- The text of a value inside the expression. -/
def filter_value.text : filter_value → List Char
  | filter_value.number digits => digits
  | filter_value.quoted quote s => quote :: (escape_for quote s ++ [quote])

/-- The string a value stands for. -/
def filter_value.val : filter_value → List Char
  | filter_value.number digits => digits
  | filter_value.quoted _ s => s

/-- A value is well formed: a non-empty run of decimal digits, or a C string between
double or single quotes. -/
def filter_value.wf : filter_value → Bool
  | filter_value.number digits => !digits.isEmpty && digits.all Char.isDigit
  | filter_value.quoted quote s =>
    (decide (quote = DQUOTE) || decide (quote = SQUOTE)) && !s.contains NUL

/-- A sub-expression `TAG OP VALUE`. -/
structure filter_expr where
  tag : List Char
  op : List Char
  value : filter_value
  deriving DecidableEq, Repr

/-- The text `TAG OP VALUE`, with one space on either side of the operator. -/
def filter_expr.text (e : filter_expr) : List Char :=
  e.tag ++ SPACE :: (e.op ++ SPACE :: e.value.text)

/-- The operators that are valid for a tag of the given type: the three comparisons
on an INT tag, every operator of the table but `>=` on a STRING tag. -/
def valid_operator (type : mpd_type) (op : List Char) : Bool :=
  match type with
  | MPD_TYPE_INT => decide (op ∈ [">=".toList, "==".toList, "!=".toList])
  | MPD_TYPE_STRING => decide (op ∈ operator_words) && !decide (op = ">=".toList)
  | MPD_TYPE_SPECIAL => false

/-- A sub-expression is well formed: a registered STRING or INT tag, an operator valid
for it, and a well-formed value. -/
def filter_expr.wf (e : filter_expr) : Bool :=
  (match find_tagtype e.tag with
   | some t => valid_operator t.type e.op
   | none => false) && e.value.wf

/-- The token `(e)`. -/
def single_token (e : filter_expr) : List Char :=
  LPAREN :: (e.text ++ [RPAREN])

/-- The text `(e_1) AND (e_2) AND ... AND (e_n)`. -/
def conj_body : List filter_expr → List Char
  | [] => []
  | [e] => single_token e
  | e :: es => single_token e ++ (" AND ".toList ++ conj_body es)

/-- The token `((e_1) AND (e_2) AND ... AND (e_n))`. -/
def conj_token (es : List filter_expr) : List Char :=
  LPAREN :: (conj_body es ++ [RPAREN])

/-- The token `(!(e))`. -/
def negated_token (e : filter_expr) : List Char :=
  LPAREN :: BANG :: (single_token e ++ [RPAREN])

/-- The filter that a find (`exactmatch` set) or search command is left with by
`mpd_parse_cmd_params` on the given arguments: `some none` for no filter, and `none`
where the parse has no defined result. -/
def parsed_filter (E : param_env) (exactmatch : Bool) (argv : List (List Char)) :
    Option (Option (List Char)) :=
  match mpd_parse_cmd_params E argv (query_cmd_params exactmatch) with
  | some r => if r.undefined then none else some r.param.qp.filter
  | none => none

/-- The condition that the parser builds for an expression with the given tag row,
operator and value, in or out of a negation. -/
def expr_condition (E : param_env) (exact_match negate : Bool) (t : mpd_tagtype) (o : Nat)
    (val : List Char) : Option (Option (List Char)) :=
  fini_condition E t
    (if negate then negate_op (promote_op exact_match t.type o)
     else promote_op exact_match t.type o) negate val

/-- The condition that the parser builds for a sub-expression, looked up by its tag
and operator words; `none` where the code has no defined result. -/
def expr_cond (E : param_env) (exact_match negate : Bool) (e : filter_expr) :
    Option (Option (List Char)) :=
  match find_tagtype e.tag, operator_of e.op with
  | some t, some o => expr_condition E exact_match negate t o e.value.val
  | _, _ => none

/-- The parameters after the conditions of a list of sub-expressions have been
appended in order. -/
def exprs_param (E : param_env) (exact_match : Bool) (es : List filter_expr)
    (param : mpd_cmd_params) : mpd_cmd_params :=
  es.foldl (fun p e => filter_append p ((expr_cond E exact_match false e).getD none)) param

/-- Some sub-expression of the list has a condition without defined result. -/
def exprs_undefined (E : param_env) (exact_match : Bool) (es : List filter_expr) : Bool :=
  es.any (fun e => (expr_cond E exact_match false e).isNone)

/-- A sub-expression that the parser reads to its end: a registered tag that is not a
pseudo tag, an operator of the table and a well-formed value. -/
def filter_expr.readable (e : filter_expr) : Bool :=
  (match find_tagtype e.tag with
   | some t => decide (t.type ≠ MPD_TYPE_SPECIAL)
   | none => false) && (operator_of e.op).isSome && e.value.wf

/-- The unqualified operators with the explicit case-sensitive operator each stands
for in a find context. -/
def find_promotions : List (List Char × List Char) :=
  [("==".toList, "eq_cs".toList), ("!=".toList, "!eq_cs".toList),
   ("contains".toList, "contains_cs".toList), ("!contains".toList, "!contains_cs".toList),
   ("startswith".toList, "startswith_cs".toList),
   ("!startswith".toList, "!startswith_cs".toList)]

/-- The unqualified operators with the explicit operator each stands for in a search
context: the case-insensitive form, and `contains` for equality. -/
def search_promotions : List (List Char × List Char) :=
  [("contains".toList, "contains_ci".toList), ("!contains".toList, "!contains_ci".toList),
   ("startswith".toList, "startswith_ci".toList),
   ("!startswith".toList, "!startswith_ci".toList),
   ("==".toList, "contains_ci".toList), ("!=".toList, "!contains_ci".toList)]

/-- The operators with an explicit `_cs` or `_ci` suffix. -/
def suffixed_operators : List (List Char) :=
  ["eq_cs".toList, "!eq_cs".toList, "eq_ci".toList, "!eq_ci".toList,
   "contains_cs".toList, "!contains_cs".toList, "contains_ci".toList, "!contains_ci".toList,
   "startswith_cs".toList, "!startswith_cs".toList, "startswith_ci".toList,
   "!startswith_ci".toList]

/-- The promoted operator of an operator word on a tag of the given type, `none` for
a word that is not in the table. -/
def promoted (exact_match : Bool) (type : mpd_type) (O : List Char) : Option Nat :=
  (operator_of O).map (promote_op exact_match type)

/-- The three comparisons on an INT tag with the SQL operator each is emitted as. -/
def int_comparisons : List (List Char × List Char) :=
  [("==".toList, "=".toList), ("!=".toList, "!=".toList), (">=".toList, ">=".toList)]

/-- The numeric comparison `(F op n)` of a db field with an integer. -/
def numeric_predicate (F sqlop : List Char) (n : Nat) : List Char :=
  "(".toList ++ F ++ " ".toList ++ sqlop ++ " ".toList ++ (toString n).toList ++ ")".toList

/-- The pairs of opposite operators other than the regular expression pair, each in
both directions. -/
def opposite_operators : List (List Char × List Char) :=
  [("==".toList, "!=".toList), ("!=".toList, "==".toList),
   ("eq_cs".toList, "!eq_cs".toList), ("!eq_cs".toList, "eq_cs".toList),
   ("eq_ci".toList, "!eq_ci".toList), ("!eq_ci".toList, "eq_ci".toList),
   ("contains".toList, "!contains".toList), ("!contains".toList, "contains".toList),
   ("contains_cs".toList, "!contains_cs".toList), ("!contains_cs".toList, "contains_cs".toList),
   ("contains_ci".toList, "!contains_ci".toList), ("!contains_ci".toList, "contains_ci".toList),
   ("startswith".toList, "!startswith".toList), ("!startswith".toList, "startswith".toList),
   ("startswith_cs".toList, "!startswith_cs".toList),
   ("!startswith_cs".toList, "startswith_cs".toList),
   ("startswith_ci".toList, "!startswith_ci".toList),
   ("!startswith_ci".toList, "startswith_ci".toList)]

/-! ## SQL text: literals and parentheses -/

/-- A scan of SQL text that keeps the number of parentheses open outside literals and
whether the scan stands inside a single-quoted literal.  Inside a literal only the
single quote matters: it ends the literal (a doubled quote ends it and opens it
again).  The scan fails on a `)` outside literals that closes nothing. -/
def sql_scan : Nat × Bool → List Char → Option (Nat × Bool)
  | st, [] => some st
  | (depth, true), c :: s =>
    if c = SQUOTE then sql_scan (depth, false) s else sql_scan (depth, true) s
  | (depth, false), c :: s =>
    if c = SQUOTE then sql_scan (depth, true) s
    else if c = LPAREN then sql_scan (depth + 1, false) s
    else if c = RPAREN then
      (match depth with
       | 0 => none
       | d + 1 => sql_scan (d, false) s)
    else sql_scan (depth, false) s

/-- A predicate in which, outside single-quoted literals, every `(` has its `)` and
the other way round, and whose last literal is closed: no value it holds ends its
literal early. -/
def sql_balanced (p : List Char) : Bool :=
  sql_scan (0, false) p == some (0, false)

/-- Text without single quote and parenthesis. -/
def plain_text (s : List Char) : Bool :=
  s.all (fun c => !decide (c = SQUOTE) && !decide (c = LPAREN) && !decide (c = RPAREN))

/-- The strings that the filter parser hands to a conversion `%s`: the db column of a
row of the registry (NULL for a pseudo tag), the three columns of `any`, and the
two date formats.  None of them is text of the client. -/
def code_strings : List (Option (List Char)) :=
  tagtypes.map (fun t => t.field)
    ++ [some "f.artist".toList, some "f.album".toList, some "f.title".toList,
        some "unixepoch".toList, some "utc".toList]

/-- The scan of the text that `db_mprintf` produces, followed along the format: a
`%s` argument has to be one of the strings of the code and plain text, a `%q`
argument has to stand inside a literal, where its escaped text leaves the scan as
it is.  `none` where the scan fails or one of these does not hold. -/
def fmt_scan (E : param_env) : Nat × Bool → Bool → List Char → List printf_arg →
    Option (Nat × Bool)
  | st, false, [], _ => some st
  | _, true, [], _ => none
  | st, false, c :: fmt, args =>
    if c = PERCENT then fmt_scan E st true fmt args
    else (sql_scan st [c]).bind (fun st2 => fmt_scan E st2 false fmt args)
  | st, true, c :: fmt, args =>
    if c = PERCENT then fmt_scan E st false fmt args
    else if c = 's' then
      match args with
      | printf_arg.str s :: args2 =>
        if s ∈ code_strings ∧ plain_text (s.getD E.null_s) = true then
          fmt_scan E st false fmt args2
        else none
      | _ => none
    else if c = 'q' then
      match args with
      | printf_arg.str s :: args2 =>
        if st.2 = true ∧ (s.isSome = true ∨ SQUOTE ∉ E.null_q) then fmt_scan E st false fmt args2
        else none
      | _ => none
    else if c = 'u' then
      match args with
      | printf_arg.uint _ :: args2 => fmt_scan E st false fmt args2
      | _ => none
    else none

/-- The formats that the switch of STATE_FINI selects. -/
def sqlop_formats : List (List Char) :=
  ["(%s < %u)".toList, "(%s >= %u)".toList, "(%s = %u)".toList, "(%s != %u)".toList,
   "(%s LIKE \x27%q\x27)".toList, "(%s NOT LIKE \x27%q\x27)".toList,
   "(%s = \x27%q\x27)".toList, "(%s != \x27%q\x27)".toList,
   "(%s LIKE \x27%%%q%%\x27)".toList, "(%s NOT LIKE \x27%%%q%%\x27)".toList,
   "(%s GLOB \x27*%q*\x27)".toList, "(%s NOT GLOB \x27*%q*\x27)".toList,
   "(%s LIKE \x27%q%%\x27)".toList, "(%s NOT LIKE \x27%q%%\x27)".toList,
   "(%s GLOB \x27%q*\x27)".toList, "(%s NOT GLOB \x27%q*\x27)".toList,
   "(%s REGEX \x27%q\x27)".toList, "(NOT %s REGEX \x27%q\x27)".toList]

/-- The formats of the other `db_mprintf` calls of `mpd_parse_cmd_filter`: the legacy
pairs of `any`, `file` (exact and not) and `base`, the modified-since condition of
both branches, and the call of the single token. -/
def legacy_formats : List (List Char) :=
  ["(f.artist LIKE \x27%%%q%%\x27 OR ".toList ++ " f.album  LIKE \x27%%%q%%\x27 OR ".toList
     ++ " f.title  LIKE \x27%%%q%%\x27)".toList,
   "(f.virtual_path = \x27/%q\x27)".toList,
   "(f.virtual_path LIKE \x27%%%q%%\x27)".toList,
   "(f.virtual_path LIKE \x27/%q%%\x27)".toList,
   modified_since_fmt,
   "(f.album_artist = \x27%q\x27)".toList]

/-- A predicate that one call of `db_mprintf` made from a format of the filter parser
such that the scan along the format succeeds and ends outside literals with no
parenthesis open: every `%s` received a string of the code, and every `%q`, the
one conversion that receives text of the client, stands inside a single-quoted
literal, where `db_mprintf` prints its string with each single quote doubled. -/
def escaped_call (E : param_env) (p : List Char) : Prop :=
  ∃ fmt ∈ sqlop_formats ++ legacy_formats, ∃ args,
    db_mprintf E (some fmt) args = some p ∧
      fmt_scan E (0, false) false fmt args = some (0, false)

/-- A predicate of the filter in which every value of the client stands escaped inside
a literal: one escaped call, or the three escaped calls that the tag `any` joins
with ` OR ` inside parentheses. -/
def escaped_predicate (E : param_env) (p : List Char) : Prop :=
  escaped_call E p ∨
    ∃ a b c, escaped_call E a ∧ escaped_call E b ∧ escaped_call E c ∧
      p = "(".toList ++ a ++ " OR ".toList ++ b ++ " OR ".toList ++ c ++ ")".toList

/-- A filter that is absent or joins with ` AND ` predicates in which every value of
the client stands escaped inside a literal. -/
def filter_safe (E : param_env) (filter : Option (List Char)) : Prop :=
  ∃ preds, filter = join_and preds ∧ ∀ p ∈ preds, escaped_predicate E p

/-- What holds of the variables of the modern branch after the first pass: `first` is
clear, `argend` lies within the argument, the tag type is a row of the registry, and
the filter built so far is safe. -/
def filter_inv (E : param_env) (v : filter_vars) : Prop :=
  v.first = false ∧ v.n ≤ (v.mem.length : Int) ∧ (∀ t, v.tagtype = some t → t ∈ tagtypes) ∧
    filter_safe E v.param.qp.filter

/-- What a case of the loop body does to the variables: `p` moves on by some number of
bytes, the tag type stays a row of the registry, the filter stays safe. -/
def step_shape (E : param_env) (v w : filter_vars) : Prop :=
  (∃ j : Nat, w.mem.length = v.mem.length - j ∧ w.n = v.n - (j : Int)) ∧
    (∀ t, w.tagtype = some t → t ∈ tagtypes) ∧ filter_safe E w.param.qp.filter

/-! ## Queue positions -/

/-- The value of `curpos` in `mpd_get_relative_queue_pos` once the player status and
the current queue item were looked up: 0 when the player is stopped, when
`db_queue_fetch_byitemid` returns NULL and when the id of the item is 0, else the
position of the item. -/
def curpos (E : param_env) : Nat :=
  if E.player_stopped then 0 else
    match E.queue_item with
    | some (id, pos) => if 0 < id then pos else 0
    | none => 0

/-- The integer of the range of `int` that is congruent to `x` modulo 2^32: what an
`int` holds after a sum computed in `uint32_t` is stored into it. -/
def wrap_int32 (x : Int) : Int :=
  (x + 2147483648) % 4294967296 - 2147483648

/-- The part of a position argument that `safe_atoi32` is given: the argument without
its leading `-` or `+`. -/
def position_digits (arg : List Char) : List Char :=
  if arg.head? = some MINUS ∨ arg.head? = some PLUS then arg.tail else arg

/-- A `struct mpd_cmd_params` after `memset(&param, 0, sizeof(param))`. -/
def zero_cmd_params : mpd_cmd_params :=
  { params_allow := 0, params_set := 0,
    qp := { filter := none, group := none, idx_type := index_type.I_NONE,
            limit := some 0, offset := some 0 },
    groups := none, groupssize := 0, addgroupfilter := false, exactmatch := false, pos := 0 }

/-! ## The `sscanf` of the range parser -/

/-- The function `isspace` of libc in the C locale. -/
def isspace (c : Char) : Bool :=
  decide (c = SPACE) || (decide (9 ≤ c.toNat) && decide (c.toNat ≤ 13))

/-- The conversion `%d` of `sscanf` on input whose white space was skipped: an
optional sign and the longest run of decimal digits, which must not be empty.
The result is the `int` stored and the input left, `none` for a matching failure.
A value outside the range of `int` has no defined result in ISO C; the model
stores the low 32 bits, as glibc does. -/
def scan_int (s : List Char) : Option (Int × List Char) :=
  if s.head? = some MINUS then
    (if (s.tail.takeWhile Char.isDigit) = [] then none
     else some (wrap_int32 (-(digits_value (s.tail.takeWhile Char.isDigit) : Int)),
                s.tail.dropWhile Char.isDigit))
  else if s.head? = some PLUS then
    (if (s.tail.takeWhile Char.isDigit) = [] then none
     else some (wrap_int32 (digits_value (s.tail.takeWhile Char.isDigit) : Int),
                s.tail.dropWhile Char.isDigit))
  else
    (if (s.takeWhile Char.isDigit) = [] then none
     else some (wrap_int32 (digits_value (s.takeWhile Char.isDigit) : Int),
                s.dropWhile Char.isDigit))

/-- The call `sscanf(range, "%d:%d", start_pos, end_pos)` of libc (ISO C 7.21.6.2):
its return value and what it stores.  The return value is EOF (-1) when the input
ends before the first conversion, else the number of conversions stored: 0 when
the first `%d` meets no integer, 1 when the `:` or the second integer is missing,
2 when both were read. -/
def sscanf_range (range : List Char) : Int × Option Int × Option Int :=
  if range.dropWhile isspace = [] then (-1, none, none)
  else
    match scan_int (range.dropWhile isspace) with
    | none => (0, none, none)
    | some (start_pos, rest) =>
      if rest.head? = some COLON then
        match scan_int (rest.tail.dropWhile isspace) with
        | none => (1, some start_pos, none)
        | some (end_pos, _) => (2, some start_pos, some end_pos)
      else (1, some start_pos, none)

/-- A concrete surrounding of the parameter parsers with the `sscanf` above and a
player that plays the queue item with id 7 at position 3. -/
def penv1 : param_env where
  safe_atou32 := safe_atou32
  safe_atoi32 := safe_atoi32
  sscanf_range := sscanf_range
  player_stopped := false
  queue_item := some (7, 3)
  null_s := []
  null_q := "(NULL)".toList

/-! ## Queue commands -/

/-- A call into the queue of db.c together with its arguments. -/
inductive queue_call
  | db_queue_clear
  | db_queue_delete_bypos (pos count : Int)
  | db_queue_move_bypos (pos_from pos_to : Int)
  | db_queue_enum_start (filter : Option (List Char))
  deriving DecidableEq, Repr

/-- Modelled from the spec: the queue of db.c, which is not among the sources, over a
state `Q`.  `db_queue_delete_bypos` and `db_queue_move_bypos` give their return
value and the queue they leave.  `db_queue_enum` stands for `db_queue_enum_start`
on the given filter followed by the fetch loop of the handler: the return value of
`db_queue_enum_start`, the bytes `mpd_add_db_queue_item` writes for the items
fetched, and the `file_id` of the item for which it failed, if any. -/
structure queue_env (Q : Type) where
  db_queue_clear : Q → Q
  db_queue_delete_bypos : Q → Int → Int → Int × Q
  db_queue_move_bypos : Q → Int → Int → Int × Q
  db_queue_enum : Q → Option (List Char) → Int × List Char × Option Int

/-- What a queue handler leaves behind: its return value, the message stored in
`*errmsg`, the bytes appended to the output buffer, the calls it made into the
queue, in order, and the queue. -/
structure queue_result (Q : Type) where
  ret : Int
  errmsg : Option (List Char)
  out : List Char
  calls : List queue_call
  queue : Q

/-- Embedding of `mpd_command_delete`.  `start_pos` and `end_pos` are the contents of
the two locals at entry, which the C code does not initialise; they keep them
wherever `mpd_pars_range_arg` stores nothing. -/
def mpd_command_delete {Q : Type} (E : param_env) (D : queue_env Q) (start_pos end_pos : Int)
    (argv : List (List Char)) (q : Q) : queue_result Q :=
  if argv.length < 2 then
    { ret := 0, errmsg := none, out := [], calls := [queue_call.db_queue_clear],
      queue := D.db_queue_clear q }
  else if (mpd_pars_range_arg E (argv.getD 1 [])).1 < 0 then
    { ret := ACK_ERROR_ARG,
      errmsg := some ("Argument doesn\x27t convert to integer or range: \x27".toList
        ++ argv.getD 1 [] ++ "\x27".toList),
      out := [], calls := [], queue := q }
  else
    let s : Int := (mpd_pars_range_arg E (argv.getD 1 [])).2.1.getD start_pos
    let count : Int := (mpd_pars_range_arg E (argv.getD 1 [])).2.2.getD end_pos - s
    if (D.db_queue_delete_bypos q s count).1 < 0 then
      { ret := ACK_ERROR_UNKNOWN,
        errmsg := some ("Failed to remove ".toList ++ (toString count).toList
          ++ " songs starting at position ".toList ++ (toString s).toList),
        out := [], calls := [queue_call.db_queue_delete_bypos s count],
        queue := (D.db_queue_delete_bypos q s count).2 }
    else
      { ret := 0, errmsg := none, out := [],
        calls := [queue_call.db_queue_delete_bypos s count],
        queue := (D.db_queue_delete_bypos q s count).2 }

/-- The loop `while (count-- >= 0)` of `mpd_command_move`; `count` is the value the
test is about to read.  The result is `none` only if `fuel` passes do not end
the loop. -/
def mpd_command_move_loop {Q : Type} (D : queue_env Q) (start_pos pos : Int) :
    Nat → Int → Q → List queue_call → Option (queue_result Q)
  | 0, count, q, calls =>
    if 0 ≤ count then none
    else some { ret := 0, errmsg := none, out := [], calls := calls, queue := q }
  | fuel + 1, count, q, calls =>
    if 0 ≤ count then
      if (D.db_queue_move_bypos q start_pos pos).1 < 0 then
        some { ret := ACK_ERROR_UNKNOWN,
               errmsg := some ("Failed to move song at position ".toList
                 ++ (toString start_pos).toList ++ " to ".toList ++ (toString pos).toList),
               out := [],
               calls := calls ++ [queue_call.db_queue_move_bypos start_pos pos],
               queue := (D.db_queue_move_bypos q start_pos pos).2 }
      else
        mpd_command_move_loop D start_pos pos fuel (count - 1)
          (D.db_queue_move_bypos q start_pos pos).2
          (calls ++ [queue_call.db_queue_move_bypos start_pos pos])
    else some { ret := 0, errmsg := none, out := [], calls := calls, queue := q }

/-- Embedding of `mpd_command_move` for an `argv` that passed the minimum of three
arguments.  `start_pos` and `end_pos` are the contents of the two locals at
entry.  The loop is given `count + 2` passes. -/
def mpd_command_move {Q : Type} (E : param_env) (D : queue_env Q) (start_pos end_pos : Int)
    (argv : List (List Char)) (q : Q) : Option (queue_result Q) :=
  if (mpd_pars_range_arg E (argv.getD 1 [])).1 < 0 then
    some { ret := ACK_ERROR_ARG,
           errmsg := some ("Argument doesn\x27t convert to integer or range: \x27".toList
             ++ argv.getD 1 [] ++ "\x27".toList),
           out := [], calls := [], queue := q }
  else
    let s : Int := (mpd_pars_range_arg E (argv.getD 1 [])).2.1.getD start_pos
    let e : Int := (mpd_pars_range_arg E (argv.getD 1 [])).2.2.getD end_pos
    if (mpd_parse_cmd_position E (argv.getD 2 []) zero_cmd_params).1 ≠ 0 then
      some { ret := ACK_ERROR_ARG,
             errmsg := some ("Argument doesn\x27t convert to integer: \x27".toList
               ++ argv.getD 2 [] ++ "\x27".toList),
             out := [], calls := [], queue := q }
    else
      let pos : Int := (mpd_parse_cmd_position E (argv.getD 2 []) zero_cmd_params).2.pos
      if s ≤ pos ∧ e ≥ pos then
        some { ret := ACK_ERROR_ARG,
               errmsg := some ("Range overlaps with destination: ".toList
                 ++ (toString s).toList ++ "-".toList ++ (toString e).toList
                 ++ " -> ".toList ++ (toString pos).toList),
               out := [], calls := [], queue := q }
      else mpd_command_move_loop D s pos (e - s + 2).toNat (e - s) q []

/-- The call `db_mprintf("pos >= %d AND pos < %d", start_pos, end_pos)` of
`mpd_command_playlistinfo`: `%d` prints the decimal of the `int`. -/
def playlistinfo_filter (start_pos end_pos : Int) : List Char :=
  "pos >= ".toList ++ (toString start_pos).toList ++ " AND pos < ".toList
    ++ (toString end_pos).toList

/-- Embedding of `mpd_command_playlistinfo`.  The two locals start at 0 here.  The
message for a failed `db_queue_enum_start` prints `argv[1]` also when there is no such
argument; the model prints the empty string then. -/
def mpd_command_playlistinfo {Q : Type} (E : param_env) (D : queue_env Q)
    (argv : List (List Char)) (q : Q) : queue_result Q :=
  if 1 < argv.length ∧ (mpd_pars_range_arg E (argv.getD 1 [])).1 < 0 then
    { ret := ACK_ERROR_ARG,
      errmsg := some ("Argument doesn\x27t convert to integer or range: \x27".toList
        ++ argv.getD 1 [] ++ "\x27".toList),
      out := [], calls := [], queue := q }
  else
    let filter : Option (List Char) :=
      if 1 < argv.length then
        (if (mpd_pars_range_arg E (argv.getD 1 [])).2.1.getD 0 < 0 then none
         else some (playlistinfo_filter ((mpd_pars_range_arg E (argv.getD 1 [])).2.1.getD 0)
                      ((mpd_pars_range_arg E (argv.getD 1 [])).2.2.getD 0)))
      else none
    if (D.db_queue_enum q filter).1 < 0 then
      { ret := ACK_ERROR_ARG,
        errmsg := some ("Failed to start queue enum for command playlistinfo: \x27".toList
          ++ argv.getD 1 [] ++ "\x27".toList),
        out := [], calls := [queue_call.db_queue_enum_start filter], queue := q }
    else
      match (D.db_queue_enum q filter).2.2 with
      | some file_id =>
        { ret := ACK_ERROR_UNKNOWN,
          errmsg := some ("Error adding media info for file with id: ".toList
            ++ (toString file_id).toList),
          out := (D.db_queue_enum q filter).2.1,
          calls := [queue_call.db_queue_enum_start filter], queue := q }
      | none =>
        { ret := 0, errmsg := none, out := (D.db_queue_enum q filter).2.1,
          calls := [queue_call.db_queue_enum_start filter], queue := q }

/-- A queue for evaluations: every call succeeds and the enumeration is empty. -/
def queue0 : queue_env Unit where
  db_queue_clear := fun q => q
  db_queue_delete_bypos := fun q _ _ => (0, q)
  db_queue_move_bypos := fun q _ _ => (0, q)
  db_queue_enum := fun _ _ => (0, [], none)

/-! ## Audio outputs -/

/-- Modelled from the spec: the fields of `struct player_speaker_info` (player.h) that
the output handlers read. -/
structure player_speaker_info where
  id : Nat
  name : List Char
  output_type : List Char
  selected : Bool
  deriving DecidableEq, Repr

/-- The struct `output`. -/
structure output where
  shortid : Nat
  id : Nat
  name : List Char
  selected : Bool
  deriving DecidableEq, Repr

/-- The struct `output_get_param`; `output` is `none` for NULL.  `curid` and
`shortid` are `unsigned short`. -/
structure output_get_param where
  curid : Nat
  shortid : Nat
  output : Option output
  deriving DecidableEq, Repr

/-- Embedding of `output_get_cb`. -/
def output_get_cb (spk : player_speaker_info) (param : output_get_param) : output_get_param :=
  if param.output = none ∧ param.shortid = param.curid then
    { param with
      output := some { id := spk.id, shortid := param.shortid, name := spk.name,
                       selected := spk.selected },
      curid := (param.curid + 1) % 65536 }
  else param

/-- Modelled from the spec: `player_speaker_enumerate` (player.c) calls the callback
once for each speaker, in the order of the enumeration, with the same argument. -/
def player_speaker_enumerate {A : Type} (speakers : List player_speaker_info)
    (cb : player_speaker_info → A → A) (arg : A) : A :=
  speakers.foldl (fun a spk => cb spk a) arg

/-- The three statements every output setter starts its lookup with:
`memset(&param, 0, ...)`, `param.shortid = num` (a `uint32_t` stored into an
`unsigned short`) and `player_speaker_enumerate(output_get_cb, &param)`; the value
is `param.output`. -/
def output_get (speakers : List player_speaker_info) (num : Nat) : Option output :=
  (player_speaker_enumerate speakers output_get_cb
    { curid := 0, shortid := num % 65536, output := none }).output

/-- A call into the player together with its arguments. -/
inductive player_call
  | player_speaker_enable (id : Nat)
  | player_speaker_disable (id : Nat)
  | player_volume_setabs_speaker (id : Nat) (volume : Int)
  deriving DecidableEq, Repr

/-- Modelled from the spec: the speakers of player.c, which is not among the sources,
over a state `P`: the enumeration and the return values of the three setters. -/
structure player_env (P : Type) where
  speakers : P → List player_speaker_info
  player_speaker_enable : P → Nat → Int × P
  player_speaker_disable : P → Nat → Int × P
  player_volume_setabs_speaker : P → Nat → Int → Int × P

/-- What an output handler leaves behind. -/
structure output_result (P : Type) where
  ret : Int
  errmsg : Option (List Char)
  out : List Char
  calls : List player_call
  player : P

/-- Embedding of `mpd_command_enableoutput`. -/
def mpd_command_enableoutput {P : Type} (atou : List Char → Option Nat) (S : player_env P)
    (argv : List (List Char)) (p : P) : output_result P :=
  match atou (argv.getD 1 []) with
  | none =>
    { ret := ACK_ERROR_ARG,
      errmsg := some ("Argument doesn\x27t convert to integer: \x27".toList
        ++ argv.getD 1 [] ++ "\x27".toList),
      out := [], calls := [], player := p }
  | some num =>
    match output_get (S.speakers p) num with
    | some o =>
      if o.selected = false then
        { ret := if (S.player_speaker_enable p o.id).1 < 0 then ACK_ERROR_UNKNOWN else 0,
          errmsg := if (S.player_speaker_enable p o.id).1 < 0 then
                      some ("Speakers deactivation failed: ".toList ++ (toString num).toList)
                    else none,
          out := [], calls := [player_call.player_speaker_enable o.id],
          player := (S.player_speaker_enable p o.id).2 }
      else { ret := 0, errmsg := none, out := [], calls := [], player := p }
    | none => { ret := 0, errmsg := none, out := [], calls := [], player := p }

/-- Embedding of `mpd_command_disableoutput`. -/
def mpd_command_disableoutput {P : Type} (atou : List Char → Option Nat) (S : player_env P)
    (argv : List (List Char)) (p : P) : output_result P :=
  match atou (argv.getD 1 []) with
  | none =>
    { ret := ACK_ERROR_ARG,
      errmsg := some ("Argument doesn\x27t convert to integer: \x27".toList
        ++ argv.getD 1 [] ++ "\x27".toList),
      out := [], calls := [], player := p }
  | some num =>
    match output_get (S.speakers p) num with
    | some o =>
      if o.selected = true then
        { ret := if (S.player_speaker_disable p o.id).1 < 0 then ACK_ERROR_UNKNOWN else 0,
          errmsg := if (S.player_speaker_disable p o.id).1 < 0 then
                      some ("Speakers deactivation failed: ".toList ++ (toString num).toList)
                    else none,
          out := [], calls := [player_call.player_speaker_disable o.id],
          player := (S.player_speaker_disable p o.id).2 }
      else { ret := 0, errmsg := none, out := [], calls := [], player := p }
    | none => { ret := 0, errmsg := none, out := [], calls := [], player := p }

/-- Embedding of `mpd_command_toggleoutput`. -/
def mpd_command_toggleoutput {P : Type} (atou : List Char → Option Nat) (S : player_env P)
    (argv : List (List Char)) (p : P) : output_result P :=
  match atou (argv.getD 1 []) with
  | none =>
    { ret := ACK_ERROR_ARG,
      errmsg := some ("Argument doesn\x27t convert to integer: \x27".toList
        ++ argv.getD 1 [] ++ "\x27".toList),
      out := [], calls := [], player := p }
  | some num =>
    match output_get (S.speakers p) num with
    | some o =>
      if o.selected = true then
        { ret := if (S.player_speaker_disable p o.id).1 < 0 then ACK_ERROR_UNKNOWN else 0,
          errmsg := if (S.player_speaker_disable p o.id).1 < 0 then
                      some ("Toggle speaker failed: ".toList ++ (toString num).toList)
                    else none,
          out := [], calls := [player_call.player_speaker_disable o.id],
          player := (S.player_speaker_disable p o.id).2 }
      else
        { ret := if (S.player_speaker_enable p o.id).1 < 0 then ACK_ERROR_UNKNOWN else 0,
          errmsg := if (S.player_speaker_enable p o.id).1 < 0 then
                      some ("Toggle speaker failed: ".toList ++ (toString num).toList)
                    else none,
          out := [], calls := [player_call.player_speaker_enable o.id],
          player := (S.player_speaker_enable p o.id).2 }
    | none => { ret := 0, errmsg := none, out := [], calls := [], player := p }

/-- Embedding of `outputvolume_set`. -/
def outputvolume_set {P : Type} (S : player_env P) (shortid : Nat) (volume : Int) (p : P) :
    output_result P :=
  match output_get (S.speakers p) shortid with
  | some o =>
    { ret := if (S.player_volume_setabs_speaker p o.id volume).1 < 0 then ACK_ERROR_UNKNOWN
             else 0,
      errmsg := if (S.player_volume_setabs_speaker p o.id volume).1 < 0 then
                  some ("Setting volume to ".toList ++ (toString volume).toList
                    ++ " for speaker with short-id ".toList
                    ++ (toString (int_of_uint32 shortid)).toList ++ " failed".toList)
                else none,
      out := [], calls := [player_call.player_volume_setabs_speaker o.id volume],
      player := (S.player_volume_setabs_speaker p o.id volume).2 }
  | none =>
    { ret := ACK_ERROR_UNKNOWN,
      errmsg := some ("No speaker found for short id: ".toList
        ++ (toString (int_of_uint32 shortid)).toList),
      out := [], calls := [], player := p }

/-- Embedding of `mpd_command_outputvolume`. -/
def mpd_command_outputvolume {P : Type} (atou : List Char → Option Nat)
    (atoi : List Char → Option Int) (S : player_env P) (argv : List (List Char)) (p : P) :
    output_result P :=
  match atou (argv.getD 1 []) with
  | none =>
    { ret := ACK_ERROR_ARG,
      errmsg := some ("Argument doesn\x27t convert to integer: \x27".toList
        ++ argv.getD 1 [] ++ "\x27".toList),
      out := [], calls := [], player := p }
  | some shortid =>
    match atoi (argv.getD 2 []) with
    | none =>
      { ret := ACK_ERROR_ARG,
        errmsg := some ("Argument doesn\x27t convert to integer: \x27".toList
          ++ argv.getD 2 [] ++ "\x27".toList),
        out := [], calls := [], player := p }
    | some volume => outputvolume_set S shortid volume p

/-- The struct `output_outputs_param` with the bytes written to its buffer. -/
structure output_outputs_param where
  nextid : Nat
  buf : List Char
  deriving DecidableEq, Repr

/-- Embedding of `speaker_enum_cb`: the plugin name is the output type in lower case
with `_` for each space. -/
def speaker_enum_cb (spk : player_speaker_info) (param : output_outputs_param) :
    output_outputs_param :=
  { buf := param.buf ++ "outputid: ".toList ++ (toString param.nextid).toList
      ++ "\noutputname: ".toList ++ spk.name
      ++ "\nplugin: ".toList
      ++ spk.output_type.map (fun c => if c.toLower = SPACE then Char.ofNat 95 else c.toLower)
      ++ "\noutputenabled: ".toList ++ (if spk.selected then "1".toList else "0".toList)
      ++ "\n".toList,
    nextid := (param.nextid + 1) % 65536 }

/-- Embedding of `mpd_command_outputs`: the bytes written.  `mpd_plugin_httpd` is the
setting `mpd.enable_httpd_plugin`. -/
def mpd_command_outputs (mpd_plugin_httpd : Bool) (speakers : List player_speaker_info) :
    List Char :=
  (player_speaker_enumerate speakers speaker_enum_cb { nextid := 0, buf := [] }).buf
    ++ (if mpd_plugin_httpd then
          "outputid: ".toList
            ++ (toString (player_speaker_enumerate speakers speaker_enum_cb
                  { nextid := 0, buf := [] }).nextid).toList
            ++ "\noutputname: MP3 stream\nplugin: httpd\noutputenabled: 1\n".toList
        else [])

/-- The block that `outputs` writes for the speaker with the given short id. -/
def outputs_entry (shortid : Nat) (spk : player_speaker_info) : List Char :=
  (speaker_enum_cb spk { nextid := shortid, buf := [] }).buf

/-- Two speakers for evaluations, none of them selected. -/
def speakers0 : List player_speaker_info :=
  [ { id := 100, name := "Computer".toList, output_type := "ALSA".toList, selected := false },
    { id := 200, name := "Kitchen".toList, output_type := "AirPlay 2".toList, selected := false } ]

/-- A player for evaluations: the speakers above, and setters that succeed. -/
def player0 : player_env Unit where
  speakers := fun _ => speakers0
  player_speaker_enable := fun p _ => (0, p)
  player_speaker_disable := fun p _ => (0, p)
  player_volume_setabs_speaker := fun p _ _ => (0, p)

/-! ## Commands that add a query to the queue -/

/-- Modelled from the spec: the arguments of a call of `db_queue_add_by_query` (db.c)
that depend on the command line: the query and the position. -/
structure add_by_query where
  qp : query_params
  pos : Int
  deriving DecidableEq, Repr

/-- What `mpd_command_searchadd` and `mpd_command_findadd` leave behind: the return
value, the message, the parameters after `mpd_parse_cmd_params` (`none` when it
was not called), the call of `db_queue_add_by_query` (`none` when there was
none), and the ghost flag of the parse. -/
structure add_result where
  ret : Int
  errmsg : Option (List Char)
  params : Option mpd_cmd_params
  call : Option add_by_query
  undefined : Bool
  deriving DecidableEq, Repr

/-- The parameters `mpd_command_searchadd` and `mpd_command_findadd` set up: all zero,
then `exactmatch` (only in findadd) and
`params_allow = CMD_FILTER | CMD_SORT | CMD_WINDOW | CMD_POSITION`. -/
def add_cmd_params (exactmatch : Bool) : mpd_cmd_params :=
  { params_allow := CMD_FILTER ||| CMD_SORT ||| CMD_WINDOW ||| CMD_POSITION, params_set := 0,
    qp := { filter := none, group := none, idx_type := index_type.I_NONE,
            limit := some 0, offset := some 0 },
    groups := none, groupssize := 0, addgroupfilter := false, exactmatch := exactmatch, pos := 0 }

/-- The statements `mpd_command_searchadd` and `mpd_command_findadd` share once the
argument count was checked: the local `pos = -1`, the parse, and the call
`db_queue_add_by_query(qp, status.shuffle, status.item_id, pos, NULL, NULL)`, whose
return value is a parameter. -/
def add_by_query_tail (E : param_env) (db_queue_add_by_query : add_by_query → Int)
    (exactmatch : Bool) (argv : List (List Char)) : Option add_result :=
  match mpd_parse_cmd_params E argv.tail (add_cmd_params exactmatch) with
  | none => none
  | some r =>
    if db_queue_add_by_query { qp := r.param.qp, pos := -1 } < 0 then
      some { ret := ACK_ERROR_UNKNOWN, errmsg := some "Failed to add songs to playlist".toList,
             params := some r.param, call := some { qp := r.param.qp, pos := -1 },
             undefined := r.undefined }
    else
      some { ret := 0, errmsg := none, params := some r.param,
             call := some { qp := r.param.qp, pos := -1 }, undefined := r.undefined }

/-- Embedding of `mpd_command_searchadd`. -/
def mpd_command_searchadd (E : param_env) (db_queue_add_by_query : add_by_query → Int)
    (argv : List (List Char)) : Option add_result :=
  if argv.length < 2 then
    some { ret := ACK_ERROR_ARG, errmsg := some "Missing argument(s) for command \x27search\x27".toList,
           params := none, call := none, undefined := false }
  else add_by_query_tail E db_queue_add_by_query false argv

/-- Embedding of `mpd_command_findadd`. -/
def mpd_command_findadd (E : param_env) (db_queue_add_by_query : add_by_query → Int)
    (argv : List (List Char)) : Option add_result :=
  if argv.length < 3 ∨ (argv.length - 1) % 2 ≠ 0 then
    some { ret := ACK_ERROR_ARG, errmsg := some "Missing argument(s) for command \x27findadd\x27".toList,
           params := none, call := none, undefined := false }
  else add_by_query_tail E db_queue_add_by_query true argv

/-! ## The command `list` -/

/-- What `mpd_command_list` has done when it reaches `db_query_start`: `query` holds the
parameters whose `qp` it hands over, and is `none` when the handler returns
before. -/
structure list_result where
  ret : Int
  errmsg : Option (List Char)
  query : Option mpd_cmd_params
  undefined : Bool
  deriving DecidableEq, Repr

/-- Embedding of `mpd_command_list` up to its call of `db_query_start`. -/
def mpd_command_list (E : param_env) (argv : List (List Char)) : Option list_result :=
  if (argv.length < 2 ∨ argv.length % 2 ≠ 0)
      ∧ (argv.length ≠ 3 ∨ strcasecmp_eq (argv.getD 1 []) "album".toList = false) then
    some { ret := ACK_ERROR_ARG, errmsg := some "Missing argument(s) for command \x27list\x27".toList,
           query := none, undefined := false }
  else
    match find_tagtype (argv.getD 1 []) with
    | none => some { ret := 0, errmsg := none, query := none, undefined := false }
    | some tagtype =>
      if tagtype.type = MPD_TYPE_SPECIAL then
        some { ret := 0, errmsg := none, query := none, undefined := false }
      else
        (mpd_parse_cmd_params E (argv.drop 2)
          { params_allow := CMD_FILTER ||| CMD_GROUP, params_set := 0,
            qp := { filter := none, group := tagtype.group_field,
                    idx_type := index_type.I_NONE, limit := some 0, offset := some 0 },
            groups := none, groupssize := 0,
            addgroupfilter := tagtype.group_in_listcommand, exactmatch := false, pos := 0 }).map
          (fun r => { ret := 0, errmsg := none, query := some r.param,
                      undefined := r.undefined })

/-! ## Stickers -/

def ACK_ERROR_NO_EXIST : Int := 50

/-- Embedding of `prepend_slash`. -/
def prepend_slash (path : List Char) : List Char :=
  if path.head? = some (Char.ofNat 47) then path else Char.ofNat 47 :: path

/-- What `mpd_sticker_find` has done when it reaches `db_query_start`: `filter` is
`qp.filter`, `none` when the handler returns before.  `undefined` is set when
`rating_arg *= MPD_RATING_FACTOR` leaves the range of `uint32_t`, where the
conversion from `double` has no defined result. -/
structure sticker_result where
  ret : Int
  errmsg : Option (List Char)
  filter : Option (List Char)
  undefined : Bool
  deriving DecidableEq, Repr

/-- The call `db_mprintf("(f.virtual_path LIKE '%s%%' AND f.rating > 0 AND f.rating %s
%d)", virtual_path, operator, rating_arg)` of `mpd_sticker_find`: `%s` copies the
string, `%%` is a percent sign, `%d` prints the `uint32_t` as an `int`. -/
def sticker_find_filter (virtual_path operator : List Char) (rating_arg : Nat) : List Char :=
  "(f.virtual_path LIKE \x27".toList ++ virtual_path
    ++ "%\x27 AND f.rating > 0 AND f.rating ".toList ++ operator ++ " ".toList
    ++ (toString (int_of_uint32 rating_arg)).toList ++ ")".toList

/-- Embedding of `mpd_sticker_find` up to its call of `db_query_start`, for an `argv`
of at least five arguments. -/
def mpd_sticker_find (atou : List Char → Option Nat) (argv : List (List Char))
    (virtual_path : List Char) : sticker_result :=
  if argv.getD 4 [] ≠ "rating".toList then
    { ret := ACK_ERROR_NO_EXIST, errmsg := some "no such sticker".toList, filter := none,
      undefined := false }
  else if argv.length = 6 then
    { ret := ACK_ERROR_ARG, errmsg := some "not enough arguments for \x27sticker find\x27".toList,
      filter := none, undefined := false }
  else if argv.length > 6 then
    if argv.getD 5 [] ≠ "=".toList ∧ argv.getD 5 [] ≠ ">".toList ∧ argv.getD 5 [] ≠ "<".toList then
      { ret := ACK_ERROR_ARG,
        errmsg := some ("invalid operator \x27".toList ++ argv.getD 5 []
          ++ "\x27 given to \x27sticker find\x27".toList),
        filter := none, undefined := false }
    else
      match atou (argv.getD 6 []) with
      | none =>
        { ret := ACK_ERROR_ARG,
          errmsg := some ("rating \x27".toList ++ argv.getD 6 []
            ++ "\x27 doesn\x27t convert to integer".toList),
          filter := none, undefined := false }
      | some rating_arg =>
        { ret := 0, errmsg := none,
          filter := some (sticker_find_filter virtual_path (argv.getD 5 []) (rating_arg * 10)),
          undefined := decide (4294967296 ≤ rating_arg * 10) }
  else
    { ret := 0, errmsg := none,
      filter := some (sticker_find_filter virtual_path ">".toList 0), undefined := false }

/-- The rows of `mpd_sticker_handlers` without the handlers: command and minimum
argument count. -/
def mpd_sticker_handlers : List (List Char × Nat) :=
  [("get".toList, 5), ("set".toList, 6), ("delete".toList, 5), ("list".toList, 4),
   ("find".toList, 5)]

/-- Embedding of `mpd_command_sticker` for an `argv` that passed the minimum of four
arguments.  The handlers other than `mpd_sticker_find` work on the library and
are the parameter `other`, by the name of the sticker command. -/
def mpd_command_sticker (atou : List Char → Option Nat)
    (other : List Char → List (List Char) → List Char → sticker_result)
    (argv : List (List Char)) : sticker_result :=
  if argv.getD 2 [] ≠ "song".toList then
    { ret := ACK_ERROR_ARG, errmsg := some "unknown sticker domain".toList, filter := none,
      undefined := false }
  else
    match mpd_sticker_handlers.find? (fun c => decide (argv.getD 1 [] = c.1)) with
    | none =>
      { ret := ACK_ERROR_ARG, errmsg := some "bad request".toList, filter := none,
        undefined := false }
    | some cmd_param =>
      if argv.length < cmd_param.2 then
        { ret := ACK_ERROR_ARG, errmsg := some "not enough arguments".toList, filter := none,
          undefined := false }
      else if cmd_param.1 = "find".toList then
        mpd_sticker_find atou argv (prepend_slash (argv.getD 3 []))
      else other cmd_param.1 argv (prepend_slash (argv.getD 3 []))

/-- Library-backed sticker handlers for evaluations: they succeed. -/
def sticker_other0 : List Char → List (List Char) → List Char → sticker_result :=
  fun _ _ _ => { ret := 0, errmsg := none, filter := none, undefined := false }

/-- The filter the claim describes for a path: the path inside the literal with each
single quote doubled. -/
def sticker_filter_escaped (virtual_path operator : List Char) (rating_arg : Nat) : List Char :=
  sticker_find_filter (sql_escape virtual_path) operator rating_arg

/-! ## The command `albumart` -/

/-- Modelled from the spec: what `mpd_command_albumart` uses of db.c, artwork.c and
libevent: the item id for a path, whether `evbuffer_new` succeeds, the format
`artwork_get_item` returns for an item together with the image it stores, and the
value of `ART_FMT_PNG` (artwork.h). -/
structure albumart_env where
  db_file_id_byvirtualpath_match : List Char → Int
  evbuffer_new : Bool
  artwork_get_item : Int → Int × List Char
  ART_FMT_PNG : Int

/-- What `mpd_command_albumart` leaves behind: the indices at which it read `argv`, in
order, and its result; the result is `none` when it read an entry of `argv` at or
beyond `argc`, which `mpd_parse_args` never stored. -/
structure albumart_result where
  argv_read : List Nat
  result : Option handler_result
  deriving DecidableEq, Repr

/-- Embedding of `mpd_command_albumart`. -/
def mpd_command_albumart (A : albumart_env) (atou : List Char → Option Nat)
    (argv : List (List Char)) (ctx : mpd_client_ctx) : albumart_result :=
  if argv.length < 2 then
    { argv_read := [],
      result := some { ret := ACK_ERROR_ARG,
                       errmsg := some "Missing argument(s) for command \x27albumart\x27".toList,
                       out := [], ctx := ctx } }
  else if A.db_file_id_byvirtualpath_match (argv.getD 1 []) = 0 then
    { argv_read := [1],
      result := some { ret := ACK_ERROR_ARG, errmsg := some "Item not found".toList,
                       out := [], ctx := ctx } }
  else
    match argv.get? 2 with
    | none => { argv_read := [1, 2], result := none }
    | some arg2 =>
      match atou arg2 with
      | none =>
        { argv_read := [1, 2],
          result := some { ret := ACK_ERROR_ARG, errmsg := some "Illegal offset argument".toList,
                           out := [], ctx := ctx } }
      | some off =>
        if A.evbuffer_new = false then
          { argv_read := [1, 2],
            result := some { ret := ACK_ERROR_ARG, errmsg := some "Item not found".toList,
                             out := [], ctx := ctx } }
        else if (A.artwork_get_item
            (A.db_file_id_byvirtualpath_match (argv.getD 1 []))).1 < 0 then
          { argv_read := [1, 2],
            result := some { ret := ACK_ERROR_ARG, errmsg := some "Item was not found".toList,
                             out := [], ctx := ctx } }
        else if (A.artwork_get_item
            (A.db_file_id_byvirtualpath_match (argv.getD 1 []))).2.length = 0 then
          { argv_read := [1, 2],
            result := some { ret := ACK_ERROR_ARG,
                             errmsg := some "Item contains no data".toList,
                             out := [], ctx := ctx } }
        else
          { argv_read := [1, 2],
            result := some
              { ret := 0, errmsg := none,
                out := "type: ".toList
                  ++ (if (A.artwork_get_item
                        (A.db_file_id_byvirtualpath_match (argv.getD 1 []))).1 = A.ART_FMT_PNG
                      then "image/png".toList else "image/jpeg".toList)
                  ++ "\n".toList
                  ++ (mpd_write_binary_response ctx
                        (A.artwork_get_item
                          (A.db_file_id_byvirtualpath_match (argv.getD 1 []))).2 off).getD [],
                ctx := ctx } }

/-- A library for evaluations: every path names item 1, whose artwork is a JPEG of
three bytes. -/
def albumart0 : albumart_env where
  db_file_id_byvirtualpath_match := fun _ => 1
  evbuffer_new := true
  artwork_get_item := fun _ => (2, "abc".toList)
  ART_FMT_PNG := 1

/-! ## A client over time -/

/-- What can happen to a connected client: `mpd_read_cb` runs on the lines it sent,
one of the handlers `idle` and `noidle` runs on an argument list, or the listener
notifies it of events. -/
inductive client_step
  | read (input : List (List Char))
  | idle (argv : List (List Char))
  | noidle (argv : List (List Char))
  | notify (events : Nat)
  deriving DecidableEq, Repr

/-- The client context and the collaborators after one step. -/
def client_step.run {W : Type} (env : mpd_env W) (s : client_step) (c : mpd_client_ctx × W) :
    mpd_client_ctx × W :=
  match s with
  | client_step.read input =>
    ((mpd_read_cb env input c.1 c.2).client_ctx, (mpd_read_cb env input c.1 c.2).world)
  | client_step.idle argv => ((mpd_command_idle env.listener argv c.1).ctx, c.2)
  | client_step.noidle argv => ((mpd_command_noidle env.listener argv c.1).ctx, c.2)
  | client_step.notify events => ((mpd_notify_idle_client env.listener c.1 events).ctx, c.2)

/-- The client context and the collaborators after the given steps, in order. -/
def client_run {W : Type} (env : mpd_env W) (steps : List client_step)
    (c : mpd_client_ctx × W) : mpd_client_ctx × W :=
  steps.foldl (fun c s => s.run env c) c

/-- The invariant of a parked client: while `is_idle` is set, no pending event is in
the idle mask. -/
def parked_inv (c : mpd_client_ctx) : Prop :=
  c.is_idle = true → c.events &&& c.idle_events = 0

/-- A handler of the table keeps the invariant of the parked client. -/
def keeps_parked {W : Type} (h : handler_fn W) : Prop :=
  ∀ argv ctx w, parked_inv ctx → parked_inv (h argv ctx w).1.ctx

/-- A surrounding with the password `secret` configured, otherwise as `env0`. -/
def env_secret : mpd_env Unit where
  listener := listener_h
  password := some "secret".toList
  safe_atou32 := safe_atou32
  external := fun _ _ _ w => ({ ret := 0, errmsg := none, out := [] }, w)

/-- Whether a line is a `password` command: its first argument is that word. -/
def is_password_line (line : List Char) : Bool :=
  match mpd_parse_args line COMMAND_ARGV_MAX with
  | some (argv0 :: _) => decide (argv0 = "password".toList)
  | _ => false

theorem NUL_ne_DQUOTE : NUL ≠ DQUOTE := by decide
theorem NUL_ne_BACKSLASH : NUL ≠ BACKSLASH := by decide
theorem DQUOTE_ne_NUL : DQUOTE ≠ NUL := by decide
theorem DQUOTE_ne_SPACE : DQUOTE ≠ SPACE := by decide
theorem SPACE_ne_NUL : SPACE ≠ NUL := by decide
theorem BACKSLASH_ne_DQUOTE : BACKSLASH ≠ DQUOTE := by decide
theorem BACKSLASH_ne_NUL : BACKSLASH ≠ NUL := by decide

theorem mpd_pars_quoted_loop_dquote (rest : List Char) :
    mpd_pars_quoted_loop (DQUOTE :: rest) = some ([], rest) := by
  cases rest <;> simp [mpd_pars_quoted_loop]

theorem mpd_pars_quoted_loop_backslash (d : Char) (rest : List Char) (hd : d ≠ NUL) :
    mpd_pars_quoted_loop (BACKSLASH :: d :: rest)
      = (match mpd_pars_quoted_loop rest with
         | none => none
         | some (arg, input) => some (d :: arg, input)) := by
  simp [mpd_pars_quoted_loop, hd, BACKSLASH_ne_DQUOTE]

theorem mpd_pars_quoted_loop_plain (c : Char) (rest : List Char)
    (h1 : c ≠ DQUOTE) (h2 : c ≠ BACKSLASH) (h3 : c ≠ NUL) :
    mpd_pars_quoted_loop (c :: rest)
      = (match mpd_pars_quoted_loop rest with
         | none => none
         | some (arg, input) => some (c :: arg, input)) := by
  cases rest <;> simp [mpd_pars_quoted_loop, h1, h2, h3]

/-- The quoted-argument loop undoes `escape_quoted` and stops at the closing quote. -/
theorem mpd_pars_quoted_loop_escape (s rest : List Char) (hs : NUL ∉ s) :
    mpd_pars_quoted_loop (escape_quoted s ++ DQUOTE :: rest) = some (s, rest) := by
  induction s with
  | nil => simp [escape_quoted, mpd_pars_quoted_loop_dquote]
  | cons c t ih =>
    have hc : c ≠ NUL := fun h => hs (by simp [h])
    have ht : NUL ∉ t := fun h => hs (by simp [h])
    by_cases h1 : c = BACKSLASH
    · subst h1
      simp [escape_quoted, mpd_pars_quoted_loop_backslash, BACKSLASH_ne_NUL, ih ht]
    · by_cases h2 : c = DQUOTE
      · subst h2
        simp [escape_quoted, mpd_pars_quoted_loop_backslash, DQUOTE_ne_NUL, ih ht]
      · simp [escape_quoted, h1, h2, mpd_pars_quoted_loop_plain c _ h2 h1 hc, ih ht]

/-- One iteration of the tokenizer loop on a quoted token. -/
theorem mpd_parse_args_loop_quote (argvsz fuel : Nat) (s tail : List Char) (argv : List (List Char))
    (hs : NUL ∉ s) (hlen : argv.length < argvsz) :
    mpd_parse_args_loop argvsz (fuel + 1) (quote_token s ++ tail) argv
      = mpd_parse_args_loop argvsz fuel tail (argv ++ [s]) := by
  have hq : mpd_pars_quoted (DQUOTE :: (escape_quoted s ++ DQUOTE :: tail)) = some (s, tail) := by
    simp [mpd_pars_quoted, mpd_pars_quoted_loop_escape s tail hs]
  have hn : ¬ argvsz ≤ argv.length := by omega
  simp [quote_token, mpd_parse_args_loop, DQUOTE_ne_NUL, DQUOTE_ne_SPACE, hn, hq]

/-- One iteration of the tokenizer loop on a separating space. -/
theorem mpd_parse_args_loop_space (argvsz fuel : Nat) (tail : List Char) (argv : List (List Char))
    (hlen : argv.length < argvsz) :
    mpd_parse_args_loop argvsz (fuel + 1) (SPACE :: tail) argv
      = mpd_parse_args_loop argvsz fuel tail argv := by
  have hn : ¬ argvsz ≤ argv.length := by omega
  simp [mpd_parse_args_loop, SPACE_ne_NUL, hn]

theorem quote_token_length (s : List Char) : 2 ≤ (quote_token s).length := by
  simp [quote_token]

/-- The tokenizer loop on a line of quoted tokens, from any accumulated argv. -/
theorem mpd_parse_args_loop_quoted_line (argvsz : Nat) (strs : List (List Char)) :
    ∀ (fuel : Nat) (argv : List (List Char)),
      (∀ s ∈ strs, NUL ∉ s) → argv.length + strs.length ≤ argvsz →
      (quoted_line strs).length < fuel →
      mpd_parse_args_loop argvsz fuel (quoted_line strs) argv = some (argv ++ strs) := by
  induction strs with
  | nil =>
    intro fuel argv _ _ hf
    cases fuel with
    | zero => simp at hf
    | succ f => simp [quoted_line, mpd_parse_args_loop]
  | cons s rest ih =>
    intro fuel argv hs hlen hf
    have hs0 : NUL ∉ s := hs s (by simp)
    cases rest with
    | nil =>
      have h2 := quote_token_length s
      simp only [quoted_line] at hf ⊢
      obtain ⟨f, rfl⟩ : ∃ f, fuel = f + 2 := ⟨fuel - 2, by omega⟩
      have hl : argv.length < argvsz := by simp at hlen; omega
      have := mpd_parse_args_loop_quote argvsz (f + 1) s [] argv hs0 hl
      simp only [List.append_nil] at this
      rw [this]
      simp [mpd_parse_args_loop]
    | cons t rest2 =>
      have h2 := quote_token_length s
      simp only [quoted_line, List.length_append, List.length_cons] at hf ⊢
      obtain ⟨f, rfl⟩ : ∃ f, fuel = f + 2 := ⟨fuel - 2, by omega⟩
      simp only [List.length_cons] at hlen
      have hl : argv.length < argvsz := by omega
      rw [mpd_parse_args_loop_quote argvsz (f + 1) s _ argv hs0 hl]
      rw [mpd_parse_args_loop_space argvsz f _ _ (by simp; omega)]
      rw [ih f (argv ++ [s]) (fun x hx => hs x (by simp [hx])) (by simp; omega) (by omega)]
      simp

/-- C10: tokenizer round trip.  For every list of at most 37 strings without NUL,
the line made of their quoted tokens (each backslash and double quote escaped by
a backslash) joined by single spaces is parsed by `mpd_parse_args` with return
value 0 (`some`), argc the length of the list and argv the original strings in
order. -/
theorem mpd_parse_args_quoted_line_roundtrip (strs : List (List Char))
    (hlen : strs.length ≤ COMMAND_ARGV_MAX) (hnul : ∀ s ∈ strs, NUL ∉ s) :
    mpd_parse_args (quoted_line strs) COMMAND_ARGV_MAX = some strs := by
  have := mpd_parse_args_loop_quoted_line COMMAND_ARGV_MAX strs
    ((quoted_line strs).length + 1) [] hnul (by simpa using hlen) (by omega)
  simpa [mpd_parse_args] using this

/-- Witness of C10 on three strings holding a quote, a backslash and nothing. -/
theorem mpd_parse_args_quoted_line_roundtrip_witness :
    [[DQUOTE, SPACE], [BACKSLASH], []].length ≤ COMMAND_ARGV_MAX ∧
    (∀ s ∈ [[DQUOTE, SPACE], [BACKSLASH], []], NUL ∉ s) ∧
    mpd_parse_args (quoted_line [[DQUOTE, SPACE], [BACKSLASH], []]) COMMAND_ARGV_MAX
      = some [[DQUOTE, SPACE], [BACKSLASH], []] :=
  ⟨by decide, by decide,
    mpd_parse_args_quoted_line_roundtrip [[DQUOTE, SPACE], [BACKSLASH], []] (by decide) (by decide)⟩


/-! ## Idle subscription and notifier -/

theorem or_eq_zero_iff (x y : Nat) : x ||| y = 0 ↔ x = 0 ∧ y = 0 := by
  constructor
  · intro h
    have hb : ∀ i, (x.testBit i || y.testBit i) = false := by
      intro i
      rw [← Nat.testBit_or, h, Nat.zero_testBit]
    constructor
    · apply Nat.eq_of_testBit_eq
      intro i
      have := hb i
      simp only [Bool.or_eq_false_iff] at this
      simp [this.1]
    · apply Nat.eq_of_testBit_eq
      intro i
      have := hb i
      simp only [Bool.or_eq_false_iff] at this
      simp [this.2]
  · rintro ⟨rfl, rfl⟩
    simp

/-- A class is set in the union of two event masks iff it is set in one of them. -/
theorem class_in_or (e1 e2 mask : Nat) :
    class_in (e1 ||| e2) mask = (class_in e1 mask || class_in e2 mask) := by
  simp only [class_in, Nat.and_distrib_right]
  by_cases h1 : e1 &&& mask = 0 <;> by_cases h2 : e2 &&& mask = 0 <;>
    simp [or_eq_zero_iff, h1, h2]

/-- The nine conditional statements of the notifier write the drain of the spec. -/
theorem changed_lines_eq (L : listener_event_type) (events : Nat) :
    changed_lines L events = changed_text (idle_classes L) (class_in events) := by
  simp only [changed_lines, changed_line, idle_classes, changed_text, class_in,
    decide_eq_true_eq, List.append_nil, List.append_assoc]
  rfl

/-- The `strcmp` chain of `idle` adds exactly the class the argument names. -/
theorem mpd_command_idle_arg_eq (L : listener_event_type) (m : Nat) (a : List Char) :
    mpd_command_idle_arg L m a = m ||| class_mask L a := by
  unfold mpd_command_idle_arg class_mask idle_classes
  simp only [List.find?]
  split_ifs <;> simp_all

theorem mpd_command_idle_fold_eq (L : listener_event_type) (args : List (List Char)) (m : Nat) :
    args.foldl (mpd_command_idle_arg L) m = args.foldl (fun m a => m ||| class_mask L a) m := by
  induction args generalizing m with
  | nil => rfl
  | cons a t ih => simp only [List.foldl_cons, mpd_command_idle_arg_eq, ih]

theorem MPD_ALL_IDLE_LISTENER_EVENTS_eq (L : listener_event_type) :
    MPD_ALL_IDLE_LISTENER_EVENTS L = (idle_classes L).foldl (fun m c => m ||| c.1) 0 := by
  simp only [MPD_ALL_IDLE_LISTENER_EVENTS, idle_classes, List.foldl_cons, List.foldl_nil,
    Nat.zero_or]
  apply Nat.eq_of_testBit_eq
  intro i
  simp only [Nat.testBit_or]
  cases L.LISTENER_PLAYER.testBit i <;> cases L.LISTENER_QUEUE.testBit i <;>
    cases L.LISTENER_VOLUME.testBit i <;> cases L.LISTENER_SPEAKER.testBit i <;>
    cases L.LISTENER_OPTIONS.testBit i <;> cases L.LISTENER_DATABASE.testBit i <;>
    cases L.LISTENER_UPDATE.testBit i <;> cases L.LISTENER_STORED_PLAYLIST.testBit i <;>
    cases L.LISTENER_RATING.testBit i <;> rfl

/-- The mask `mpd_command_idle` computes is the idle mask of the spec. -/
theorem mpd_command_idle_mask (L : listener_event_type) (argv : List (List Char)) :
    (if argv.length > 1 then (argv.drop 1).foldl (mpd_command_idle_arg L) 0
     else MPD_ALL_IDLE_LISTENER_EVENTS L) = idle_mask L argv := by
  unfold idle_mask
  by_cases h : argv.length > 1
  · have h2 : ¬ argv.length ≤ 1 := by omega
    simp only [h, h2, if_true, if_false, mpd_command_idle_fold_eq]
  · have h2 : argv.length ≤ 1 := by omega
    simp only [h, h2, if_true, if_false, MPD_ALL_IDLE_LISTENER_EVENTS_eq]

/-- What `mpd_command_idle` does, in terms of the idle mask of the spec. -/
theorem mpd_command_idle_eq (L : listener_event_type) (argv : List (List Char))
    (ctx : mpd_client_ctx) :
    mpd_command_idle L argv ctx =
      if ctx.events &&& idle_mask L argv ≠ 0 then
        { ret := 0, errmsg := none, out := drain_response L (class_in ctx.events),
          ctx := { ctx with is_idle := false, idle_events := 0, events := 0 } }
      else
        { ret := 0, errmsg := none, out := [],
          ctx := { ctx with is_idle := true, idle_events := idle_mask L argv } } := by
  have hm := mpd_command_idle_mask L argv
  by_cases hlen : argv.length > 1
  · simp only [hlen, if_true, List.drop_one] at hm
    by_cases h : ctx.events &&& idle_mask L argv = 0
    · simp [mpd_command_idle, hlen, hm, h]
    · have h2 : ¬ (idle_mask L argv &&& ctx.events = 0) := by rwa [Nat.and_comm]
      simp [mpd_command_idle, hlen, hm, h, h2, mpd_notify_idle_client, drain_response,
        changed_lines_eq]
  · simp only [hlen, if_false] at hm
    by_cases h : ctx.events &&& idle_mask L argv = 0
    · simp [mpd_command_idle, hlen, hm, h]
    · have h2 : ¬ (idle_mask L argv &&& ctx.events = 0) := by rwa [Nat.and_comm]
      simp [mpd_command_idle, hlen, hm, h, h2, mpd_notify_idle_client, drain_response,
        changed_lines_eq]

/-- Whenever events are pending, `noidle` writes nothing: for a client that is not idle
the notifier only merges, and for a parked client (whose pending events are
disjoint from its idle mask) the notifier returns at its second guard. -/
theorem mpd_command_noidle_pending_silent (L : listener_event_type) (argv : List (List Char))
    (ctx : mpd_client_ctx) (hpending : ctx.events ≠ 0)
    (hparked : ctx.is_idle = true → ctx.idle_events &&& ctx.events = 0) :
    (mpd_command_noidle L argv ctx).out = [] := by
  cases hi : ctx.is_idle with
  | false => simp [mpd_command_noidle, mpd_notify_idle_client, hpending, hi]
  | true => simp [mpd_command_noidle, mpd_notify_idle_client, hpending, hi, hparked hi]

/-- C6, the code at a state the claim covers: a client that is parked on the player
class with a mixer event pending (pending events non-empty) sends `noidle`.  The
handler writes nothing at all, neither a drain nor `OK`, and `mpd_read_cb` adds
nothing either; the pending event stays pending. -/
theorem mpd_command_noidle_pending_writes_nothing :
    parked_with_pending.is_idle = true ∧ parked_with_pending.events ≠ 0 ∧
    (mpd_command_noidle listener_h ["noidle".toList] parked_with_pending).out = [] ∧
    (mpd_command_noidle listener_h ["noidle".toList] parked_with_pending).ctx.events ≠ 0 ∧
    (mpd_command_noidle listener_h ["noidle".toList] parked_with_pending).ctx.is_idle = false ∧
    (mpd_read_cb env0 ["noidle".toList] parked_with_pending ()).output = [] := by
  decide

/-- C7 as stated fails: a client parked on the player class receives a mixer event,
which is in no class of its idle mask; the event is not merged into the pending
events. -/
theorem mpd_notify_idle_client_not_merged :
    parked_on_player.is_idle = true ∧
    parked_on_player.idle_events &&& listener_h.LISTENER_VOLUME = 0 ∧
    (mpd_notify_idle_client listener_h parked_on_player listener_h.LISTENER_VOLUME).ctx.events
      ≠ parked_on_player.events ||| listener_h.LISTENER_VOLUME := by
  decide

/-- C7 amended: for every client and every event mask E delivered through
`mpd_notify_idle_client`: if the client is not idle, E is merged into its pending
events and nothing is written; if the client is idle and E has no class in its
idle mask, nothing is written and the client is left as it was (E is not
merged); otherwise a drain of E is written and is_idle, idle_events and events
are cleared. -/
theorem mpd_notify_idle_client_cases (L : listener_event_type) (ctx : mpd_client_ctx) (E : Nat) :
    (ctx.is_idle = false →
      (mpd_notify_idle_client L ctx E).out = [] ∧
      (mpd_notify_idle_client L ctx E).ctx = { ctx with events := ctx.events ||| E }) ∧
    (ctx.is_idle = true → ctx.idle_events &&& E = 0 →
      (mpd_notify_idle_client L ctx E).out = [] ∧
      (mpd_notify_idle_client L ctx E).ctx = ctx) ∧
    (ctx.is_idle = true → ctx.idle_events &&& E ≠ 0 →
      (mpd_notify_idle_client L ctx E).out = drain_response L (class_in E) ∧
      (mpd_notify_idle_client L ctx E).ctx
        = { ctx with is_idle := false, idle_events := 0, events := 0 }) := by
  refine ⟨?_, ?_, ?_⟩
  · intro h
    simp [mpd_notify_idle_client, h]
  · intro h1 h2
    simp [mpd_notify_idle_client, h1, h2]
  · intro h1 h2
    simp [mpd_notify_idle_client, h1, h2, drain_response, changed_lines_eq]

/-- Witness of C7 amended: a fresh client (not idle), a client parked on the player
class receiving a mixer event, and the same client receiving a player event. -/
theorem mpd_notify_idle_client_cases_witness :
    ((mpd_notify_idle_client listener_h (new_client true) 4).out = [] ∧
      (mpd_notify_idle_client listener_h (new_client true) 4).ctx
        = { new_client true with events := (new_client true).events ||| 4 }) ∧
    ((mpd_notify_idle_client listener_h parked_on_player 4).out = [] ∧
      (mpd_notify_idle_client listener_h parked_on_player 4).ctx = parked_on_player) ∧
    ((mpd_notify_idle_client listener_h parked_on_player 1).out
        = drain_response listener_h (class_in 1) ∧
      (mpd_notify_idle_client listener_h parked_on_player 1).ctx
        = { parked_on_player with is_idle := false, idle_events := 0, events := 0 }) :=
  ⟨(mpd_notify_idle_client_cases listener_h (new_client true) 4).1 (by decide),
   (mpd_notify_idle_client_cases listener_h parked_on_player 4).2.1 (by decide) (by decide),
   (mpd_notify_idle_client_cases listener_h parked_on_player 1).2.2 (by decide) (by decide)⟩

/-- C8 as stated fails: a fresh client receives the mixer event twice and sends
`idle player`.  Nothing is written and the client is parked; the next drain
written to it, on a player event, has the line of the player class and not the
line of the mixer class the claim promises. -/
theorem mpd_command_idle_pending_lost :
    (new_client true).is_idle = false ∧ (new_client true).events = 0 ∧
    (mpd_command_idle listener_h ["idle".toList, "player".toList]
      (mpd_notify_idle_client listener_h
        (mpd_notify_idle_client listener_h (new_client true) listener_h.LISTENER_VOLUME).ctx
        listener_h.LISTENER_VOLUME).ctx).out = [] ∧
    (mpd_notify_idle_client listener_h
      (mpd_command_idle listener_h ["idle".toList, "player".toList]
        (mpd_notify_idle_client listener_h
          (mpd_notify_idle_client listener_h (new_client true) listener_h.LISTENER_VOLUME).ctx
          listener_h.LISTENER_VOLUME).ctx).ctx
      listener_h.LISTENER_PLAYER).out = "changed: player\nOK\n".toList ∧
    drain_response listener_h
      (fun m => class_in listener_h.LISTENER_VOLUME m || class_in listener_h.LISTENER_VOLUME m)
      = "changed: mixer\nOK\n".toList := by
  decide

/-- C8 amended: for every client that is not idle and has no pending events, after it
receives event masks E1 and then E2 (nothing is written for either) and then
issues an `idle` command whose idle mask has a class of E1 ∪ E2 (as `idle`
without arguments has whenever E1 ∪ E2 holds one of the nine classes), that
`idle` command itself writes the drain: exactly one `changed:` line for each
class in E1 ∪ E2 and for no other class, in canonical order, followed by `OK`. -/
theorem mpd_command_idle_after_events (L : listener_event_type) (ctx : mpd_client_ctx)
    (E1 E2 : Nat) (argv : List (List Char))
    (hidle : ctx.is_idle = false) (hpending : ctx.events = 0)
    (hmask : (E1 ||| E2) &&& idle_mask L argv ≠ 0) :
    (mpd_notify_idle_client L ctx E1).out = [] ∧
    (mpd_notify_idle_client L (mpd_notify_idle_client L ctx E1).ctx E2).out = [] ∧
    (mpd_command_idle L argv
      (mpd_notify_idle_client L (mpd_notify_idle_client L ctx E1).ctx E2).ctx).out
      = drain_response L (fun m => class_in E1 m || class_in E2 m) := by
  have hc : (mpd_notify_idle_client L (mpd_notify_idle_client L ctx E1).ctx E2).ctx
      = { ctx with events := E1 ||| E2 } := by
    simp [mpd_notify_idle_client, hidle, hpending]
  refine ⟨by simp [mpd_notify_idle_client, hidle], by simp [mpd_notify_idle_client, hidle], ?_⟩
  rw [hc, mpd_command_idle_eq]
  simp only [hmask, ne_eq, not_false_eq_true, if_true]
  congr 1
  funext m
  exact class_in_or E1 E2 m

/-- Witness of C8 amended: a database event, then a mixer event, then `idle mixer`. -/
theorem mpd_command_idle_after_events_witness :
    (mpd_notify_idle_client listener_h (new_client true) 32).out = [] ∧
    (mpd_notify_idle_client listener_h
      (mpd_notify_idle_client listener_h (new_client true) 32).ctx 4).out = [] ∧
    (mpd_command_idle listener_h ["idle".toList, "mixer".toList]
      (mpd_notify_idle_client listener_h
        (mpd_notify_idle_client listener_h (new_client true) 32).ctx 4).ctx).out
      = drain_response listener_h (fun m => class_in 32 m || class_in 4 m) :=
  mpd_command_idle_after_events listener_h (new_client true) 32 4
    ["idle".toList, "mixer".toList] (by decide) (by decide) (by decide)

/-- C9: for every client state and every `idle [classes...]` command, with M the
union of the named classes (all nine when no argument is given): the handler
returns 0; if the pending events intersect M a drain of the pending events is
written at once and afterwards is_idle = false, idle_events = 0 and events = 0;
otherwise nothing is written and the client is left with is_idle = true and
idle mask M.  Scenario: `idle player mixer` with the mixer event pending writes
`changed: mixer`, `OK` and leaves the client unparked. -/
theorem mpd_command_idle_arms_or_drains (L : listener_event_type) (argv : List (List Char))
    (ctx : mpd_client_ctx) :
    (mpd_command_idle L argv ctx).ret = 0 ∧
    (ctx.events &&& idle_mask L argv ≠ 0 →
      (mpd_command_idle L argv ctx).out = drain_response L (class_in ctx.events) ∧
      (mpd_command_idle L argv ctx).ctx
        = { ctx with is_idle := false, idle_events := 0, events := 0 }) ∧
    (ctx.events &&& idle_mask L argv = 0 →
      (mpd_command_idle L argv ctx).out = [] ∧
      (mpd_command_idle L argv ctx).ctx
        = { ctx with is_idle := true, idle_events := idle_mask L argv }) ∧
    ((mpd_command_idle listener_h ["idle".toList, "player".toList, "mixer".toList]
        { new_client true with events := listener_h.LISTENER_VOLUME }).out
        = "changed: mixer\nOK\n".toList ∧
      (mpd_command_idle listener_h ["idle".toList, "player".toList, "mixer".toList]
        { new_client true with events := listener_h.LISTENER_VOLUME }).ctx.is_idle = false) := by
  rw [mpd_command_idle_eq]
  refine ⟨by split_ifs <;> rfl, ?_, ?_, by decide⟩
  · intro h
    simp [h]
  · intro h
    simp [h]

/-- Witness of C9: `idle mixer` with a database and a mixer event pending drains, and
`idle player` with the same pending events parks. -/
theorem mpd_command_idle_arms_or_drains_witness :
    ((mpd_command_idle listener_h ["idle".toList, "mixer".toList]
        { new_client true with events := 36 }).out = drain_response listener_h (class_in 36) ∧
      (mpd_command_idle listener_h ["idle".toList, "mixer".toList]
        { new_client true with events := 36 }).ctx
        = { new_client true with is_idle := false, idle_events := 0, events := 0 }) ∧
    ((mpd_command_idle listener_h ["idle".toList, "player".toList]
        { new_client true with events := 36 }).out = [] ∧
      (mpd_command_idle listener_h ["idle".toList, "player".toList]
        { new_client true with events := 36 }).ctx
        = { new_client true with
            events := 36, is_idle := true,
            idle_events := idle_mask listener_h ["idle".toList, "player".toList] }) :=
  ⟨(mpd_command_idle_arms_or_drains listener_h ["idle".toList, "mixer".toList]
      { new_client true with events := 36 }).2.1 (by decide),
   (mpd_command_idle_arms_or_drains listener_h ["idle".toList, "player".toList]
      { new_client true with events := 36 }).2.2.1 (by decide)⟩


/-! ## Connection engine -/

/-- One iteration of the loop of `mpd_read_cb` on a line that is dispatched. -/
theorem mpd_read_cb_loop_command {W : Type} (env : mpd_env W) (line : List Char)
    (input : List (List Char)) (v : read_cb_vars W) (name : List Char) (args : List (List Char))
    (hparse : mpd_parse_args line COMMAND_ARGV_MAX = some (name :: args))
    (hctl : name ∉ list_control_words) :
    mpd_read_cb_loop env (line :: input) v =
      if (mpd_read_cb_dispatch env (name :: args) v.client_ctx v.world).ret ≠ 0 then
        (input,
          { v with
            ret := (mpd_read_cb_dispatch env (name :: args) v.client_ctx v.world).ret,
            idle_cmd := (if name = "idle".toList then true
                         else if name = "noidle".toList then true else v.idle_cmd),
            close_cmd := (if name = "idle".toList then v.close_cmd
                          else if name = "noidle".toList then v.close_cmd
                          else if name = "close".toList then true else v.close_cmd),
            client_ctx := (mpd_read_cb_dispatch env (name :: args) v.client_ctx v.world).ctx,
            world := (mpd_read_cb_dispatch env (name :: args) v.client_ctx v.world).world,
            handled := (if (mpd_read_cb_dispatch env (name :: args) v.client_ctx v.world).invoked
                        then v.handled ++ [name :: args] else v.handled),
            errmsg_unset := (v.errmsg_unset ||
              (mpd_read_cb_dispatch env (name :: args) v.client_ctx v.world).errmsg.isNone),
            output := v.output
              ++ (mpd_read_cb_dispatch env (name :: args) v.client_ctx v.world).out
              ++ ack_line (mpd_read_cb_dispatch env (name :: args) v.client_ctx v.world).ret
                   v.ncmd name
                   ((mpd_read_cb_dispatch env (name :: args) v.client_ctx v.world).errmsg.getD []) })
      else
        mpd_read_cb_loop env input
          { v with
            ret := (mpd_read_cb_dispatch env (name :: args) v.client_ctx v.world).ret,
            idle_cmd := (if name = "idle".toList then true
                         else if name = "noidle".toList then true else v.idle_cmd),
            close_cmd := (if name = "idle".toList then v.close_cmd
                          else if name = "noidle".toList then v.close_cmd
                          else if name = "close".toList then true else v.close_cmd),
            client_ctx := (mpd_read_cb_dispatch env (name :: args) v.client_ctx v.world).ctx,
            world := (mpd_read_cb_dispatch env (name :: args) v.client_ctx v.world).world,
            handled := (if (mpd_read_cb_dispatch env (name :: args) v.client_ctx v.world).invoked
                        then v.handled ++ [name :: args] else v.handled),
            ncmd := v.ncmd + 1,
            output := v.output
              ++ (mpd_read_cb_dispatch env (name :: args) v.client_ctx v.world).out
              ++ (if v.listtype = command_list_type.COMMAND_LIST_OK then "list_OK\n".toList
                  else if v.listtype = command_list_type.COMMAND_LIST_NONE
                          ∧ (if name = "idle".toList then true
                             else if name = "noidle".toList then true else v.idle_cmd) = false
                          ∧ (if name = "idle".toList then v.close_cmd
                             else if name = "noidle".toList then v.close_cmd
                             else if name = "close".toList then true else v.close_cmd) = false
                       then "OK\n".toList
                  else []) } := by
  have h1 : name ≠ "command_list_ok_begin".toList := fun h => hctl (by simp [list_control_words, h])
  have h2 : name ≠ "command_list_begin".toList := fun h => hctl (by simp [list_control_words, h])
  have h3 : name ≠ "command_list_end".toList := fun h => hctl (by simp [list_control_words, h])
  rw [mpd_read_cb_loop]
  simp only [hparse, h1, h2, h3, if_false]

/-- Command lines in front of a block: when the lines `pre` tokenize to commands that are
no list control words and all succeed, they leave the loop of `mpd_read_cb` in a
state whose counter `ncmd` has advanced by their number. -/
theorem mpd_read_cb_loop_prefix {W : Type} (env : mpd_env W) :
    ∀ (pargvs : List (List (List Char))) (pre : List (List Char)) (v0 : read_cb_vars W),
      pre.map (fun l => mpd_parse_args l COMMAND_ARGV_MAX) = pargvs.map some →
      (∀ argv ∈ pargvs, ∃ name args, argv = name :: args ∧ name ∉ list_control_words) →
      (∀ r ∈ run_commands env pargvs v0.client_ctx v0.world, r.ret = 0) →
      ∃ v, (∀ rest, mpd_read_cb_loop env (pre ++ rest) v0 = mpd_read_cb_loop env rest v) ∧
        v.ncmd = v0.ncmd + pargvs.length := by
  intro pargvs
  induction pargvs with
  | nil =>
    intro pre v0 hparse _ _
    have hl : pre = [] := by simpa using hparse
    subst hl
    exact ⟨v0, fun _ => rfl, rfl⟩
  | cons argv pargvs ih =>
    intro pre v0 hparse hcmd hret
    cases pre with
    | nil => simp at hparse
    | cons line pre =>
      simp only [List.map_cons, List.cons.injEq] at hparse
      obtain ⟨name, args, rfl, hctl⟩ := hcmd argv (by simp)
      have hr0 : (mpd_read_cb_dispatch env (name :: args) v0.client_ctx v0.world).ret = 0 := by
        apply hret
        simp only [run_commands]
        split_ifs <;> simp
      have hrun : run_commands env ((name :: args) :: pargvs) v0.client_ctx v0.world
          = mpd_read_cb_dispatch env (name :: args) v0.client_ctx v0.world ::
            run_commands env pargvs
              (mpd_read_cb_dispatch env (name :: args) v0.client_ctx v0.world).ctx
              (mpd_read_cb_dispatch env (name :: args) v0.client_ctx v0.world).world := by
        simp only [run_commands, hr0, if_true]
      rw [hrun] at hret
      obtain ⟨v, hv, hn⟩ := ih pre
        { v0 with
          ret := (mpd_read_cb_dispatch env (name :: args) v0.client_ctx v0.world).ret,
          idle_cmd := (if name = "idle".toList then true
                       else if name = "noidle".toList then true else v0.idle_cmd),
          close_cmd := (if name = "idle".toList then v0.close_cmd
                        else if name = "noidle".toList then v0.close_cmd
                        else if name = "close".toList then true else v0.close_cmd),
          client_ctx := (mpd_read_cb_dispatch env (name :: args) v0.client_ctx v0.world).ctx,
          world := (mpd_read_cb_dispatch env (name :: args) v0.client_ctx v0.world).world,
          handled := (if (mpd_read_cb_dispatch env (name :: args) v0.client_ctx v0.world).invoked
                      then v0.handled ++ [name :: args] else v0.handled),
          ncmd := v0.ncmd + 1,
          output := v0.output
            ++ (mpd_read_cb_dispatch env (name :: args) v0.client_ctx v0.world).out
            ++ (if v0.listtype = command_list_type.COMMAND_LIST_OK then "list_OK\n".toList
                else if v0.listtype = command_list_type.COMMAND_LIST_NONE
                        ∧ (if name = "idle".toList then true
                           else if name = "noidle".toList then true else v0.idle_cmd) = false
                        ∧ (if name = "idle".toList then v0.close_cmd
                           else if name = "noidle".toList then v0.close_cmd
                           else if name = "close".toList then true else v0.close_cmd) = false
                     then "OK\n".toList
                else []) }
        hparse.2 (fun a ha => hcmd a (by simp [ha]))
        (fun r hr => hret r (by simp [hr]))
      refine ⟨v, ?_, ?_⟩
      · intro rest
        rw [List.cons_append,
          mpd_read_cb_loop_command env line _ v0 name args hparse.1 hctl, if_neg (by simp [hr0])]
        exact hv rest
      · rw [hn]
        simp only [List.length_cons]
        omega

/-- C1, the code at an input the claim covers: an authenticated client sends `noidle`
and `ping` in one invocation.  The handler of `ping` returns 0 and `ping` alone
is answered `OK`, but after `noidle` in the same invocation the flag `idle_cmd`
is still set and no `OK` is appended for `ping`: the whole response is the one
`OK` written by `noidle`. -/
theorem mpd_read_cb_ok_missing_after_noidle :
    (mpd_read_cb_dispatch env0 ["ping".toList] (new_client true) ()).ret = 0 ∧
    (mpd_read_cb env0 ["ping".toList] (new_client true) ()).output = "OK\n".toList ∧
    (mpd_read_cb env0 ["noidle".toList] (new_client true) ()).output = "OK\n".toList ∧
    (mpd_read_cb env0 ["noidle".toList, "ping".toList] (new_client true) ()).handled
      = [["noidle".toList], ["ping".toList]] ∧
    (mpd_read_cb env0 ["noidle".toList, "ping".toList] (new_client true) ()).output
      = "OK\n".toList := by
  decide

/-- C3, the code at an input the claim covers: a list whose command 0 is unknown.  The
first invocation writes the ACK and leaves `ping` and `command_list_end` in the
input buffer.  When the next line of the client, `status`, arrives, the next
invocation finds the two left-over lines before it: it dispatches `ping` to its
handler and answers `OK` twice (once for `ping`, once for the list end), and
leaves `status` unread. -/
theorem mpd_read_cb_failed_list_rest_dispatched :
    (mpd_read_cb env0 ["command_list_begin".toList, "foo".toList, "ping".toList,
        "command_list_end".toList] (new_client true) ()).output
      = "ACK [5@0] \x7bfoo\x7d Unsupported command \x27foo\x27\n".toList ∧
    (mpd_read_cb env0 ["command_list_begin".toList, "foo".toList, "ping".toList,
        "command_list_end".toList] (new_client true) ()).input
      = ["ping".toList, "command_list_end".toList] ∧
    (mpd_read_cb env0
      ((mpd_read_cb env0 ["command_list_begin".toList, "foo".toList, "ping".toList,
        "command_list_end".toList] (new_client true) ()).input ++ ["status".toList])
      (mpd_read_cb env0 ["command_list_begin".toList, "foo".toList, "ping".toList,
        "command_list_end".toList] (new_client true) ()).client_ctx ()).handled
      = [["ping".toList]] ∧
    (mpd_read_cb env0
      ((mpd_read_cb env0 ["command_list_begin".toList, "foo".toList, "ping".toList,
        "command_list_end".toList] (new_client true) ()).input ++ ["status".toList])
      (mpd_read_cb env0 ["command_list_begin".toList, "foo".toList, "ping".toList,
        "command_list_end".toList] (new_client true) ()).client_ctx ()).output
      = "OK\nOK\n".toList ∧
    (mpd_read_cb env0
      ((mpd_read_cb env0 ["command_list_begin".toList, "foo".toList, "ping".toList,
        "command_list_end".toList] (new_client true) ()).input ++ ["status".toList])
      (mpd_read_cb env0 ["command_list_begin".toList, "foo".toList, "ping".toList,
        "command_list_end".toList] (new_client true) ()).client_ctx ()).input
      = ["status".toList] := by
  decide

/-- C4 as stated fails: an unauthenticated client sends the unknown command `foo` and
is answered with code 5 (ACK_ERROR_UNKNOWN), not 4. -/
theorem unknown_command_before_permission :
    (new_client false).authenticated = false ∧
    (mpd_read_cb env0 ["foo".toList] (new_client false) ()).output
      = "ACK [5@0] \x7bfoo\x7d Unsupported command \x27foo\x27\n".toList ∧
    (mpd_read_cb env0 ["foo".toList] (new_client false) ()).output
      ≠ ack_line ACK_ERROR_PERMISSION 0 "foo".toList "Not authenticated".toList := by
  decide

theorem mpd_find_command_name {W : Type} (env : mpd_env W) (name : List Char)
    (command : mpd_command W) (h : mpd_find_command env name = some command) :
    command.mpdcommand = name := by
  have := List.find?_some h
  simpa [eq_comm] using this

/-- The dispatch step for an unauthenticated client and a command other than
`password`: no handler call, nothing written, state untouched. -/
theorem mpd_read_cb_dispatch_unauthenticated {W : Type} (env : mpd_env W)
    (name : List Char) (args : List (List Char)) (ctx : mpd_client_ctx) (w : W)
    (hauth : ctx.authenticated = false) (hpw : name ≠ "password".toList) :
    (mpd_read_cb_dispatch env (name :: args) ctx w).ret
      = unauthenticated_code env (name :: args) ∧
    (mpd_read_cb_dispatch env (name :: args) ctx w).ret ≠ 0 ∧
    (mpd_read_cb_dispatch env (name :: args) ctx w).invoked = false ∧
    (mpd_read_cb_dispatch env (name :: args) ctx w).ctx = ctx ∧
    (mpd_read_cb_dispatch env (name :: args) ctx w).world = w ∧
    (mpd_read_cb_dispatch env (name :: args) ctx w).out = [] := by
  unfold unauthenticated_code mpd_read_cb_dispatch
  cases hf : mpd_find_command env ((name :: args).headD []) with
  | none =>
    simp [ACK_ERROR_UNKNOWN]
  | some command =>
    have hname : command.mpdcommand = name := mpd_find_command_name env name command hf
    have hnp : ¬ (command.mpdcommand = "password".toList) := by rw [hname]; exact hpw
    by_cases hargc : command.min_argc > ((name :: args).length : Int)
    · simp only [hargc, if_true]
      simp [ACK_ERROR_ARG]
    · simp only [hargc, if_false, hnp, hauth, if_true]
      simp [ACK_ERROR_PERMISSION]

/-- C4 amended: for every client whose `authenticated` flag is false and every
dispatched line whose command name is not `password` (and is not a list control
word), no handler is called, the client context is left as it was, and
`mpd_read_cb` answers with one ACK line whose code is ACK_ERROR_UNKNOWN (5) when
the name is not in `mpd_handlers`, ACK_ERROR_ARG (2) when the argument count is
below the minimum of the command, and ACK_ERROR_PERMISSION (4) otherwise. -/
theorem mpd_read_cb_unauthenticated {W : Type} (env : mpd_env W) (v : read_cb_vars W)
    (line : List Char) (input : List (List Char)) (name : List Char) (args : List (List Char))
    (hauth : v.client_ctx.authenticated = false)
    (hparse : mpd_parse_args line COMMAND_ARGV_MAX = some (name :: args))
    (hctl : name ∉ list_control_words)
    (hpw : name ≠ "password".toList) :
    unauthenticated_code env (name :: args)
      = (match mpd_find_command env name with
         | none => ACK_ERROR_UNKNOWN
         | some command =>
           if command.min_argc > ((args.length + 1 : Nat) : Int) then ACK_ERROR_ARG
           else ACK_ERROR_PERMISSION) ∧
    (mpd_read_cb_finish (mpd_read_cb_loop env (line :: input) v)).handled = v.handled ∧
    (mpd_read_cb_finish (mpd_read_cb_loop env (line :: input) v)).client_ctx = v.client_ctx ∧
    (mpd_read_cb_finish (mpd_read_cb_loop env (line :: input) v)).input = input ∧
    ∃ msg, (mpd_read_cb_finish (mpd_read_cb_loop env (line :: input) v)).output
      = v.output ++ ack_line (unauthenticated_code env (name :: args)) v.ncmd name msg := by
  obtain ⟨h1, h2, h3, h4, _, h6⟩ :=
    mpd_read_cb_dispatch_unauthenticated env name args v.client_ctx v.world hauth hpw
  rw [mpd_read_cb_loop_command env line input v name args hparse hctl]
  simp only [h2, ne_eq, not_false_eq_true, if_true]
  refine ⟨rfl, ?_, ?_, rfl, ?_⟩
  · simp [mpd_read_cb_finish, h3]
  · simp [mpd_read_cb_finish, h4]
  · refine ⟨(mpd_read_cb_dispatch env (name :: args) v.client_ctx v.world).errmsg.getD [], ?_⟩
    have h2c : unauthenticated_code env (name :: args) ≠ 0 := h1 ▸ h2
    simp only [mpd_read_cb_finish, h1, h2c, false_and, if_false, h6, List.append_nil]

/-- Witness of C4 amended: `status`, `foo` and `consume` without argument sent by an
unauthenticated client. -/
theorem mpd_read_cb_unauthenticated_witness :
    unauthenticated_code env0 ["status".toList] = ACK_ERROR_PERMISSION ∧
    (mpd_read_cb_finish (mpd_read_cb_loop env0 ("status".toList :: [])
      (mpd_read_cb_init (new_client false) ()))).handled = [] ∧
    ∃ msg, (mpd_read_cb_finish (mpd_read_cb_loop env0 ("status".toList :: [])
      (mpd_read_cb_init (new_client false) ()))).output
      = (mpd_read_cb_init (new_client false) ()).output
        ++ ack_line (unauthenticated_code env0 ("status".toList :: [])) 0 "status".toList msg :=
  ⟨by decide,
   (mpd_read_cb_unauthenticated env0 (mpd_read_cb_init (new_client false) ()) "status".toList []
      "status".toList [] (by decide) (by decide) (by decide) (by decide)).2.1,
   (mpd_read_cb_unauthenticated env0 (mpd_read_cb_init (new_client false) ()) "status".toList []
      "status".toList [] (by decide) (by decide) (by decide) (by decide)).2.2.2.2⟩

/-- C5, the code at an input the claim covers: `binarylimit abc` has two arguments, the
minimum of the table entry.  The handler returns ACK_ERROR_ARG without storing
an error message, and `mpd_read_cb` formats its ACK line from the unset
`errmsg`. -/
theorem mpd_command_binarylimit_errmsg_unset :
    (mpd_find_command env0 "binarylimit".toList).map (fun c => c.min_argc) = some 2 ∧
    mpd_parse_args "binarylimit abc".toList COMMAND_ARGV_MAX
      = some ["binarylimit".toList, "abc".toList] ∧
    (mpd_command_binarylimit safe_atou32 ["binarylimit".toList, "abc".toList]
      (new_client true)).ret = ACK_ERROR_ARG ∧
    (mpd_command_binarylimit safe_atou32 ["binarylimit".toList, "abc".toList]
      (new_client true)).errmsg = none ∧
    (mpd_read_cb env0 ["binarylimit abc".toList] (new_client true) ()).handled
      = [["binarylimit".toList, "abc".toList]] ∧
    (mpd_read_cb env0 ["binarylimit abc".toList] (new_client true) ()).errmsg_unset = true := by
  decide

/-! ## Tokenizer: unquoted lines and missing quotes -/

theorem mpd_pars_unquoted_length (input : List Char) :
    (mpd_pars_unquoted input).2.length ≤ input.length := by
  induction input with
  | nil => simp [mpd_pars_unquoted]
  | cons c rest ih =>
    simp only [mpd_pars_unquoted]
    split_ifs
    · simp
    · simp
    · simp only [List.length_cons]; omega

theorem mpd_pars_unquoted_mem (input : List Char) :
    ∀ x ∈ (mpd_pars_unquoted input).2, x ∈ input := by
  induction input with
  | nil => simp [mpd_pars_unquoted]
  | cons c rest ih =>
    intro x hx
    simp only [mpd_pars_unquoted] at hx
    split_ifs at hx
    · exact hx
    · exact List.mem_cons_of_mem _ hx
    · exact List.mem_cons_of_mem _ (ih x hx)

/-- The input left by the quoted-argument loop is shorter than the input it read. -/
theorem mpd_pars_quoted_loop_length :
    ∀ (n : Nat) (input arg r : List Char), input.length ≤ n →
      mpd_pars_quoted_loop input = some (arg, r) → r.length < input.length := by
  intro n
  induction n with
  | zero =>
    intro input arg r hn h
    have : input = [] := List.length_eq_zero.mp (by omega)
    subst this
    simp [mpd_pars_quoted_loop] at h
  | succ n ih =>
    intro input arg r hn h
    cases input with
    | nil => simp [mpd_pars_quoted_loop] at h
    | cons c rest =>
      by_cases h1 : c = DQUOTE
      · subst h1
        rw [mpd_pars_quoted_loop_dquote] at h
        simp only [Option.some.injEq, Prod.mk.injEq] at h
        rw [← h.2]
        simp
      · by_cases h2 : c = BACKSLASH
        · subst h2
          cases rest with
          | nil => simp [mpd_pars_quoted_loop, BACKSLASH_ne_DQUOTE] at h
          | cons d rest2 =>
            by_cases hd : d = NUL
            · simp [mpd_pars_quoted_loop, BACKSLASH_ne_DQUOTE, hd] at h
            · rw [mpd_pars_quoted_loop_backslash d rest2 hd] at h
              cases hq : mpd_pars_quoted_loop rest2 with
              | none => simp [hq] at h
              | some pr =>
                obtain ⟨a2, r2⟩ := pr
                simp only [hq, Option.some.injEq, Prod.mk.injEq] at h
                have := ih rest2 a2 r2 (by simp at hn; omega) hq
                rw [← h.2]
                simp
                omega
        · by_cases h3 : c = NUL
          · subst h3
            cases rest <;> simp [mpd_pars_quoted_loop, NUL_ne_DQUOTE, NUL_ne_BACKSLASH] at h
          · rw [mpd_pars_quoted_loop_plain c rest h1 h2 h3] at h
            cases hq : mpd_pars_quoted_loop rest with
            | none => simp [hq] at h
            | some pr =>
              obtain ⟨a2, r2⟩ := pr
              simp only [hq, Option.some.injEq, Prod.mk.injEq] at h
              have := ih rest a2 r2 (by simp at hn; omega) hq
              rw [← h.2]
              simp
              omega

/-- Fuel above the length of the input is never exhausted: the tokenizer loop gives
the same result for any two such amounts. -/
theorem mpd_parse_args_loop_fuel (argvsz : Nat) :
    ∀ (f1 f2 : Nat) (input : List Char) (argv : List (List Char)),
      input.length < f1 → input.length < f2 →
      mpd_parse_args_loop argvsz f1 input argv = mpd_parse_args_loop argvsz f2 input argv := by
  intro f1
  induction f1 with
  | zero => intro f2 input argv h1; omega
  | succ f1 ih =>
    intro f2 input argv h1 h2
    cases f2 with
    | zero => omega
    | succ f2 =>
      cases input with
      | nil => simp [mpd_parse_args_loop]
      | cons c rest =>
        simp only [List.length_cons] at h1 h2
        simp only [mpd_parse_args_loop]
        split_ifs with hnul hsz hsp hdq
        · rfl
        · rfl
        · exact ih f2 rest argv (by omega) (by omega)
        · cases hq : mpd_pars_quoted (c :: rest) with
          | none => rfl
          | some pr =>
            obtain ⟨arg, r⟩ := pr
            have hlen : r.length < rest.length := by
              have hq2 : mpd_pars_quoted_loop rest = some (arg, r) := by
                simpa [mpd_pars_quoted] using hq
              exact mpd_pars_quoted_loop_length rest.length rest arg r (le_refl _) hq2
            exact ih f2 r _ (by omega) (by omega)
        · have hlen := mpd_pars_unquoted_length (c :: rest)
          simp only [List.length_cons] at hlen
          have hlen2 : (mpd_pars_unquoted (c :: rest)).2.length ≤ rest.length := by
            simp only [mpd_pars_unquoted, hnul, hsp, if_false]
            exact mpd_pars_unquoted_length rest
          exact ih f2 _ _ (by omega) (by omega)

/-- A run that has begun ends where `mpd_pars_unquoted` ends its argument. -/
theorem space_runs_from_unquoted (input : List Char) :
    ∀ (cur : List Char), cur ≠ [] → NUL ∉ input →
      space_runs_from cur input
        = (cur ++ (mpd_pars_unquoted input).1) :: space_runs (mpd_pars_unquoted input).2 := by
  induction input with
  | nil =>
    intro cur hcur _
    simp [space_runs_from, mpd_pars_unquoted, space_runs, hcur]
  | cons c rest ih =>
    intro cur hcur hnul
    have hc : c ≠ NUL := fun h => hnul (by simp [h])
    have hr : NUL ∉ rest := fun h => hnul (by simp [h])
    by_cases hsp : c = SPACE
    · subst hsp
      simp [space_runs_from, mpd_pars_unquoted, space_runs, hcur, SPACE_ne_NUL]
    · simp only [space_runs_from, mpd_pars_unquoted, hsp, hc, if_false]
      rw [ih (cur ++ [c]) (by simp) hr]
      simp

/-- The tokenizer loop on input without double quote: it appends the runs of non-space
bytes up to the size of argv. -/
theorem mpd_parse_args_loop_unquoted (argvsz : Nat) :
    ∀ (fuel : Nat) (input : List Char) (argv : List (List Char)),
      input.length < fuel → NUL ∉ input → DQUOTE ∉ input →
      mpd_parse_args_loop argvsz fuel input argv
        = some (argv ++ (space_runs input).take (argvsz - argv.length)) := by
  intro fuel
  induction fuel with
  | zero => intro input argv h; omega
  | succ fuel ih =>
    intro input argv hf hnul hdq
    cases input with
    | nil => simp [mpd_parse_args_loop, space_runs, space_runs_from]
    | cons c rest =>
      have hc : c ≠ NUL := fun h => hnul (by simp [h])
      have hcq : c ≠ DQUOTE := fun h => hdq (by simp [h])
      have hrn : NUL ∉ rest := fun h => hnul (by simp [h])
      have hrq : DQUOTE ∉ rest := fun h => hdq (by simp [h])
      simp only [List.length_cons] at hf
      simp only [mpd_parse_args_loop, hc, hcq, if_false]
      by_cases hsz : argvsz ≤ argv.length
      · have h0 : argvsz - argv.length = 0 := by omega
        simp [hsz, h0]
      · simp only [hsz, if_false]
        by_cases hsp : c = SPACE
        · subst hsp
          simp only [if_true]
          rw [ih rest argv (by omega) hrn hrq]
          simp [space_runs, space_runs_from]
        · simp only [hsp, if_false]
          have hlen : (mpd_pars_unquoted (c :: rest)).2.length ≤ rest.length := by
            simp only [mpd_pars_unquoted, hc, hsp, if_false]
            exact mpd_pars_unquoted_length rest
          have hmem := mpd_pars_unquoted_mem (c :: rest)
          rw [ih _ _ (by omega)
            (fun h => hnul (hmem _ h)) (fun h => hdq (hmem _ h))]
          have hruns : space_runs (c :: rest)
              = (mpd_pars_unquoted (c :: rest)).1 :: space_runs (mpd_pars_unquoted (c :: rest)).2 := by
            simp only [space_runs, space_runs_from, hsp, if_false, List.nil_append]
            rw [space_runs_from_unquoted rest [c] (by simp) hrn]
            simp [mpd_pars_unquoted, hc, hsp, space_runs]
          rw [hruns]
          obtain ⟨k, hk⟩ : ∃ k, argvsz - argv.length = k + 1 := ⟨argvsz - argv.length - 1, by omega⟩
          have hk2 : argvsz - (argv ++ [(mpd_pars_unquoted (c :: rest)).1]).length = k := by
            simp; omega
          rw [hk, hk2]
          simp

/-- C11: for every line (a C string, so without NUL) that contains no double quote,
`mpd_parse_args` returns 0 and argv is the list of the maximal non-empty runs of
non-space bytes of the line, in order, cut to its first 37 elements
(COMMAND_ARGV_MAX); so argc never exceeds 37 and the tokens beyond the cap are
dropped without an error. -/
theorem mpd_parse_args_unquoted_line (line : List Char)
    (hnul : NUL ∉ line) (hdq : DQUOTE ∉ line) :
    mpd_parse_args line COMMAND_ARGV_MAX = some ((space_runs line).take COMMAND_ARGV_MAX) ∧
    ((space_runs line).take COMMAND_ARGV_MAX).length ≤ 37 := by
  refine ⟨?_, ?_⟩
  · have := mpd_parse_args_loop_unquoted COMMAND_ARGV_MAX (line.length + 1) line []
      (by omega) hnul hdq
    simpa [mpd_parse_args] using this
  · simp [COMMAND_ARGV_MAX]

/-- Witness of C11: a line with leading, doubled and trailing spaces. -/
theorem mpd_parse_args_unquoted_line_witness :
    NUL ∉ "  find artist  Bach ".toList ∧ DQUOTE ∉ "  find artist  Bach ".toList ∧
    (mpd_parse_args "  find artist  Bach ".toList COMMAND_ARGV_MAX
        = some ((space_runs "  find artist  Bach ".toList).take COMMAND_ARGV_MAX) ∧
      ((space_runs "  find artist  Bach ".toList).take COMMAND_ARGV_MAX).length ≤ 37) ∧
    space_runs "  find artist  Bach ".toList = ["find".toList, "artist".toList, "Bach".toList] :=
  ⟨by decide, by decide,
   mpd_parse_args_unquoted_line "  find artist  Bach ".toList (by decide) (by decide),
   by decide⟩

theorem has_closing_quote_backslash (d : Char) (rest : List Char) (hd : d ≠ NUL) :
    has_closing_quote (BACKSLASH :: d :: rest) = has_closing_quote rest := by
  simp [has_closing_quote, hd, BACKSLASH_ne_DQUOTE, BACKSLASH_ne_NUL]

theorem has_closing_quote_plain (c : Char) (rest : List Char)
    (h1 : c ≠ DQUOTE) (h2 : c ≠ BACKSLASH) (h3 : c ≠ NUL) :
    has_closing_quote (c :: rest) = has_closing_quote rest := by
  cases rest <;> simp [has_closing_quote, h1, h2, h3]

theorem has_closing_quote_dquote (rest : List Char) :
    has_closing_quote (DQUOTE :: rest) = true := by
  cases rest <;> simp [has_closing_quote, DQUOTE_ne_NUL]

/-- The quoted-argument loop fails exactly on a body without closing quote. -/
theorem mpd_pars_quoted_loop_none :
    ∀ (n : Nat) (body : List Char), body.length ≤ n → has_closing_quote body = false →
      mpd_pars_quoted_loop body = none := by
  intro n
  induction n with
  | zero =>
    intro body hn _
    have : body = [] := List.length_eq_zero.mp (by omega)
    subst this
    simp [mpd_pars_quoted_loop]
  | succ n ih =>
    intro body hn h
    cases body with
    | nil => simp [mpd_pars_quoted_loop]
    | cons c rest =>
      by_cases h3 : c = NUL
      · subst h3
        cases rest <;> simp [mpd_pars_quoted_loop, NUL_ne_DQUOTE, NUL_ne_BACKSLASH]
      · by_cases h1 : c = DQUOTE
        · subst h1
          rw [has_closing_quote_dquote] at h
          exact absurd h (by simp)
        · by_cases h2 : c = BACKSLASH
          · subst h2
            cases rest with
            | nil => simp [mpd_pars_quoted_loop, BACKSLASH_ne_DQUOTE]
            | cons d rest2 =>
              by_cases hd : d = NUL
              · simp [mpd_pars_quoted_loop, BACKSLASH_ne_DQUOTE, hd]
              · rw [mpd_pars_quoted_loop_backslash d rest2 hd]
                have h' : has_closing_quote rest2 = false := by
                  rwa [has_closing_quote_backslash d rest2 hd] at h
                rw [ih rest2 (by simp at hn; omega) h']
          · rw [mpd_pars_quoted_loop_plain c rest h1 h2 h3]
            have h' : has_closing_quote rest = false := by
              rwa [has_closing_quote_plain c rest h1 h2 h3] at h
            rw [ih rest (by simp at hn; omega) h']

/-- An unquoted word followed by a space is read up to that space. -/
theorem mpd_pars_unquoted_word (w tail : List Char) (hsp : SPACE ∉ w) (hnul : NUL ∉ w) :
    mpd_pars_unquoted (w ++ SPACE :: tail) = (w, tail) := by
  induction w with
  | nil => simp [mpd_pars_unquoted, SPACE_ne_NUL]
  | cons c t ih =>
    have hc1 : c ≠ SPACE := fun h => hsp (by simp [h])
    have hc2 : c ≠ NUL := fun h => hnul (by simp [h])
    have := ih (fun h => hsp (by simp [h])) (fun h => hnul (by simp [h]))
    simp [mpd_pars_unquoted, hc1, hc2, this]

/-- One iteration of the tokenizer loop on an unquoted word ended by a space. -/
theorem mpd_parse_args_loop_word (argvsz fuel : Nat) (c : Char) (r tail : List Char)
    (argv : List (List Char)) (hsp : SPACE ∉ c :: r) (hnul : NUL ∉ c :: r) (hdq : c ≠ DQUOTE)
    (hlen : argv.length < argvsz) :
    mpd_parse_args_loop argvsz (fuel + 1) (c :: (r ++ SPACE :: tail)) argv
      = mpd_parse_args_loop argvsz fuel tail (argv ++ [c :: r]) := by
  have hn : ¬ argvsz ≤ argv.length := by omega
  have hc1 : c ≠ SPACE := fun h => hsp (by simp [h])
  have hc2 : c ≠ NUL := fun h => hnul (by simp [h])
  have hu := mpd_pars_unquoted_word (c :: r) tail hsp hnul
  rw [List.cons_append] at hu
  simp only [mpd_parse_args_loop, hc1, hc2, hdq, hn, if_false, hu]

/-- The tokenizer loop with the fuel `mpd_parse_args` gives it. -/
theorem mpd_parse_args_loop_token (argvsz : Nat) (t : arg_token) (tail : List Char)
    (argv : List (List Char)) (hwf : t.wf = true) (hlen : argv.length < argvsz) :
    mpd_parse_args_loop argvsz ((t.text ++ tail).length + 1) (t.text ++ tail) argv
      = mpd_parse_args_loop argvsz (tail.length + 1) tail (argv ++ [t.value]) := by
  have hn : ¬ argvsz ≤ argv.length := by omega
  cases t with
  | quoted s =>
    have hs : NUL ∉ s := by simpa [arg_token.wf] using hwf
    simp only [arg_token.text, arg_token.value]
    rw [mpd_parse_args_loop_quote argvsz _ s tail argv hs hlen]
    apply mpd_parse_args_loop_fuel
    · simp only [quote_token, List.length_cons, List.length_append]; omega
    · omega
  | unquoted w =>
    obtain ⟨hne, hhead, hsp, hnul⟩ : w ≠ [] ∧ w.head? ≠ some DQUOTE ∧ SPACE ∉ w ∧ NUL ∉ w := by
      simpa [arg_token.wf] using hwf
    simp only [arg_token.text, arg_token.value, List.append_assoc, List.singleton_append]
    have hu := mpd_pars_unquoted_word w tail hsp hnul
    cases w with
    | nil => exact absurd rfl hne
    | cons c r =>
      have hc3 : c ≠ DQUOTE := fun h => hhead (by simp [h])
      rw [List.cons_append, List.length_cons,
        mpd_parse_args_loop_word argvsz _ c r tail argv hsp hnul hc3 hlen]
      apply mpd_parse_args_loop_fuel
      · simp only [List.length_cons, List.length_append]; omega
      · omega

theorem mpd_parse_args_loop_spaces (argvsz : Nat) (k : Nat) (tail : List Char)
    (argv : List (List Char)) (hlen : argv.length < argvsz) :
    mpd_parse_args_loop argvsz ((List.replicate k SPACE ++ tail).length + 1)
        (List.replicate k SPACE ++ tail) argv
      = mpd_parse_args_loop argvsz (tail.length + 1) tail argv := by
  induction k with
  | zero => simp
  | succ k ih =>
    rw [List.replicate_succ, List.cons_append, List.length_cons,
      mpd_parse_args_loop_space argvsz _ _ argv hlen]
    exact ih

/-- The tokenizer loop reads a start of line made of complete tokens and goes on with
what follows it. -/
theorem mpd_parse_args_loop_line_start (argvsz : Nat) (items : List (Nat × arg_token)) :
    ∀ (tail : List Char) (argv : List (List Char)),
      (∀ it ∈ items, it.2.wf = true) → argv.length + items.length ≤ argvsz →
      mpd_parse_args_loop argvsz ((line_start items ++ tail).length + 1)
          (line_start items ++ tail) argv
        = mpd_parse_args_loop argvsz (tail.length + 1) tail
            (argv ++ items.map (fun it => it.2.value)) := by
  induction items with
  | nil => intro tail argv _ _; simp [line_start]
  | cons it rest ih =>
    intro tail argv hwf hlen
    obtain ⟨k, t⟩ := it
    simp only [List.length_cons] at hlen
    simp only [line_start, List.append_assoc]
    rw [mpd_parse_args_loop_spaces argvsz k _ argv (by omega)]
    rw [mpd_parse_args_loop_token argvsz t _ argv (hwf (k, t) (by simp)) (by omega)]
    rw [ih tail (argv ++ [t.value]) (fun x hx => hwf x (by simp [hx])) (by simp; omega)]
    simp

/-- C12 as stated fails: on a line of 37 complete tokens followed by a quoted token
without closing quote, `mpd_parse_args` stops at the size of argv before it
reaches that token and returns 0 with 37 arguments; `mpd_read_cb` dispatches the
line to the handler of `ping` and answers `OK`. -/
theorem mpd_parse_args_open_quote_beyond_cap :
    has_closing_quote "b".toList = false ∧
    mpd_parse_args line_beyond_cap COMMAND_ARGV_MAX
      = some ("ping".toList :: List.replicate 36 "a".toList) ∧
    (mpd_read_cb env0 [line_beyond_cap] (new_client true) ()).handled
      = ["ping".toList :: List.replicate 36 "a".toList] ∧
    (mpd_read_cb env0 [line_beyond_cap] (new_client true) ()).output = "OK\n".toList := by
  decide

/-- C12 amended: for every line in which fewer than 37 complete tokens are followed
(after any number of spaces) by a token that starts with a double quote and has
no unescaped closing quote before the end of the line, `mpd_parse_args` fails
(returns -1) and `mpd_read_cb` answers with the ACK line of code ACK_ERROR_ARG
(2), calls no handler and leaves the client context as it was. -/
theorem mpd_parse_args_open_quote {W : Type} (env : mpd_env W) (v : read_cb_vars W)
    (input : List (List Char)) (items : List (Nat × arg_token)) (gap : Nat) (body : List Char)
    (hwf : ∀ it ∈ items, it.2.wf = true) (hcap : items.length < COMMAND_ARGV_MAX)
    (hopen : has_closing_quote body = false) :
    mpd_parse_args (line_start items ++ (List.replicate gap SPACE ++ DQUOTE :: body))
        COMMAND_ARGV_MAX = none ∧
    (mpd_read_cb_finish (mpd_read_cb_loop env
        ((line_start items ++ (List.replicate gap SPACE ++ DQUOTE :: body)) :: input) v)).output
      = v.output ++ ack_line ACK_ERROR_ARG v.ncmd "unkown".toList
          "Error parsing arguments".toList ∧
    (mpd_read_cb_finish (mpd_read_cb_loop env
        ((line_start items ++ (List.replicate gap SPACE ++ DQUOTE :: body)) :: input) v)).handled
      = v.handled ∧
    (mpd_read_cb_finish (mpd_read_cb_loop env
        ((line_start items ++ (List.replicate gap SPACE ++ DQUOTE :: body)) :: input)
        v)).client_ctx = v.client_ctx := by
  have hparse : mpd_parse_args (line_start items ++ (List.replicate gap SPACE ++ DQUOTE :: body))
      COMMAND_ARGV_MAX = none := by
    unfold mpd_parse_args
    rw [mpd_parse_args_loop_line_start COMMAND_ARGV_MAX items _ [] hwf (by simp; omega)]
    rw [mpd_parse_args_loop_spaces COMMAND_ARGV_MAX gap _ _ (by simpa using hcap)]
    have hn : ¬ COMMAND_ARGV_MAX ≤ (List.map (fun it => it.2.value) items).length := by
      simp; omega
    have hq : mpd_pars_quoted (DQUOTE :: body) = none := by
      simp [mpd_pars_quoted, mpd_pars_quoted_loop_none body.length body (le_refl _) hopen]
    simp only [List.nil_append, List.length_cons, mpd_parse_args_loop, DQUOTE_ne_NUL,
      DQUOTE_ne_SPACE, hn, if_false, if_true, hq]
  refine ⟨hparse, ?_, ?_, ?_⟩ <;>
    · rw [mpd_read_cb_loop]
      simp only [hparse]
      simp [mpd_read_cb_finish, ACK_ERROR_ARG]

/-- Witness of C12 amended: `find artist "Bach` and a line whose second token, after a
complete quoted token, is left open. -/
theorem mpd_parse_args_open_quote_witness :
    (mpd_parse_args (line_start [(0, arg_token.unquoted "find".toList),
        (0, arg_token.unquoted "artist".toList)]
        ++ (List.replicate 0 SPACE ++ DQUOTE :: "Bach".toList)) COMMAND_ARGV_MAX = none ∧
      (mpd_read_cb_finish (mpd_read_cb_loop env0
        ((line_start [(0, arg_token.unquoted "find".toList),
            (0, arg_token.unquoted "artist".toList)]
          ++ (List.replicate 0 SPACE ++ DQUOTE :: "Bach".toList)) :: [])
        (mpd_read_cb_init (new_client true) ()))).output
        = (mpd_read_cb_init (new_client true) ()).output
          ++ ack_line ACK_ERROR_ARG 0 "unkown".toList "Error parsing arguments".toList) ∧
    mpd_parse_args (line_start [(1, arg_token.quoted "a b".toList)]
        ++ (List.replicate 2 SPACE ++ DQUOTE :: [BACKSLASH, DQUOTE])) COMMAND_ARGV_MAX = none :=
  ⟨⟨(mpd_parse_args_open_quote env0 (mpd_read_cb_init (new_client true) ()) []
      [(0, arg_token.unquoted "find".toList), (0, arg_token.unquoted "artist".toList)] 0
      "Bach".toList (by decide) (by decide) (by decide)).1,
    (mpd_parse_args_open_quote env0 (mpd_read_cb_init (new_client true) ()) []
      [(0, arg_token.unquoted "find".toList), (0, arg_token.unquoted "artist".toList)] 0
      "Bach".toList (by decide) (by decide) (by decide)).2.1⟩,
   (mpd_parse_args_open_quote env0 (mpd_read_cb_init (new_client true) ()) []
      [(1, arg_token.quoted "a b".toList)] 2 [BACKSLASH, DQUOTE]
      (by decide) (by decide) (by decide)).1⟩

/-! ## Binary response writer -/

theorem mpd_binary_chunk_length (ctx : mpd_client_ctx) (data : List Char) (offset : Nat) :
    (mpd_binary_chunk ctx data offset).length = min (data.length - offset) ctx.binarylimit := by
  simp only [mpd_binary_chunk, List.length_take, List.length_drop]
  omega

/-- C13: for every data blob of length L, offset O and client binary limit B,
`mpd_write_binary_response` fails and writes nothing when L = 0 or L < O;
otherwise it succeeds and appends exactly `size: L`, `binary: c`, the c bytes of
the blob that start at offset O, and one newline, where c = min(L - O, B). -/
theorem mpd_write_binary_response_spec (ctx : mpd_client_ctx) (data : List Char) (offset : Nat) :
    (data.length = 0 ∨ data.length < offset →
      mpd_write_binary_response ctx data offset = none) ∧
    (¬ (data.length = 0 ∨ data.length < offset) →
      mpd_write_binary_response ctx data offset
        = some ("size: ".toList ++ (toString data.length).toList ++ "\n".toList
            ++ "binary: ".toList
            ++ (toString (min (data.length - offset) ctx.binarylimit)).toList ++ "\n".toList
            ++ (data.drop offset).take (min (data.length - offset) ctx.binarylimit)
            ++ "\n".toList) ∧
      ((data.drop offset).take (min (data.length - offset) ctx.binarylimit)).length
        = min (data.length - offset) ctx.binarylimit) := by
  constructor
  · intro h
    rw [mpd_write_binary_response, if_pos h]
  · intro h
    refine ⟨by rw [mpd_write_binary_response, if_neg h, mpd_binary_chunk], ?_⟩
    exact mpd_binary_chunk_length ctx data offset

/-- Witness of C13: an empty blob, an offset past the end, and the second chunk of a
blob of ten bytes read with a limit of four. -/
theorem mpd_write_binary_response_spec_witness :
    mpd_write_binary_response (new_client true) [] 0 = none ∧
    mpd_write_binary_response (new_client true) "abc".toList 4 = none ∧
    mpd_write_binary_response { new_client true with binarylimit := 4 } "0123456789".toList 4
      = some "size: 10\nbinary: 4\n4567\n".toList :=
  ⟨(mpd_write_binary_response_spec (new_client true) [] 0).1 (by decide),
   (mpd_write_binary_response_spec (new_client true) "abc".toList 4).1 (by decide),
   ((mpd_write_binary_response_spec { new_client true with binarylimit := 4 }
      "0123456789".toList 4).2 (by decide)).1.trans (by decide)⟩

theorem digitChar_value : ∀ m, m < 10 →
    (Nat.digitChar m).isDigit = true ∧ (Nat.digitChar m).toNat - 48 = m := by
  decide

/-- The digits `Nat.toDigitsCore` puts in front of `ds` are decimal digits, at least
one, and their value is the number. -/
theorem toDigitsCore_value : ∀ (fuel n : Nat) (ds : List Char), n < fuel →
    ∃ D, Nat.toDigitsCore 10 fuel n ds = D ++ ds ∧ D ≠ [] ∧
      (∀ c ∈ D, c.isDigit = true) ∧ digits_value D = n := by
  intro fuel
  induction fuel with
  | zero => intro n ds h; omega
  | succ fuel ih =>
    intro n ds h
    have hd := digitChar_value (n % 10) (Nat.mod_lt _ (by decide))
    unfold Nat.toDigitsCore
    simp only
    split_ifs with h0
    · refine ⟨[Nat.digitChar (n % 10)], rfl, by simp, ?_, ?_⟩
      · intro c hc
        rw [List.mem_singleton.mp hc]
        exact hd.1
      · simp only [digits_value, List.foldl_cons, List.foldl_nil, hd.2]
        omega
    · have hlt : n / 10 < fuel := by omega
      obtain ⟨D, hD, hne, hall, hval⟩ := ih (n / 10) (Nat.digitChar (n % 10) :: ds) hlt
      refine ⟨D ++ [Nat.digitChar (n % 10)], by rw [hD]; simp, by simp, ?_, ?_⟩
      · intro c hc
        rcases List.mem_append.mp hc with hc | hc
        · exact hall c hc
        · rw [List.mem_singleton.mp hc]
          exact hd.1
      · simp only [digits_value] at hval ⊢
        rw [List.foldl_append, hval]
        simp only [List.foldl_cons, List.foldl_nil, hd.2]
        omega

/-- The decimal text of a number is a non-empty run of digits whose value is the
number. -/
theorem toString_value (n : Nat) :
    (toString n).toList ≠ [] ∧ (∀ c ∈ (toString n).toList, c.isDigit = true) ∧
      digits_value (toString n).toList = n := by
  have h : (toString n).toList = Nat.toDigits 10 n := rfl
  rw [h]
  obtain ⟨D, hD, hne, hall, hval⟩ := toDigitsCore_value (n + 1) n [] (by omega)
  have hD2 : Nat.toDigits 10 n = D := by
    rw [Nat.toDigits, hD, List.append_nil]
  rw [hD2]
  exact ⟨hne, hall, hval⟩

theorem read_text_append (t s : List Char) : read_text t (t ++ s) = some s := by
  simp [read_text]

/-- A client that reads a line holding the decimal text of `n` receives `n` and the
response after the newline. -/
theorem read_decimal_line_toString (n : Nat) (rest : List Char) :
    read_decimal_line ((toString n).toList ++ "\n".toList ++ rest) = some (n, rest) := by
  obtain ⟨hne, hall, hval⟩ := toString_value n
  have hnl : "\n".toList = [NEWLINE] := rfl
  have hnd : NEWLINE.isDigit = false := by decide
  have htake : ((toString n).toList ++ "\n".toList ++ rest).takeWhile Char.isDigit
      = (toString n).toList := by
    rw [hnl, List.append_assoc, List.takeWhile_append_of_pos hall]
    simp [List.takeWhile_cons, hnd]
  have hdrop : ((toString n).toList ++ "\n".toList ++ rest).dropWhile Char.isDigit
      = NEWLINE :: rest := by
    rw [hnl, List.append_assoc, List.dropWhile_append_of_pos hall]
    simp [List.dropWhile_cons, hnd]
  rw [read_decimal_line, htake, hdrop, if_neg hne, hval]
  simp

/-- What a client reads out of a response of the binary writer: the length of the
blob as the size and the chunk the writer took from the blob. -/
theorem read_binary_response_writer (ctx : mpd_client_ctx) (data : List Char) (offset : Nat)
    (h : ¬ (data.length = 0 ∨ data.length < offset)) :
    ∃ out, mpd_write_binary_response ctx data offset = some out ∧
      read_binary_response out = some (data.length, mpd_binary_chunk ctx data offset) := by
  have hlen : (mpd_binary_chunk ctx data offset).length
      = min (data.length - offset) ctx.binarylimit := by
    simp only [mpd_binary_chunk, List.length_take, List.length_drop]
    omega
  refine ⟨_, by rw [mpd_write_binary_response, if_neg h], ?_⟩
  have hnl : "\n".toList = [NEWLINE] := rfl
  rw [read_binary_response]
  simp only [List.append_assoc]
  rw [read_text_append]
  simp only
  rw [← List.append_assoc (toString data.length).toList, read_decimal_line_toString]
  simp only
  rw [read_text_append]
  simp only
  rw [← List.append_assoc (toString (min (data.length - offset) ctx.binarylimit)).toList,
    read_decimal_line_toString]
  simp only
  rw [hnl, if_pos]
  · rw [← hlen, List.take_left]
  · rw [← hlen]
    simp

/-- The client loop from any offset before the end: it ends within `L - offset`
requests and its chunks are the rest of the blob. -/
theorem binary_fetch_from (ctx : mpd_client_ctx) (data : List Char) (hlimit : 0 < ctx.binarylimit) :
    ∀ (fuel offset : Nat), offset < data.length → data.length - offset ≤ fuel →
      ∃ chunks, binary_fetch ctx data fuel offset = some chunks ∧
        chunks.flatten = data.drop offset ∧ ∀ c ∈ chunks, c.length ≤ ctx.binarylimit := by
  intro fuel
  induction fuel with
  | zero => intro offset h1 h2; omega
  | succ fuel ih =>
    intro offset h1 h2
    have hresp : ¬ (data.length = 0 ∨ data.length < offset) := by omega
    have hlen := mpd_binary_chunk_length ctx data offset
    obtain ⟨out, hout, hread⟩ := read_binary_response_writer ctx data offset hresp
    simp only [binary_fetch, hout, hread]
    by_cases hend : offset + (mpd_binary_chunk ctx data offset).length = data.length
    · refine ⟨[mpd_binary_chunk ctx data offset], by simp [hend], ?_, ?_⟩
      · have hmin : min (data.length - offset) ctx.binarylimit = data.length - offset := by
          omega
        simp only [List.flatten_cons, List.flatten_nil, List.append_nil, mpd_binary_chunk, hmin]
        exact List.take_of_length_le (by simp)
      · intro c hc
        simp only [List.mem_singleton] at hc
        rw [hc, hlen]
        omega
    · have hpos : 0 < (mpd_binary_chunk ctx data offset).length := by omega
      obtain ⟨chunks, hfetch, hcat, hbound⟩ :=
        ih (offset + (mpd_binary_chunk ctx data offset).length) (by omega) (by omega)
      refine ⟨mpd_binary_chunk ctx data offset :: chunks, by simp [hend, hfetch], ?_, ?_⟩
      · rw [List.flatten_cons, hcat]
        have : data.drop (offset + (mpd_binary_chunk ctx data offset).length)
            = (data.drop offset).drop (mpd_binary_chunk ctx data offset).length := by
          rw [List.drop_drop, Nat.add_comm]
        rw [this, hlen, mpd_binary_chunk]
        exact List.take_append_drop _ _
      · intro c hc
        simp only [List.mem_cons] at hc
        rcases hc with hc | hc
        · rw [hc, hlen]; omega
        · exact hbound c hc

/-- The client takes its chunk from the bytes of the response: it reads the second
chunk of a blob of ten bytes, and nothing out of an empty response or one whose
chunk is shorter than announced. -/
theorem read_binary_response_examples :
    read_binary_response "size: 10\nbinary: 4\n4567\n".toList = some (10, "4567".toList) ∧
    read_binary_response [] = none ∧
    read_binary_response "size: 10\nbinary: 4\n456\n".toList = none := by
  decide

/-- C14: for every non-empty blob and every binary limit B >= 64 (the only values
`binarylimit` accepts; the default 8192 is one), repeating the binary writer
with the offsets 0, c1, c1+c2, ..., each advanced by the size of the chunk just
returned, reaches offset L within L requests, and the concatenation of the
returned chunks is the blob: no gap and no overlap.  Each chunk has at most B
bytes.  The client of `binary_fetch` reads the size and every chunk out of the
bytes the writer appended. -/
theorem binary_fetch_whole_blob (ctx : mpd_client_ctx) (data : List Char)
    (hdata : data ≠ []) (hlimit : MPD_BINARY_SIZE_MIN ≤ ctx.binarylimit) :
    ∃ chunks, binary_fetch ctx data data.length 0 = some chunks ∧ chunks.flatten = data ∧
      ∀ c ∈ chunks, c.length ≤ ctx.binarylimit := by
  have hpos : 0 < data.length := List.length_pos.mpr hdata
  have hb : 0 < ctx.binarylimit := by
    have : 0 < MPD_BINARY_SIZE_MIN := by decide
    omega
  obtain ⟨chunks, h1, h2, h3⟩ := binary_fetch_from ctx data hb data.length 0 hpos (by omega)
  exact ⟨chunks, h1, by simpa using h2, h3⟩

/-- The values `binarylimit` stores are at least 64. -/
theorem mpd_command_binarylimit_min (atou : List Char → Option Nat) (argv : List (List Char))
    (ctx : mpd_client_ctx) (h : (mpd_command_binarylimit atou argv ctx).ret = 0) :
    MPD_BINARY_SIZE_MIN ≤ (mpd_command_binarylimit atou argv ctx).ctx.binarylimit := by
  unfold mpd_command_binarylimit at h ⊢
  cases ha : atou (argv.getD 1 []) with
  | none =>
    rw [ha] at h
    have h2 : ACK_ERROR_ARG = 0 := h
    exact absurd h2 (by decide)
  | some size =>
    rw [ha] at h
    by_cases hs : size < MPD_BINARY_SIZE_MIN
    · simp only [hs, if_true] at h
      have h2 : ACK_ERROR_ARG = 0 := h
      exact absurd h2 (by decide)
    · simp only [hs, if_false]
      omega

/-- Witness of C14: a blob of 70 bytes read with the smallest limit, 64, arrives in
the two chunks of 64 and 6 bytes. -/
theorem binary_fetch_whole_blob_witness :
    List.replicate 70 SPACE ≠ [] ∧
    MPD_BINARY_SIZE_MIN ≤ ({ new_client true with binarylimit := 64 } : mpd_client_ctx).binarylimit ∧
    (∃ chunks, binary_fetch { new_client true with binarylimit := 64 }
        (List.replicate 70 SPACE) (List.replicate 70 SPACE).length 0 = some chunks ∧
      chunks.flatten = List.replicate 70 SPACE ∧
      ∀ c ∈ chunks, c.length ≤ ({ new_client true with binarylimit := 64 } : mpd_client_ctx).binarylimit) ∧
    (binary_fetch { new_client true with binarylimit := 64 } (List.replicate 70 SPACE) 70 0).map
      (fun chunks => chunks.map List.length) = some [64, 6] :=
  ⟨by decide, by decide,
   binary_fetch_whole_blob { new_client true with binarylimit := 64 } (List.replicate 70 SPACE)
     (by decide) (by decide),
   by decide⟩

/-! ## Filter parser: registry facts -/

theorem find_tagtype_some (T : List Char) (t : mpd_tagtype) (h : find_tagtype T = some t) :
    T.map Char.toLower = t.tag.map Char.toLower ∧ t ∈ tagtypes := by
  unfold find_tagtype at h
  refine ⟨?_, List.mem_of_find?_eq_some h⟩
  have := List.find?_some h
  simpa [strcasecmp_eq] using this

theorem tagtypes_lowered :
    ∀ t ∈ tagtypes,
      (t.tag.map Char.toLower).head? ≠ some LPAREN ∧
      (t.tag.map Char.toLower).head? ≠ some BANG ∧
      (t.tag.map Char.toLower).head? ≠ none ∧
      SPACE ∉ t.tag.map Char.toLower ∧ NUL ∉ t.tag.map Char.toLower ∧
      t.tag.map Char.toLower ≠ "window".toList ∧ t.tag.map Char.toLower ≠ "group".toList ∧
      t.tag.map Char.toLower ≠ "position".toList ∧ t.tag.map Char.toLower ≠ "sort".toList := by
  decide

theorem tagtypes_string_field :
    ∀ t ∈ tagtypes, t.type ≠ MPD_TYPE_SPECIAL → t.field.isSome = true ∧
      t.tag ≠ "base".toList ∧ t.tag ≠ "modified-since".toList := by
  decide


theorem find_tagtype_head (T : List Char) (t : mpd_tagtype) (h : find_tagtype T = some t) :
    T.head? ≠ some LPAREN ∧ T.head? ≠ some BANG ∧ T ≠ [] ∧ SPACE ∉ T ∧ NUL ∉ T := by
  obtain ⟨h1, h2⟩ := find_tagtype_some T t h
  obtain ⟨a, b, c, d, e, _⟩ := tagtypes_lowered t h2
  rw [← h1] at a b c d e
  refine ⟨?_, ?_, ?_, ?_, ?_⟩
  · intro hh
    apply a
    rw [List.head?_map, hh]
    rfl
  · intro hh
    apply b
    rw [List.head?_map, hh]
    rfl
  · intro hh
    apply c
    rw [hh]
    rfl
  · intro hh
    apply d
    have := List.mem_map_of_mem Char.toLower hh
    exact this
  · intro hh
    apply e
    have := List.mem_map_of_mem Char.toLower hh
    exact this

theorem find_tagtype_param_cmd (T : List Char) (t : mpd_tagtype) (h : find_tagtype T = some t) :
    param_cmd true T = CMD_FILTER := by
  obtain ⟨h1, h2⟩ := find_tagtype_some T t h
  obtain ⟨_, _, _, _, _, a, b, c, d⟩ := tagtypes_lowered t h2
  rw [← h1] at a b c d
  have ha : strcasecmp_eq T "window".toList = false := by
    simpa [strcasecmp_eq] using a
  have hb : strcasecmp_eq T "group".toList = false := by
    simpa [strcasecmp_eq] using b
  have hc : strcasecmp_eq T "position".toList = false := by
    simpa [strcasecmp_eq] using c
  have hd : strcasecmp_eq T "sort".toList = false := by
    simpa [strcasecmp_eq] using d
  unfold param_cmd
  rw [ha, hb, hc, hd]
  rfl

/-! ## Legacy filter pairs -/

theorem join_and_snoc (ps : List (List Char)) (p : List Char) :
    append_string (join_and ps) p (some " AND ".toList) = join_and (ps ++ [p]) := by
  cases ps with
  | nil => simp [join_and, append_string]
  | cons q qs => simp [join_and, append_string, List.append_assoc]

theorem mpd_parse_cmd_filter_legacy_string (E : param_env) (T V : List Char) (t : mpd_tagtype)
    (param : mpd_cmd_params) (h : find_tagtype T = some t) (hs : t.type = MPD_TYPE_STRING) :
    mpd_parse_cmd_filter E T (some V) param =
      some { ret := 0,
             param := filter_append param
               (some (legacy_predicate param.exactmatch (tag_field T) (sql_escape V))),
             narg_used := true, undefined := false } := by
  obtain ⟨h1, _⟩ := find_tagtype_head T t h
  obtain ⟨_, h2⟩ := find_tagtype_some T t h
  obtain ⟨f, hf⟩ := Option.isSome_iff_exists.mp ((tagtypes_string_field t h2 (by rw [hs]; decide)).1)
  have hmodern : ¬ (T.head? = some LPAREN ∧ 2 < T.length ∧ T.getLast? = some RPAREN) :=
    fun hh => h1 hh.1
  rw [mpd_parse_cmd_filter, if_neg hmodern]
  simp only [h, legacy_condition, hs, tag_field, hf]
  cases param.exactmatch
  · simp [db_mprintf, db_mprintf_loop, PERCENT, legacy_predicate]
  · simp [db_mprintf, db_mprintf_loop, PERCENT, legacy_predicate]

theorem mpd_parse_cmd_params_loop_pair (E : param_env) (T V : List Char) (rest : List (List Char))
    (t : mpd_tagtype) (r : params_result) (h : find_tagtype T = some t)
    (hs : t.type = MPD_TYPE_STRING) (ha : r.param.params_allow &&& CMD_FILTER ≠ 0) :
    mpd_parse_cmd_params_loop E (T :: V :: rest) false true r =
      mpd_parse_cmd_params_loop E rest false true
        { ret := r.ret,
          param := filter_append r.param
            (some (legacy_predicate r.param.exactmatch (tag_field T) (sql_escape V))),
          undefined := r.undefined } := by
  have hcmd := find_tagtype_param_cmd T t h
  have hf := mpd_parse_cmd_filter_legacy_string E T V t r.param h hs
  have ha2 : ¬ (r.param.params_allow &&& CMD_FILTER = CMD_UNSET) := ha
  rw [mpd_parse_cmd_params_loop, hcmd, if_neg ha2,
    if_neg (by intro hh; exact hh.1 rfl), if_neg (by decide), if_neg (by decide),
    if_neg (by decide), if_pos rfl]
  simp only [List.head?_cons, hf, Bool.true_or]
  rw [mpd_parse_cmd_params_loop]
  simp

theorem mpd_parse_cmd_params_loop_legacy (E : param_env) (pairs : List (List Char × List Char)) :
    ∀ (r : params_result) (done : List (List Char)),
      (∀ p ∈ pairs, ∃ t, find_tagtype p.1 = some t ∧ t.type = MPD_TYPE_STRING) →
      r.param.params_allow &&& CMD_FILTER ≠ 0 →
      r.param.qp.filter = join_and done →
      ∃ r2, mpd_parse_cmd_params_loop E (legacy_argv pairs) false true r = some r2 ∧
        r2.ret = r.ret ∧ r2.undefined = r.undefined ∧
        r2.param.qp.filter = join_and (done ++ pairs.map
          (fun p => legacy_predicate r.param.exactmatch (tag_field p.1) (sql_escape p.2))) := by
  induction pairs with
  | nil =>
    intro r done _ _ hd
    refine ⟨r, ?_, rfl, rfl, ?_⟩
    · simp [legacy_argv, mpd_parse_cmd_params_loop]
    · simpa using hd
  | cons p ps ih =>
    intro r done hp ha hd
    obtain ⟨t, ht, hs⟩ := hp p (List.mem_cons_self _ _)
    rw [legacy_argv, mpd_parse_cmd_params_loop_pair E p.1 p.2 _ t r ht hs ha]
    obtain ⟨r2, h1, h2, h3, h4⟩ := ih
      { ret := r.ret,
        param := filter_append r.param
          (some (legacy_predicate r.param.exactmatch (tag_field p.1) (sql_escape p.2))),
        undefined := r.undefined }
      (done ++ [legacy_predicate r.param.exactmatch (tag_field p.1) (sql_escape p.2)])
      (fun q hq => hp q (List.mem_cons_of_mem _ hq))
      (by simpa [filter_append] using ha)
      (by simp only [filter_append]; rw [hd, join_and_snoc])
    refine ⟨r2, h1, h2, h3, ?_⟩
    rw [h4]
    simp [filter_append]

/-- C15: for every sequence of legacy pairs TAG_i VALUE_i whose tags name STRING rows
of the registry, and every parameter block that allows CMD_FILTER and has no filter
yet, mpd_parse_cmd_params returns 0 and leaves the filter that joins with ` AND `, in
argument order, the predicates `(F_i = 'e_i')` (exactmatch set) or
`(F_i LIKE '%e_i%')` (exactmatch clear), e_i being VALUE_i with its single quotes
doubled. -/
theorem mpd_parse_cmd_params_legacy_pairs (E : param_env) (param : mpd_cmd_params)
    (pairs : List (List Char × List Char))
    (htags : ∀ p ∈ pairs, ∃ t, find_tagtype p.1 = some t ∧ t.type = MPD_TYPE_STRING)
    (hallow : param.params_allow &&& CMD_FILTER ≠ 0)
    (hfilter : param.qp.filter = none) :
    ∃ r, mpd_parse_cmd_params E (legacy_argv pairs) param = some r ∧
      r.ret = 0 ∧ r.undefined = false ∧
      r.param.qp.filter = join_and (pairs.map
        (fun p => legacy_predicate param.exactmatch (tag_field p.1) (sql_escape p.2))) := by
  have hd : decide (param.params_allow &&& CMD_FILTER ≠ 0) = true := by simpa using hallow
  rw [mpd_parse_cmd_params, hd]
  obtain ⟨r2, h1, h2, h3, h4⟩ := mpd_parse_cmd_params_loop_legacy E pairs
    { ret := 0, param := param, undefined := false } [] htags hallow (by simpa [join_and] using hfilter)
  exact ⟨r2, h1, h2, h3, by simpa using h4⟩

theorem mpd_parse_cmd_params_legacy_pairs_witness :
    (∀ p ∈ [("artist".toList, "Bach".toList)],
        ∃ t, find_tagtype p.1 = some t ∧ t.type = MPD_TYPE_STRING) ∧
    (query_cmd_params false).params_allow &&& CMD_FILTER ≠ 0 ∧
    (query_cmd_params false).qp.filter = none ∧
    ∃ r, mpd_parse_cmd_params penv0 ["artist".toList, "Bach".toList] (query_cmd_params false) = some r ∧
      r.ret = 0 ∧ r.undefined = false ∧
      r.param.qp.filter = some "(f.album_artist LIKE \x27%Bach%\x27)".toList :=
  ⟨by decide, by decide, rfl,
   mpd_parse_cmd_params_legacy_pairs penv0 (query_cmd_params false)
     [("artist".toList, "Bach".toList)] (by decide) (by decide) rfl⟩

/-! ## Filter loop: runs -/

theorem reaches_refl (E : param_env) (x : Bool) (v : filter_vars) : reaches E x v v :=
  fun fuel h => ⟨fuel, h, rfl⟩

theorem reaches_trans (E : param_env) (x : Bool) (u v w : filter_vars)
    (h1 : reaches E x u v) (h2 : reaches E x v w) : reaches E x u w := by
  intro fuel hf
  obtain ⟨f2, hf2, e2⟩ := h1 fuel hf
  obtain ⟨f3, hf3, e3⟩ := h2 f2 hf2
  exact ⟨f3, hf3, e2.trans e3⟩

theorem reaches_step (E : param_env) (x : Bool) (v w : filter_vars)
    (hw : filter_step E x v = w) (hn : 0 < v.n) (hlen : w.mem.length < v.mem.length) :
    reaches E x v w := by
  intro fuel hf
  cases fuel with
  | zero => omega
  | succ f =>
    refine ⟨f, by omega, ?_⟩
    rw [filter_loop, if_pos hn, hw]

theorem finishes_done (E : param_env) (x : Bool) (v : filter_vars) (hn : v.n ≤ 0) :
    finishes E x v v.param v.undefined := by
  intro fuel _
  refine ⟨v, ?_, rfl, rfl⟩
  cases fuel with
  | zero => rw [filter_loop, if_neg (by omega)]
  | succ f => rw [filter_loop, if_neg (by omega)]

theorem finishes_of_reaches (E : param_env) (x : Bool) (v w : filter_vars)
    (pm : mpd_cmd_params) (u : Bool)
    (h1 : reaches E x v w) (h2 : finishes E x w pm u) : finishes E x v pm u := by
  intro fuel hf
  obtain ⟨f2, hf2, e2⟩ := h1 fuel hf
  obtain ⟨w2, hw2, a, b⟩ := h2 f2 hf2
  exact ⟨w2, e2.trans hw2, a, b⟩

theorem hunt_append (stop : Char) (T r : List Char) :
    ∀ m : Nat, stop ∉ T → T.length < m → hunt stop (T ++ stop :: r) m = T.length := by
  induction T with
  | nil =>
    intro m _ hm
    cases m with
    | zero => simp at hm
    | succ m => simp [hunt]
  | cons c T ih =>
    intro m hs hm
    cases m with
    | zero => simp at hm
    | succ m =>
      have hc : c ≠ stop := fun h => hs (by simp [h])
      have hT : stop ∉ T := fun h => hs (by simp [h])
      have := ih m hT (by simpa using hm)
      rw [List.cons_append, hunt, if_neg hc, this, List.length_cons]

theorem set_append_length (T r : List Char) (c d : Char) :
    (T ++ c :: r).set T.length d = T ++ d :: r := by
  induction T with
  | nil => rfl
  | cons a T ih => simp [List.set, ih]

theorem cstr_append_nul (T r : List Char) (h : NUL ∉ T) : cstr (T ++ NUL :: r) = T := by
  induction T with
  | nil => simp [cstr]
  | cons a T ih =>
    have ha : a ≠ NUL := fun hh => h (by simp [hh])
    have hT : NUL ∉ T := fun hh => h (by simp [hh])
    have := ih hT
    unfold cstr at this ⊢
    rw [List.cons_append, List.takeWhile_cons, this]
    simp [ha]

theorem filter_step_expr (E : param_env) (x : Bool) (T r : List Char) (n : Int)
    (fst ng : Bool) (tt : Option mpd_tagtype) (o : Nat) (vl : Option (List Char))
    (pm : mpd_cmd_params) (u : Bool) (t : mpd_tagtype)
    (ht : find_tagtype T = some t)
    (hb : ¬ (t.tag = "base".toList ∨ t.tag = "modified-since".toList))
    (hlen : (T.length : Int) < n) :
    filter_step E x ⟨T ++ SPACE :: r, n, STATE_EXPR, fst, ng, tt, o, vl, pm, u⟩ =
      ⟨r, n - T.length - 1, STATE_OP, false, ng, some t, o, vl, pm, u⟩ := by
  obtain ⟨_, _, _, hsp, hnul⟩ := find_tagtype_head T t ht
  have hh : hunt SPACE (T ++ SPACE :: r) n.toNat = T.length :=
    hunt_append SPACE T r n.toNat hsp (by omega)
  have hne : ¬ ((T.length : Int) = n) := by omega
  simp only [filter_step, step_state, step_expr, hh, if_neg hne, set_append_length,
    cstr_append_nul T r hnul, ht, if_neg hb, List.drop_left, List.tail_cons]

theorem operator_of_mem (O : List Char) (o : Nat) (h : operator_of O = some o) :
    O ∈ operator_words := by
  by_contra hn
  simp only [operator_words, List.mem_cons, List.mem_singleton, List.not_mem_nil, not_or,
    or_false] at hn
  obtain ⟨h1, h2, h3, h4, h5, h6, h7, h8, h9, h10, h11, h12, h13, h14, h15, h16, h17, h18,
    h19, h20, h21⟩ := hn
  rw [operator_of, if_neg h1, if_neg h2, if_neg h3, if_neg h4, if_neg h5, if_neg h6, if_neg h7,
    if_neg h8, if_neg h9, if_neg h10, if_neg h11, if_neg h12, if_neg h13, if_neg h14,
    if_neg h15, if_neg h16, if_neg h17, if_neg h18, if_neg h19, if_neg h20, if_neg h21] at h
  exact Option.noConfusion h

theorem operator_words_chars : ∀ O ∈ operator_words, SPACE ∉ O ∧ NUL ∉ O := by
  decide

theorem operator_of_chars (O : List Char) (o : Nat) (h : operator_of O = some o) :
    SPACE ∉ O ∧ NUL ∉ O :=
  operator_words_chars O (operator_of_mem O o h)

theorem filter_step_op (E : param_env) (x : Bool) (O r : List Char) (n : Int)
    (fst ng : Bool) (t : mpd_tagtype) (o0 o : Nat) (vl : Option (List Char))
    (pm : mpd_cmd_params) (u : Bool)
    (ho : operator_of O = some o) (hlen : (O.length : Int) < n) :
    filter_step E x ⟨O ++ SPACE :: r, n, STATE_OP, fst, ng, some t, o0, vl, pm, u⟩ =
      ⟨r, n - O.length - 1, STATE_VAL, false, ng, some t,
        if ng then negate_op (promote_op x t.type o) else promote_op x t.type o, vl, pm, u⟩ := by
  obtain ⟨hsp, hnul⟩ := operator_of_chars O o ho
  have hh : hunt SPACE (O ++ SPACE :: r) n.toNat = O.length :=
    hunt_append SPACE O r n.toNat hsp (by omega)
  have hne : ¬ ((O.length : Int) = n) := by omega
  simp only [filter_step, step_state, step_op, hh, if_neg hne, set_append_length,
    cstr_append_nul O r hnul, ho, List.drop_left, List.tail_cons]

theorem isDigit_mem (c : Char) (h : c.isDigit = true) : c ∈ "0123456789".toList := by
  have h1 : 48 ≤ c.toNat ∧ c.toNat ≤ 57 := by
    simpa [Char.isDigit, UInt32.le_def, Char.toNat, Nat.le_antisymm_iff] using h
  have hc : c = Char.ofNat c.toNat := (Char.ofNat_toNat c).symm
  obtain ⟨a, b⟩ := h1
  rw [hc]
  interval_cases c.toNat <;> decide

theorem isDigit_facts (c : Char) (h : c.isDigit = true) :
    c ≠ RPAREN ∧ c ≠ SPACE ∧ c ≠ NUL ∧ c ≠ BANG ∧ c ≠ LPAREN ∧ c.toLower ≠ Char.ofNat 97 := by
  have := isDigit_mem c h
  simp only [String.toList, List.mem_cons, List.mem_singleton, List.not_mem_nil, or_false] at this
  rcases this with rfl | rfl | rfl | rfl | rfl | rfl | rfl | rfl | rfl | rfl <;> decide

theorem cstr_self (s : List Char) (h : NUL ∉ s) : cstr s = s := by
  have := cstr_append_nul s [] h
  unfold cstr at this ⊢
  rw [List.takeWhile_eq_self_iff]
  intro c hc
  have hne : c ≠ NUL := fun hh => h (hh ▸ hc)
  simp [hne]

theorem digits_not_mem (D : List Char) (h : ∀ d ∈ D, d.isDigit = true) :
    RPAREN ∉ D ∧ NUL ∉ D ∧ BANG ∉ D ∧ LPAREN ∉ D := by
  refine ⟨?_, ?_, ?_, ?_⟩
  · intro hh; exact (isDigit_facts _ (h _ hh)).1 rfl
  · intro hh; exact (isDigit_facts _ (h _ hh)).2.2.1 rfl
  · intro hh; exact (isDigit_facts _ (h _ hh)).2.2.2.1 rfl
  · intro hh; exact (isDigit_facts _ (h _ hh)).2.2.2.2.1 rfl

theorem filter_step_val_number (E : param_env) (x : Bool) (c : Char) (D r : List Char) (n : Int)
    (fst ng : Bool) (tt : Option mpd_tagtype) (o : Nat) (vl : Option (List Char))
    (pm : mpd_cmd_params) (u : Bool)
    (hc : c.isDigit = true) (hD : ∀ d ∈ D, d.isDigit = true) (hlen : (D.length : Int) + 1 < n) :
    filter_step E x ⟨c :: D ++ RPAREN :: r, n, STATE_VAL, fst, ng, tt, o, vl, pm, u⟩ =
      ⟨D ++ NUL :: r, n - 1, STATE_FINI, false, ng, tt, o, some (c :: D), pm, u⟩ := by
  have hall : ∀ d ∈ c :: D, d.isDigit = true := by
    intro d hd
    rcases List.mem_cons.mp hd with rfl | hd
    · exact hc
    · exact hD d hd
  obtain ⟨hrp, hnul, _, _⟩ := digits_not_mem (c :: D) hall
  have hh : hunt RPAREN ((c :: D) ++ RPAREN :: r) n.toNat = (c :: D).length :=
    hunt_append RPAREN (c :: D) r n.toNat hrp (by simp only [List.length_cons]; omega)
  have hne : ¬ (((c :: D).length : Int) = n) := by simp only [List.length_cons]; push_cast; omega
  have hset := set_append_length (c :: D) r RPAREN NUL
  have hcs := cstr_append_nul (c :: D) r hnul
  rw [List.cons_append] at hh hset hcs
  simp only [List.length_cons] at hh hset hne
  simp only [filter_step, step_state, step_val, List.cons_append, List.headD_cons, hc, if_true,
    hh, hne, if_false, hset, hcs, List.tail_cons]

theorem unquote_escape (q : Char) (hq : q ≠ BACKSLASH) (r : List Char) :
    ∀ (s : List Char) (m : Nat), (escape_for q s).length < m →
      unquote q false m (escape_for q s ++ q :: r) = (s, (escape_for q s).length) := by
  intro s
  induction s with
  | nil =>
    intro m hm
    cases m with
    | zero => simp at hm
    | succ m => simp [escape_for, unquote]
  | cons c s ih =>
    intro m hm
    by_cases hc : c = q ∨ c = BACKSLASH
    · simp only [escape_for, if_pos hc, List.length_cons] at hm ⊢
      cases m with
      | zero => omega
      | succ m =>
        cases m with
        | zero => omega
        | succ m =>
          have := ih m (by omega)
          simp only [List.cons_append, unquote, List.headD_cons, List.tail_cons,
            if_neg (Ne.symm hq), if_true, this]
    · simp only [escape_for, if_neg hc, List.length_cons] at hm ⊢
      cases m with
      | zero => omega
      | succ m =>
        have := ih m (by omega)
        have h1 : ¬ c = q := fun hh => hc (Or.inl hh)
        have h2 : ¬ c = BACKSLASH := fun hh => hc (Or.inr hh)
        simp only [List.cons_append, unquote, List.headD_cons, List.tail_cons, if_neg h1,
          if_neg h2, this]

theorem filter_step_val_quoted (E : param_env) (x : Bool) (q : Char) (s r : List Char) (n : Int)
    (fst ng : Bool) (tt : Option mpd_tagtype) (o : Nat) (vl : Option (List Char))
    (pm : mpd_cmd_params) (u : Bool)
    (hq : q = DQUOTE ∨ q = SQUOTE) (hs : NUL ∉ s)
    (hlen : ((escape_for q s).length : Int) + 1 < n) :
    filter_step E x ⟨q :: (escape_for q s ++ q :: r), n, STATE_VAL, fst, ng, tt, o, vl, pm, u⟩ =
      ⟨r, n - ((escape_for q s).length + 2), STATE_FINI, false, ng, tt, o, some s, pm, u⟩ := by
  have hqb : q ≠ BACKSLASH := by rcases hq with rfl | rfl <;> decide
  have hqd : q.isDigit = false := by rcases hq with rfl | rfl <;> decide
  have hun := unquote_escape q hqb r s (n.toNat - 1) (by omega)
  have hne : ¬ (((escape_for q s).length : Int) + 1 = n) := by omega
  have hdrop : List.drop (1 + (escape_for q s).length) (q :: (escape_for q s ++ q :: r)) = q :: r := by
    rw [Nat.add_comm, List.drop_succ_cons, List.drop_left]
  simp only [filter_step, step_state, step_val, List.headD_cons, hqd, Bool.false_eq_true, if_false,
    hq, if_true, List.tail_cons, hun, hne, cstr_self s hs, hdrop]
  split_ifs <;> simp <;> omega

theorem filter_step_fini (E : param_env) (x : Bool) (m : List Char) (n : Int)
    (fst ng : Bool) (t : mpd_tagtype) (o : Nat) (val : List Char)
    (pm : mpd_cmd_params) (u : Bool) :
    filter_step E x ⟨m, n, STATE_FINI, fst, ng, some t, o, some val, pm, u⟩ =
      ⟨(m.drop (fini_skip m)).tail, n - fini_skip m - 1, STATE_INIT, false, false, some t, o,
        some val, filter_append pm ((fini_condition E t o ng val).getD none),
        u || (fini_condition E t o ng val).isNone⟩ := by
  simp only [filter_step, step_state, step_fini, fini_vars_condition]

theorem filter_step_init_lparen (E : param_env) (x : Bool) (r : List Char) (n : Int)
    (fst ng : Bool) (tt : Option mpd_tagtype) (o : Nat) (vl : Option (List Char))
    (pm : mpd_cmd_params) (u : Bool) :
    filter_step E x ⟨LPAREN :: r, n, STATE_INIT, fst, ng, tt, o, vl, pm, u⟩ =
      ⟨r, n - 1, STATE_EXPR, false, ng, none, OP_NONE, vl, pm, u⟩ := by
  have h : ¬ (LPAREN = BANG) := by decide
  simp only [filter_step, step_state, step_init, List.headD_cons, if_neg h, if_true, List.tail_cons]

theorem filter_step_init_bang (E : param_env) (x : Bool) (r : List Char) (n : Int)
    (fst ng : Bool) (tt : Option mpd_tagtype) (o : Nat) (vl : Option (List Char))
    (pm : mpd_cmd_params) (u : Bool) :
    filter_step E x ⟨BANG :: r, n, STATE_INIT, fst, ng, tt, o, vl, pm, u⟩ =
      ⟨r, n - 1, STATE_INIT, false, true, none, OP_NONE, vl, pm, u⟩ := by
  simp only [filter_step, step_state, step_init, List.headD_cons, if_true, List.tail_cons]

theorem filter_step_init_garbage (E : param_env) (x : Bool) (c : Char) (r : List Char) (n : Int)
    (ng : Bool) (tt : Option mpd_tagtype) (o : Nat) (vl : Option (List Char))
    (pm : mpd_cmd_params) (u : Bool) (h1 : c ≠ BANG) (h2 : c ≠ LPAREN) :
    filter_step E x ⟨c :: r, n, STATE_INIT, false, ng, tt, o, vl, pm, u⟩ =
      ⟨r, n - 1, STATE_INIT, false, false, none, OP_NONE, vl, pm, u⟩ := by
  simp only [filter_step, step_state, step_init, List.headD_cons, if_neg h1, if_neg h2,
    Bool.false_eq_true, if_false, List.tail_cons]

theorem filter_step_init_first (E : param_env) (x : Bool) (c : Char) (r : List Char) (n : Int)
    (ng : Bool) (tt : Option mpd_tagtype) (o : Nat) (vl : Option (List Char))
    (pm : mpd_cmd_params) (u : Bool) (h1 : c ≠ BANG) (h2 : c ≠ LPAREN) :
    filter_step E x ⟨c :: r, n, STATE_INIT, true, ng, tt, o, vl, pm, u⟩ =
      ⟨c :: r, n + 1, STATE_EXPR, false, ng, none, OP_NONE, vl, pm, u⟩ := by
  simp only [filter_step, step_state, step_init, List.headD_cons, if_neg h1, if_neg h2,
    if_true, List.tail_cons]
  simp only [filter_vars.mk.injEq, and_true, true_and]
  omega

theorem garbage_run (E : param_env) (x : Bool) (rest : List Char) (vl : Option (List Char))
    (pm : mpd_cmd_params) (u : Bool) :
    ∀ (g : List Char) (n : Int) (ng : Bool) (tt : Option mpd_tagtype) (o : Nat),
      g ≠ [] → (∀ c ∈ g, c ≠ BANG ∧ c ≠ LPAREN) → (g.length : Int) ≤ n →
      reaches E x ⟨g ++ rest, n, STATE_INIT, false, ng, tt, o, vl, pm, u⟩
        ⟨rest, n - g.length, STATE_INIT, false, false, none, OP_NONE, vl, pm, u⟩ := by
  intro g
  induction g with
  | nil => intro n ng tt o h; exact absurd rfl h
  | cons c g ih =>
    intro n ng tt o _ hg hn
    have hc := hg c (List.mem_cons_self _ _)
    have hstep := filter_step_init_garbage E x c (g ++ rest) n ng tt o vl pm u hc.1 hc.2
    simp only [List.length_cons] at hn
    have h1 : reaches E x ⟨c :: g ++ rest, n, STATE_INIT, false, ng, tt, o, vl, pm, u⟩
        ⟨g ++ rest, n - 1, STATE_INIT, false, false, none, OP_NONE, vl, pm, u⟩ :=
      reaches_step E x _ _ hstep (by show 0 < n; omega) (by simp)
    by_cases hnil : g = []
    · subst hnil
      simpa using h1
    · have h2 := ih (n - 1) false none OP_NONE hnil
        (fun d hd => hg d (List.mem_cons_of_mem _ hd)) (by omega)
      have h3 := reaches_trans E x _ _ _ h1 h2
      have e : n - 1 - (g.length : Int) = n - ((c :: g).length : Int) := by
        simp only [List.length_cons]; push_cast; omega
      rw [e] at h3
      exact h3

theorem fini_skip_rparen_and (rest : List Char) :
    fini_skip (RPAREN :: (" AND ".toList ++ rest)) = 2 := by
  simp [fini_skip, strcasecmp_eq, cstr, RPAREN, SPACE, NUL, List.takeWhile, List.dropWhile]

theorem fini_skip_rparen_pos (tail : List Char) : 1 ≤ fini_skip (RPAREN :: tail) := by
  simp only [fini_skip, List.headD_cons, if_true]
  omega

theorem fini_skip_digits (D tail : List Char) (hD : ∀ d ∈ D, d.isDigit = true) :
    fini_skip (D ++ NUL :: tail) = 0 := by
  cases D with
  | nil =>
    simp [fini_skip, strcasecmp_eq, cstr, RPAREN, SPACE, NUL, List.takeWhile, List.dropWhile]
  | cons d D =>
    obtain ⟨h1, h2, h3, _, _, h6⟩ := isDigit_facts d (hD d (List.mem_cons_self _ _))
    have h7 : ¬ (d.toLower = 'a') := h6
    simp [fini_skip, strcasecmp_eq, cstr, List.takeWhile, List.dropWhile, h1, h2, h3, h7]

/-! ## Filter loop: one sub-expression -/

theorem expr_to_fini_quoted (E : param_env) (x : Bool) (T O : List Char) (q : Char)
    (s tail : List Char) (n : Int) (fst ng : Bool) (tt : Option mpd_tagtype) (o0 : Nat)
    (vl : Option (List Char)) (pm : mpd_cmd_params) (u : Bool) (t : mpd_tagtype) (o : Nat)
    (ht : find_tagtype T = some t) (hty : t.type ≠ MPD_TYPE_SPECIAL)
    (ho : operator_of O = some o) (hq : q = DQUOTE ∨ q = SQUOTE) (hs : NUL ∉ s)
    (hn : ((T.length + O.length + (escape_for q s).length + 4 : Nat) : Int) < n) :
    reaches E x
      ⟨T ++ SPACE :: (O ++ SPACE :: (q :: (escape_for q s ++ q :: RPAREN :: tail))), n,
        STATE_EXPR, fst, ng, tt, o0, vl, pm, u⟩
      ⟨RPAREN :: tail, n - (T.length + O.length + (escape_for q s).length + 4 : Nat),
        STATE_FINI, false, ng, some t,
        if ng then negate_op (promote_op x t.type o) else promote_op x t.type o,
        some s, pm, u⟩ := by
  have hb := (tagtypes_string_field t (find_tagtype_some T t ht).2 hty).2
  have s1 := filter_step_expr E x T (O ++ SPACE :: (q :: (escape_for q s ++ q :: RPAREN :: tail)))
    n fst ng tt o0 vl pm u t ht (by intro h; rcases h with h | h; exact hb.1 h; exact hb.2 h)
    (by omega)
  have s2 := filter_step_op E x O (q :: (escape_for q s ++ q :: RPAREN :: tail))
    (n - T.length - 1) false ng t o0 o vl pm u ho (by omega)
  have s3 := filter_step_val_quoted E x q s (RPAREN :: tail) (n - T.length - 1 - O.length - 1)
    false ng (some t) (if ng then negate_op (promote_op x t.type o) else promote_op x t.type o)
    vl pm u hq hs (by omega)
  have r1 := reaches_step E x _ _ s1 (by show 0 < n; omega) (by simp only [List.length_append, List.length_cons]; omega)
  have r2 := reaches_step E x _ _ s2 (by show 0 < n - T.length - 1; omega) (by simp only [List.length_append, List.length_cons]; omega)
  have r3 := reaches_step E x _ _ s3 (by show 0 < n - T.length - 1 - O.length - 1; omega)
    (by simp only [List.length_append, List.length_cons]; omega)
  have r := reaches_trans E x _ _ _ (reaches_trans E x _ _ _ r1 r2) r3
  have e : n - (T.length : Int) - 1 - O.length - 1 - (((escape_for q s).length : Int) + 2)
      = n - ((T.length + O.length + (escape_for q s).length + 4 : Nat) : Int) := by
    push_cast; omega
  rw [e] at r
  exact r

theorem expr_to_fini_number (E : param_env) (x : Bool) (T O : List Char) (c : Char)
    (D tail : List Char) (n : Int) (fst ng : Bool) (tt : Option mpd_tagtype) (o0 : Nat)
    (vl : Option (List Char)) (pm : mpd_cmd_params) (u : Bool) (t : mpd_tagtype) (o : Nat)
    (ht : find_tagtype T = some t) (hty : t.type ≠ MPD_TYPE_SPECIAL)
    (ho : operator_of O = some o) (hc : c.isDigit = true) (hD : ∀ d ∈ D, d.isDigit = true)
    (hn : ((T.length + O.length + D.length + 3 : Nat) : Int) < n) :
    reaches E x
      ⟨T ++ SPACE :: (O ++ SPACE :: (c :: D ++ RPAREN :: tail)), n,
        STATE_EXPR, fst, ng, tt, o0, vl, pm, u⟩
      ⟨D ++ NUL :: tail, n - (T.length + O.length + 3 : Nat),
        STATE_FINI, false, ng, some t,
        if ng then negate_op (promote_op x t.type o) else promote_op x t.type o,
        some (c :: D), pm, u⟩ := by
  have hb := (tagtypes_string_field t (find_tagtype_some T t ht).2 hty).2
  have s1 := filter_step_expr E x T (O ++ SPACE :: (c :: D ++ RPAREN :: tail))
    n fst ng tt o0 vl pm u t ht (by intro h; rcases h with h | h; exact hb.1 h; exact hb.2 h)
    (by omega)
  have s2 := filter_step_op E x O (c :: D ++ RPAREN :: tail)
    (n - T.length - 1) false ng t o0 o vl pm u ho (by omega)
  have s3 := filter_step_val_number E x c D tail (n - T.length - 1 - O.length - 1)
    false ng (some t) (if ng then negate_op (promote_op x t.type o) else promote_op x t.type o)
    vl pm u hc hD (by omega)
  have r1 := reaches_step E x _ _ s1 (by show 0 < n; omega) (by simp only [List.length_append, List.length_cons]; omega)
  have r2 := reaches_step E x _ _ s2 (by show 0 < n - T.length - 1; omega) (by simp only [List.length_append, List.length_cons]; omega)
  have r3 := reaches_step E x _ _ s3 (by show 0 < n - T.length - 1 - O.length - 1; omega)
    (by simp only [List.length_append, List.length_cons]; omega)
  have r := reaches_trans E x _ _ _ (reaches_trans E x _ _ _ r1 r2) r3
  have e : n - (T.length : Int) - 1 - O.length - 1 - 1
      = n - ((T.length + O.length + 3 : Nat) : Int) := by
    push_cast; omega
  rw [e] at r
  exact r

theorem fini_then (E : param_env) (x : Bool) (c : Char) (m : List Char) (n : Int)
    (fst ng : Bool) (t : mpd_tagtype) (o : Nat) (val : List Char)
    (pm : mpd_cmd_params) (u : Bool) (hn : 0 < n) :
    reaches E x ⟨c :: m, n, STATE_FINI, fst, ng, some t, o, some val, pm, u⟩
      ⟨((c :: m).drop (fini_skip (c :: m))).tail, n - fini_skip (c :: m) - 1, STATE_INIT, false,
        false, some t, o, some val, filter_append pm ((fini_condition E t o ng val).getD none),
        u || (fini_condition E t o ng val).isNone⟩ := by
  apply reaches_step E x _ _ (filter_step_fini E x (c :: m) n fst ng t o val pm u) hn
  simp only [List.length_tail, List.length_drop, List.length_cons]
  omega

theorem fini_last_quoted (E : param_env) (x : Bool) (tail : List Char)
    (fst ng : Bool) (t : mpd_tagtype) (o : Nat) (val : List Char)
    (pm : mpd_cmd_params) (u : Bool) :
    finishes E x ⟨RPAREN :: tail, 1, STATE_FINI, fst, ng, some t, o, some val, pm, u⟩
      (filter_append pm ((fini_condition E t o ng val).getD none))
      (u || (fini_condition E t o ng val).isNone) := by
  have h := fini_then E x RPAREN tail 1 fst ng t o val pm u (by omega)
  have hp := fini_skip_rparen_pos tail
  exact finishes_of_reaches E x _ _ _ _ h
    (finishes_done E x _ (by show (1 : Int) - fini_skip (RPAREN :: tail) - 1 ≤ 0; omega))

theorem fini_mid_quoted (E : param_env) (x : Bool) (rest : List Char) (d : Nat)
    (fst ng : Bool) (t : mpd_tagtype) (o : Nat) (val : List Char)
    (pm : mpd_cmd_params) (u : Bool) :
    reaches E x
      ⟨RPAREN :: (" AND ".toList ++ rest), ((d + 6 : Nat) : Int), STATE_FINI, fst, ng, some t, o,
        some val, pm, u⟩
      ⟨rest, (d : Int), STATE_INIT, false, false, none, OP_NONE, some val,
        filter_append pm ((fini_condition E t o ng val).getD none),
        u || (fini_condition E t o ng val).isNone⟩ := by
  have h := fini_then E x RPAREN (" AND ".toList ++ rest) ((d + 6 : Nat) : Int) fst ng t o val pm u
    (by omega)
  rw [fini_skip_rparen_and] at h
  have hm : ((RPAREN :: (" AND ".toList ++ rest)).drop 2).tail = "ND ".toList ++ rest := by
    simp
  rw [hm] at h
  have g := garbage_run E x rest (some val)
    (filter_append pm ((fini_condition E t o ng val).getD none))
    (u || (fini_condition E t o ng val).isNone) "ND ".toList
    (((d + 6 : Nat) : Int) - (2 : Nat) - 1) false (some t) o (by decide) (by decide)
    (by simp; omega)
  have r := reaches_trans E x _ _ _ h g
  have e : ((d + 6 : Nat) : Int) - (2 : Nat) - 1 - ("ND ".toList.length : Int) = (d : Int) := by
    simp; omega
  rw [e] at r
  exact r

theorem fini_last_number (E : param_env) (x : Bool) (D tail : List Char)
    (hD : ∀ d ∈ D, d.isDigit = true)
    (fst ng : Bool) (t : mpd_tagtype) (o : Nat) (val : List Char)
    (pm : mpd_cmd_params) (u : Bool) :
    finishes E x ⟨D ++ NUL :: tail, ((D.length + 1 : Nat) : Int), STATE_FINI, fst, ng, some t, o,
        some val, pm, u⟩
      (filter_append pm ((fini_condition E t o ng val).getD none))
      (u || (fini_condition E t o ng val).isNone) := by
  have hs := fini_skip_digits D tail hD
  cases D with
  | nil =>
    have h := fini_then E x NUL tail ((0 + 1 : Nat) : Int) fst ng t o val pm u (by omega)
    exact finishes_of_reaches E x _ _ _ _ h
      (finishes_done E x _ (by
        show ((0 + 1 : Nat) : Int) - fini_skip (NUL :: tail) - 1 ≤ 0
        omega))
  | cons c D =>
    have h := fini_then E x c (D ++ NUL :: tail) (((c :: D).length + 1 : Nat) : Int) fst ng t o
      val pm u (by omega)
    rw [List.cons_append] at hs
    rw [hs] at h
    have hm : ((c :: (D ++ NUL :: tail)).drop 0).tail = (D ++ [NUL]) ++ tail := by simp
    rw [hm] at h
    have hdig := digits_not_mem D (fun d hd => hD d (List.mem_cons_of_mem _ hd))
    have g := garbage_run E x tail (some val)
      (filter_append pm ((fini_condition E t o ng val).getD none))
      (u || (fini_condition E t o ng val).isNone) (D ++ [NUL])
      ((((c :: D).length + 1 : Nat) : Int) - (0 : Nat) - 1) false (some t) o (by simp)
      (by
        intro a ha
        rcases List.mem_append.mp ha with ha | ha
        · exact ⟨fun hh => hdig.2.2.1 (hh ▸ ha), fun hh => hdig.2.2.2 (hh ▸ ha)⟩
        · rw [List.mem_singleton] at ha
          subst ha
          decide)
      (by simp)
    exact finishes_of_reaches E x _ _ _ _ (reaches_trans E x _ _ _ h g)
      (finishes_done E x _ (by
        show (((c :: D).length + 1 : Nat) : Int) - (0 : Nat) - 1 - ((D ++ [NUL]).length : Int) ≤ 0
        simp))

theorem fini_mid_number (E : param_env) (x : Bool) (D rest : List Char) (d : Nat)
    (hD : ∀ d ∈ D, d.isDigit = true)
    (fst ng : Bool) (t : mpd_tagtype) (o : Nat) (val : List Char)
    (pm : mpd_cmd_params) (u : Bool) :
    reaches E x
      ⟨D ++ NUL :: (" AND ".toList ++ rest), ((D.length + 6 + d : Nat) : Int), STATE_FINI, fst, ng,
        some t, o, some val, pm, u⟩
      ⟨rest, (d : Int), STATE_INIT, false, false, none, OP_NONE, some val,
        filter_append pm ((fini_condition E t o ng val).getD none),
        u || (fini_condition E t o ng val).isNone⟩ := by
  have hs := fini_skip_digits D (" AND ".toList ++ rest) hD
  have hdig := digits_not_mem D hD
  obtain ⟨c, m, hcm⟩ : ∃ c m, D ++ NUL :: (" AND ".toList ++ rest) = c :: m := by
    cases D with
    | nil => exact ⟨_, _, rfl⟩
    | cons c D => exact ⟨_, _, rfl⟩
  have h := fini_then E x c m ((D.length + 6 + d : Nat) : Int) fst ng t o val pm u (by omega)
  rw [← hcm, hs] at h
  have hm : ((D ++ NUL :: (" AND ".toList ++ rest)).drop 0).tail
      = (D ++ NUL :: " AND ".toList).tail ++ rest := by
    cases D <;> simp
  rw [hm] at h
  have hlen : ((D ++ NUL :: " AND ".toList).tail).length = D.length + 5 := by simp
  have g := garbage_run E x rest (some val)
    (filter_append pm ((fini_condition E t o ng val).getD none))
    (u || (fini_condition E t o ng val).isNone) (D ++ NUL :: " AND ".toList).tail
    (((D.length + 6 + d : Nat) : Int) - (0 : Nat) - 1) false (some t) o
    (by intro hh; rw [hh] at hlen; simp at hlen)
    (by
      intro a ha
      have ha2 := List.mem_of_mem_tail ha
      rcases List.mem_append.mp ha2 with ha3 | ha3
      · exact ⟨fun hh => hdig.2.2.1 (hh ▸ ha3), fun hh => hdig.2.2.2 (hh ▸ ha3)⟩
      · have key : ∀ b ∈ NUL :: " AND ".toList, b ≠ BANG ∧ b ≠ LPAREN := by decide
        exact key a ha3)
    (by rw [hlen]; push_cast; omega)
  have r := reaches_trans E x _ _ _ h g
  have e : ((D.length + 6 + d : Nat) : Int) - (0 : Nat) - 1
      - (((D ++ NUL :: " AND ".toList).tail).length : Int) = (d : Int) := by
    rw [hlen]; push_cast; omega
  rw [e] at r
  exact r

theorem value_wf_number (D : List Char) (h : (filter_value.number D).wf = true) :
    ∃ c D2, D = c :: D2 ∧ c.isDigit = true ∧ ∀ d ∈ D2, d.isDigit = true := by
  cases D with
  | nil => simp [filter_value.wf] at h
  | cons c D2 =>
    simp only [filter_value.wf, List.isEmpty_cons, Bool.not_false, Bool.true_and, List.all_cons,
      Bool.and_eq_true, List.all_eq_true] at h
    exact ⟨c, D2, rfl, h.1, h.2⟩

theorem value_wf_quoted (q : Char) (s : List Char) (h : (filter_value.quoted q s).wf = true) :
    (q = DQUOTE ∨ q = SQUOTE) ∧ NUL ∉ s := by
  simpa [filter_value.wf] using h

theorem expr_last (E : param_env) (x : Bool) (e : filter_expr) (t : mpd_tagtype) (o : Nat)
    (ht : find_tagtype e.tag = some t) (hty : t.type ≠ MPD_TYPE_SPECIAL)
    (ho : operator_of e.op = some o) (hv : e.value.wf = true) (tail : List Char)
    (fst ng : Bool) (tt : Option mpd_tagtype) (o0 : Nat) (vl : Option (List Char))
    (pm : mpd_cmd_params) (u : Bool) :
    finishes E x
      ⟨e.text ++ RPAREN :: tail, ((e.text.length + 1 : Nat) : Int), STATE_EXPR, fst, ng, tt, o0,
        vl, pm, u⟩
      (filter_append pm ((expr_condition E x ng t o e.value.val).getD none))
      (u || (expr_condition E x ng t o e.value.val).isNone) := by
  obtain ⟨T, O, V⟩ := e
  cases V with
  | number D =>
    obtain ⟨c, D2, rfl, hc, hD⟩ := value_wf_number D hv
    have hmem : (filter_expr.mk T O (filter_value.number (c :: D2))).text ++ RPAREN :: tail
        = T ++ SPACE :: (O ++ SPACE :: (c :: D2 ++ RPAREN :: tail)) := by
      simp [filter_expr.text, filter_value.text]
    have hn : (((filter_expr.mk T O (filter_value.number (c :: D2))).text.length + 1 : Nat) : Int)
        = ((T.length + O.length + D2.length + 4 : Nat) : Int) := by
      simp [filter_expr.text, filter_value.text]; omega
    rw [hmem, hn]
    have r := expr_to_fini_number E x T O c D2 tail ((T.length + O.length + D2.length + 4 : Nat) : Int)
      fst ng tt o0 vl pm u t o ht hty ho hc hD (by push_cast; omega)
    have e2 : ((T.length + O.length + D2.length + 4 : Nat) : Int) - ((T.length + O.length + 3 : Nat) : Int)
        = ((D2.length + 1 : Nat) : Int) := by push_cast; omega
    rw [e2] at r
    exact finishes_of_reaches E x _ _ _ _ r (fini_last_number E x D2 tail hD false ng t _ _ pm u)
  | quoted q s =>
    obtain ⟨hq, hs⟩ := value_wf_quoted q s hv
    have hmem : (filter_expr.mk T O (filter_value.quoted q s)).text ++ RPAREN :: tail
        = T ++ SPACE :: (O ++ SPACE :: (q :: (escape_for q s ++ q :: RPAREN :: tail))) := by
      simp [filter_expr.text, filter_value.text]
    have hn : (((filter_expr.mk T O (filter_value.quoted q s)).text.length + 1 : Nat) : Int)
        = ((T.length + O.length + (escape_for q s).length + 5 : Nat) : Int) := by
      simp [filter_expr.text, filter_value.text]; omega
    rw [hmem, hn]
    have r := expr_to_fini_quoted E x T O q s tail
      ((T.length + O.length + (escape_for q s).length + 5 : Nat) : Int)
      fst ng tt o0 vl pm u t o ht hty ho hq hs (by push_cast; omega)
    have e2 : ((T.length + O.length + (escape_for q s).length + 5 : Nat) : Int)
        - ((T.length + O.length + (escape_for q s).length + 4 : Nat) : Int) = 1 := by
      push_cast; omega
    rw [e2] at r
    exact finishes_of_reaches E x _ _ _ _ r (fini_last_quoted E x tail false ng t _ _ pm u)

theorem expr_mid (E : param_env) (x : Bool) (e : filter_expr) (t : mpd_tagtype) (o : Nat)
    (ht : find_tagtype e.tag = some t) (hty : t.type ≠ MPD_TYPE_SPECIAL)
    (ho : operator_of e.op = some o) (hv : e.value.wf = true) (rest : List Char) (d : Nat)
    (fst ng : Bool) (tt : Option mpd_tagtype) (o0 : Nat) (vl : Option (List Char))
    (pm : mpd_cmd_params) (u : Bool) :
    reaches E x
      ⟨e.text ++ RPAREN :: (" AND ".toList ++ rest), ((e.text.length + 6 + d : Nat) : Int),
        STATE_EXPR, fst, ng, tt, o0, vl, pm, u⟩
      ⟨rest, (d : Int), STATE_INIT, false, false, none, OP_NONE, some e.value.val,
        filter_append pm ((expr_condition E x ng t o e.value.val).getD none),
        u || (expr_condition E x ng t o e.value.val).isNone⟩ := by
  obtain ⟨T, O, V⟩ := e
  cases V with
  | number D =>
    obtain ⟨c, D2, rfl, hc, hD⟩ := value_wf_number D hv
    have hmem : (filter_expr.mk T O (filter_value.number (c :: D2))).text
          ++ RPAREN :: (" AND ".toList ++ rest)
        = T ++ SPACE :: (O ++ SPACE :: (c :: D2 ++ RPAREN :: (" AND ".toList ++ rest))) := by
      simp [filter_expr.text, filter_value.text]
    have hn : (((filter_expr.mk T O (filter_value.number (c :: D2))).text.length + 6 + d : Nat) : Int)
        = ((T.length + O.length + D2.length + 9 + d : Nat) : Int) := by
      simp [filter_expr.text, filter_value.text]; omega
    rw [hmem, hn]
    have r := expr_to_fini_number E x T O c D2 (" AND ".toList ++ rest)
      ((T.length + O.length + D2.length + 9 + d : Nat) : Int)
      fst ng tt o0 vl pm u t o ht hty ho hc hD (by push_cast; omega)
    have e2 : ((T.length + O.length + D2.length + 9 + d : Nat) : Int)
        - ((T.length + O.length + 3 : Nat) : Int) = ((D2.length + 6 + d : Nat) : Int) := by
      push_cast; omega
    rw [e2] at r
    exact reaches_trans E x _ _ _ r (fini_mid_number E x D2 rest d hD false ng t _ _ pm u)
  | quoted q s =>
    obtain ⟨hq, hs⟩ := value_wf_quoted q s hv
    have hmem : (filter_expr.mk T O (filter_value.quoted q s)).text
          ++ RPAREN :: (" AND ".toList ++ rest)
        = T ++ SPACE :: (O ++ SPACE :: (q :: (escape_for q s ++ q :: RPAREN :: (" AND ".toList ++ rest)))) := by
      simp [filter_expr.text, filter_value.text]
    have hn : (((filter_expr.mk T O (filter_value.quoted q s)).text.length + 6 + d : Nat) : Int)
        = ((T.length + O.length + (escape_for q s).length + 10 + d : Nat) : Int) := by
      simp [filter_expr.text, filter_value.text]; omega
    rw [hmem, hn]
    have r := expr_to_fini_quoted E x T O q s (" AND ".toList ++ rest)
      ((T.length + O.length + (escape_for q s).length + 10 + d : Nat) : Int)
      fst ng tt o0 vl pm u t o ht hty ho hq hs (by push_cast; omega)
    have e2 : ((T.length + O.length + (escape_for q s).length + 10 + d : Nat) : Int)
        - ((T.length + O.length + (escape_for q s).length + 4 : Nat) : Int)
        = ((d + 6 : Nat) : Int) := by
      push_cast; omega
    rw [e2] at r
    exact reaches_trans E x _ _ _ r (fini_mid_quoted E x rest d false ng t _ _ pm u)

/-! ## Filter tokens -/

theorem expr_text_cons (e : filter_expr) (t : mpd_tagtype) (ht : find_tagtype e.tag = some t) :
    ∃ c r, e.text = c :: r ∧ c ≠ BANG ∧ c ≠ LPAREN := by
  obtain ⟨h1, h2, h3, _, _⟩ := find_tagtype_head e.tag t ht
  obtain ⟨T, O, V⟩ := e
  cases T with
  | nil => exact absurd rfl h3
  | cons c T =>
    refine ⟨c, T ++ SPACE :: (O ++ SPACE :: V.text), rfl, ?_, ?_⟩
    · intro hh; apply h2; simp [hh]
    · intro hh; apply h1; simp [hh]

theorem single_token_modern (e : filter_expr) (t : mpd_tagtype)
    (ht : find_tagtype e.tag = some t) :
    (single_token e).head? = some LPAREN ∧ 2 < (single_token e).length ∧
      (single_token e).getLast? = some RPAREN := by
  obtain ⟨c, r, hcr, _, _⟩ := expr_text_cons e t ht
  refine ⟨rfl, ?_, ?_⟩
  · simp [single_token, hcr]
  · have : single_token e = (LPAREN :: e.text) ++ [RPAREN] := rfl
    rw [this, List.getLast?_append]
    rfl

theorem mpd_parse_cmd_filter_single (E : param_env) (e : filter_expr) (narg : Option (List Char))
    (param : mpd_cmd_params) (t : mpd_tagtype) (o : Nat)
    (ht : find_tagtype e.tag = some t) (hty : t.type ≠ MPD_TYPE_SPECIAL)
    (ho : operator_of e.op = some o) (hv : e.value.wf = true) :
    mpd_parse_cmd_filter E (single_token e) narg param =
      some { ret := 0,
             param := filter_append param
               ((expr_condition E param.exactmatch false t o e.value.val).getD none),
             narg_used := false,
             undefined := (expr_condition E param.exactmatch false t o e.value.val).isNone } := by
  obtain ⟨c, r, hcr, hc1, hc2⟩ := expr_text_cons e t ht
  unfold mpd_parse_cmd_filter
  rw [if_pos (single_token_modern e t ht)]
  have hlen : (single_token e).length = e.text.length + 2 := by simp [single_token]
  have htail : (single_token e).tail = e.text ++ [RPAREN] := rfl
  rw [hlen, htail]
  have hn0 : ((e.text.length + 2 : Nat) : Int) - 2 = (e.text.length : Int) := by push_cast; omega
  rw [hn0]
  have hpos : (0 : Int) < (e.text.length : Int) := by rw [hcr, List.length_cons]; omega
  rw [filter_loop, if_pos hpos]
  have hstep := filter_step_init_first E param.exactmatch c (r ++ [RPAREN]) (e.text.length : Int)
    false none OP_NONE none param false hc1 hc2
  rw [← List.cons_append, ← hcr] at hstep
  rw [hstep]
  have hfin := expr_last E param.exactmatch e t o ht hty ho hv [] false false none OP_NONE none
    param false
  have e1 : ((e.text.length : Int) + 1) = ((e.text.length + 1 : Nat) : Int) := by push_cast; rfl
  rw [e1]
  obtain ⟨w, hw, hp, hu⟩ := hfin (e.text.length + 2 + 1) (by simp)
  rw [hw]
  simp [hp, hu]

theorem readable_parts (e : filter_expr) (h : e.readable = true) :
    ∃ t o, find_tagtype e.tag = some t ∧ t.type ≠ MPD_TYPE_SPECIAL ∧
      operator_of e.op = some o ∧ e.value.wf = true := by
  unfold filter_expr.readable at h
  cases ht : find_tagtype e.tag with
  | none => simp [ht] at h
  | some t =>
    cases ho : operator_of e.op with
    | none => simp [ht, ho] at h
    | some o =>
      simp only [ht, ho, Option.isSome_some, Bool.and_true, Bool.and_eq_true,
        decide_eq_true_eq] at h
      exact ⟨t, o, rfl, h.1, rfl, h.2⟩

theorem expr_cond_eq (E : param_env) (x ng : Bool) (e : filter_expr) (t : mpd_tagtype) (o : Nat)
    (ht : find_tagtype e.tag = some t) (ho : operator_of e.op = some o) :
    expr_cond E x ng e = expr_condition E x ng t o e.value.val := by
  simp [expr_cond, ht, ho]

theorem conj_run (E : param_env) (x : Bool) :
    ∀ (es : List filter_expr), es ≠ [] → (∀ e ∈ es, e.readable = true) →
      ∀ (fst : Bool) (tt : Option mpd_tagtype) (o0 : Nat) (vl : Option (List Char))
        (pm : mpd_cmd_params) (u : Bool),
        finishes E x
          ⟨conj_body es ++ [RPAREN], ((conj_body es).length : Int), STATE_INIT, fst, false, tt, o0,
            vl, pm, u⟩
          (exprs_param E x es pm) (u || exprs_undefined E x es) := by
  intro es
  induction es with
  | nil => intro h; exact absurd rfl h
  | cons e es ih =>
    intro _ hok fst tt o0 vl pm u
    obtain ⟨t, o, ht, hty, ho, hv⟩ := readable_parts e (hok e (List.mem_cons_self _ _))
    have hce := expr_cond_eq E x false e t o ht ho
    cases es with
    | nil =>
      have hmem : conj_body [e] ++ [RPAREN] = LPAREN :: (e.text ++ RPAREN :: [RPAREN]) := by
        simp [conj_body, single_token]
      have hn : ((conj_body [e]).length : Int) = ((e.text.length + 1 : Nat) : Int) + 1 := by
        simp [conj_body, single_token]
      rw [hmem, hn]
      have s1 := filter_step_init_lparen E x (e.text ++ RPAREN :: [RPAREN])
        (((e.text.length + 1 : Nat) : Int) + 1) fst false tt o0 vl pm u
      have r1 := reaches_step E x _ _ s1 (by show (0 : Int) < ((e.text.length + 1 : Nat) : Int) + 1; omega)
        (by simp)
      have e1 : ((e.text.length + 1 : Nat) : Int) + 1 - 1 = ((e.text.length + 1 : Nat) : Int) := by
        omega
      rw [e1] at r1
      have hfin := expr_last E x e t o ht hty ho hv [RPAREN] false false none OP_NONE vl pm u
      have := finishes_of_reaches E x _ _ _ _ r1 hfin
      simpa [exprs_param, exprs_undefined, hce] using this
    | cons e2 more =>
      have hmem : conj_body (e :: e2 :: more) ++ [RPAREN]
          = LPAREN :: (e.text ++ RPAREN :: (" AND ".toList ++ (conj_body (e2 :: more) ++ [RPAREN]))) := by
        simp [conj_body, single_token]
      have hn : ((conj_body (e :: e2 :: more)).length : Int)
          = ((e.text.length + 6 + (conj_body (e2 :: more)).length : Nat) : Int) + 1 := by
        simp [conj_body, single_token]; omega
      rw [hmem, hn]
      have s1 := filter_step_init_lparen E x
        (e.text ++ RPAREN :: (" AND ".toList ++ (conj_body (e2 :: more) ++ [RPAREN])))
        (((e.text.length + 6 + (conj_body (e2 :: more)).length : Nat) : Int) + 1)
        fst false tt o0 vl pm u
      have r1 := reaches_step E x _ _ s1
        (by show (0 : Int) < ((e.text.length + 6 + (conj_body (e2 :: more)).length : Nat) : Int) + 1; omega)
        (by simp)
      have e1 : ((e.text.length + 6 + (conj_body (e2 :: more)).length : Nat) : Int) + 1 - 1
          = ((e.text.length + 6 + (conj_body (e2 :: more)).length : Nat) : Int) := by omega
      rw [e1] at r1
      have r2 := expr_mid E x e t o ht hty ho hv (conj_body (e2 :: more) ++ [RPAREN])
        (conj_body (e2 :: more)).length false false none OP_NONE vl pm u
      have hfin := ih (by simp) (fun a ha => hok a (List.mem_cons_of_mem _ ha)) false none OP_NONE
        (some e.value.val)
        (filter_append pm ((expr_condition E x false t o e.value.val).getD none))
        (u || (expr_condition E x false t o e.value.val).isNone)
      have := finishes_of_reaches E x _ _ _ _ (reaches_trans E x _ _ _ r1 r2) hfin
      simpa [exprs_param, exprs_undefined, hce, Bool.or_assoc] using this

theorem conj_body_cons (e : filter_expr) (es : List filter_expr) :
    ∃ r, conj_body (e :: es) = LPAREN :: r := by
  cases es with
  | nil => exact ⟨_, rfl⟩
  | cons e2 more => exact ⟨_, rfl⟩

theorem mpd_parse_cmd_filter_conj (E : param_env) (es : List filter_expr)
    (narg : Option (List Char)) (param : mpd_cmd_params)
    (hes : es ≠ []) (hok : ∀ e ∈ es, e.readable = true) :
    mpd_parse_cmd_filter E (conj_token es) narg param =
      some { ret := 0, param := exprs_param E param.exactmatch es param, narg_used := false,
             undefined := exprs_undefined E param.exactmatch es } := by
  obtain ⟨e, es2, rfl⟩ := List.exists_cons_of_ne_nil hes
  obtain ⟨r, hr⟩ := conj_body_cons e es2
  have hmodern : (conj_token (e :: es2)).head? = some LPAREN ∧ 2 < (conj_token (e :: es2)).length ∧
      (conj_token (e :: es2)).getLast? = some RPAREN := by
    refine ⟨rfl, ?_, ?_⟩
    · simp [conj_token, hr]
    · have : conj_token (e :: es2) = (LPAREN :: conj_body (e :: es2)) ++ [RPAREN] := rfl
      rw [this, List.getLast?_append]
      rfl
  unfold mpd_parse_cmd_filter
  rw [if_pos hmodern]
  have hlen : (conj_token (e :: es2)).length = (conj_body (e :: es2)).length + 2 := by
    simp [conj_token]
  have htail : (conj_token (e :: es2)).tail = conj_body (e :: es2) ++ [RPAREN] := rfl
  rw [hlen, htail]
  have hn0 : (((conj_body (e :: es2)).length + 2 : Nat) : Int) - 2
      = ((conj_body (e :: es2)).length : Int) := by push_cast; omega
  rw [hn0]
  obtain ⟨w, hw, hp, hu⟩ := conj_run E param.exactmatch (e :: es2) hes hok true none OP_NONE none
    param false ((conj_body (e :: es2)).length + 2 + 2) (by simp)
  rw [hw]
  simp [hp, hu]

theorem mpd_parse_cmd_filter_negated (E : param_env) (e : filter_expr)
    (narg : Option (List Char)) (param : mpd_cmd_params) (t : mpd_tagtype) (o : Nat)
    (ht : find_tagtype e.tag = some t) (hty : t.type ≠ MPD_TYPE_SPECIAL)
    (ho : operator_of e.op = some o) (hv : e.value.wf = true) :
    mpd_parse_cmd_filter E (negated_token e) narg param =
      some { ret := 0,
             param := filter_append param
               ((expr_condition E param.exactmatch true t o e.value.val).getD none),
             narg_used := false,
             undefined := (expr_condition E param.exactmatch true t o e.value.val).isNone } := by
  have hmodern : (negated_token e).head? = some LPAREN ∧ 2 < (negated_token e).length ∧
      (negated_token e).getLast? = some RPAREN := by
    refine ⟨rfl, ?_, ?_⟩
    · simp [negated_token, single_token]
    · have : negated_token e = (LPAREN :: BANG :: single_token e) ++ [RPAREN] := rfl
      rw [this, List.getLast?_append]
      rfl
  unfold mpd_parse_cmd_filter
  rw [if_pos hmodern]
  have hlen : (negated_token e).length = e.text.length + 5 := by
    simp [negated_token, single_token]
  have htail : (negated_token e).tail = BANG :: LPAREN :: (e.text ++ RPAREN :: [RPAREN]) := by
    simp [negated_token, single_token]
  rw [hlen, htail]
  have hn0 : ((e.text.length + 5 : Nat) : Int) - 2 = ((e.text.length + 1 : Nat) : Int) + 1 + 1 := by
    push_cast; omega
  rw [hn0]
  have s1 := filter_step_init_bang E param.exactmatch (LPAREN :: (e.text ++ RPAREN :: [RPAREN]))
    (((e.text.length + 1 : Nat) : Int) + 1 + 1) true false none OP_NONE none param false
  have r1 := reaches_step E param.exactmatch _ _ s1
    (by show (0 : Int) < ((e.text.length + 1 : Nat) : Int) + 1 + 1; omega) (by simp)
  have s2 := filter_step_init_lparen E param.exactmatch (e.text ++ RPAREN :: [RPAREN])
    (((e.text.length + 1 : Nat) : Int) + 1 + 1 - 1) false true none OP_NONE none param false
  have r2 := reaches_step E param.exactmatch _ _ s2
    (by show (0 : Int) < ((e.text.length + 1 : Nat) : Int) + 1 + 1 - 1; omega) (by simp)
  have e1 : ((e.text.length + 1 : Nat) : Int) + 1 + 1 - 1 - 1 = ((e.text.length + 1 : Nat) : Int) := by
    omega
  rw [e1] at r2
  have hfin := expr_last E param.exactmatch e t o ht hty ho hv [RPAREN] false true none OP_NONE
    none param false
  obtain ⟨w, hw, hp, hu⟩ := finishes_of_reaches E param.exactmatch _ _ _ _
    (reaches_trans E param.exactmatch _ _ _ r1 r2) hfin (e.text.length + 5 + 2) (by simp)
  rw [hw]
  simp [hp, hu]

theorem param_cmd_lparen (tok : List Char) (h : tok.head? = some LPAREN) :
    param_cmd true tok = CMD_FILTER := by
  cases tok with
  | nil => simp at h
  | cons c r =>
    simp only [List.head?_cons, Option.some.injEq] at h
    subst h
    simp [param_cmd, strcasecmp_eq, LPAREN]

theorem mpd_parse_cmd_params_token (E : param_env) (tok : List Char) (param : mpd_cmd_params)
    (f : filter_result) (h : tok.head? = some LPAREN)
    (hallow : param.params_allow &&& CMD_FILTER ≠ 0)
    (hf : mpd_parse_cmd_filter E tok none param = some f) :
    mpd_parse_cmd_params E [tok] param =
      some { ret := f.ret.toNat, param := f.param, undefined := f.undefined } := by
  have hd : decide (param.params_allow &&& CMD_FILTER ≠ 0) = true := by simpa using hallow
  have ha2 : ¬ (param.params_allow &&& CMD_FILTER = CMD_UNSET) := hallow
  rw [mpd_parse_cmd_params, hd, mpd_parse_cmd_params_loop, param_cmd_lparen tok h, if_neg ha2,
    if_neg (by intro hh; exact hh.1 rfl), if_neg (by decide), if_neg (by decide),
    if_neg (by decide), if_pos rfl]
  simp only [List.head?_nil, hf]
  rw [mpd_parse_cmd_params_loop]
  simp

theorem query_cmd_params_allow (x : Bool) :
    (query_cmd_params x).params_allow &&& CMD_FILTER ≠ 0 := by
  cases x <;> decide

theorem filter_append_none_filter (param : mpd_cmd_params) (c : Option (List Char))
    (h : param.qp.filter = none) : (filter_append param c).qp.filter = c := by
  cases c with
  | none => simpa [filter_append] using h
  | some s => simp [filter_append, h, append_string]

theorem parsed_filter_single (E : param_env) (x : Bool) (e : filter_expr)
    (h : e.readable = true) :
    parsed_filter E x [single_token e] = expr_cond E x false e := by
  obtain ⟨t, o, ht, hty, ho, hv⟩ := readable_parts e h
  have hf := mpd_parse_cmd_filter_single E e none (query_cmd_params x) t o ht hty ho hv
  have hp := mpd_parse_cmd_params_token E (single_token e) (query_cmd_params x) _ rfl
    (query_cmd_params_allow x) hf
  rw [parsed_filter, hp, expr_cond_eq E x false e t o ht ho]
  have hx : (query_cmd_params x).exactmatch = x := rfl
  rw [hx]
  cases hc : expr_condition E x false t o e.value.val with
  | none => simp
  | some c => simp [filter_append_none_filter (query_cmd_params x) c rfl]

theorem parsed_filter_negated (E : param_env) (x : Bool) (e : filter_expr)
    (h : e.readable = true) :
    parsed_filter E x [negated_token e] = expr_cond E x true e := by
  obtain ⟨t, o, ht, hty, ho, hv⟩ := readable_parts e h
  have hf := mpd_parse_cmd_filter_negated E e none (query_cmd_params x) t o ht hty ho hv
  have hp := mpd_parse_cmd_params_token E (negated_token e) (query_cmd_params x) _ rfl
    (query_cmd_params_allow x) hf
  rw [parsed_filter, hp, expr_cond_eq E x true e t o ht ho]
  have hx : (query_cmd_params x).exactmatch = x := rfl
  rw [hx]
  cases hc : expr_condition E x true t o e.value.val with
  | none => simp
  | some c => simp [filter_append_none_filter (query_cmd_params x) c rfl]

theorem join_and_append_opt (ps : List (List Char)) (c : Option (List Char))
    (param : mpd_cmd_params) (h : param.qp.filter = join_and ps) :
    (filter_append param c).qp.filter = join_and (ps ++ c.toList) := by
  cases c with
  | none => simpa [filter_append] using h
  | some s =>
    simp only [filter_append, Option.toList_some]
    rw [h, join_and_snoc]

theorem exprs_param_filter (E : param_env) (x : Bool) :
    ∀ (es : List filter_expr) (ps : List (List Char)) (param : mpd_cmd_params),
      param.qp.filter = join_and ps →
      (exprs_param E x es param).qp.filter
        = join_and (ps ++ es.filterMap (fun e => (expr_cond E x false e).getD none)) := by
  intro es
  induction es with
  | nil => intro ps param h; simpa [exprs_param] using h
  | cons e es ih =>
    intro ps param h
    have h2 := join_and_append_opt ps ((expr_cond E x false e).getD none) param h
    have h3 := ih _ _ h2
    simp only [exprs_param, List.foldl_cons] at h3 ⊢
    rw [h3]
    cases hc : (expr_cond E x false e).getD none with
    | none => simp [List.filterMap_cons, hc]
    | some c => simp [List.filterMap_cons, hc]

theorem parsed_filter_conj (E : param_env) (x : Bool) (es : List filter_expr)
    (hes : es ≠ []) (hok : ∀ e ∈ es, e.readable = true) :
    parsed_filter E x [conj_token es] =
      if exprs_undefined E x es then none
      else some (join_and (es.filterMap (fun e => (expr_cond E x false e).getD none))) := by
  have hf := mpd_parse_cmd_filter_conj E es none (query_cmd_params x) hes hok
  have hp := mpd_parse_cmd_params_token E (conj_token es) (query_cmd_params x) _ rfl
    (query_cmd_params_allow x) hf
  have hx : (query_cmd_params x).exactmatch = x := rfl
  rw [parsed_filter, hp, hx]
  have := exprs_param_filter E x es [] (query_cmd_params x) rfl
  simp only [List.nil_append] at this
  simp only [this]

/-! ## Emission -/

theorem sqlopstr_string_defined :
    ∀ o ∈ [2, 3, 5, 6, 8, 9, 11, 12, 14, 15, 17, 18, 19, 20],
      ∀ (ng : Bool) (E : param_env) (f : Option (List Char)) (v : List Char),
        (db_mprintf E (sqlopstr o ng) [printf_arg.str f, printf_arg.str (some v)]).isSome = true := by
  intro o ho
  simp only [List.mem_cons, List.mem_singleton, List.not_mem_nil, or_false] at ho
  rcases ho with rfl | rfl | rfl | rfl | rfl | rfl | rfl | rfl | rfl | rfl | rfl | rfl | rfl | rfl <;>
    (intro ng E f v; rfl)

theorem sqlopstr_int_defined :
    ∀ o ∈ [1, 4, 21],
      ∀ (ng : Bool) (E : param_env) (f : Option (List Char)) (n : Nat),
        (db_mprintf E (sqlopstr o ng) [printf_arg.str f, printf_arg.uint n]).isSome = true := by
  intro o ho
  simp only [List.mem_cons, List.mem_singleton, List.not_mem_nil, or_false] at ho
  rcases ho with rfl | rfl | rfl
  · intro ng E f n; rfl
  · intro ng E f n; rfl
  · intro ng E f n; cases ng <;> rfl

theorem string_operator_ops :
    ∀ O ∈ operator_words, O ≠ ">=".toList → ∀ x ng : Bool,
      ∃ o, operator_of O = some o ∧
        (if ng then negate_op (promote_op x MPD_TYPE_STRING o) else promote_op x MPD_TYPE_STRING o)
          ∈ [2, 3, 5, 6, 8, 9, 11, 12, 14, 15, 17, 18, 19, 20] := by
  have key : ∀ O ∈ operator_words, O ≠ ">=".toList → ∀ x ng : Bool,
      (operator_of O).any (fun o => decide
        ((if ng then negate_op (promote_op x MPD_TYPE_STRING o) else promote_op x MPD_TYPE_STRING o)
          ∈ [2, 3, 5, 6, 8, 9, 11, 12, 14, 15, 17, 18, 19, 20])) = true := by
    decide
  intro O hO hne x ng
  have := key O hO hne x ng
  cases ho : operator_of O with
  | none => simp [ho] at this
  | some o =>
    rw [ho] at this
    exact ⟨o, rfl, by simpa using this⟩

theorem int_operator_ops :
    ∀ O ∈ [">=".toList, "==".toList, "!=".toList], ∀ x ng : Bool,
      ∃ o, operator_of O = some o ∧
        (if ng then negate_op (promote_op x MPD_TYPE_INT o) else promote_op x MPD_TYPE_INT o)
          ∈ [1, 4, 21] := by
  have key : ∀ O ∈ [">=".toList, "==".toList, "!=".toList], ∀ x ng : Bool,
      (operator_of O).any (fun o => decide
        ((if ng then negate_op (promote_op x MPD_TYPE_INT o) else promote_op x MPD_TYPE_INT o)
          ∈ [1, 4, 21])) = true := by
    decide
  intro O hO x ng
  have := key O hO x ng
  cases ho : operator_of O with
  | none => simp [ho] at this
  | some o =>
    rw [ho] at this
    exact ⟨o, rfl, by simpa using this⟩

theorem expr_cond_wf (E : param_env) (x ng : Bool) (e : filter_expr) (h : e.wf = true) :
    e.readable = true ∧ ∃ c, expr_cond E x ng e = some c := by
  unfold filter_expr.wf at h
  cases ht : find_tagtype e.tag with
  | none => simp [ht] at h
  | some t =>
    simp only [ht, Bool.and_eq_true] at h
    obtain ⟨hvalid, hv⟩ := h
    cases hty : t.type with
    | MPD_TYPE_SPECIAL => simp [valid_operator, hty] at hvalid
    | MPD_TYPE_INT =>
      simp only [valid_operator, hty, decide_eq_true_eq] at hvalid
      obtain ⟨o, ho, hmem⟩ := int_operator_ops e.op hvalid x ng
      refine ⟨by simp [filter_expr.readable, ht, hty, ho, hv], ?_⟩
      rw [expr_cond_eq E x ng e t o ht ho]
      simp only [expr_condition, fini_condition, hty]
      cases E.safe_atou32 e.value.val with
      | none => exact ⟨_, rfl⟩
      | some num =>
        have := sqlopstr_int_defined _ hmem ng E t.field num
        obtain ⟨c, hc⟩ := Option.isSome_iff_exists.mp this
        exact ⟨some c, by simp [hc]⟩
    | MPD_TYPE_STRING =>
      simp only [valid_operator, hty, Bool.and_eq_true, decide_eq_true_eq, Bool.not_eq_true',
        decide_eq_false_iff_not] at hvalid
      obtain ⟨o, ho, hmem⟩ := string_operator_ops e.op hvalid.1 hvalid.2 x ng
      refine ⟨by simp [filter_expr.readable, ht, hty, ho, hv], ?_⟩
      rw [expr_cond_eq E x ng e t o ht ho]
      simp only [expr_condition, fini_condition, hty]
      have := sqlopstr_string_defined _ hmem ng E t.field e.value.val
      obtain ⟨c, hc⟩ := Option.isSome_iff_exists.mp this
      exact ⟨some c, by simp [hc]⟩

/-! ## Conjunction -/

theorem exprs_undefined_wf (E : param_env) (x : Bool) (es : List filter_expr)
    (hwf : ∀ e ∈ es, e.wf = true) : exprs_undefined E x es = false := by
  unfold exprs_undefined
  rw [List.any_eq_false]
  intro e he
  obtain ⟨_, c, hc⟩ := expr_cond_wf E x false e (hwf e he)
  simp [hc]

/-- C16: for every non-empty list of well-formed sub-expressions `TAG OP VALUE` (a
registered STRING or INT tag, an operator valid for it, an integer or a quoted
string), in find and in search context: each `(e_i)` parsed alone has a defined
result, `((e_i))` gives the same filter as `(e_i)`, and the single token
`((e_1) AND ... AND (e_n))` gives the filter that joins with ` AND `, in order, the
predicates obtained by parsing each `(e_i)` alone. -/
theorem parsed_filter_conjunction (E : param_env) (x : Bool) (es : List filter_expr)
    (hes : es ≠ []) (hwf : ∀ e ∈ es, e.wf = true) :
    (∀ e ∈ es, ∃ p, parsed_filter E x [single_token e] = some p ∧
        parsed_filter E x [conj_token [e]] = some p) ∧
    parsed_filter E x [conj_token es] =
      some (join_and
        (es.filterMap (fun e => (parsed_filter E x [single_token e]).getD none))) := by
  have hok : ∀ e ∈ es, e.readable = true := fun e he => (expr_cond_wf E x false e (hwf e he)).1
  refine ⟨?_, ?_⟩
  · intro e he
    obtain ⟨hr, c, hc⟩ := expr_cond_wf E x false e (hwf e he)
    refine ⟨c, ?_, ?_⟩
    · rw [parsed_filter_single E x e hr, hc]
    · rw [parsed_filter_conj E x [e] (by simp) (by simpa using hr)]
      cases c with
      | none => simp [exprs_undefined, hc, join_and]
      | some s => simp [exprs_undefined, hc, join_and]
  · rw [parsed_filter_conj E x es hes hok, exprs_undefined_wf E x es hwf]
    simp only [Bool.false_eq_true, if_false]
    congr 2
    apply List.filterMap_congr
    intro e he
    rw [parsed_filter_single E x e (hok e he)]

theorem parsed_filter_conjunction_witness :
    [filter_expr.mk "Artist".toList "==".toList (filter_value.quoted DQUOTE "Bach".toList),
      filter_expr.mk "Date".toList ">=".toList (filter_value.number "1700".toList)] ≠ [] ∧
    (∀ e ∈ [filter_expr.mk "Artist".toList "==".toList (filter_value.quoted DQUOTE "Bach".toList),
      filter_expr.mk "Date".toList ">=".toList (filter_value.number "1700".toList)], e.wf = true) ∧
    conj_token [filter_expr.mk "Artist".toList "==".toList (filter_value.quoted DQUOTE "Bach".toList),
      filter_expr.mk "Date".toList ">=".toList (filter_value.number "1700".toList)]
      = "((Artist == \"Bach\") AND (Date >= 1700))".toList ∧
    parsed_filter penv0 true ["((Artist == \"Bach\") AND (Date >= 1700))".toList]
      = some (some "(f.album_artist = \x27Bach\x27) AND (f.year >= 1700)".toList) ∧
    parsed_filter penv0 true
        [conj_token [filter_expr.mk "Artist".toList "==".toList (filter_value.quoted DQUOTE "Bach".toList),
          filter_expr.mk "Date".toList ">=".toList (filter_value.number "1700".toList)]] =
      some (join_and
        ([filter_expr.mk "Artist".toList "==".toList (filter_value.quoted DQUOTE "Bach".toList),
          filter_expr.mk "Date".toList ">=".toList (filter_value.number "1700".toList)].filterMap
          (fun e => (parsed_filter penv0 true [single_token e]).getD none))) :=
  ⟨by decide, by decide, by decide, by decide,
   (parsed_filter_conjunction penv0 true
     [filter_expr.mk "Artist".toList "==".toList (filter_value.quoted DQUOTE "Bach".toList),
      filter_expr.mk "Date".toList ">=".toList (filter_value.number "1700".toList)]
     (by decide) (by decide)).2⟩

/-! ## Operator promotion -/

theorem parsed_filter_string (E : param_env) (x : Bool) (T O : List Char) (q : Char)
    (s : List Char) (t : mpd_tagtype) (o : Nat)
    (ht : find_tagtype T = some t) (hs : t.type = MPD_TYPE_STRING)
    (hV : (filter_value.quoted q s).wf = true) (ho : operator_of O = some o) :
    parsed_filter E x [single_token (filter_expr.mk T O (filter_value.quoted q s))] =
      (db_mprintf E (sqlopstr (promote_op x MPD_TYPE_STRING o) false)
        [printf_arg.str t.field, printf_arg.str (some s)]).map some := by
  have hr : (filter_expr.mk T O (filter_value.quoted q s)).readable = true := by
    simp [filter_expr.readable, ht, hs, ho, hV]
  rw [parsed_filter_single E x _ hr, expr_cond_eq E x false _ t o ht ho]
  simp [expr_condition, fini_condition, hs, filter_value.val]

theorem promoted_pair (E : param_env) (T : List Char) (q : Char) (s : List Char)
    (hT : (find_tagtype T).map (fun t => t.type) = some MPD_TYPE_STRING)
    (hV : (filter_value.quoted q s).wf = true) (x1 x2 : Bool) (O1 O2 : List Char)
    (h1 : promoted x1 MPD_TYPE_STRING O1 = promoted x2 MPD_TYPE_STRING O2)
    (h2 : (promoted x1 MPD_TYPE_STRING O1).any
      (fun p => decide (p ∈ [2, 3, 5, 6, 8, 9, 11, 12, 14, 15, 17, 18, 19, 20])) = true) :
    ∃ c, parsed_filter E x1 [single_token (filter_expr.mk T O1 (filter_value.quoted q s))]
          = some (some c) ∧
        parsed_filter E x2 [single_token (filter_expr.mk T O2 (filter_value.quoted q s))]
          = some (some c) := by
  cases ht : find_tagtype T with
  | none => simp [ht] at hT
  | some t =>
    have hs : t.type = MPD_TYPE_STRING := by simpa [ht] using hT
    unfold promoted at h1 h2
    cases ho1 : operator_of O1 with
    | none => simp [ho1] at h2
    | some o1 =>
      cases ho2 : operator_of O2 with
      | none => simp [ho1, ho2] at h1
      | some o2 =>
        simp only [ho1, ho2, Option.map_some', Option.some.injEq] at h1
        simp only [ho1, Option.map_some', Option.any_some, decide_eq_true_eq] at h2
        have hd := sqlopstr_string_defined _ h2 false E t.field s
        obtain ⟨c, hc⟩ := Option.isSome_iff_exists.mp hd
        refine ⟨c, ?_, ?_⟩
        · rw [parsed_filter_string E x1 T O1 q s t o1 ht hs hV ho1, hc]
          rfl
        · rw [parsed_filter_string E x2 T O2 q s t o2 ht hs hV ho2, ← h1, hc]
          rfl

/-- C17: for every STRING tag T and quoted value V: in a find context each unqualified
operator gives the same (defined) predicate as its explicit case-sensitive form; in a
search context `contains`, `!contains`, `startswith`, `!startswith` give the same
predicate as their `_ci` forms and `==`, `!=` the same as `contains_ci`,
`!contains_ci`; an explicitly suffixed operator gives the same predicate in both
contexts. -/
theorem parsed_filter_promotion (E : param_env) (T : List Char) (q : Char) (s : List Char)
    (hT : (find_tagtype T).map (fun t => t.type) = some MPD_TYPE_STRING)
    (hV : (filter_value.quoted q s).wf = true) :
    (∀ p ∈ find_promotions,
      ∃ c, parsed_filter E true [single_token (filter_expr.mk T p.1 (filter_value.quoted q s))]
            = some (some c) ∧
          parsed_filter E true [single_token (filter_expr.mk T p.2 (filter_value.quoted q s))]
            = some (some c)) ∧
    (∀ p ∈ search_promotions,
      ∃ c, parsed_filter E false [single_token (filter_expr.mk T p.1 (filter_value.quoted q s))]
            = some (some c) ∧
          parsed_filter E false [single_token (filter_expr.mk T p.2 (filter_value.quoted q s))]
            = some (some c)) ∧
    (∀ O ∈ suffixed_operators,
      ∃ c, parsed_filter E true [single_token (filter_expr.mk T O (filter_value.quoted q s))]
            = some (some c) ∧
          parsed_filter E false [single_token (filter_expr.mk T O (filter_value.quoted q s))]
            = some (some c)) := by
  have k1 : ∀ p ∈ find_promotions,
      promoted true MPD_TYPE_STRING p.1 = promoted true MPD_TYPE_STRING p.2 ∧
      (promoted true MPD_TYPE_STRING p.1).any
        (fun p => decide (p ∈ [2, 3, 5, 6, 8, 9, 11, 12, 14, 15, 17, 18, 19, 20])) = true := by
    decide
  have k2 : ∀ p ∈ search_promotions,
      promoted false MPD_TYPE_STRING p.1 = promoted false MPD_TYPE_STRING p.2 ∧
      (promoted false MPD_TYPE_STRING p.1).any
        (fun p => decide (p ∈ [2, 3, 5, 6, 8, 9, 11, 12, 14, 15, 17, 18, 19, 20])) = true := by
    decide
  have k3 : ∀ O ∈ suffixed_operators,
      promoted true MPD_TYPE_STRING O = promoted false MPD_TYPE_STRING O ∧
      (promoted true MPD_TYPE_STRING O).any
        (fun p => decide (p ∈ [2, 3, 5, 6, 8, 9, 11, 12, 14, 15, 17, 18, 19, 20])) = true := by
    decide
  refine ⟨?_, ?_, ?_⟩
  · intro p hp
    exact promoted_pair E T q s hT hV true true p.1 p.2 (k1 p hp).1 (k1 p hp).2
  · intro p hp
    exact promoted_pair E T q s hT hV false false p.1 p.2 (k2 p hp).1 (k2 p hp).2
  · intro O hO
    exact promoted_pair E T q s hT hV true false O O (k3 O hO).1 (k3 O hO).2

theorem parsed_filter_promotion_witness :
    (find_tagtype "Album".toList).map (fun t => t.type) = some MPD_TYPE_STRING ∧
    (filter_value.quoted DQUOTE "a\x27b".toList).wf = true ∧
    parsed_filter penv0 true ["(Album == \"a\x27b\")".toList]
      = some (some "(f.album = \x27a\x27\x27b\x27)".toList) ∧
    parsed_filter penv0 false ["(Album == \"a\x27b\")".toList]
      = some (some "(f.album LIKE \x27%a\x27\x27b%\x27)".toList) ∧
    ((∀ p ∈ find_promotions,
      ∃ c, parsed_filter penv0 true
            [single_token (filter_expr.mk "Album".toList p.1 (filter_value.quoted DQUOTE "a\x27b".toList))]
            = some (some c) ∧
          parsed_filter penv0 true
            [single_token (filter_expr.mk "Album".toList p.2 (filter_value.quoted DQUOTE "a\x27b".toList))]
            = some (some c)) ∧
    (∀ p ∈ search_promotions,
      ∃ c, parsed_filter penv0 false
            [single_token (filter_expr.mk "Album".toList p.1 (filter_value.quoted DQUOTE "a\x27b".toList))]
            = some (some c) ∧
          parsed_filter penv0 false
            [single_token (filter_expr.mk "Album".toList p.2 (filter_value.quoted DQUOTE "a\x27b".toList))]
            = some (some c)) ∧
    (∀ O ∈ suffixed_operators,
      ∃ c, parsed_filter penv0 true
            [single_token (filter_expr.mk "Album".toList O (filter_value.quoted DQUOTE "a\x27b".toList))]
            = some (some c) ∧
          parsed_filter penv0 false
            [single_token (filter_expr.mk "Album".toList O (filter_value.quoted DQUOTE "a\x27b".toList))]
            = some (some c))) :=
  ⟨by decide, by decide, by decide, by decide,
   parsed_filter_promotion penv0 "Album".toList DQUOTE "a\x27b".toList (by decide) (by decide)⟩

/-! ## INT tags -/

/-- C18, counterexample: on the INT tag Date the operator `contains`, which the parser
accepts, is changed by the promotion step (to `contains_cs` in find, `contains_ci` in
search); the format chosen for it is a string pattern with `%q`, not a numeric
comparison, and the call that passes it the integer has no defined result. -/
theorem promote_op_int_contains :
    (find_tagtype "Date".toList).map (fun t => t.type) = some MPD_TYPE_INT ∧
    operator_of "contains".toList = some OP_CONTAINS ∧
    promote_op true MPD_TYPE_INT OP_CONTAINS = OP_CONTAINS_CS ∧
    promote_op false MPD_TYPE_INT OP_CONTAINS = OP_CONTAINS_CI ∧
    OP_CONTAINS_CS ≠ OP_CONTAINS ∧ OP_CONTAINS_CI ≠ OP_CONTAINS ∧
    sqlopstr OP_CONTAINS_CS false = some "(%s GLOB \x27*%q*\x27)".toList ∧
    parsed_filter penv0 true ["(Date contains 5)".toList] = none := by
  decide

theorem parsed_filter_int (E : param_env) (x : Bool) (T O D : List Char) (t : mpd_tagtype)
    (o : Nat) (ht : find_tagtype T = some t) (hs : t.type = MPD_TYPE_INT)
    (hV : (filter_value.number D).wf = true) (ho : operator_of O = some o) :
    parsed_filter E x [single_token (filter_expr.mk T O (filter_value.number D))] =
      match E.safe_atou32 D with
      | none => some none
      | some num =>
        (db_mprintf E (sqlopstr (promote_op x MPD_TYPE_INT o) false)
          [printf_arg.str t.field, printf_arg.uint num]).map some := by
  have hr : (filter_expr.mk T O (filter_value.number D)).readable = true := by
    simp [filter_expr.readable, ht, hs, ho, hV]
  rw [parsed_filter_single E x _ hr, expr_cond_eq E x false _ t o ht ho]
  simp [expr_condition, fini_condition, hs, filter_value.val]

/-- C18, amended: for every INT tag, in find and in search context, the promotion step
leaves every operator of the table unchanged except the unqualified `contains`,
`!contains`, `startswith` and `!startswith`; and for the three comparisons `==`,
`!=`, `>=` with an integer value the filter is the numeric comparison `(F = n)`,
`(F != n)`, `(F >= n)` of the db field with the number safe_atou32 reads, or no
predicate when safe_atou32 rejects the value. -/
theorem parsed_filter_int_comparison (E : param_env) (x : Bool) (T D : List Char)
    (hT : (find_tagtype T).map (fun t => t.type) = some MPD_TYPE_INT)
    (hD : (filter_value.number D).wf = true) :
    (∀ O ∈ operator_words,
      O ∉ ["contains".toList, "!contains".toList, "startswith".toList, "!startswith".toList] →
      promoted x MPD_TYPE_INT O = operator_of O) ∧
    (∀ p ∈ int_comparisons,
      parsed_filter E x [single_token (filter_expr.mk T p.1 (filter_value.number D))] =
        some ((E.safe_atou32 D).map (fun n => numeric_predicate (tag_field T) p.2 n))) := by
  refine ⟨by cases x <;> decide, ?_⟩
  cases ht : find_tagtype T with
  | none => simp [ht] at hT
  | some t =>
    have hs : t.type = MPD_TYPE_INT := by simpa [ht] using hT
    obtain ⟨f, hf⟩ := Option.isSome_iff_exists.mp
      ((tagtypes_string_field t (find_tagtype_some T t ht).2 (by rw [hs]; decide)).1)
    intro p hp
    simp only [int_comparisons, List.mem_cons, List.mem_singleton, List.not_mem_nil,
      or_false] at hp
    rcases hp with rfl | rfl | rfl
    · rw [parsed_filter_int E x T _ D t OP_EQUALS ht hs hD (by decide)]
      cases E.safe_atou32 D with
      | none => rfl
      | some n =>
        simp [tag_field, ht, hf, promote_op, OP_EQUALS, numeric_predicate, db_mprintf,
          db_mprintf_loop, sqlopstr, PERCENT, OP_GREQ]
    · rw [parsed_filter_int E x T _ D t OP_NEQUALS ht hs hD (by decide)]
      cases E.safe_atou32 D with
      | none => rfl
      | some n =>
        simp [tag_field, ht, hf, promote_op, OP_EQUALS, OP_NEQUALS, numeric_predicate, db_mprintf,
          db_mprintf_loop, sqlopstr, PERCENT, OP_GREQ]
    · rw [parsed_filter_int E x T _ D t OP_GREQ ht hs hD (by decide)]
      cases E.safe_atou32 D with
      | none => rfl
      | some n =>
        simp [tag_field, ht, hf, promote_op, OP_EQUALS, OP_NEQUALS, numeric_predicate, db_mprintf,
          db_mprintf_loop, sqlopstr, PERCENT, OP_GREQ, OP_CONTAINS, OP_NCONTAINS, OP_STARTSWITH,
          OP_NSTARTSWITH]

theorem parsed_filter_int_comparison_witness :
    (find_tagtype "Date".toList).map (fun t => t.type) = some MPD_TYPE_INT ∧
    (filter_value.number "1700".toList).wf = true ∧
    parsed_filter penv0 true ["(Date == 1700)".toList] = some (some "(f.year = 1700)".toList) ∧
    parsed_filter penv0 false ["(Date == 1700)".toList] = some (some "(f.year = 1700)".toList) ∧
    ((∀ O ∈ operator_words,
      O ∉ ["contains".toList, "!contains".toList, "startswith".toList, "!startswith".toList] →
      promoted false MPD_TYPE_INT O = operator_of O) ∧
    (∀ p ∈ int_comparisons,
      parsed_filter penv0 false
          [single_token (filter_expr.mk "Date".toList p.1 (filter_value.number "1700".toList))] =
        some ((penv0.safe_atou32 "1700".toList).map
          (fun n => numeric_predicate (tag_field "Date".toList) p.2 n)))) :=
  ⟨by decide, by decide, by decide, by decide,
   parsed_filter_int_comparison penv0 false "Date".toList "1700".toList (by decide) (by decide)⟩

/-! ## Negation -/

/-- C19: the negation of a regular expression match is not folded.  In a find context
`(!(Artist =~ "x"))` gives the predicate of `(Artist =~ "x")`, not that of
`(Artist !~ "x")`, and `(!(Artist !~ "x"))` gives the predicate of `(Artist !~ "x")`:
the switch under `if (negate)` has no case for OP_REGEX and OP_NREGEX, and STATE_FINI
looks at `negate` for OP_GREQ only. -/
theorem negated_regex_not_folded :
    parsed_filter penv0 true ["(!(Artist =~ \"x\"))".toList]
      = some (some "(f.album_artist REGEX \x27x\x27)".toList) ∧
    parsed_filter penv0 true ["(Artist =~ \"x\")".toList]
      = some (some "(f.album_artist REGEX \x27x\x27)".toList) ∧
    parsed_filter penv0 true ["(Artist !~ \"x\")".toList]
      = some (some "(NOT f.album_artist REGEX \x27x\x27)".toList) ∧
    parsed_filter penv0 true ["(!(Artist !~ \"x\"))".toList]
      = some (some "(NOT f.album_artist REGEX \x27x\x27)".toList) ∧
    negated_token (filter_expr.mk "Artist".toList "=~".toList (filter_value.quoted DQUOTE "x".toList))
      = "(!(Artist =~ \"x\"))".toList ∧
    negate_op OP_REGEX = OP_REGEX ∧ negate_op OP_NREGEX = OP_NREGEX := by
  decide

theorem sqlopstr_negate (op : Nat) (h : op ≠ OP_GREQ) : sqlopstr op true = sqlopstr op false := by
  unfold sqlopstr
  rw [if_neg h, if_neg h]

theorem fini_condition_negate (E : param_env) (t : mpd_tagtype) (op : Nat) (val : List Char)
    (h : op ≠ OP_GREQ) : fini_condition E t op true val = fini_condition E t op false val := by
  unfold fini_condition
  rw [sqlopstr_negate op h]

theorem opposite_operators_fold :
    ∀ p ∈ opposite_operators, ∀ x : Bool, ∀ ty : mpd_type,
      (operator_of p.1).isSome = true ∧
      (operator_of p.1).map (fun o => negate_op (promote_op x ty o)) = promoted x ty p.2 ∧
      promoted x ty p.2 ≠ some OP_GREQ := by
  intro p hp x ty
  revert p
  cases x <;> cases ty <;> decide

/-- The negation fold for every pair of opposite operators other than the regular
expression pair: `(!(T op V))` gives the filter of `(T nop V)`, on every tag that is
not a pseudo tag, for every well-formed value, in find and in search context. -/
theorem parsed_filter_negation_fold (E : param_env) (x : Bool) (T : List Char)
    (V : filter_value) (t : mpd_tagtype) (ht : find_tagtype T = some t)
    (hty : t.type ≠ MPD_TYPE_SPECIAL) (hV : V.wf = true) :
    ∀ p ∈ opposite_operators,
      parsed_filter E x [negated_token (filter_expr.mk T p.1 V)] =
        parsed_filter E x [single_token (filter_expr.mk T p.2 V)] := by
  intro p hp
  obtain ⟨h1, h2, h3⟩ := opposite_operators_fold p hp x t.type
  obtain ⟨o1, ho1⟩ := Option.isSome_iff_exists.mp h1
  unfold promoted at h2 h3
  cases ho2 : operator_of p.2 with
  | none => simp [ho1, ho2] at h2
  | some o2 =>
    simp only [ho1, ho2, Option.map_some', Option.some.injEq, ne_eq] at h2 h3
    have hr1 : (filter_expr.mk T p.1 V).readable = true := by
      simp [filter_expr.readable, ht, hty, ho1, hV]
    have hr2 : (filter_expr.mk T p.2 V).readable = true := by
      simp [filter_expr.readable, ht, hty, ho2, hV]
    rw [parsed_filter_negated E x _ hr1, parsed_filter_single E x _ hr2,
      expr_cond_eq E x true _ t o1 ht ho1, expr_cond_eq E x false _ t o2 ht ho2]
    simp only [expr_condition, if_true, Bool.false_eq_true, if_false, h2]
    exact fini_condition_negate E t _ _ h3

/-- The negation of `>=` on an INT tag: `(!(T >= n))` gives `(F < n)`. -/
theorem parsed_filter_negated_greq (E : param_env) (x : Bool) (T D : List Char)
    (t : mpd_tagtype) (ht : find_tagtype T = some t) (hs : t.type = MPD_TYPE_INT)
    (hD : (filter_value.number D).wf = true) :
    parsed_filter E x [negated_token (filter_expr.mk T ">=".toList (filter_value.number D))] =
      some ((E.safe_atou32 D).map (fun n => numeric_predicate (tag_field T) "<".toList n)) := by
  obtain ⟨f, hf⟩ := Option.isSome_iff_exists.mp
    ((tagtypes_string_field t (find_tagtype_some T t ht).2 (by rw [hs]; decide)).1)
  have ho : operator_of ">=".toList = some OP_GREQ := by decide
  have hr : (filter_expr.mk T ">=".toList (filter_value.number D)).readable = true := by
    simp [filter_expr.readable, ht, hs, hD]
    decide
  rw [parsed_filter_negated E x _ hr, expr_cond_eq E x true _ t OP_GREQ ht ho]
  simp only [expr_condition, fini_condition, hs, filter_value.val, if_true]
  cases E.safe_atou32 D with
  | none => rfl
  | some n =>
    simp [tag_field, ht, hf, promote_op, negate_op, OP_EQUALS, OP_NEQUALS, numeric_predicate,
      db_mprintf, db_mprintf_loop, sqlopstr, PERCENT, OP_GREQ, OP_CONTAINS, OP_NCONTAINS,
      OP_STARTSWITH, OP_NSTARTSWITH, OP_EQUALS_CI, OP_EQUALS_CS, OP_CONTAINS_CI, OP_CONTAINS_CS,
      OP_STARTSWITH_CI, OP_STARTSWITH_CS, OP_NEQUALS_CI, OP_NEQUALS_CS, OP_NCONTAINS_CI,
      OP_NCONTAINS_CS, OP_NSTARTSWITH_CI, OP_NSTARTSWITH_CS]

/-! ## SQL text: scanning -/

theorem sql_scan_append (a b : List Char) :
    ∀ st : Nat × Bool, sql_scan st (a ++ b) = (sql_scan st a).bind (fun st2 => sql_scan st2 b) := by
  induction a with
  | nil => intro st; simp [sql_scan]
  | cons c a ih =>
    intro st
    obtain ⟨d, l⟩ := st
    cases l with
    | true =>
      simp only [List.cons_append, sql_scan]
      split_ifs
      · exact ih _
      · exact ih _
    | false =>
      simp only [List.cons_append, sql_scan]
      split_ifs
      · exact ih _
      · exact ih _
      · cases d with
        | zero => rfl
        | succ d => exact ih _
      · exact ih _

theorem sql_scan_plain (s : List Char) (h : plain_text s = true) :
    ∀ st : Nat × Bool, sql_scan st s = some st := by
  induction s with
  | nil => intro st; simp [sql_scan]
  | cons c s ih =>
    intro st
    simp only [plain_text, List.all_cons, Bool.and_eq_true, Bool.not_eq_true',
      decide_eq_false_iff_not] at h
    obtain ⟨⟨⟨h1, h2⟩, h3⟩, h4⟩ := h
    obtain ⟨d, l⟩ := st
    cases l with
    | true => simp only [sql_scan, if_neg h1]; exact ih h4 _
    | false => simp only [sql_scan, if_neg h1, if_neg h2, if_neg h3]; exact ih h4 _

theorem sql_scan_literal (s : List Char) (h : SQUOTE ∉ s) :
    ∀ d : Nat, sql_scan (d, true) s = some (d, true) := by
  induction s with
  | nil => intro d; simp [sql_scan]
  | cons c s ih =>
    intro d
    have h1 : ¬ c = SQUOTE := fun hh => h (by simp [hh])
    have h2 : SQUOTE ∉ s := fun hh => h (by simp [hh])
    simp only [sql_scan, if_neg h1]
    exact ih h2 d

theorem sql_scan_escape (v : List Char) :
    ∀ d : Nat, sql_scan (d, true) (sql_escape v) = some (d, true) := by
  induction v with
  | nil => intro d; simp [sql_escape, sql_scan]
  | cons c v ih =>
    intro d
    by_cases h : c = SQUOTE
    · simp only [sql_escape, if_pos h, sql_scan, if_true]
      exact ih d
    · simp only [sql_escape, if_neg h, sql_scan]
      exact ih d

theorem digitChar_plain : ∀ m, m < 10 →
    plain_text [Nat.digitChar m] = true := by
  decide

theorem toDigitsCore_plain : ∀ (fuel n : Nat) (ds : List Char), plain_text ds = true →
    plain_text (Nat.toDigitsCore 10 fuel n ds) = true := by
  intro fuel
  induction fuel with
  | zero => intro n ds h; simpa [Nat.toDigitsCore] using h
  | succ fuel ih =>
    intro n ds h
    have hd := digitChar_plain (n % 10) (Nat.mod_lt _ (by decide))
    have hcons : plain_text (Nat.digitChar (n % 10) :: ds) = true := by
      simp only [plain_text, List.all_cons, Bool.and_eq_true] at hd h ⊢
      exact ⟨hd.1, h⟩
    unfold Nat.toDigitsCore
    simp only
    split_ifs
    · exact hcons
    · exact ih _ _ hcons

theorem toString_plain (n : Nat) : plain_text (toString n).toList = true := by
  have : (toString n).toList = Nat.toDigits 10 n := rfl
  rw [this]
  exact toDigitsCore_plain _ _ _ rfl

theorem sql_scan_plain_append (s c : List Char) (h : plain_text s = true) (st : Nat × Bool) :
    sql_scan st (s ++ c) = sql_scan st c := by
  rw [sql_scan_append, sql_scan_plain s h st]
  rfl

theorem printf_scan (E : param_env) :
    ∀ (fmt : List Char) (pct : Bool) (args : List printf_arg) (st st2 : Nat × Bool)
      (c : List Char),
      db_mprintf_loop E pct fmt args = some c → fmt_scan E st pct fmt args = some st2 →
      sql_scan st c = some st2 := by
  intro fmt
  induction fmt with
  | nil =>
    intro pct args st st2 c h1 h2
    cases pct with
    | true => simp [db_mprintf_loop] at h1
    | false =>
      simp only [db_mprintf_loop, Option.some.injEq] at h1
      simp only [fmt_scan, Option.some.injEq] at h2
      subst h1 h2
      simp [sql_scan]
  | cons ch fmt ih =>
    intro pct args st st2 c h1 h2
    cases pct with
    | false =>
      by_cases hp : ch = PERCENT
      · simp only [db_mprintf_loop, if_pos hp] at h1
        simp only [fmt_scan, if_pos hp] at h2
        exact ih true args st st2 c h1 h2
      · simp only [db_mprintf_loop, if_neg hp, Option.map_eq_some'] at h1
        simp only [fmt_scan, if_neg hp, Option.bind_eq_some] at h2
        obtain ⟨c2, hc2, rfl⟩ := h1
        obtain ⟨st3, hs3, hf3⟩ := h2
        have := sql_scan_append [ch] c2 st
        rw [List.singleton_append] at this
        rw [this, hs3]
        exact ih false args st3 st2 c2 hc2 hf3
    | true =>
      by_cases hp : ch = PERCENT
      · simp only [db_mprintf_loop, if_pos hp, Option.map_eq_some'] at h1
        simp only [fmt_scan, if_pos hp] at h2
        obtain ⟨c2, hc2, rfl⟩ := h1
        have := sql_scan_plain_append [PERCENT] c2 (by decide) st
        rw [List.singleton_append] at this
        rw [this]
        exact ih false args st st2 c2 hc2 h2
      · by_cases hs : ch = 's'
        · subst hs
          cases args with
          | nil => simp [db_mprintf_loop, hp] at h1
          | cons a args2 =>
            cases a with
            | uint n => simp [db_mprintf_loop, hp] at h1
            | str s =>
              simp only [db_mprintf_loop, if_neg hp, if_true, Option.map_eq_some'] at h1
              simp only [fmt_scan, if_neg hp, if_true] at h2
              obtain ⟨c2, hc2, rfl⟩ := h1
              split_ifs at h2 with hpl
              rw [sql_scan_plain_append _ c2 hpl.2 st]
              exact ih false args2 st st2 c2 hc2 h2
        · by_cases hq : ch = 'q'
          · subst hq
            cases args with
            | nil => simp [db_mprintf_loop, hp] at h1
            | cons a args2 =>
              cases a with
              | uint n => simp [db_mprintf_loop, hp] at h1
              | str s =>
                simp only [db_mprintf_loop, if_neg hp, if_neg hs, if_true,
                  Option.map_eq_some'] at h1
                simp only [fmt_scan, if_neg hp, if_neg hs, if_true] at h2
                obtain ⟨c2, hc2, rfl⟩ := h1
                split_ifs at h2 with hcond
                obtain ⟨d, l⟩ := st
                obtain ⟨hl, hnull⟩ := hcond
                simp only at hl
                subst hl
                rw [sql_scan_append]
                cases s with
                | some v =>
                  simp only [sql_scan_escape v d, Option.some_bind]
                  exact ih false args2 (d, true) st2 c2 hc2 h2
                | none =>
                  have hnq : SQUOTE ∉ E.null_q := by
                    rcases hnull with h | h
                    · simp at h
                    · exact h
                  simp only [sql_scan_literal E.null_q hnq d, Option.some_bind]
                  exact ih false args2 (d, true) st2 c2 hc2 h2
          · by_cases hu : ch = 'u'
            · subst hu
              cases args with
              | nil => simp [db_mprintf_loop, hp] at h1
              | cons a args2 =>
                cases a with
                | str s => simp [db_mprintf_loop, hp] at h1
                | uint n =>
                  simp only [db_mprintf_loop, if_neg hp, if_neg hs, if_neg hq, if_true,
                    Option.map_eq_some'] at h1
                  simp only [fmt_scan, if_neg hp, if_neg hs, if_neg hq, if_true] at h2
                  obtain ⟨c2, hc2, rfl⟩ := h1
                  rw [sql_scan_plain_append _ c2 (toString_plain n) st]
                  exact ih false args2 st st2 c2 hc2 h2
            · simp [db_mprintf_loop, hp, hs, hq, hu] at h1

theorem sqlopstr_large (o : Nat) (ng : Bool) (h : 22 ≤ o) : sqlopstr o ng = none := by
  unfold sqlopstr OP_GREQ OP_EQUALS OP_NEQUALS OP_EQUALS_CI OP_NEQUALS_CI OP_EQUALS_CS
    OP_NEQUALS_CS OP_CONTAINS_CI OP_NCONTAINS_CI OP_CONTAINS_CS OP_NCONTAINS_CS OP_STARTSWITH_CI
    OP_NSTARTSWITH_CI OP_STARTSWITH_CS OP_NSTARTSWITH_CS OP_REGEX OP_NREGEX
  iterate 17 rw [if_neg (by omega)]

theorem sqlopstr_small :
    ∀ o, o < 22 → ∀ ng : Bool,
      sqlopstr o ng = none ∨ ∃ fmt ∈ sqlop_formats, sqlopstr o ng = some fmt := by
  decide

theorem sqlopstr_cases (o : Nat) (ng : Bool) :
    sqlopstr o ng = none ∨ ∃ fmt ∈ sqlop_formats, sqlopstr o ng = some fmt := by
  by_cases h : o < 22
  · exact sqlopstr_small o h ng
  · exact Or.inl (sqlopstr_large o ng (by omega))

theorem sql_balanced_of_scan (c : List Char) (h : sql_scan (0, false) c = some (0, false)) :
    sql_balanced c = true := by
  unfold sql_balanced
  rw [h]
  rfl

theorem escaped_call_balanced (E : param_env) (p : List Char) (h : escaped_call E p) :
    sql_balanced p = true := by
  obtain ⟨fmt, _, args, h1, h2⟩ := h
  exact sql_balanced_of_scan p (printf_scan E fmt false args (0, false) (0, false) p h1 h2)

theorem sqlop_formats_str (E : param_env) (f : Option (List Char)) (v c : List Char)
    (hf : f ∈ code_strings) (hpl : plain_text (f.getD E.null_s) = true) :
    ∀ fmt ∈ sqlop_formats,
      db_mprintf_loop E false fmt [printf_arg.str f, printf_arg.str (some v)] = some c →
      escaped_call E c := by
  intro fmt hfmt h1
  refine ⟨fmt, List.mem_append_left _ hfmt, _, h1, ?_⟩
  simp only [sqlop_formats, List.mem_cons, List.mem_singleton, List.not_mem_nil, or_false] at hfmt
  rcases hfmt with rfl | rfl | rfl | rfl | rfl | rfl | rfl | rfl | rfl | rfl | rfl | rfl | rfl |
    rfl | rfl | rfl | rfl | rfl
  all_goals first
    | (exfalso; simp [db_mprintf_loop, PERCENT] at h1; done)
    | simp [fmt_scan, sql_scan, hpl, hf, PERCENT, SQUOTE, LPAREN, RPAREN]

theorem sqlop_formats_uint (E : param_env) (f : Option (List Char)) (n : Nat) (c : List Char)
    (hf : f ∈ code_strings) (hpl : plain_text (f.getD E.null_s) = true) :
    ∀ fmt ∈ sqlop_formats,
      db_mprintf_loop E false fmt [printf_arg.str f, printf_arg.uint n] = some c →
      escaped_call E c := by
  intro fmt hfmt h1
  refine ⟨fmt, List.mem_append_left _ hfmt, _, h1, ?_⟩
  simp only [sqlop_formats, List.mem_cons, List.mem_singleton, List.not_mem_nil, or_false] at hfmt
  rcases hfmt with rfl | rfl | rfl | rfl | rfl | rfl | rfl | rfl | rfl | rfl | rfl | rfl | rfl |
    rfl | rfl | rfl | rfl | rfl
  all_goals first
    | (exfalso; simp [db_mprintf_loop, PERCENT] at h1; done)
    | simp [fmt_scan, sql_scan, hpl, hf, PERCENT, SQUOTE, LPAREN, RPAREN]

theorem sqlopstr_str_safe (E : param_env) (op : Nat) (ng : Bool) (f : Option (List Char))
    (v c : List Char) (hf : f ∈ code_strings) (hpl : plain_text (f.getD E.null_s) = true)
    (h : db_mprintf E (sqlopstr op ng) [printf_arg.str f, printf_arg.str (some v)] = some c) :
    escaped_call E c := by
  rcases sqlopstr_cases op ng with h0 | ⟨fmt, hfmt, h0⟩
  · rw [h0] at h
    simp [db_mprintf] at h
  · rw [h0] at h
    exact sqlop_formats_str E f v c hf hpl fmt hfmt h

theorem sqlopstr_uint_safe (E : param_env) (op : Nat) (ng : Bool) (f : Option (List Char))
    (n : Nat) (c : List Char) (hf : f ∈ code_strings) (hpl : plain_text (f.getD E.null_s) = true)
    (h : db_mprintf E (sqlopstr op ng) [printf_arg.str f, printf_arg.uint n] = some c) :
    escaped_call E c := by
  rcases sqlopstr_cases op ng with h0 | ⟨fmt, hfmt, h0⟩
  · rw [h0] at h
    simp [db_mprintf] at h
  · rw [h0] at h
    exact sqlop_formats_uint E f n c hf hpl fmt hfmt h

theorem tagtypes_field_plain (E : param_env) (hs : plain_text E.null_s = true) (t : mpd_tagtype)
    (ht : t ∈ tagtypes) : plain_text (t.field.getD E.null_s) = true := by
  have key : ∀ t ∈ tagtypes, plain_text (t.field.getD []) = true := by decide
  cases hf : t.field with
  | none => simpa using hs
  | some f =>
    have := key t ht
    rw [hf] at this
    simpa using this

theorem tagtypes_field_code (t : mpd_tagtype) (ht : t ∈ tagtypes) : t.field ∈ code_strings :=
  List.mem_append_left _ (List.mem_map_of_mem _ ht)

theorem sql_scan_shift (s : List Char) (k : Nat) :
    ∀ (d : Nat) (l : Bool) (d2 : Nat) (l2 : Bool),
      sql_scan (d, l) s = some (d2, l2) → sql_scan (d + k, l) s = some (d2 + k, l2) := by
  induction s with
  | nil =>
    intro d l d2 l2 h
    simp only [sql_scan, Option.some.injEq, Prod.mk.injEq] at h ⊢
    exact ⟨by omega, h.2⟩
  | cons c s ih =>
    intro d l d2 l2 h
    cases l with
    | true =>
      simp only [sql_scan] at h ⊢
      split_ifs at h ⊢
      · exact ih _ _ _ _ h
      · exact ih _ _ _ _ h
    | false =>
      simp only [sql_scan] at h ⊢
      split_ifs at h ⊢
      · exact ih _ _ _ _ h
      · have := ih _ _ _ _ h
        rw [show d + k + 1 = d + 1 + k by omega]
        exact this
      · cases d with
        | zero => simp at h
        | succ d =>
          simp only at h
          have := ih _ _ _ _ h
          rw [show d + 1 + k = (d + k) + 1 by omega]
          exact this
      · exact ih _ _ _ _ h

theorem sql_balanced_scan (c : List Char) (h : sql_balanced c = true) (k : Nat) :
    sql_scan (k, false) c = some (k, false) := by
  unfold sql_balanced at h
  have h2 : sql_scan (0, false) c = some (0, false) := by simpa using h
  have := sql_scan_shift c k 0 false 0 false h2
  simpa using this

theorem datefmt_plain (val : List Char) : plain_text (datefmt val) = true := by
  unfold datefmt
  split_ifs <;> decide

theorem any_condition_safe (a b c : List Char) (ha : sql_balanced a = true)
    (hb : sql_balanced b = true) (hc : sql_balanced c = true) :
    sql_balanced ("(".toList ++ a ++ " OR ".toList ++ b ++ " OR ".toList ++ c ++ ")".toList)
      = true := by
  apply sql_balanced_of_scan
  have h1 : sql_scan (0, false) "(".toList = some (1, false) := by decide
  have h2 : ∀ st, sql_scan st " OR ".toList = some st :=
    sql_scan_plain _ (by decide)
  have h3 : sql_scan (1, false) ")".toList = some (0, false) := by decide
  simp only [sql_scan_append, h1, Option.some_bind, sql_balanced_scan a ha 1, h2,
    sql_balanced_scan b hb 1, sql_balanced_scan c hc 1, h3]

theorem escaped_predicate_balanced (E : param_env) (p : List Char)
    (h : escaped_predicate E p) : sql_balanced p = true := by
  rcases h with h | ⟨a, b, c, ha, hb, hc, rfl⟩
  · exact escaped_call_balanced E p h
  · exact any_condition_safe a b c (escaped_call_balanced E a ha) (escaped_call_balanced E b hb)
      (escaped_call_balanced E c hc)

theorem modified_since_text (E : param_env) (val d : List Char) :
    db_mprintf E (some modified_since_fmt) [printf_arg.str (some val), printf_arg.str (some d)]
      = some ("(f.time_modified > strftime(\x27%s\x27, datetime(\x27".toList
          ++ (sql_escape val ++ ("\x27, \x27".toList ++ (d ++ "\x27)))".toList)))) :=
  rfl

theorem modified_since_safe (E : param_env) (val c : List Char)
    (h : db_mprintf E (some modified_since_fmt)
      [printf_arg.str (some val), printf_arg.str (some (datefmt val))] = some c) :
    escaped_call E c := by
  refine ⟨modified_since_fmt, by simp [legacy_formats], _, h, ?_⟩
  unfold datefmt
  split_ifs <;> rfl

theorem fini_condition_safe (E : param_env) (hs : plain_text E.null_s = true) (t : mpd_tagtype)
    (ht : t ∈ tagtypes) (op : Nat) (ng : Bool) (val c : List Char)
    (h : fini_condition E t op ng val = some (some c)) : escaped_predicate E c := by
  have hpl := tagtypes_field_plain E hs t ht
  have hcode := tagtypes_field_code t ht
  unfold fini_condition at h
  cases hty : t.type with
  | MPD_TYPE_STRING =>
    simp only [hty, Option.map_eq_some', Option.some.injEq, exists_eq_right] at h
    exact Or.inl (sqlopstr_str_safe E op ng t.field val c hcode hpl h)
  | MPD_TYPE_INT =>
    simp only [hty] at h
    cases hn : E.safe_atou32 val with
    | none => simp [hn] at h
    | some num =>
      simp only [hn, Option.map_eq_some', Option.some.injEq, exists_eq_right] at h
      exact Or.inl (sqlopstr_uint_safe E op ng t.field num c hcode hpl h)
  | MPD_TYPE_SPECIAL =>
    simp only [hty] at h
    split_ifs at h with h1 h2 h3
    · split at h
      · rename_i a b c3 ha hb hc
        have sa := sqlopstr_str_safe E op ng _ val a (by decide)
          (by rw [Option.getD_some]; decide) ha
        have sb := sqlopstr_str_safe E op ng _ val b (by decide)
          (by rw [Option.getD_some]; decide) hb
        have sc := sqlopstr_str_safe E op ng _ val c3 (by decide)
          (by rw [Option.getD_some]; decide) hc
        simp only [append_string, Option.getD_some, Option.getD_none,
          List.append_nil, Option.some.injEq] at h
        refine Or.inr ⟨a, b, c3, sa, sb, sc, ?_⟩
        rw [← h]
      · simp at h
    · simp only [Option.map_eq_some', Option.some.injEq, exists_eq_right] at h
      exact Or.inl (sqlopstr_str_safe E op ng t.field val c hcode hpl h)
    · simp only [Option.map_eq_some', Option.some.injEq, exists_eq_right] at h
      exact Or.inl (modified_since_safe E val c h)
    · simp at h

theorem legacy_any_safe (E : param_env) (narg c : List Char)
    (h : db_mprintf E
        (some ("(f.artist LIKE \x27%%%q%%\x27 OR ".toList ++ " f.album  LIKE \x27%%%q%%\x27 OR ".toList
          ++ " f.title  LIKE \x27%%%q%%\x27)".toList))
        [printf_arg.str (some narg), printf_arg.str (some narg), printf_arg.str (some narg)]
      = some c) : escaped_call E c :=
  ⟨_, by simp [legacy_formats], _, h, rfl⟩

theorem legacy_file_safe (E : param_env) (x : Bool) (narg c : List Char)
    (h : db_mprintf E
        (some (if x then "(f.virtual_path = \x27/%q\x27)".toList
               else "(f.virtual_path LIKE \x27%%%q%%\x27)".toList))
        [printf_arg.str (some narg)] = some c) : escaped_call E c := by
  cases x with
  | true => exact ⟨_, by simp [legacy_formats], _, h, rfl⟩
  | false => exact ⟨_, by simp [legacy_formats], _, h, rfl⟩

theorem legacy_base_safe (E : param_env) (narg c : List Char)
    (h : db_mprintf E (some "(f.virtual_path LIKE \x27/%q%%\x27)".toList)
        [printf_arg.str (some narg)] = some c) : escaped_call E c :=
  ⟨_, by simp [legacy_formats], _, h, rfl⟩

theorem legacy_condition_safe (E : param_env) (hs : plain_text E.null_s = true)
    (x : Bool) (t : mpd_tagtype) (ht : t ∈ tagtypes) (narg c : List Char)
    (h : legacy_condition E x t narg = some (some (some c))) : escaped_predicate E c := by
  have hpl := tagtypes_field_plain E hs t ht
  have hcode := tagtypes_field_code t ht
  unfold legacy_condition at h
  cases hty : t.type with
  | MPD_TYPE_STRING =>
    simp only [hty, Option.some.injEq, Option.map_eq_some', exists_eq_right] at h
    cases x with
    | true =>
      exact Or.inl ⟨_, by simp [sqlop_formats], _, h,
        by simp [fmt_scan, sql_scan, hpl, hcode, PERCENT, SQUOTE, LPAREN, RPAREN]⟩
    | false =>
      exact Or.inl ⟨_, by simp [sqlop_formats], _, h,
        by simp [fmt_scan, sql_scan, hpl, hcode, PERCENT, SQUOTE, LPAREN, RPAREN]⟩
  | MPD_TYPE_INT =>
    simp only [hty] at h
    cases hn : E.safe_atou32 narg with
    | none => simp [hn] at h
    | some num =>
      simp only [hn, Option.some.injEq, Option.map_eq_some', exists_eq_right] at h
      exact Or.inl ⟨_, by simp [sqlop_formats], _, h,
        by simp [fmt_scan, sql_scan, hpl, hcode, PERCENT, SQUOTE, LPAREN, RPAREN]⟩
  | MPD_TYPE_SPECIAL =>
    simp only [hty] at h
    by_cases h1 : strcasecmp_eq t.tag "any".toList = true
    · rw [if_pos h1] at h
      simp only [Option.some.injEq, Option.map_eq_some', exists_eq_right] at h
      exact Or.inl (legacy_any_safe E narg c h)
    · rw [if_neg h1] at h
      by_cases h2 : strcasecmp_eq t.tag "file".toList = true
      · rw [if_pos h2] at h
        simp only [Option.some.injEq, Option.map_eq_some', exists_eq_right] at h
        exact Or.inl (legacy_file_safe E x narg c h)
      · rw [if_neg h2] at h
        by_cases h3 : strcasecmp_eq t.tag "base".toList = true
        · rw [if_pos h3] at h
          simp only [Option.some.injEq, Option.map_eq_some', exists_eq_right] at h
          exact Or.inl (legacy_base_safe E narg c h)
        · rw [if_neg h3] at h
          by_cases h4 : strcasecmp_eq t.tag "modified-since".toList = true
          · rw [if_pos h4] at h
            simp only [Option.some.injEq, Option.map_eq_some', exists_eq_right] at h
            exact Or.inl (modified_since_safe E narg c h)
          · rw [if_neg h4] at h
            exact Option.noConfusion h

/-! ## Filter safety: every run of the loop -/

theorem filter_safe_none {E : param_env} : filter_safe E none :=
  ⟨[], rfl, by simp⟩

theorem filter_safe_append (E : param_env) (param : mpd_cmd_params) (cond : Option (List Char))
    (h : filter_safe E param.qp.filter) (hc : ∀ c, cond = some c → escaped_predicate E c) :
    filter_safe E (filter_append param cond).qp.filter := by
  obtain ⟨preds, hp, hall⟩ := h
  refine ⟨preds ++ cond.toList, join_and_append_opt preds cond param hp, ?_⟩
  intro p hp2
  rcases List.mem_append.mp hp2 with h1 | h1
  · exact hall p h1
  · cases cond with
    | none => simp at h1
    | some c =>
      simp only [Option.toList_some, List.mem_singleton] at h1
      subst h1
      exact hc p rfl

theorem step_init_shape (E : param_env) (v : filter_vars) (h : filter_inv E v) :
    step_shape E v (step_init v) := by
  obtain ⟨hf, _, _, hs⟩ := h
  unfold step_init
  rw [hf]
  simp only [Bool.false_eq_true, if_false]
  split_ifs
  all_goals exact ⟨⟨0, by simp, by simp⟩, by simp, hs⟩

theorem step_expr_shape (E : param_env) (v : filter_vars) (h : filter_inv E v) :
    step_shape E v (step_expr v) := by
  obtain ⟨_, _, ht, hs⟩ := h
  unfold step_expr
  split_ifs
  · exact ⟨⟨0, by simp, by simp⟩, ht, hs⟩
  · split
    · exact ⟨⟨hunt SPACE v.mem v.n.toNat, by simp, rfl⟩, by simp, hs⟩
    · rename_i tagtype heq
      have hmem := (find_tagtype_some _ tagtype heq).2
      split_ifs
      · refine ⟨⟨hunt SPACE v.mem v.n.toNat, by simp, rfl⟩, ?_, hs⟩
        intro t hh
        simp only [Option.some.injEq] at hh
        exact hh ▸ hmem
      · refine ⟨⟨hunt SPACE v.mem v.n.toNat, by simp, rfl⟩, ?_, hs⟩
        intro t hh
        simp only [Option.some.injEq] at hh
        exact hh ▸ hmem

theorem step_op_shape (E : param_env) (x : Bool) (v : filter_vars) (h : filter_inv E v) :
    step_shape E v (step_op x v) := by
  obtain ⟨_, _, ht, hs⟩ := h
  unfold step_op
  by_cases hq : (hunt SPACE v.mem v.n.toNat : Int) = v.n
  · rw [if_pos hq]
    exact ⟨⟨0, by simp, by simp⟩, ht, hs⟩
  · rw [if_neg hq]
    split
    · exact ⟨⟨0, by simp, by simp⟩, ht, hs⟩
    · split
      · exact ⟨⟨0, by simp, by simp⟩, ht, hs⟩
      · exact ⟨⟨hunt SPACE v.mem v.n.toNat, by simp, rfl⟩, ht, hs⟩

theorem step_val_shape (E : param_env) (v : filter_vars) (h : filter_inv E v) :
    step_shape E v (step_val v) := by
  obtain ⟨_, _, ht, hs⟩ := h
  unfold step_val
  split_ifs
  · exact ⟨⟨0, by simp, by simp⟩, ht, hs⟩
  · exact ⟨⟨0, by simp, by simp⟩, ht, hs⟩
  · exact ⟨⟨1 + (unquote (v.mem.headD NUL) false (v.n.toNat - 1) v.mem.tail).1.length,
      by simp, by simp⟩, ht, hs⟩
  · exact ⟨⟨1 + (unquote (v.mem.headD NUL) false (v.n.toNat - 1) v.mem.tail).2,
      by simp, by simp⟩, ht, hs⟩
  · exact ⟨⟨1 + (unquote (v.mem.headD NUL) false (v.n.toNat - 1) v.mem.tail).2,
      by simp, by simp⟩, ht, hs⟩
  · exact ⟨⟨0, by simp, by simp⟩, ht, hs⟩

theorem step_fini_shape (E : param_env) (hnull : plain_text E.null_s = true) (v : filter_vars)
    (h : filter_inv E v) : step_shape E v (step_fini E v) := by
  obtain ⟨_, _, ht, hs⟩ := h
  unfold step_fini
  refine ⟨⟨fini_skip v.mem, by simp, rfl⟩, ht, ?_⟩
  apply filter_safe_append E _ _ hs
  intro c hc
  unfold fini_vars_condition at hc
  split at hc
  · rename_i tagtype val htag hval
    cases hcond : fini_condition E tagtype v.op v.negate val with
    | none => simp [hcond] at hc
    | some r =>
      simp only [hcond, Option.getD_some] at hc
      subst hc
      exact fini_condition_safe E hnull tagtype (ht tagtype htag) v.op v.negate val c hcond
  · simp at hc

theorem step_state_shape (E : param_env) (hnull : plain_text E.null_s = true) (x : Bool)
    (v : filter_vars) (h : filter_inv E v) : step_shape E v (step_state E x v) := by
  unfold step_state
  cases v.state with
  | STATE_INIT => exact step_init_shape E v h
  | STATE_EXPR => exact step_expr_shape E v h
  | STATE_OP => exact step_op_shape E x v h
  | STATE_VAL => exact step_val_shape E v h
  | STATE_FINI => exact step_fini_shape E hnull v h

theorem filter_step_inv (E : param_env) (hnull : plain_text E.null_s = true) (x : Bool)
    (v : filter_vars) (h : filter_inv E v) (hn : 0 < v.n) :
    filter_inv E (filter_step E x v) ∧ (filter_step E x v).mem.length < v.mem.length := by
  obtain ⟨⟨j, hj1, hj2⟩, ht, hs⟩ := step_state_shape E hnull x v h
  obtain ⟨_, hle, _, _⟩ := h
  have hlen : (filter_step E x v).mem.length = v.mem.length - j - 1 := by
    simp [filter_step, hj1]
  have hnn : (filter_step E x v).n = v.n - (j : Int) - 1 := by
    simp [filter_step, hj2]
  refine ⟨⟨rfl, ?_, ht, hs⟩, ?_⟩
  · rw [hlen, hnn]
    omega
  · rw [hlen]
    omega

theorem filter_loop_total (E : param_env) (hnull : plain_text E.null_s = true) (x : Bool) :
    ∀ (fuel : Nat) (v : filter_vars), filter_inv E v → v.mem.length < fuel →
      ∃ w, filter_loop E x fuel v = some w ∧ filter_safe E w.param.qp.filter := by
  intro fuel
  induction fuel with
  | zero => intro v _ h; omega
  | succ fuel ih =>
    intro v hv hf
    by_cases hn : 0 < v.n
    · rw [filter_loop, if_pos hn]
      obtain ⟨h1, h2⟩ := filter_step_inv E hnull x v hv hn
      exact ih _ h1 (by omega)
    · rw [filter_loop, if_neg hn]
      exact ⟨v, rfl, hv.2.2.2⟩

theorem filter_first_step (E : param_env) (x : Bool) (mem : List Char) (n : Int)
    (param : mpd_cmd_params) (hs : filter_safe E param.qp.filter)
    (hn : n + 1 ≤ (mem.length : Int)) :
    filter_inv E (filter_step E x
        ⟨mem, n, STATE_INIT, true, false, none, OP_NONE, none, param, false⟩) ∧
      (filter_step E x
        ⟨mem, n, STATE_INIT, true, false, none, OP_NONE, none, param, false⟩).mem.length
        ≤ mem.length := by
  simp only [filter_step, step_state, step_init]
  split_ifs
  · refine ⟨⟨rfl, ?_, by simp, hs⟩, by simp⟩
    simp only [List.length_tail]
    omega
  · refine ⟨⟨rfl, ?_, by simp, hs⟩, by simp⟩
    simp only [List.length_tail]
    omega
  · refine ⟨⟨rfl, ?_, by simp, hs⟩, by simp⟩
    simp only [List.tail_cons]
    omega

theorem null_q_safe (E : param_env) (hq : SQUOTE ∉ E.null_q) (c : List Char)
    (h : db_mprintf E (some "(f.album_artist = \x27%q\x27)".toList) [printf_arg.str none]
      = some c) : escaped_call E c := by
  refine ⟨"(f.album_artist = \x27%q\x27)".toList, by simp [legacy_formats],
    [printf_arg.str none], h, ?_⟩
  have e : fmt_scan E (0, false) false "(f.album_artist = \x27%q\x27)".toList
      [printf_arg.str none]
      = if (true = true ∧ ((none : Option (List Char)).isSome = true ∨ SQUOTE ∉ E.null_q))
        then some (0, false) else none := rfl
  rw [e, if_pos ⟨rfl, Or.inr hq⟩]

theorem mpd_parse_cmd_filter_safe (E : param_env) (hnull : plain_text E.null_s = true)
    (hq : SQUOTE ∉ E.null_q) (arg : List Char) (narg : Option (List Char))
    (param : mpd_cmd_params) (hs : filter_safe E param.qp.filter) :
    ∃ f, mpd_parse_cmd_filter E arg narg param = some f ∧
      filter_safe E f.param.qp.filter := by
  unfold mpd_parse_cmd_filter
  split_ifs with hmodern
  · obtain ⟨_, hlen, _⟩ := hmodern
    have hpos : (0 : Int) < (arg.length : Int) - 2 := by omega
    rw [filter_loop, if_pos hpos]
    obtain ⟨h1, h2⟩ := filter_first_step E param.exactmatch arg.tail ((arg.length : Int) - 2) param
      hs (by simp only [List.length_tail]; omega)
    obtain ⟨w, hw, hsafe⟩ := filter_loop_total E hnull param.exactmatch (arg.length + 1) _ h1
      (by simp only [List.length_tail] at h2; omega)
    rw [hw]
    exact ⟨_, rfl, hsafe⟩
  · cases narg with
    | some value =>
      simp only
      cases ht : find_tagtype arg with
      | none => exact ⟨_, rfl, hs⟩
      | some tagtype =>
        simp only
        cases hl : legacy_condition E param.exactmatch tagtype value with
        | none => exact ⟨_, rfl, hs⟩
        | some r =>
          cases r with
          | none => exact ⟨_, rfl, hs⟩
          | some condition =>
            refine ⟨_, rfl, ?_⟩
            apply filter_safe_append E _ _ hs
            intro c hc
            subst hc
            exact legacy_condition_safe E hnull param.exactmatch tagtype
              (find_tagtype_some arg tagtype ht).2 value c hl
    | none =>
      simp only
      cases hd : db_mprintf E (some "(f.album_artist = \x27%q\x27)".toList)
          [printf_arg.str none] with
      | none => exact ⟨_, rfl, hs⟩
      | some condition =>
        refine ⟨_, rfl, ?_⟩
        apply filter_safe_append E _ _ hs
        intro c hc
        simp only [Option.some.injEq] at hc
        subst hc
        exact Or.inl (null_q_safe E hq condition hd)

theorem mpd_parse_cmd_window_filter (E : param_env) (arg : List Char) (param : mpd_cmd_params) :
    (mpd_parse_cmd_window E arg param).2.qp.filter = param.qp.filter := by
  unfold mpd_parse_cmd_window
  split_ifs <;> rfl

theorem mpd_parse_cmd_group_filter (arg : List Char) (param : mpd_cmd_params) :
    (mpd_parse_cmd_group arg param).2.qp.filter = param.qp.filter := by
  unfold mpd_parse_cmd_group
  split
  · rfl
  · split_ifs <;> rfl

theorem mpd_parse_cmd_position_filter (E : param_env) (arg : List Char)
    (param : mpd_cmd_params) :
    (mpd_parse_cmd_position E arg param).2.qp.filter = param.qp.filter := by
  unfold mpd_parse_cmd_position
  split <;> rfl

theorem mpd_parse_cmd_params_loop_safe (E : param_env) (hnull : plain_text E.null_s = true)
    (hq : SQUOTE ∉ E.null_q) :
    ∀ (argv : List (List Char)) (skip dofilters : Bool) (r : params_result),
      filter_safe E r.param.qp.filter →
      ∃ r2, mpd_parse_cmd_params_loop E argv skip dofilters r = some r2 ∧
        filter_safe E r2.param.qp.filter := by
  intro argv
  induction argv with
  | nil =>
    intro skip dofilters r hs
    exact ⟨r, by simp [mpd_parse_cmd_params_loop], hs⟩
  | cons arg rest ih =>
    intro skip dofilters r hs
    cases skip with
    | true =>
      rw [mpd_parse_cmd_params_loop]
      exact ih _ _ _ hs
    | false =>
      rw [mpd_parse_cmd_params_loop]
      split_ifs
      · exact ih _ _ _ hs
      · exact ⟨_, rfl, hs⟩
      · apply ih
        show filter_safe E (mpd_parse_cmd_window E (rest.headD []) r.param).2.qp.filter
        rw [mpd_parse_cmd_window_filter]
        exact hs
      · apply ih
        show filter_safe E (mpd_parse_cmd_group (rest.headD []) _).2.qp.filter
        rw [mpd_parse_cmd_group_filter]
        exact hs
      · apply ih
        show filter_safe E (mpd_parse_cmd_group (rest.headD []) _).2.qp.filter
        rw [mpd_parse_cmd_group_filter]
        exact hs
      · apply ih
        show filter_safe E (mpd_parse_cmd_position E (rest.headD []) r.param).2.qp.filter
        rw [mpd_parse_cmd_position_filter]
        exact hs
      · obtain ⟨f, hf, hsafe⟩ := mpd_parse_cmd_filter_safe E hnull hq arg rest.head? r.param hs
        rw [hf]
        exact ih _ _ _ hsafe
      · exact ih _ _ _ hs

/-- What holds of the filter wherever the parse has a defined result: for every argument
list and every parameter block that starts without a filter, whatever it allows
(legacy pairs, modern expressions and option keywords in any mix),
`mpd_parse_cmd_params` returns, and unless a `db_mprintf` call without defined
result was met, the filter it leaves is absent or joins with ` AND ` predicates
of which each one is an escaped predicate: made by the formats of the parser with
every value of the client printed by a `%q` that stands inside a single-quoted
literal, each single quote doubled, and every `%s` filled with a string of the
code.  Each predicate then scans as SQL text with every `(` outside literals
matched by a `)` and every literal closed.  The surrounding is one in which
db_mprintf prints a NULL string as text without quote or parenthesis for `%s` and
without quote for `%q`. -/
theorem mpd_parse_cmd_params_filter_safe (E : param_env) (hnull : plain_text E.null_s = true)
    (hq : SQUOTE ∉ E.null_q) (argv : List (List Char)) (param : mpd_cmd_params)
    (hfilter : param.qp.filter = none) :
    ∃ r, mpd_parse_cmd_params E argv param = some r ∧
      (r.undefined = false →
        ∃ preds, r.param.qp.filter = join_and preds ∧
          ∀ p ∈ preds, escaped_predicate E p ∧ sql_balanced p = true) := by
  unfold mpd_parse_cmd_params
  obtain ⟨r, hr, preds, hp, hall⟩ := mpd_parse_cmd_params_loop_safe E hnull hq argv false
    (decide (param.params_allow &&& CMD_FILTER ≠ 0))
    { ret := 0, param := param, undefined := false }
    (by show filter_safe E param.qp.filter; rw [hfilter]; exact filter_safe_none)
  exact ⟨r, hr, fun _ => ⟨preds, hp, fun p hp2 =>
    ⟨hall p hp2, escaped_predicate_balanced E p (hall p hp2)⟩⟩⟩

/-- An instance of the lemma above: a legacy pair and a modern expression whose values
hold single quotes.  The parse meets no call without defined result, and each
value stands in its literal with the quotes doubled. -/
theorem mpd_parse_cmd_params_filter_safe_witness :
    plain_text penv0.null_s = true ∧ SQUOTE ∉ penv0.null_q ∧
    (query_cmd_params false).qp.filter = none ∧
    (mpd_parse_cmd_params penv0
        ["any".toList, "a\x27) OR (\x27".toList, "(Album == \"x\x27y\")".toList]
        (query_cmd_params false)).map (fun r => (r.undefined, r.param.qp.filter))
      = some (false, join_and
          ["(f.artist LIKE \x27%a\x27\x27) OR (\x27\x27%\x27 OR  f.album  LIKE \x27%a\x27\x27) OR (\x27\x27%\x27 OR  f.title  LIKE \x27%a\x27\x27) OR (\x27\x27%\x27)".toList,
           "(f.album LIKE \x27%x\x27\x27y%\x27)".toList]) ∧
    ∃ r, mpd_parse_cmd_params penv0
        ["any".toList, "a\x27) OR (\x27".toList, "(Album == \"x\x27y\")".toList]
        (query_cmd_params false) = some r ∧
      (r.undefined = false →
        ∃ preds, r.param.qp.filter = join_and preds ∧
          ∀ p ∈ preds, escaped_predicate penv0 p ∧ sql_balanced p = true) :=
  ⟨by decide, by decide, rfl, by decide,
   mpd_parse_cmd_params_filter_safe penv0 (by decide) (by decide)
     ["any".toList, "a\x27) OR (\x27".toList, "(Album == \"x\x27y\")".toList]
     (query_cmd_params false) rfl⟩


/-- C20, the code at an input the claim covers: the one argument `(base "x")` of a find
or search command, a modern expression on the pseudo tag `base`.  STATE_EXPR finds
the tag and, since `base` takes no operator, sets `op = OP_NONE` and goes on to the
value; in STATE_FINI the switch on `op` takes its default, `sqlopstr = NULL`
(source comment: invalid, cause crash), and the branch of `file` and `base` calls
`db_mprintf(sqlopstr, tagtype->field, val)` with this NULL format and the NULL
field of the row: the call has no defined result and no filter comes out, while
the claim promises one for every argument list.  The legacy pair `base x` and the
other tag without operator, `modified-since`, give their predicates.  The calls of
STATE_FINI that hand an integer to `%q` (`(Date contains 5)`) or a string to `%u`
(`(Artist >= "x")`) have no defined result either. -/
theorem modern_base_null_format :
    find_tagtype "base".toList = some (special_row "base") ∧
    (special_row "base").field = none ∧
    sqlopstr OP_NONE false = none ∧
    fini_condition penv0 (special_row "base") OP_NONE false "x".toList = none ∧
    (mpd_parse_cmd_params penv0 ["(base \"x\")".toList] (query_cmd_params true)).map
        (fun r => (r.ret, r.undefined, r.param.qp.filter)) = some (0, true, none) ∧
    (mpd_parse_cmd_params penv0 ["(base \"x\")".toList] (query_cmd_params false)).map
        (fun r => (r.ret, r.undefined, r.param.qp.filter)) = some (0, true, none) ∧
    parsed_filter penv0 true ["(base \"x\")".toList] = none ∧
    parsed_filter penv0 true ["base".toList, "x".toList]
      = some (some "(f.virtual_path LIKE \x27/x%\x27)".toList) ∧
    parsed_filter penv0 true ["(modified-since \"5\")".toList]
      = some (some ("(f.time_modified > strftime(\x27%s\x27, ".toList
          ++ "datetime(\x275\x27, \x27unixepoch\x27)))".toList)) ∧
    parsed_filter penv0 true ["(Date contains 5)".toList] = none ∧
    parsed_filter penv0 true ["(Artist >= \"x\")".toList] = none := by
  refine ⟨by decide, by decide, by decide, by decide, by decide, by decide, by decide,
    by decide, by decide, by decide, by decide⟩

/-! ## Position resolution -/

theorem wrap_int32_of_range (x : Int) (h1 : -2147483648 ≤ x) (h2 : x < 2147483648) :
    wrap_int32 x = x := by
  unfold wrap_int32
  omega

theorem int_of_uint32_after (cur : Nat) (N : Int) :
    int_of_uint32 (cur + uint32_of_int N + 1) = wrap_int32 ((cur : Int) + N + 1) := by
  unfold int_of_uint32 uint32_of_int wrap_int32
  split_ifs <;> omega

theorem int_of_uint32_before (cur : Nat) (N : Int) :
    int_of_uint32 (cur + 4294967296 - uint32_of_int N) = wrap_int32 ((cur : Int) - N) := by
  unfold int_of_uint32 uint32_of_int wrap_int32
  split_ifs <;> omega

theorem mpd_get_relative_queue_pos_after (E : param_env) (N : Int) :
    mpd_get_relative_queue_pos E position_type.POSITION_RELATIVE_AFTER N
      = wrap_int32 ((curpos E : Int) + N + 1) := by
  rw [← int_of_uint32_after]
  rfl

theorem mpd_get_relative_queue_pos_before (E : param_env) (N : Int) :
    mpd_get_relative_queue_pos E position_type.POSITION_RELATIVE_BEFORE N
      = wrap_int32 ((curpos E : Int) - N) := by
  rw [← int_of_uint32_before]
  rfl

theorem curpos_stopped (E : param_env) (h : E.player_stopped = true ∨ E.queue_item = none) :
    curpos E = 0 := by
  unfold curpos
  rcases h with h | h
  · simp [h]
  · simp [h]

theorem MINUS_ne_PLUS : MINUS ≠ PLUS := by decide

/-- C21 as stated fails at the edge of `int`: with the player stopped (cur = 0) the
argument `+2147483647` is read as N = 2147483647, and the position stored is
-2147483648, not cur + N + 1 = 2147483648, because the sum is computed in
`uint32_t` and stored back into an `int`. -/
theorem mpd_parse_cmd_position_wraps :
    curpos penv0 = 0 ∧
    penv0.safe_atoi32 (position_digits "+2147483647".toList) = some 2147483647 ∧
    (mpd_parse_cmd_position penv0 "+2147483647".toList zero_cmd_params).1 = 0 ∧
    (mpd_parse_cmd_position penv0 "+2147483647".toList zero_cmd_params).2.pos = -2147483648 ∧
    (mpd_parse_cmd_position penv0 "+2147483647".toList zero_cmd_params).2.pos
      ≠ (curpos penv0 : Int) + 2147483647 + 1 := by
  decide

/-- C21 amended: let cur be the current queue position (0 when the player is stopped
or the current item cannot be fetched) and N the integer `safe_atoi32` reads from
the argument after its optional sign.  Then `mpd_parse_cmd_position` returns 0,
marks POSITION as seen and stores N for an argument without sign, and for `+N` and
`-N` the integer of the range of `int` congruent modulo 2^32 to cur + N + 1 and
cur - N, which is cur + N + 1 and cur - N themselves whenever these lie in the range
of `int`.  An argument whose remainder after the optional sign is not an integer is
rejected with return value 1 and leaves the parameters, the stored position
included, as they were. -/
theorem mpd_parse_cmd_position_resolved (E : param_env) (param : mpd_cmd_params)
    (s : List Char) (N : Int) (hN : E.safe_atoi32 s = some N) :
    (E.player_stopped = true ∨ E.queue_item = none → curpos E = 0) ∧
    (s.head? ≠ some MINUS → s.head? ≠ some PLUS →
      mpd_parse_cmd_position E s param
        = (0, { param with pos := N, params_set := param.params_set ||| CMD_POSITION })) ∧
    mpd_parse_cmd_position E (PLUS :: s) param
      = (0, { param with pos := wrap_int32 ((curpos E : Int) + N + 1),
                         params_set := param.params_set ||| CMD_POSITION }) ∧
    mpd_parse_cmd_position E (MINUS :: s) param
      = (0, { param with pos := wrap_int32 ((curpos E : Int) - N),
                         params_set := param.params_set ||| CMD_POSITION }) ∧
    (-2147483648 ≤ (curpos E : Int) + N + 1 → (curpos E : Int) + N + 1 < 2147483648 →
      (mpd_parse_cmd_position E (PLUS :: s) param).2.pos = (curpos E : Int) + N + 1) ∧
    (-2147483648 ≤ (curpos E : Int) - N → (curpos E : Int) - N < 2147483648 →
      (mpd_parse_cmd_position E (MINUS :: s) param).2.pos = (curpos E : Int) - N) ∧
    (∀ arg : List Char, E.safe_atoi32 (position_digits arg) = none →
      mpd_parse_cmd_position E arg param = (1, param)) := by
  have hplus : mpd_parse_cmd_position E (PLUS :: s) param
      = (0, { param with pos := wrap_int32 ((curpos E : Int) + N + 1),
                         params_set := param.params_set ||| CMD_POSITION }) := by
    rw [← mpd_get_relative_queue_pos_after]
    simp [mpd_parse_cmd_position, hN, MINUS_ne_PLUS.symm]
  have hminus : mpd_parse_cmd_position E (MINUS :: s) param
      = (0, { param with pos := wrap_int32 ((curpos E : Int) - N),
                         params_set := param.params_set ||| CMD_POSITION }) := by
    rw [← mpd_get_relative_queue_pos_before]
    simp [mpd_parse_cmd_position, hN]
  refine ⟨curpos_stopped E, ?_, hplus, hminus, ?_, ?_, ?_⟩
  · intro h1 h2
    simp [mpd_parse_cmd_position, h1, h2, hN, mpd_get_relative_queue_pos]
  · intro h1 h2
    rw [hplus]
    exact wrap_int32_of_range _ h1 h2
  · intro h1 h2
    rw [hminus]
    exact wrap_int32_of_range _ h1 h2
  · intro arg harg
    unfold position_digits at harg
    unfold mpd_parse_cmd_position
    rw [harg]

/-- Witness of C21 amended: a player on the item at position 3; `+0` resolves to 4,
`-0` to 3, `5` to 5, and `+x` is rejected. -/
theorem mpd_parse_cmd_position_resolved_witness :
    penv1.safe_atoi32 "0".toList = some 0 ∧ curpos penv1 = 3 ∧
    (mpd_parse_cmd_position penv1 "+0".toList zero_cmd_params).2.pos = 4 ∧
    (mpd_parse_cmd_position penv1 "-0".toList zero_cmd_params).2.pos = 3 ∧
    (mpd_parse_cmd_position penv1 "5".toList zero_cmd_params).2.pos = 5 ∧
    (mpd_parse_cmd_position penv1 "5".toList zero_cmd_params).2.params_set &&& CMD_POSITION
      = CMD_POSITION ∧
    mpd_parse_cmd_position penv1 "+x".toList zero_cmd_params = (1, zero_cmd_params) ∧
    (mpd_parse_cmd_position penv1 (PLUS :: "0".toList) zero_cmd_params).2.pos
      = (curpos penv1 : Int) + 0 + 1 :=
  ⟨by decide, by decide, by decide, by decide, by decide, by decide, by decide,
   (mpd_parse_cmd_position_resolved penv1 zero_cmd_params "0".toList 0 (by decide)).2.2.2.2.1
     (by decide) (by decide)⟩

/-! ## The command `move` -/

theorem mpd_command_move_loop_calls {Q : Type} (D : queue_env Q) (s pos : Int)
    (hok : ∀ q a b, 0 ≤ (D.db_queue_move_bypos q a b).1) :
    ∀ (k fuel : Nat) (count : Int) (q : Q) (calls : List queue_call),
      count + 1 = (k : Int) → k ≤ fuel →
      ∃ r, mpd_command_move_loop D s pos fuel count q calls = some r ∧ r.ret = 0 ∧
        r.calls = calls ++ List.replicate k (queue_call.db_queue_move_bypos s pos) := by
  intro k
  induction k with
  | zero =>
    intro fuel count q calls hc _
    have hneg : ¬ (0 ≤ count) := by omega
    cases fuel with
    | zero => exact ⟨_, by rw [mpd_command_move_loop, if_neg hneg], rfl, by simp⟩
    | succ fuel => exact ⟨_, by rw [mpd_command_move_loop, if_neg hneg], rfl, by simp⟩
  | succ k ih =>
    intro fuel count q calls hc hf
    have hpos : 0 ≤ count := by omega
    cases fuel with
    | zero => omega
    | succ fuel =>
      have hnf : ¬ ((D.db_queue_move_bypos q s pos).1 < 0) := by
        have := hok q s pos
        omega
      rw [mpd_command_move_loop, if_pos hpos, if_neg hnf]
      obtain ⟨r, hr, hret, hcalls⟩ := ih fuel (count - 1) (D.db_queue_move_bypos q s pos).2
        (calls ++ [queue_call.db_queue_move_bypos s pos]) (by push_cast at hc ⊢; omega) (by omega)
      refine ⟨r, hr, hret, ?_⟩
      rw [hcalls, List.append_assoc, List.replicate_succ]
      rfl

/-- What `mpd_command_move` does on a range that `mpd_pars_range_arg` reads as S and E
and a destination read as P, over a queue whose moves succeed: it refuses exactly
when S <= P <= E, and otherwise calls `db_queue_move_bypos(S, P)` E - S + 1 times when
S <= E. -/
theorem mpd_command_move_calls {Q : Type} (E : param_env) (D : queue_env Q)
    (hok : ∀ q a b, 0 ≤ (D.db_queue_move_bypos q a b).1)
    (s0 e0 : Int) (argv : List (List Char)) (q : Q) (S En P : Int)
    (hrange : mpd_pars_range_arg E (argv.getD 1 []) = (0, some S, some En))
    (hto : mpd_parse_cmd_position E (argv.getD 2 []) zero_cmd_params
      = (0, { zero_cmd_params with pos := P, params_set := CMD_POSITION }))
    (hle : S ≤ En) :
    ∃ r, mpd_command_move E D s0 e0 argv q = some r ∧
      (S ≤ P ∧ P ≤ En → r.ret = ACK_ERROR_ARG ∧ r.calls = []) ∧
      (¬ (S ≤ P ∧ P ≤ En) → r.ret = 0 ∧
        r.calls = List.replicate (En - S + 1).toNat (queue_call.db_queue_move_bypos S P)) := by
  unfold mpd_command_move
  simp only [hrange, hto, Option.getD_some]
  rw [if_neg (by decide), if_neg (by simp)]
  by_cases hov : S ≤ P ∧ En ≥ P
  · rw [if_pos hov]
    refine ⟨_, rfl, fun _ => ⟨rfl, rfl⟩, fun h => absurd ⟨hov.1, hov.2⟩ h⟩
  · rw [if_neg hov]
    obtain ⟨r, hr, hret, hcalls⟩ := mpd_command_move_loop_calls D S P hok (En - S + 1).toNat
      (En - S + 2).toNat (En - S) q [] (by omega) (by omega)
    refine ⟨r, hr, fun h => absurd ⟨h.1, h.2⟩ hov, fun _ => ⟨hret, ?_⟩⟩
    rw [hcalls]
    rfl

/-- C22, the code at inputs the claim covers, over a queue whose calls succeed.
`move 0 5` names the single item at position 0, and the handler calls
`db_queue_move_bypos(0, 5)` twice.  `move 1 2` has its destination 2 outside the
moved range 1:2, and the handler refuses it with ACK_ERROR_ARG.  `move 0:2 5` moves a
range of two items with three calls. -/
theorem mpd_command_move_one_too_many :
    (mpd_command_move penv1 queue0 0 0 ["move".toList, "0".toList, "5".toList] ()).map
        (fun r => (r.ret, r.calls))
      = some (0, [queue_call.db_queue_move_bypos 0 5, queue_call.db_queue_move_bypos 0 5]) ∧
    (mpd_command_move penv1 queue0 0 0 ["move".toList, "1".toList, "2".toList] ()).map
        (fun r => (r.ret, r.calls))
      = some (ACK_ERROR_ARG, []) ∧
    (mpd_command_move penv1 queue0 0 0 ["move".toList, "0:2".toList, "5".toList] ()).map
        (fun r => (r.ret, r.calls))
      = some (0, [queue_call.db_queue_move_bypos 0 5, queue_call.db_queue_move_bypos 0 5,
                  queue_call.db_queue_move_bypos 0 5]) := by
  decide

/-! ## Audio outputs -/

theorem output_get_cb_fold_found (speakers : List player_speaker_info) (p : output_get_param)
    (h : p.output ≠ none) :
    player_speaker_enumerate speakers output_get_cb p = p := by
  unfold player_speaker_enumerate
  induction speakers with
  | nil => rfl
  | cons spk rest ih =>
    rw [List.foldl_cons]
    have : output_get_cb spk p = p := by
      unfold output_get_cb
      rw [if_neg (fun hc => h hc.1)]
    rw [this]
    exact ih

theorem output_get_cb_fold_miss (speakers : List player_speaker_info) (shortid : Nat)
    (h : shortid ≠ 0) :
    player_speaker_enumerate speakers output_get_cb
        { curid := 0, shortid := shortid, output := none }
      = { curid := 0, shortid := shortid, output := none } := by
  unfold player_speaker_enumerate
  induction speakers with
  | nil => rfl
  | cons spk rest ih =>
    rw [List.foldl_cons]
    have : output_get_cb spk { curid := 0, shortid := shortid, output := none }
        = { curid := 0, shortid := shortid, output := none } := by
      unfold output_get_cb
      rw [if_neg (fun hc => h hc.2)]
    rw [this]
    exact ih

/-- The lookup of the output setters for every enumeration: short id 0 (modulo 2^16)
gives the first speaker, every other short id gives no output at all, because
`output_get_cb` advances `curid` only when it has found its speaker. -/
theorem output_get_cases (speakers : List player_speaker_info) (num : Nat) :
    (num % 65536 ≠ 0 → output_get speakers num = none) ∧
    (num % 65536 = 0 → output_get speakers num
      = speakers.head?.map (fun spk =>
          { id := spk.id, shortid := 0, name := spk.name, selected := spk.selected })) := by
  constructor
  · intro h
    unfold output_get
    rw [output_get_cb_fold_miss speakers _ h]
  · intro h
    unfold output_get
    rw [h]
    cases speakers with
    | nil => rfl
    | cons spk rest =>
      have h1 : player_speaker_enumerate (spk :: rest) output_get_cb
            { curid := 0, shortid := 0, output := none }
          = player_speaker_enumerate rest output_get_cb
              (output_get_cb spk { curid := 0, shortid := 0, output := none }) := rfl
      rw [h1, output_get_cb_fold_found rest _ (by simp [output_get_cb])]
      rfl

/-- C23, the code at an input the claim covers: with the speakers Computer and
Kitchen, `outputs` lists Kitchen with `outputid: 1`, but the lookup for short id 1
finds no output, so `enableoutput 1` returns 0 without a call into the player and
`outputvolume 1 50` fails with "No speaker found"; only short id 0 is found. -/
theorem output_get_finds_first_only :
    mpd_command_outputs false speakers0
      = "outputid: 0\noutputname: Computer\nplugin: alsa\noutputenabled: 0\n".toList
        ++ "outputid: 1\noutputname: Kitchen\nplugin: airplay_2\noutputenabled: 0\n".toList ∧
    output_get speakers0 1 = none ∧
    output_get speakers0 1 ≠ (speakers0.get? 1).map (fun spk =>
      { id := spk.id, shortid := 1, name := spk.name, selected := spk.selected }) ∧
    (mpd_command_enableoutput safe_atou32 player0 ["enableoutput".toList, "1".toList] ()).ret = 0 ∧
    (mpd_command_enableoutput safe_atou32 player0 ["enableoutput".toList, "1".toList] ()).calls
      = [] ∧
    (mpd_command_toggleoutput safe_atou32 player0 ["toggleoutput".toList, "1".toList] ()).calls
      = [] ∧
    (mpd_command_outputvolume safe_atou32 safe_atoi32 player0
        ["outputvolume".toList, "1".toList, "50".toList] ()).ret = ACK_ERROR_UNKNOWN ∧
    (mpd_command_outputvolume safe_atou32 safe_atoi32 player0
        ["outputvolume".toList, "1".toList, "50".toList] ()).calls = [] ∧
    (mpd_command_enableoutput safe_atou32 player0 ["enableoutput".toList, "0".toList] ()).calls
      = [player_call.player_speaker_enable 100] := by
  decide

/-! ## Queue ranges -/

theorem dropWhile_ne_nil_of_mem {α : Type} (p : α → Bool) (c : α) (hc : p c = false) :
    ∀ l : List α, c ∈ l → l.dropWhile p ≠ [] := by
  intro l
  induction l with
  | nil => intro h; simp at h
  | cons a rest ih =>
    intro h
    rw [List.dropWhile_cons]
    by_cases ha : p a = true
    · rw [if_pos ha]
      rcases List.mem_cons.mp h with h | h
      · rw [h] at hc
        rw [hc] at ha
        exact absurd ha (by decide)
      · exact ih h
    · rw [if_neg ha]
      simp

theorem sscanf_range_colon (range : List Char) (h : COLON ∈ range) :
    0 ≤ (sscanf_range range).1 := by
  unfold sscanf_range
  rw [if_neg (dropWhile_ne_nil_of_mem isspace COLON (by decide) range h)]
  split
  · decide
  · split_ifs
    · split <;> simp
    · simp

/-- With the `sscanf` of libc no argument that holds a `:` makes `mpd_pars_range_arg`
return -1: the test `ret < 0` only meets the return value EOF. -/
theorem mpd_pars_range_arg_colon (E : param_env) (hE : E.sscanf_range = sscanf_range)
    (range : List Char) (h : COLON ∈ range) :
    (mpd_pars_range_arg E range).1 = 0 := by
  unfold mpd_pars_range_arg
  rw [if_pos h, hE, if_neg (by have := sscanf_range_colon range h; omega)]

/-- C24, the code at inputs the claim covers.  For `a:b`, `5:` and `:5` the call of
`sscanf` converts 0, 1 and 0 integers and `mpd_pars_range_arg` returns 0, not -1,
leaving one or both positions as they were.  `playlistinfo a:b` then runs the queue
enumeration with the empty range `pos >= 0 AND pos < 0` and returns 0; `delete a:b`
calls `db_queue_delete_bypos` with whatever its two uninitialised locals held (here
7 and 9), and `move a:b 20` calls `db_queue_move_bypos` with them.  The two
well-formed kinds of argument are read as the claim says: `3:7` gives start 3 and
end 7, the bare `5` gives start 5 and end 6, and `x` returns -1. -/
theorem mpd_pars_range_arg_accepts_malformed :
    sscanf_range "a:b".toList = (0, none, none) ∧
    mpd_pars_range_arg penv1 "a:b".toList = (0, none, none) ∧
    mpd_pars_range_arg penv1 "5:".toList = (0, some 5, none) ∧
    mpd_pars_range_arg penv1 ":5".toList = (0, none, none) ∧
    (mpd_command_playlistinfo penv1 queue0 ["playlistinfo".toList, "a:b".toList] ()).ret = 0 ∧
    (mpd_command_playlistinfo penv1 queue0 ["playlistinfo".toList, "a:b".toList] ()).calls
      = [queue_call.db_queue_enum_start (some "pos >= 0 AND pos < 0".toList)] ∧
    (mpd_command_delete penv1 queue0 7 9 ["delete".toList, "a:b".toList] ()).ret = 0 ∧
    (mpd_command_delete penv1 queue0 7 9 ["delete".toList, "a:b".toList] ()).calls
      = [queue_call.db_queue_delete_bypos 7 2] ∧
    (mpd_command_move penv1 queue0 7 9 ["move".toList, "a:b".toList, "20".toList] ()).map
        (fun r => (r.ret, r.calls))
      = some (0, [queue_call.db_queue_move_bypos 7 20, queue_call.db_queue_move_bypos 7 20,
                  queue_call.db_queue_move_bypos 7 20]) ∧
    mpd_pars_range_arg penv1 "3:7".toList = (0, some 3, some 7) ∧
    mpd_pars_range_arg penv1 "5".toList = (0, some 5, some 6) ∧
    mpd_pars_range_arg penv1 "x".toList = (-1, none, none) ∧
    (mpd_command_delete penv1 queue0 7 9 ["delete".toList, "x".toList] ()).ret = ACK_ERROR_ARG ∧
    (mpd_command_delete penv1 queue0 7 9 ["delete".toList, "x".toList] ()).calls = [] := by
  decide

theorem mpd_pars_range_arg_integer (E : param_env) (range : List Char) (h : COLON ∉ range) :
    (∀ N, E.safe_atoi32 range = some N →
      mpd_pars_range_arg E range = (0, some N, some (N + 1))) ∧
    (E.safe_atoi32 range = none → mpd_pars_range_arg E range = (-1, none, none)) := by
  constructor
  · intro N hN
    unfold mpd_pars_range_arg
    rw [if_neg h, hN]
  · intro hN
    unfold mpd_pars_range_arg
    rw [if_neg h, hN]

theorem isDigit_signs (c : Char) (h : c.isDigit = true) :
    c ≠ MINUS ∧ c ≠ PLUS ∧ c ≠ COLON ∧ isspace c = false := by
  have := isDigit_mem c h
  simp only [String.toList, List.mem_cons, List.mem_singleton, List.not_mem_nil, or_false] at this
  rcases this with rfl | rfl | rfl | rfl | rfl | rfl | rfl | rfl | rfl | rfl <;> decide

/-- The conversion `%d` on a run of digits that ends the input or is followed by a byte
that is no digit: the value of the run when it fits an `int`, and the input after
the run. -/
theorem scan_int_digits (d : Char) (D rest : List Char) (hd : d.isDigit = true)
    (hD : ∀ c ∈ D, c.isDigit = true) (hrest : ∀ c, rest.head? = some c → c.isDigit = false)
    (hval : digits_value (d :: D) < 2147483648) :
    scan_int (d :: D ++ rest) = some ((digits_value (d :: D) : Int), rest) := by
  have hall : ∀ c ∈ d :: D, c.isDigit = true := by
    intro c hc
    rcases List.mem_cons.mp hc with h | h
    · rw [h]; exact hd
    · exact hD c h
  have hr1 : rest.takeWhile Char.isDigit = [] := by
    cases rest with
    | nil => rfl
    | cons c r => rw [List.takeWhile_cons, if_neg (by rw [hrest c rfl]; decide)]
  have hr2 : rest.dropWhile Char.isDigit = rest := by
    cases rest with
    | nil => rfl
    | cons c r => rw [List.dropWhile_cons, if_neg (by rw [hrest c rfl]; decide)]
  have ht : (d :: D ++ rest).takeWhile Char.isDigit = d :: D := by
    rw [List.takeWhile_append_of_pos hall, hr1, List.append_nil]
  have hdrop : (d :: D ++ rest).dropWhile Char.isDigit = rest := by
    rw [List.dropWhile_append_of_pos hall, hr2]
  obtain ⟨h1, h2, _, _⟩ := isDigit_signs d hd
  unfold scan_int
  rw [if_neg (by simpa using h1), if_neg (by simpa using h2), ht, hdrop,
    if_neg (by simp), wrap_int32_of_range _ (by omega) (by omega)]

/-- The well-formed range: for `S:E` written with two runs of digits whose values fit
an `int`, `mpd_pars_range_arg` returns 0 with start S and end E. -/
theorem mpd_pars_range_arg_range (E : param_env) (hE : E.sscanf_range = sscanf_range)
    (a b : Char) (A B : List Char) (ha : a.isDigit = true) (hb : b.isDigit = true)
    (hA : ∀ c ∈ A, c.isDigit = true) (hB : ∀ c ∈ B, c.isDigit = true)
    (hva : digits_value (a :: A) < 2147483648) (hvb : digits_value (b :: B) < 2147483648) :
    mpd_pars_range_arg E (a :: A ++ COLON :: b :: B)
      = (0, some (digits_value (a :: A) : Int), some (digits_value (b :: B) : Int)) := by
  have hmem : COLON ∈ a :: A ++ COLON :: b :: B := by simp
  have hsa : (a :: A ++ COLON :: b :: B).dropWhile isspace = a :: A ++ COLON :: b :: B := by
    rw [List.cons_append, List.dropWhile_cons, if_neg (by rw [(isDigit_signs a ha).2.2.2]; decide)]
  have hsb : (b :: B).dropWhile isspace = b :: B := by
    rw [List.dropWhile_cons, if_neg (by rw [(isDigit_signs b hb).2.2.2]; decide)]
  have h1 := scan_int_digits a A (COLON :: b :: B) ha hA
    (by intro c hc; simp only [List.head?_cons, Option.some.injEq] at hc; rw [← hc]; decide) hva
  have h2 := scan_int_digits b B [] hb hB (by intro c hc; simp at hc) hvb
  rw [List.append_nil] at h2
  have hs : sscanf_range (a :: A ++ COLON :: b :: B)
      = (2, some (digits_value (a :: A) : Int), some (digits_value (b :: B) : Int)) := by
    unfold sscanf_range
    rw [hsa, if_neg (by simp), h1]
    simp only [List.head?_cons, if_true, List.tail_cons, hsb, h2]
  unfold mpd_pars_range_arg
  rw [if_pos hmem, hE, hs, if_neg (by simp)]

/-! ## `searchadd` and `findadd` -/

/-- Whatever the arguments are, the position `mpd_command_searchadd` and
`mpd_command_findadd` pass to `db_queue_add_by_query` is -1. -/
theorem add_by_query_tail_pos (E : param_env) (db : add_by_query → Int) (x : Bool)
    (argv : List (List Char)) (r : add_result) (c : add_by_query)
    (h : add_by_query_tail E db x argv = some r) (hc : r.call = some c) : c.pos = -1 := by
  unfold add_by_query_tail at h
  split at h
  · exact absurd h (by simp)
  · split_ifs at h <;>
    · have h2 := (Option.some.inj h).symm
      subst h2
      have h3 := (Option.some.inj hc).symm
      subst h3
      rfl

theorem add_by_query_tail_total (E : param_env) (hnull : plain_text E.null_s = true)
    (hq : SQUOTE ∉ E.null_q) (db : add_by_query → Int) (x : Bool) (argv : List (List Char)) :
    ∃ r, add_by_query_tail E db x argv = some r ∧ ∃ c, r.call = some c ∧ c.pos = -1 := by
  obtain ⟨p, hp, _⟩ := mpd_parse_cmd_params_loop_safe E hnull hq argv.tail false
    (decide ((add_cmd_params x).params_allow &&& CMD_FILTER ≠ 0))
    { ret := 0, param := add_cmd_params x, undefined := false } filter_safe_none
  unfold add_by_query_tail mpd_parse_cmd_params
  rw [hp]
  simp only
  split_ifs
  · exact ⟨_, rfl, _, rfl, rfl⟩
  · exact ⟨_, rfl, _, rfl, rfl⟩

/-- C25, the code at inputs the claim covers: `searchadd artist x position 3` and
`findadd artist x position 3` parse the position (POSITION is marked as seen and
3 is stored in the parameters), and both call `db_queue_add_by_query` with
position -1.  `findadd "(artist == \"x\")" position 3`, a filter expression followed
by the option, is refused for its even number of arguments. -/
theorem searchadd_position_ignored :
    (mpd_command_searchadd penv1 (fun _ => 0)
        ["searchadd".toList, "artist".toList, "x".toList, "position".toList, "3".toList]).map
        (fun r => (r.ret, r.params.map (fun p => (p.params_set &&& CMD_POSITION, p.pos))))
      = some (0, some (CMD_POSITION, 3)) ∧
    (mpd_command_searchadd penv1 (fun _ => 0)
        ["searchadd".toList, "artist".toList, "x".toList, "position".toList, "3".toList]).map
        (fun r => r.call.map (fun c => c.pos))
      = some (some (-1)) ∧
    (mpd_command_findadd penv1 (fun _ => 0)
        ["findadd".toList, "artist".toList, "x".toList, "position".toList, "3".toList]).map
        (fun r => (r.ret, r.params.map (fun p => (p.params_set &&& CMD_POSITION, p.pos))))
      = some (0, some (CMD_POSITION, 3)) ∧
    (mpd_command_findadd penv1 (fun _ => 0)
        ["findadd".toList, "artist".toList, "x".toList, "position".toList, "3".toList]).map
        (fun r => r.call.map (fun c => c.pos))
      = some (some (-1)) ∧
    (mpd_command_searchadd penv1 (fun _ => 0)
        ["searchadd".toList, "(artist == \"x\")".toList, "position".toList, "+0".toList]).map
        (fun r => (r.ret, r.params.map (fun p => (p.params_set &&& CMD_POSITION, p.pos))))
      = some (0, some (CMD_POSITION, 4)) ∧
    (mpd_command_searchadd penv1 (fun _ => 0)
        ["searchadd".toList, "(artist == \"x\")".toList, "position".toList, "+0".toList]).map
        (fun r => r.call.map (fun c => (c.qp.filter, c.pos)))
      = some (some (some "(f.album_artist LIKE \x27%x%\x27)".toList, -1)) ∧
    (mpd_command_findadd penv1 (fun _ => 0)
        ["findadd".toList, "(artist == \"x\")".toList, "position".toList, "3".toList]).map
        (fun r => (r.ret, r.call))
      = some (ACK_ERROR_ARG, none) :=
  ⟨by decide, by decide, by decide, by decide, by decide, by decide, by decide⟩

/-! ## `list album ARTIST` -/

/-- The three-token form for every ARTIST that is neither an option keyword nor a
parenthesised expression: the command is accepted, and the filter handed to the query
is the one `db_mprintf` makes of a NULL string; ARTIST does not occur in it. -/
theorem mpd_command_list_album_artist (E : param_env) (ARTIST : List Char)
    (hkey : param_cmd true ARTIST = CMD_FILTER)
    (hexpr : ¬ (ARTIST.head? = some LPAREN ∧ 2 < ARTIST.length ∧ ARTIST.getLast? = some RPAREN)) :
    (mpd_command_list E ["list".toList, "album".toList, ARTIST]).map
        (fun r => (r.ret, r.query.map (fun p => p.qp.filter)))
      = some (0, some (some ("(f.album_artist = \x27".toList ++ (E.null_q ++ "\x27)".toList)))) := by
  have h1 : find_tagtype "album".toList
      = some (tag_row "Album" "f.album" "f.album_sort, f.album" "f.songalbumid"
          MPD_TYPE_STRING false) := by decide
  have h2 : db_mprintf E (some "(f.album_artist = \x27%q\x27)".toList) [printf_arg.str none]
      = some ("(f.album_artist = \x27".toList ++ (E.null_q ++ "\x27)".toList)) := rfl
  have hc : strcasecmp_eq "album".toList "album".toList = true := by decide
  unfold mpd_command_list
  rw [if_neg (by
    simp only [List.length_cons, List.length_nil, List.getD_cons_succ, List.getD_cons_zero, hc]
    decide)]
  simp only [List.getD_cons_succ, List.getD_cons_zero, h1]
  rw [if_neg (by decide)]
  simp only [List.drop_succ_cons, List.drop_zero]
  unfold mpd_parse_cmd_params
  rw [mpd_parse_cmd_params_loop]
  have hallow : ¬ ((CMD_FILTER ||| CMD_GROUP) &&& param_cmd true ARTIST = CMD_UNSET) := by
    rw [hkey]; decide
  have hd : decide ((CMD_FILTER ||| CMD_GROUP) &&& CMD_FILTER ≠ 0) = true := by decide
  simp only [hd]
  rw [if_neg hallow, if_neg (by rw [hkey]; decide), if_neg (by rw [hkey]; decide),
    if_neg (by rw [hkey]; decide), if_neg (by rw [hkey]; decide), if_pos hkey]
  unfold mpd_parse_cmd_filter
  rw [if_neg hexpr]
  simp only [List.head?_nil, h2]
  rfl

/-- C26, the code at an input the claim covers: `list album Bach` is accepted, and the
filter handed to the query is `(f.album_artist = '(NULL)')` where db_mprintf prints
`(NULL)` for a NULL string under `%q`, as sqlite does; it is not the filter
`(f.album_artist = 'Bach')` of the claim, and it is the same for every artist. -/
theorem mpd_command_list_album_artist_null :
    (mpd_command_list penv0 ["list".toList, "album".toList, "Bach".toList]).map
        (fun r => (r.ret, r.query.map (fun p => p.qp.filter)))
      = some (0, some (some "(f.album_artist = \x27(NULL)\x27)".toList)) ∧
    (mpd_command_list penv0 ["list".toList, "album".toList, "Bach".toList]).map
        (fun r => r.query.map (fun p => p.qp.filter))
      ≠ some (some (some "(f.album_artist = \x27Bach\x27)".toList)) ∧
    (mpd_command_list penv0 ["list".toList, "album".toList, "Mozart".toList]).map
        (fun r => r.query.map (fun p => p.qp.filter))
      = (mpd_command_list penv0 ["list".toList, "album".toList, "Bach".toList]).map
        (fun r => r.query.map (fun p => p.qp.filter)) :=
  ⟨by decide, by decide, by decide⟩

/-! ## `sticker find` -/

/-- The filter of `sticker find song PATH rating` for every PATH: the path, with a
`/` before it where it has none, stands in the literal as it was sent. -/
theorem mpd_command_sticker_find_filter (atou : List Char → Option Nat)
    (other : List Char → List (List Char) → List Char → sticker_result) (PATH : List Char) :
    mpd_command_sticker atou other
        ["sticker".toList, "find".toList, "song".toList, PATH, "rating".toList]
      = { ret := 0, errmsg := none,
          filter := some ("(f.virtual_path LIKE \x27".toList ++ prepend_slash PATH
            ++ "%\x27 AND f.rating > 0 AND f.rating > 0)".toList),
          undefined := false } := by
  have hf : mpd_sticker_handlers.find? (fun c => decide ("find".toList = c.1))
      = some ("find".toList, 5) := by decide
  unfold mpd_command_sticker
  simp only [List.getD_cons_succ, List.getD_cons_zero, hf]
  rw [if_neg (by decide), if_neg (by simp), if_pos trivial]
  unfold mpd_sticker_find
  simp only [List.getD_cons_succ, List.getD_cons_zero]
  rw [if_neg (by decide), if_neg (by simp), if_neg (by simp)]
  have h0 : (toString (int_of_uint32 0)).toList = "0".toList := by decide
  simp only [sticker_find_filter, h0, List.append_assoc]
  rfl

/-- C27, the code at an input the claim covers: for the path `a' OR '1'='1` the filter
is `(f.virtual_path LIKE '/a' OR '1'='1%' AND f.rating > 0 AND f.rating > 0)`.  The
quote of the path ends the literal after `/a` and the rest of the path is SQL of its
own; the filter is not the one with the path escaped. -/
theorem mpd_sticker_find_path_unescaped :
    (mpd_command_sticker safe_atou32 sticker_other0
        ["sticker".toList, "find".toList, "song".toList, "a\x27 OR \x271\x27=\x271".toList,
         "rating".toList]).filter
      = some "(f.virtual_path LIKE \x27/a\x27 OR \x271\x27=\x271%\x27 AND f.rating > 0 AND f.rating > 0)".toList ∧
    sticker_filter_escaped (prepend_slash "a\x27 OR \x271\x27=\x271".toList) ">".toList 0
      = "(f.virtual_path LIKE \x27/a\x27\x27 OR \x27\x271\x27\x27=\x27\x271%\x27 AND f.rating > 0 AND f.rating > 0)".toList ∧
    (mpd_command_sticker safe_atou32 sticker_other0
        ["sticker".toList, "find".toList, "song".toList, "a\x27 OR \x271\x27=\x271".toList,
         "rating".toList]).filter
      ≠ some (sticker_filter_escaped (prepend_slash "a\x27 OR \x271\x27=\x271".toList)
          ">".toList 0) ∧
    sql_scan (0, false) "(f.virtual_path LIKE \x27/a\x27".toList = some (1, false) :=
  ⟨by decide, by decide, by decide, by decide⟩

/-! ## The loop of `mpd_read_cb`, one line at a time -/

/-- One pass of the loop of `mpd_read_cb` over a line, for every state of its
variables: the pass either leaves the client, the collaborators and the list of
handler calls as they were and dispatches nothing, or it dispatches the parsed
line; the loop then stops when the dispatch step fails and goes on with the
input left when it succeeds. -/
theorem mpd_read_cb_loop_step {W : Type} (env : mpd_env W) (line : List Char)
    (input : List (List Char)) (v : read_cb_vars W) :
    ∃ v2 : read_cb_vars W,
      (mpd_read_cb_loop env (line :: input) v = (input, v2)
        ∨ mpd_read_cb_loop env (line :: input) v = mpd_read_cb_loop env input v2) ∧
      ((v2.client_ctx = v.client_ctx ∧ v2.world = v.world ∧ v2.handled = v.handled ∧
          ∀ name args, mpd_parse_args line COMMAND_ARGV_MAX = some (name :: args) →
            name ∈ list_control_words) ∨
       (∃ name args, mpd_parse_args line COMMAND_ARGV_MAX = some (name :: args) ∧
          name ∉ list_control_words ∧
          v2.client_ctx = (mpd_read_cb_dispatch env (name :: args) v.client_ctx v.world).ctx ∧
          v2.world = (mpd_read_cb_dispatch env (name :: args) v.client_ctx v.world).world ∧
          v2.handled
            = (if (mpd_read_cb_dispatch env (name :: args) v.client_ctx v.world).invoked
               then v.handled ++ [name :: args] else v.handled) ∧
          ((mpd_read_cb_dispatch env (name :: args) v.client_ctx v.world).ret ≠ 0 →
            mpd_read_cb_loop env (line :: input) v = (input, v2)) ∧
          ((mpd_read_cb_dispatch env (name :: args) v.client_ctx v.world).ret = 0 →
            mpd_read_cb_loop env (line :: input) v = mpd_read_cb_loop env input v2))) := by
  cases hparse : mpd_parse_args line COMMAND_ARGV_MAX with
  | none =>
    refine ⟨{ v with ret := ACK_ERROR_ARG,
                     output := v.output ++ ack_line ACK_ERROR_ARG v.ncmd "unkown".toList
                       "Error parsing arguments".toList },
      Or.inl (by rw [mpd_read_cb_loop, hparse]), Or.inl ⟨rfl, rfl, rfl, ?_⟩⟩
    intro name args h
    exact absurd h (by simp)
  | some argv =>
    cases argv with
    | nil =>
      refine ⟨{ v with ret := ACK_ERROR_ARG,
                       output := v.output ++ ack_line ACK_ERROR_ARG v.ncmd "unkown".toList
                         "Error parsing arguments".toList },
        Or.inl (by rw [mpd_read_cb_loop, hparse]), Or.inl ⟨rfl, rfl, rfl, ?_⟩⟩
      intro name args h
      exact absurd h (by simp)
    | cons name args =>
      by_cases h1 : name = "command_list_ok_begin".toList
      · refine ⟨{ v with ret := 0, listtype := command_list_type.COMMAND_LIST_OK },
          Or.inr (by rw [mpd_read_cb_loop, hparse]; dsimp only; rw [if_pos h1]),
          Or.inl ⟨rfl, rfl, rfl, ?_⟩⟩
        intro n a h
        simp only [Option.some.injEq, List.cons.injEq] at h
        rw [← h.1, h1]
        simp [list_control_words]
      · by_cases h2 : name = "command_list_begin".toList
        · refine ⟨{ v with ret := 0, listtype := command_list_type.COMMAND_LIST },
            Or.inr (by rw [mpd_read_cb_loop, hparse]; dsimp only; rw [if_neg h1, if_pos h2]),
            Or.inl ⟨rfl, rfl, rfl, ?_⟩⟩
          intro n a h
          simp only [Option.some.injEq, List.cons.injEq] at h
          rw [← h.1, h2]
          simp [list_control_words]
        · by_cases h3 : name = "command_list_end".toList
          · refine ⟨{ v with ret := 0, listtype := command_list_type.COMMAND_LIST_END },
              Or.inl (by rw [mpd_read_cb_loop, hparse]; dsimp only; rw [if_neg h1, if_neg h2, if_pos h3]),
              Or.inl ⟨rfl, rfl, rfl, ?_⟩⟩
            intro n a h
            simp only [Option.some.injEq, List.cons.injEq] at h
            rw [← h.1, h3]
            simp [list_control_words]
          · have hctl : name ∉ list_control_words := by
              intro hmem
              unfold list_control_words at hmem
              rcases List.mem_cons.mp hmem with h | hmem
              · exact h1 h
              rcases List.mem_cons.mp hmem with h | hmem
              · exact h2 h
              rcases List.mem_cons.mp hmem with h | hmem
              · exact h3 h
              exact absurd hmem (List.not_mem_nil _)
            have hloop := mpd_read_cb_loop_command env line input v name args hparse hctl
            by_cases hret : (mpd_read_cb_dispatch env (name :: args) v.client_ctx v.world).ret ≠ 0
            · rw [if_pos hret] at hloop
              exact ⟨_, Or.inl hloop, Or.inr ⟨name, args, rfl, hctl, rfl, rfl, rfl,
                fun _ => hloop, fun h => absurd h hret⟩⟩
            · rw [if_neg hret] at hloop
              exact ⟨_, Or.inr hloop, Or.inr ⟨name, args, rfl, hctl, rfl, rfl, rfl,
                fun h => absurd h hret, fun _ => hloop⟩⟩

/-! ## The parked client -/

theorem parked_inv_authenticated (c : mpd_client_ctx) (b : Bool) :
    parked_inv { c with authenticated := b } ↔ parked_inv c :=
  Iff.rfl

theorem parked_inv_binarylimit (c : mpd_client_ctx) (n : Nat) :
    parked_inv { c with binarylimit := n } ↔ parked_inv c :=
  Iff.rfl

theorem parked_inv_notify (L : listener_event_type) (c : mpd_client_ctx) (events : Nat)
    (h : parked_inv c) : parked_inv (mpd_notify_idle_client L c events).ctx := by
  unfold mpd_notify_idle_client
  split_ifs with h1 h2
  · intro hi
    exact absurd hi (by simp [h1])
  · exact h
  · intro hi
    exact absurd hi (by simp)

theorem parked_inv_notify_self (L : listener_event_type) (c : mpd_client_ctx) :
    parked_inv (mpd_notify_idle_client L c c.events).ctx := by
  unfold mpd_notify_idle_client
  split_ifs with h1 h2
  · intro hi
    exact absurd hi (by simp [h1])
  · intro _
    rw [Nat.land_comm]
    exact h2
  · intro hi
    exact absurd hi (by simp)

theorem parked_inv_idle (L : listener_event_type) (argv : List (List Char))
    (c : mpd_client_ctx) : parked_inv (mpd_command_idle L argv c).ctx := by
  unfold mpd_command_idle
  simp only
  split_ifs with h1 h2 h3
  · exact parked_inv_notify_self L _
  · intro _
    exact not_not.mp h2
  · exact parked_inv_notify_self L _
  · intro _
    exact not_not.mp h3

theorem parked_inv_noidle (L : listener_event_type) (argv : List (List Char))
    (c : mpd_client_ctx) : parked_inv (mpd_command_noidle L argv c).ctx := by
  unfold mpd_command_noidle
  split_ifs
  · intro hi
    exact absurd hi (by simp)
  · intro hi
    exact absurd hi (by simp)

theorem keeps_parked_ignore {W : Type} (env : mpd_env W) : keeps_parked (local_ignore env) :=
  fun _ _ _ h => h

theorem keeps_parked_external {W : Type} (env : mpd_env W) (name : String) :
    keeps_parked (mpd_command_external env name) :=
  fun _ _ _ h => h

theorem keeps_parked_idle {W : Type} (env : mpd_env W) : keeps_parked (local_idle env) :=
  fun argv ctx _ _ => parked_inv_idle env.listener argv ctx

theorem keeps_parked_noidle {W : Type} (env : mpd_env W) : keeps_parked (local_noidle env) :=
  fun argv ctx _ _ => parked_inv_noidle env.listener argv ctx

theorem keeps_parked_password {W : Type} (env : mpd_env W) :
    keeps_parked (local_password env) := by
  intro argv ctx w h
  show parked_inv (mpd_command_password env.password argv ctx).ctx
  unfold mpd_command_password
  simp only
  split_ifs <;> exact h

theorem keeps_parked_binarylimit {W : Type} (env : mpd_env W) :
    keeps_parked (local_binarylimit env) := by
  intro argv ctx w h
  show parked_inv (mpd_command_binarylimit env.safe_atou32 argv ctx).ctx
  unfold mpd_command_binarylimit
  split
  · exact h
  · split_ifs
    · exact h
    · exact h

theorem mpd_handlers_keep_parked {W : Type} (env : mpd_env W) :
    ∀ c ∈ mpd_handlers env, keeps_parked c.handler := by
  intro c hc
  unfold mpd_handlers at hc
  simp only [List.mem_cons, List.mem_singleton, List.not_mem_nil, or_false] at hc
  repeat' (rcases hc with hc | hc)
  all_goals
    first
      | exact keeps_parked_ignore env
      | exact keeps_parked_external env _
      | exact keeps_parked_idle env
      | exact keeps_parked_noidle env
      | exact keeps_parked_password env
      | exact keeps_parked_binarylimit env

theorem mpd_read_cb_dispatch_parked {W : Type} (env : mpd_env W) (argv : List (List Char))
    (ctx : mpd_client_ctx) (w : W) (h : parked_inv ctx) :
    parked_inv (mpd_read_cb_dispatch env argv ctx w).ctx := by
  unfold mpd_read_cb_dispatch
  cases hf : mpd_find_command env (argv.headD []) with
  | none => exact h
  | some command =>
    have hk : keeps_parked command.handler :=
      mpd_handlers_keep_parked env command (List.mem_of_find?_eq_some hf)
    simp only
    split_ifs
    · exact h
    · exact (parked_inv_authenticated _ _).mpr (hk argv ctx w h)
    · exact h
    · exact hk argv ctx w h

theorem mpd_read_cb_loop_parked {W : Type} (env : mpd_env W) :
    ∀ (input : List (List Char)) (v : read_cb_vars W), parked_inv v.client_ctx →
      parked_inv (mpd_read_cb_loop env input v).2.client_ctx := by
  intro input
  induction input with
  | nil =>
    intro v h
    rw [mpd_read_cb_loop]
    exact h
  | cons line input ih =>
    intro v h
    obtain ⟨v2, hloop, hv2⟩ := mpd_read_cb_loop_step env line input v
    have hinv : parked_inv v2.client_ctx := by
      rcases hv2 with ⟨hc, _⟩ | ⟨name, args, _, _, hc, _⟩
      · rw [hc]; exact h
      · rw [hc]; exact mpd_read_cb_dispatch_parked env _ _ _ h
    rcases hloop with hl | hl
    · rw [hl]; exact hinv
    · rw [hl]; exact ih v2 hinv

theorem client_step_parked {W : Type} (env : mpd_env W) (s : client_step)
    (c : mpd_client_ctx × W) (h : parked_inv c.1) : parked_inv (s.run env c).1 := by
  cases s with
  | read input => exact mpd_read_cb_loop_parked env input _ h
  | idle argv => exact parked_inv_idle env.listener argv c.1
  | noidle argv => exact parked_inv_noidle env.listener argv c.1
  | notify events => exact parked_inv_notify env.listener c.1 events h

theorem client_run_parked {W : Type} (env : mpd_env W) :
    ∀ (steps : List client_step) (c : mpd_client_ctx × W), parked_inv c.1 →
      parked_inv (client_run env steps c).1 := by
  intro steps
  induction steps with
  | nil => intro c h; exact h
  | cons s rest ih =>
    intro c h
    exact ih (s.run env c) (client_step_parked env s c h)

/-- C28: in every client state reached from a freshly accepted client (authenticated
or not) by any sequence of steps, each of them an invocation of mpd_read_cb on any
lines, a run of the `idle` or the `noidle` handler on any arguments, or a notification
with any event mask, a set `is_idle` implies that the pending events and the idle
mask are disjoint. -/
theorem parked_client_invariant {W : Type} (env : mpd_env W) (authenticated : Bool) (w : W)
    (steps : List client_step) (c : mpd_client_ctx)
    (hreach : c = (client_run env steps (new_client authenticated, w)).1)
    (hidle : c.is_idle = true) :
    c.events &&& c.idle_events = 0 := by
  subst hreach
  exact client_run_parked env steps _ (fun hi => absurd hi (by simp [new_client])) hidle

/-- Witness of C28: a client is notified of a mixer event, sends `idle player` and is
parked with the mixer event pending; the two masks are disjoint. -/
theorem parked_client_invariant_witness :
    (client_run env0 [client_step.notify listener_h.LISTENER_VOLUME,
        client_step.read ["idle player".toList]] (new_client true, ())).1
      = { authenticated := true, events := 4, is_idle := true, idle_events := 1,
          binarylimit := 8192 } ∧
    (4 : Nat) &&& 1 = 0 :=
  ⟨by decide,
   parked_client_invariant env0 true ()
     [client_step.notify listener_h.LISTENER_VOLUME, client_step.read ["idle player".toList]]
     { authenticated := true, events := 4, is_idle := true, idle_events := 1,
       binarylimit := 8192 } (by decide) rfl⟩

/-! ## `albumart` and `readpicture` -/

/-- For every command line of two arguments whose path names an item,
`mpd_command_albumart` reads `argv[2]`, the entry at index `argc`. -/
theorem mpd_command_albumart_two_args (A : albumart_env) (atou : List Char → Option Nat)
    (name path : List Char) (ctx : mpd_client_ctx)
    (hitem : A.db_file_id_byvirtualpath_match path ≠ 0) :
    mpd_command_albumart A atou [name, path] ctx = { argv_read := [1, 2], result := none } := by
  unfold mpd_command_albumart
  rw [if_neg (by simp), if_neg (by simpa using hitem)]
  rfl

/-- C29, the code at an input the claim covers: `albumart x` and `readpicture x` have
two arguments, the minimum of their table entries, so the dispatcher calls the
handler; for a path that names an item the handler then reads `argv[2]`, the offset
argument that was not supplied, and its result is not defined.  With the offset
supplied (`albumart x 0`) the same handler reads the same entries and answers. -/
theorem mpd_command_albumart_reads_beyond_argc :
    (mpd_find_command env0 "albumart".toList).map (fun c => c.min_argc) = some 2 ∧
    (mpd_find_command env0 "readpicture".toList).map (fun c => c.min_argc) = some 2 ∧
    mpd_parse_args "albumart x".toList COMMAND_ARGV_MAX = some ["albumart".toList, "x".toList] ∧
    (mpd_read_cb env0 ["albumart x".toList] (new_client true) ()).handled
      = [["albumart".toList, "x".toList]] ∧
    (mpd_read_cb env0 ["readpicture x".toList] (new_client true) ()).handled
      = [["readpicture".toList, "x".toList]] ∧
    ["albumart".toList, "x".toList].length = 2 ∧
    (mpd_command_albumart albumart0 safe_atou32 ["albumart".toList, "x".toList]
      (new_client true)).argv_read = [1, 2] ∧
    (mpd_command_albumart albumart0 safe_atou32 ["albumart".toList, "x".toList]
      (new_client true)).result = none ∧
    (mpd_command_albumart albumart0 safe_atou32 ["readpicture".toList, "x".toList]
      (new_client true)).result = none ∧
    (mpd_command_albumart albumart0 safe_atou32 ["albumart".toList, "x".toList, "0".toList]
      (new_client true)).argv_read = [1, 2] ∧
    (mpd_command_albumart albumart0 safe_atou32 ["albumart".toList, "x".toList, "0".toList]
      (new_client true)).result.map (fun r => (r.ret, r.out))
      = some (0, "type: image/jpeg\nsize: 3\nbinary: 3\nabc\n".toList) :=
  ⟨by decide, by decide, by decide, by decide, by decide, by decide, by decide, by decide,
   by decide, by decide, by decide⟩

/-! ## The `authenticated` flag -/

theorem mpd_find_command_password {W : Type} (env : mpd_env W) :
    mpd_find_command env "password".toList
      = some (mpd_command.mk "password".toList (local_password env) (-1)) := by
  rfl

theorem mpd_command_password_ctx (required_password : Option (List Char))
    (argv : List (List Char)) (ctx : mpd_client_ctx) :
    (mpd_command_password required_password argv ctx).ctx = ctx := by
  unfold mpd_command_password
  simp only
  split_ifs <;> rfl

/-- The dispatch step on a `password` line: the handler called is
`mpd_command_password`, whatever the flag is, and the flag becomes the truth of
"the handler returned 0". -/
theorem mpd_read_cb_dispatch_password {W : Type} (env : mpd_env W) (args : List (List Char))
    (ctx : mpd_client_ctx) (w : W) :
    (mpd_read_cb_dispatch env ("password".toList :: args) ctx w).ret
      = (mpd_command_password env.password ("password".toList :: args) ctx).ret ∧
    (mpd_read_cb_dispatch env ("password".toList :: args) ctx w).invoked = true ∧
    (mpd_read_cb_dispatch env ("password".toList :: args) ctx w).world = w ∧
    (mpd_read_cb_dispatch env ("password".toList :: args) ctx w).ctx
      = { ctx with
          authenticated :=
            decide ((mpd_command_password env.password ("password".toList :: args) ctx).ret = 0) } := by
  unfold mpd_read_cb_dispatch
  simp only [List.headD_cons, mpd_find_command_password]
  rw [if_neg (by simp only [List.length_cons, gt_iff_lt, not_lt]; omega), if_pos trivial]
  have hctx := mpd_command_password_ctx env.password ("password".toList :: args) ctx
  refine ⟨rfl, rfl, rfl, ?_⟩
  rw [mpd_client_ctx.mk.injEq]
  exact ⟨rfl, congrArg mpd_client_ctx.events hctx, congrArg mpd_client_ctx.is_idle hctx,
    congrArg mpd_client_ctx.idle_events hctx, congrArg mpd_client_ctx.binarylimit hctx⟩

theorem is_password_line_false (line : List Char) (name : List Char) (args : List (List Char))
    (h : is_password_line line = false)
    (hparse : mpd_parse_args line COMMAND_ARGV_MAX = some (name :: args)) :
    name ≠ "password".toList := by
  unfold is_password_line at h
  rw [hparse] at h
  simpa using h

theorem mpd_read_cb_loop_other_line {W : Type} (env : mpd_env W) (v : read_cb_vars W)
    (hauth : v.client_ctx.authenticated = false) (line : List Char) (input : List (List Char))
    (hline : is_password_line line = false) :
    ∃ v2 : read_cb_vars W,
      (mpd_read_cb_loop env (line :: input) v = (input, v2)
        ∨ mpd_read_cb_loop env (line :: input) v = mpd_read_cb_loop env input v2) ∧
      v2.client_ctx = v.client_ctx ∧ v2.world = v.world ∧ v2.handled = v.handled := by
  obtain ⟨v2, hloop, hv2⟩ := mpd_read_cb_loop_step env line input v
  refine ⟨v2, hloop, ?_⟩
  rcases hv2 with ⟨hc, hw, hh, _⟩ | ⟨name, args, hparse, _, hc, hw, hh, _, _⟩
  · exact ⟨hc, hw, hh⟩
  · obtain ⟨_, _, h3, h4, h5, _⟩ := mpd_read_cb_dispatch_unauthenticated env name args
      v.client_ctx v.world hauth (is_password_line_false line name args hline hparse)
    rw [h3] at hh
    exact ⟨hc.trans h4, hw.trans h5, by simpa using hh⟩

theorem mpd_read_cb_loop_other_lines {W : Type} (env : mpd_env W) :
    ∀ (input : List (List Char)) (v : read_cb_vars W), v.client_ctx.authenticated = false →
      (∀ line ∈ input, is_password_line line = false) →
      (mpd_read_cb_loop env input v).2.client_ctx = v.client_ctx ∧
      (mpd_read_cb_loop env input v).2.world = v.world ∧
      (mpd_read_cb_loop env input v).2.handled = v.handled := by
  intro input
  induction input with
  | nil =>
    intro v _ _
    rw [mpd_read_cb_loop]
    exact ⟨rfl, rfl, rfl⟩
  | cons line input ih =>
    intro v hauth hlines
    obtain ⟨v2, hloop, hc, hw, hh⟩ := mpd_read_cb_loop_other_line env v hauth line input
      (hlines line (List.mem_cons_self _ _))
    rcases hloop with hl | hl
    · rw [hl]
      exact ⟨hc, hw, hh⟩
    · rw [hl]
      obtain ⟨i1, i2, i3⟩ := ih v2 (by rw [hc]; exact hauth)
        (fun l hl2 => hlines l (List.mem_cons_of_mem _ hl2))
      exact ⟨i1.trans hc, i2.trans hw, i3.trans hh⟩

/-- C30: take any state of the loop of mpd_read_cb in which the client's
`authenticated` flag is false.  A line that is not a `password` command leaves the
client context (flag, binary limit, idle fields and pending events), the
collaborators and the list of handler calls as they were, and so does any input
without a `password` line.  A `password` line calls one handler, the password
handler, and sets the flag to the truth of "the handler returned 0", leaving the
rest of the context as it was; the loop goes on when it returned 0 and stops
otherwise. -/
theorem mpd_read_cb_unauthenticated_flag {W : Type} (env : mpd_env W) (v : read_cb_vars W)
    (hauth : v.client_ctx.authenticated = false) :
    (∀ (line : List Char) (input : List (List Char)), is_password_line line = false →
      ∃ v2 : read_cb_vars W,
        (mpd_read_cb_loop env (line :: input) v = (input, v2)
          ∨ mpd_read_cb_loop env (line :: input) v = mpd_read_cb_loop env input v2) ∧
        v2.client_ctx = v.client_ctx ∧ v2.world = v.world ∧ v2.handled = v.handled) ∧
    (∀ input : List (List Char), (∀ line ∈ input, is_password_line line = false) →
      (mpd_read_cb_loop env input v).2.client_ctx = v.client_ctx ∧
      (mpd_read_cb_loop env input v).2.world = v.world ∧
      (mpd_read_cb_loop env input v).2.handled = v.handled) ∧
    (∀ (line : List Char) (input : List (List Char)) (args : List (List Char)),
      mpd_parse_args line COMMAND_ARGV_MAX = some ("password".toList :: args) →
      ∃ v2 : read_cb_vars W,
        v2.handled = v.handled ++ ["password".toList :: args] ∧ v2.world = v.world ∧
        v2.client_ctx
          = { v.client_ctx with
              authenticated :=
                decide ((mpd_command_password env.password ("password".toList :: args)
                  v.client_ctx).ret = 0) } ∧
        ((mpd_command_password env.password ("password".toList :: args) v.client_ctx).ret = 0 →
          v2.client_ctx.authenticated = true ∧
          mpd_read_cb_loop env (line :: input) v = mpd_read_cb_loop env input v2) ∧
        ((mpd_command_password env.password ("password".toList :: args) v.client_ctx).ret ≠ 0 →
          v2.client_ctx = v.client_ctx ∧
          mpd_read_cb_loop env (line :: input) v = (input, v2))) := by
  refine ⟨fun line input hline => mpd_read_cb_loop_other_line env v hauth line input hline,
    fun input hlines => mpd_read_cb_loop_other_lines env input v hauth hlines, ?_⟩
  intro line input args hparse
  obtain ⟨v2, _, hv2⟩ := mpd_read_cb_loop_step env line input v
  rcases hv2 with ⟨_, _, _, hall⟩ | ⟨name, args2, hparse2, _, hc, hw, hh, hstop, hgo⟩
  · exact absurd (hall _ _ hparse) (by decide)
  · rw [hparse] at hparse2
    simp only [Option.some.injEq, List.cons.injEq] at hparse2
    obtain ⟨hn, ha⟩ := hparse2
    subst hn
    subst ha
    obtain ⟨d1, d2, d3, d4⟩ := mpd_read_cb_dispatch_password env args v.client_ctx v.world
    rw [d1] at hstop hgo
    rw [d2] at hh
    refine ⟨v2, by simpa using hh, hw.trans d3, hc.trans d4, ?_, ?_⟩
    · intro hret
      refine ⟨?_, hgo hret⟩
      rw [hc, d4]
      exact decide_eq_true hret
    · intro hret
      refine ⟨?_, hstop hret⟩
      rw [hc, d4]
      have : decide ((mpd_command_password env.password ("password".toList :: args)
          v.client_ctx).ret = 0) = false := decide_eq_false hret
      rw [this, ← hauth]

/-- Witness of C30: an unauthenticated client of a server with the password `secret`.
`status` and `binarylimit 100` call no handler and change nothing; `password secret`
calls the password handler and sets the flag; `password wrong` calls it and leaves
the flag false. -/
theorem mpd_read_cb_unauthenticated_flag_witness :
    (mpd_read_cb_init (new_client false) ()).client_ctx.authenticated = false ∧
    (mpd_read_cb env_secret ["status".toList, "binarylimit 100".toList] (new_client false) ()).handled
      = [] ∧
    (mpd_read_cb env_secret ["password secret".toList, "binarylimit 100".toList]
        (new_client false) ()).client_ctx
      = { new_client true with binarylimit := 100 } ∧
    (mpd_read_cb env_secret ["password secret".toList, "binarylimit 100".toList]
        (new_client false) ()).handled
      = [["password".toList, "secret".toList], ["binarylimit".toList, "100".toList]] ∧
    (mpd_read_cb env_secret ["password wrong".toList] (new_client false) ()).client_ctx
      = new_client false ∧
    (mpd_read_cb env_secret ["password wrong".toList] (new_client false) ()).handled
      = [["password".toList, "wrong".toList]] ∧
    (mpd_read_cb_loop env_secret ["status".toList, "binarylimit 100".toList]
        (mpd_read_cb_init (new_client false) ())).2.client_ctx
      = (mpd_read_cb_init (new_client false) ()).client_ctx :=
  ⟨rfl, by decide, by decide, by decide, by decide, by decide,
   ((mpd_read_cb_unauthenticated_flag env_secret (mpd_read_cb_init (new_client false) ()) rfl).2.1
      ["status".toList, "binarylimit 100".toList] (by decide)).1⟩

end Mpd
